import Mathlib

/-!
# MODBUS RTU core: a shallow embedding and its properties

The development embeds the C sources `Core/modbus_core.c` and `RingBuffer/ringbuffer.c`.

Conventions of the embedding.

* Machine integers are natural numbers; an assignment that narrows in C carries an explicit
  `% 256` or `% 65536`.
* A `raw[260]` byte array is a `List Nat`; reading is `List.getD _ _ 0`, writing is `List.set`.
* An uninitialised local variable of the C code (`sMaster_Frame mFrame;`, `sSlave_Frame sFrame;`)
  is an explicit argument of the function that declares it: its content is whatever the stack
  held before the call.
* User callbacks act on an application state `σ`; every call of a callback is also appended to a
  trace of `Event`s, so that one can say which callbacks ran, in which order, with which arguments.
* A call through a function pointer that no `case` of the preceding `switch` has assigned has no
  defined result: the embedding returns `none`.
-/

namespace MODBUS

/-! ## Constants of `modbus_core.c` and `modbus_core.h` -/

abbrev MODBUS_FRAME_MAX_SIZE : Nat := 260
abbrev MASTER_HEADER_BYTES : Nat := 6
abbrev SLAVE_HEADER_BYTES : Nat := 3
abbrev MASTER_FRAME_LENGTH : Nat := 8
abbrev SLAVE_FRAME_LENGTH : Nat := 6

abbrev FC_ReadCoilStatus : Nat := 1
abbrev FC_ReadDiscreteInputs : Nat := 2
abbrev FC_ReadHoldingRegisters : Nat := 3
abbrev FC_ReadInputRegisters : Nat := 4
abbrev FC_WriteSingleCoil : Nat := 5
abbrev FC_WriteSingleRegister : Nat := 6
abbrev FC_WriteMultipleCoils : Nat := 15
abbrev FC_WriteMultipleRegisters : Nat := 16

/-- The enumeration `eMODBUS_Excpt`. -/
inductive eMODBUS_Excpt where
  | Exception_IllegalFunc
  | Exception_IllegalAddr
  | Exception_InvalidDataValue
  | Exception_DevFailure
  | Exception_ACK
  | Exception_Busy
  | Exception_NoException
  | Exception_InvalidFrame
  deriving DecidableEq, Repr

open eMODBUS_Excpt

/-- Integer value of an `eMODBUS_Excpt` enumerator, as declared in `modbus_core.h`. -/
def eMODBUS_Excpt.toNat : eMODBUS_Excpt → Nat
  | Exception_IllegalFunc => 1
  | Exception_IllegalAddr => 2
  | Exception_InvalidDataValue => 3
  | Exception_DevFailure => 4
  | Exception_ACK => 5
  | Exception_Busy => 6
  | Exception_NoException => 0
  | Exception_InvalidFrame => 100

/-- The enumeration `eMODBUS_Mode`. -/
inductive eMODBUS_Mode where
  | MODBUS_Mode_Master
  | MODBUS_Mode_Slave
  deriving DecidableEq, Repr

/-- The struct `sMODBUS_Commmand`; `functionCode` is the integer value of the enum field. -/
structure sMODBUS_Commmand where
  functionCode : Nat
  slaveID : Nat
  regAddress : Nat
  length : Nat
  deriving DecidableEq, Repr

/-- The struct `sMODBUS_ReadResult`. -/
structure sMODBUS_ReadResult where
  data : Nat
  error : eMODBUS_Excpt
  deriving DecidableEq, Repr

/-! ## CRC -/

/-- Body of the inner loop of `calcCRC`: one shift of the accumulator. -/
def crcBit (temp : Nat) : Nat :=
  let flag := temp &&& 0x0001
  let temp := temp >>> 1
  if flag ≠ 0 then temp ^^^ 0xA001 else temp

/-- Body of the outer loop of `calcCRC`: `temp = temp ^ Buffer[i]`, then `j = 1 .. 8`. -/
def crcByte (temp : Nat) (b : Nat) : Nat :=
  (List.range 8).foldl (fun t _ => crcBit t) ((temp ^^^ b) % 65536)

/-- The function `calcCRC(Buffer, u8length)`; the length parameter is a `uint8_t`. -/
def calcCRC (Buffer : List Nat) (u8length : Nat) : Nat :=
  let temp := (List.range (u8length % 256)).foldl
    (fun temp i => crcByte temp (Buffer.getD i 0)) 0xFFFF
  let temp2 := temp >>> 8
  let temp := ((temp <<< 8) ||| temp2) % 65536
  temp &&& 0xFFFF

/-- Reference CRC, one shift: shift right by one, XOR `0xA001` when the bit shifted out was 1. -/
def specShiftStep (acc : Nat) : Nat :=
  if acc % 2 = 1 then (acc / 2) ^^^ 0xA001 else acc / 2

/-- Reference CRC, one byte: XOR the byte into the low byte of the accumulator, then 8 shifts. -/
def specByteStep (acc b : Nat) : Nat :=
  specShiftStep^[8] ((acc / 256) * 256 + ((acc % 256) ^^^ b))

/-- Reference MODBUS CRC-16 written after the specification text: seed `0xFFFF`, one
`specByteStep` per byte, and the two bytes of the accumulator swapped at the end. -/
def crc16_modbus (B : List Nat) : Nat :=
  let acc := B.foldl specByteStep 0xFFFF
  (acc % 256) * 256 + acc / 256

/-! ## Ring buffer (`ringbuffer.c`) -/

/-- The struct `sRing`. -/
structure sRing where
  u8Buffer : List Nat
  u16BufferSize : Nat
  u8start : Nat
  u8end : Nat
  u8available : Nat
  u8overflow : Nat
  deriving DecidableEq, Repr

/-- The function `RingNew(size)`: both allocations are zeroed by `calloc`. -/
def RingNew (size : Nat) : sRing :=
  { u8Buffer := List.replicate (size % 65536) 0
    u16BufferSize := size % 65536
    u8start := 0
    u8end := 0
    u8available := 0
    u8overflow := 0 }

/-- The function `RingAdd(buff, u8Val)`. -/
def RingAdd (buff : sRing) (u8Val : Nat) : sRing :=
  let buff := { buff with u8Buffer := buff.u8Buffer.set buff.u8end (u8Val % 256) }
  let buff := { buff with u8end := ((buff.u8end + 1) % buff.u16BufferSize) % 256 }
  if buff.u8available = buff.u16BufferSize then
    { buff with
      u8overflow := 1
      u8start := ((buff.u8start + 1) % buff.u16BufferSize) % 256 }
  else
    { buff with
      u8overflow := 0
      u8available := (buff.u8available + 1) % 256 }

/-- The function `RingClear(buff)`. -/
def RingClear (buff : sRing) : sRing :=
  { buff with u8start := 0, u8end := 0, u8available := 0, u8overflow := 0 }

/-- The function `RingCountBytes(buff)`. -/
def RingCountBytes (buff : sRing) : Nat :=
  buff.u8available

/-- The function `RingGetNBytes(buff, buffer, uNumber)`. It returns the ring, the destination
buffer and the returned count. The loop runs `min uNumber u8available` times, because neither
bound changes inside it. `uNumber` is a `uint8_t`: its only caller, `RingGetAllBytes`, passes
the field `u8available`. -/
def RingGetNBytes (buff : sRing) (buffer : List Nat) (uNumber : Nat) : sRing × List Nat × Nat :=
  if buff.u8available = 0 ∨ uNumber = 0 then
    (buff, buffer, 0)
  else if uNumber > buff.u16BufferSize then
    (buff, buffer, 0)
  else
    let copied := (List.range (min uNumber buff.u8available)).foldl
      (fun (st : List Nat × Nat) uCounter =>
        (st.1.set uCounter (buff.u8Buffer.getD st.2 0), ((st.2 + 1) % buff.u16BufferSize) % 256))
      (buffer, buff.u8start)
    let uCounter := min uNumber buff.u8available
    let buff := { buff with
      u8start := copied.2
      u8available := buff.u8available - uCounter
      u8overflow := 0 }
    (RingClear buff, copied.1, uCounter)

/-- The function `RingGetAllBytes(buff, buffer)`. -/
def RingGetAllBytes (buff : sRing) (buffer : List Nat) : sRing × List Nat × Nat :=
  RingGetNBytes buff buffer buff.u8available

/-! ## Frames -/

/-- The struct `sMaster_Frame`: total length and the raw bytes; the typed fields of the C union
are views of the first bytes of `raw`. -/
structure sMaster_Frame where
  u16Length : Nat
  raw : List Nat
  deriving DecidableEq, Repr

/-- The struct `sSlave_Frame`. -/
structure sSlave_Frame where
  u16Length : Nat
  raw : List Nat
  deriving DecidableEq, Repr

def sMaster_Frame.u8DevID (f : sMaster_Frame) : Nat := f.raw.getD 0 0
def sMaster_Frame.u8FuncCode (f : sMaster_Frame) : Nat := f.raw.getD 1 0
def sMaster_Frame.u8AddressHigh (f : sMaster_Frame) : Nat := f.raw.getD 2 0
def sMaster_Frame.u8AddressLow (f : sMaster_Frame) : Nat := f.raw.getD 3 0
def sMaster_Frame.u8Length_High (f : sMaster_Frame) : Nat := f.raw.getD 4 0
def sMaster_Frame.u8Length_Low (f : sMaster_Frame) : Nat := f.raw.getD 5 0
def sMaster_Frame.u8CRChigh (f : sMaster_Frame) : Nat := f.raw.getD 6 0
def sMaster_Frame.u8CRClow (f : sMaster_Frame) : Nat := f.raw.getD 7 0
def sMaster_Frame.u8ByteCount (f : sMaster_Frame) : Nat := f.raw.getD 6 0
def sMaster_Frame.u8PayloadStart (f : sMaster_Frame) : Nat := f.raw.getD 7 0

def sSlave_Frame.u8DevID (f : sSlave_Frame) : Nat := f.raw.getD 0 0
def sSlave_Frame.u8FuncCode (f : sSlave_Frame) : Nat := f.raw.getD 1 0
def sSlave_Frame.u8ByteCount (f : sSlave_Frame) : Nat := f.raw.getD 2 0

/-- The union `bytesFields` on a little-endian machine: the two 16-bit halves of the word. -/
structure bytesFields where
  u16_0 : Nat
  u16_1 : Nat
  deriving DecidableEq, Repr

/-- The view `u8[0]` of a `bytesFields`: low byte of `u16[0]`. -/
def bytesFields.u8_0 (d : bytesFields) : Nat := d.u16_0 % 256

/-- The view `u8[1]` of a `bytesFields`: high byte of `u16[0]`. -/
def bytesFields.u8_1 (d : bytesFields) : Nat := (d.u16_0 / 256) % 256

/-- The function `memcpy(dst, src, n)` on byte lists. -/
def memcpy (dst src : List Nat) (n : Nat) : List Nat :=
  src.take n ++ dst.drop n

/-! ## Callbacks, trace and handle -/

/-- The four register strategies of a handle. -/
inductive RegKind where
  | coils
  | discretes
  | holdings
  | inputs
  deriving DecidableEq, Repr

/-- One call of a user callback, with its arguments. -/
inductive Event where
  | localRead (k : RegKind) (address : Nat)
  | localWrite (k : RegKind) (address data : Nat)
  | remoteData (k : RegKind) (id address data : Nat)
  | writeCmplt
  | remoteRxOK
  | remoteRxError (e : eMODBUS_Excpt)
  | rxTimeoutEvent
  | hwDataTx (data : List Nat)
  deriving DecidableEq, Repr

/-- Application state together with the trace of the callback calls made so far. -/
structure World (σ : Type) where
  app : σ
  trace : List Event

/-- Record the call `e`, which left the application in state `app`. -/
def World.call {σ : Type} (w : World σ) (e : Event) (app : σ) : World σ :=
  { app := app, trace := w.trace ++ [e] }

/-- The struct `sRegister`. -/
structure sRegister (σ : Type) where
  reading : Nat → σ → sMODBUS_ReadResult × σ
  writing : Nat → Nat → σ → eMODBUS_Excpt × σ
  remote : Option (Nat → Nat → Nat → σ → σ)
  appendData : sSlave_Frame → bytesFields → sSlave_Frame
  readPayload : sSlave_Frame → Nat → Nat

/-- Values of the function pointer `task`. -/
inductive ExecuteTask where
  | SlaveTask
  | MasterTask_WaitAndSendCommand
  | MasterTask_WaitRx
  | MasterTask_ElaborateRx
  deriving DecidableEq, Repr

/-- The struct `sMODBUS`. `RTOR` stands for `pxCom->Instance->RTOR`, `u8myAddress` for the byte
the address pointer points to, `commands` for the content of the command queue. -/
structure sMODBUS (σ : Type) where
  RTOR : Nat
  u8myAddress : Nat
  uxMode : eMODBUS_Mode
  commands : List sMODBUS_Commmand
  lastCmd : sMODBUS_Commmand
  u8RxComplete : Nat
  u16RxTimeout : Nat
  pxRxBuff : sRing
  coils : sRegister σ
  discretes : sRegister σ
  inputs : sRegister σ
  holdings : sRegister σ
  task : ExecuteTask
  writeCmpltCallback : Option (σ → σ)
  remoteRxOKCallback : Option (σ → σ)
  remoteRxErrorCallback : Option (eMODBUS_Excpt → σ → σ)
  rxTimeout : Option (σ → σ)
  hwDataTx : List Nat → σ → σ

/-- The strategy of a handle for a register kind. -/
def sMODBUS.reg {σ : Type} (handle : sMODBUS σ) : RegKind → sRegister σ
  | RegKind.coils => handle.coils
  | RegKind.discretes => handle.discretes
  | RegKind.holdings => handle.holdings
  | RegKind.inputs => handle.inputs

/-! ## Frame codec (`modbus_core.c`) -/

/-- The `switch` of `ReadMasterFrame`: the CRC-covered length `len` (a `uint8_t`) for the
function code of the frame, or `none` in the `default` case. -/
def ReadMasterFrame_len (mFrame : sMaster_Frame) : Option Nat :=
  match mFrame.u8FuncCode with
  | 1 | 2 | 3 | 4 | 5 | 6 => some MASTER_HEADER_BYTES
  | 15 | 16 => some ((MASTER_HEADER_BYTES + mFrame.u8ByteCount + 1) % 256)
  | _ => none

/-- The function `ReadMasterFrame(handle, mFrame)`: the returned exception, the handle (whose
FIFO was drained) and the frame that was filled in. -/
def ReadMasterFrame {σ : Type} (handle : sMODBUS σ) (mFrame : sMaster_Frame) :
    eMODBUS_Excpt × sMODBUS σ × sMaster_Frame :=
  let drained := RingGetAllBytes handle.pxRxBuff mFrame.raw
  let handle := { handle with pxRxBuff := drained.1 }
  let mFrame : sMaster_Frame := { u16Length := drained.2.2, raw := drained.2.1 }
  if mFrame.u16Length < MASTER_FRAME_LENGTH ∨ mFrame.u8DevID ≠ handle.u8myAddress then
    (Exception_InvalidFrame, handle, mFrame)
  else
    match ReadMasterFrame_len mFrame with
    | none => (Exception_IllegalFunc, handle, mFrame)
    | some len =>
      let crc := calcCRC mFrame.raw len
      let crcRx := mFrame.raw.getD (len + 0) 0 <<< 8
      let crcRx := crcRx ||| mFrame.raw.getD (len + 1) 0
      if crc ≠ crcRx then
        (Exception_InvalidFrame, handle, mFrame)
      else
        (Exception_NoException, handle, mFrame)

/-- The `switch` of `ReadSlaveFrame`: the CRC-covered length `len` (a `uint8_t`) for the
function code of the frame, or `none` in the `default` case. -/
def ReadSlaveFrame_len (sFrame : sSlave_Frame) : Option Nat :=
  match sFrame.u8FuncCode with
  | 1 | 2 | 3 | 4 => some ((SLAVE_HEADER_BYTES + sFrame.u8ByteCount) % 256)
  | 5 | 6 | 15 | 16 => some MASTER_HEADER_BYTES
  | _ => none

/-- The function `ReadSlaveFrame(handle, sFrame)`: the returned exception, the handle (whose
FIFO was drained) and the frame that was filled in. -/
def ReadSlaveFrame {σ : Type} (handle : sMODBUS σ) (sFrame : sSlave_Frame) :
    eMODBUS_Excpt × sMODBUS σ × sSlave_Frame :=
  let drained := RingGetAllBytes handle.pxRxBuff sFrame.raw
  let handle := { handle with pxRxBuff := drained.1 }
  let sFrame : sSlave_Frame := { u16Length := drained.2.2, raw := drained.2.1 }
  if sFrame.u16Length < SLAVE_FRAME_LENGTH then
    (Exception_InvalidFrame, handle, sFrame)
  else
    match ReadSlaveFrame_len sFrame with
    | none => (Exception_IllegalFunc, handle, sFrame)
    | some len =>
      let crc := calcCRC sFrame.raw len
      let crcRx := sFrame.raw.getD (len + 0) 0 <<< 8
      let crcRx := crcRx ||| sFrame.raw.getD (len + 1) 0
      if crc ≠ crcRx then
        (Exception_InvalidFrame, handle, sFrame)
      else
        (Exception_NoException, handle, sFrame)

/-- The function `setupExceptionFrame(mFrame, excpt)`; `sFrame` is its uninitialised local. -/
def setupExceptionFrame (mFrame : sMaster_Frame) (excpt : eMODBUS_Excpt) (sFrame : sSlave_Frame) :
    sSlave_Frame :=
  let raw := sFrame.raw.set 0 mFrame.u8DevID
  let raw := raw.set 1 ((0x80 ||| mFrame.u8FuncCode) % 256)
  let raw := raw.set 2 (excpt.toNat % 256)
  let crc := calcCRC raw 3
  let raw := raw.set 3 ((crc >>> 8) % 256)
  let raw := raw.set 4 (crc % 256)
  { u16Length := 5, raw := raw }

/-- The function `FrameSlave_AppendCoil(sFrame, data)`. The model follows the C function as
long as the stores stay inside the `MODBUS_FRAME_MAX_SIZE` bytes of `raw`: a store at a higher
index, which in C writes outside the array, leaves the list as it is. The properties of read
responses are stated for counts within the limit of the protocol, where every store is
inside. -/
def FrameSlave_AppendCoil (sFrame : sSlave_Frame) (data : bytesFields) : sSlave_Frame :=
  let sFrame : sSlave_Frame :=
    if data.u16_1 % 8 = 0 then
      let raw := sFrame.raw.set sFrame.u16Length 0
      { u16Length := (sFrame.u16Length + 1) % 65536
        raw := raw.set 2 ((raw.getD 2 0 + 1) % 256) }
    else sFrame
  { sFrame with
    raw := sFrame.raw.set (sFrame.u16Length - 1)
      ((sFrame.raw.getD (sFrame.u16Length - 1) 0 |||
        ((data.u16_0 &&& 0x01) <<< (data.u16_1 % 8))) % 256) }

/-- The function `FrameSlave_AppendRegister(sFrame, data)`. The model follows the C function
as long as both stores stay inside the `MODBUS_FRAME_MAX_SIZE` bytes of `raw`, that is for
`u16Length + 1 < 260`: a store at a higher index, which in C writes outside the array, leaves
the list as it is. The properties of read responses are stated for counts within the limit of
the protocol, where every store is inside. -/
def FrameSlave_AppendRegister (sFrame : sSlave_Frame) (data : bytesFields) : sSlave_Frame :=
  let raw := sFrame.raw.set (sFrame.u16Length + 0) data.u8_1
  let raw := raw.set (sFrame.u16Length + 1) data.u8_0
  { u16Length := (sFrame.u16Length + 2) % 65536
    raw := raw.set 2 ((raw.getD 2 0 + 2) % 256) }

/-- The function `FrameSlave_ReadCoils(sFrame, address)`. -/
def FrameSlave_ReadCoils (sFrame : sSlave_Frame) (address : Nat) : Nat :=
  let bitNum := (address % 8) % 256
  let byteNum := (address / 8 + SLAVE_HEADER_BYTES) % 256
  if (sFrame.raw.getD byteNum 0 &&& (1 <<< bitNum)) ≠ 0 then 1 else 0

/-- The function `FrameSlave_ReadRegisters(sFrame, address)`. -/
def FrameSlave_ReadRegisters (sFrame : sSlave_Frame) (address : Nat) : Nat :=
  let hiByte := (address * 2 + SLAVE_HEADER_BYTES) % 256
  let loByte := (hiByte + 1) % 256
  ((sFrame.raw.getD hiByte 0 <<< 8) + sFrame.raw.getD loByte 0) % 65536

/-- The function `FrameSlave_AppendCRC(sFrame)`. The model follows the C function as long as
both stores stay inside the `MODBUS_FRAME_MAX_SIZE` bytes of `raw`, that is for
`u16Length + 1 < 260`: a store at a higher index, which in C writes outside the array, leaves
the list as it is. -/
def FrameSlave_AppendCRC (sFrame : sSlave_Frame) : sSlave_Frame :=
  let crc := calcCRC sFrame.raw sFrame.u16Length
  let raw := sFrame.raw.set (sFrame.u16Length + 0) ((crc >>> 8) % 256)
  let raw := raw.set (sFrame.u16Length + 1) (crc % 256)
  { u16Length := (sFrame.u16Length + 2) % 65536, raw := raw }

/-- The function `FrameMaster_AppendCRC(mFrame)`. -/
def FrameMaster_AppendCRC (mFrame : sMaster_Frame) : sMaster_Frame :=
  let crc := calcCRC mFrame.raw mFrame.u16Length
  let raw := mFrame.raw.set (mFrame.u16Length + 0) ((crc >>> 8) % 256)
  let raw := raw.set (mFrame.u16Length + 1) (crc % 256)
  { u16Length := (mFrame.u16Length + 2) % 65536, raw := raw }

/-- The function `FrameMaster_FromCommand(cmd)`; `mFrame` is its uninitialised local. -/
def FrameMaster_FromCommand (cmd : sMODBUS_Commmand) (mFrame : sMaster_Frame) : sMaster_Frame :=
  let raw := mFrame.raw.set 0 (cmd.slaveID % 256)
  let raw := raw.set 1 (cmd.functionCode % 256)
  let raw := raw.set 2 ((cmd.regAddress >>> 8) % 256)
  let raw := raw.set 3 ((cmd.regAddress &&& 0xff) % 256)
  let raw := raw.set 4 ((cmd.length >>> 8) % 256)
  let raw := raw.set 5 ((cmd.length &&& 0xff) % 256)
  FrameMaster_AppendCRC { u16Length := MASTER_HEADER_BYTES, raw := raw }

/-- The function `dummyReadingFunction`. -/
def dummyReadingFunction {σ : Type} (_address : Nat) (app : σ) : sMODBUS_ReadResult × σ :=
  ({ data := 0, error := Exception_IllegalFunc }, app)

/-- The function `dummyWritingFunction`. -/
def dummyWritingFunction {σ : Type} (_address _data : Nat) (app : σ) : eMODBUS_Excpt × σ :=
  (Exception_IllegalFunc, app)

/-- The function `dummyTxData`. -/
def dummyTxData {σ : Type} (_data : List Nat) (app : σ) : σ := app

/-! ## Slave request handlers -/

/-- How a loop with an early `return` ended. -/
inductive LoopExit (σ : Type) where
  | finished (sFrame : sSlave_Frame) (w : World σ)
  | returned (sFrame : sSlave_Frame) (w : World σ)
  | undefined

/-- The first `switch` of `ReadValues`: which strategy `SelectedReg` is a copy of; in every other
case `SelectedReg` stays uninitialised. -/
def ReadValues_select (u8FuncCode : Nat) : Option RegKind :=
  match u8FuncCode with
  | 1 => some RegKind.coils
  | 2 => some RegKind.discretes
  | 3 => some RegKind.holdings
  | 4 => some RegKind.inputs
  | _ => none

/-- The `for` loop of `ReadValues`. The first argument is the number of iterations still to run,
`u16EndAdd - u16Add`: the loop runs while `u16Add < u16EndAdd` and adds one to `u16Add` each
time. `excFrame` is the uninitialised local of `setupExceptionFrame`. -/
def ReadValues_loop {σ : Type} (handle : sMODBUS σ) (SelectedReg : Option RegKind)
    (mFrame : sMaster_Frame) (excFrame : sSlave_Frame) :
    Nat → Nat → Nat → sSlave_Frame → World σ → LoopExit σ
  | 0, _, _, sFrame, w => LoopExit.finished sFrame w
  | n + 1, u16Add, reps, sFrame, w =>
    match SelectedReg with
    | none => LoopExit.undefined
    | some k =>
      let result := (handle.reg k).reading u16Add w.app
      let w := w.call (Event.localRead k u16Add) result.2
      if result.1.error ≠ Exception_NoException then
        LoopExit.returned (setupExceptionFrame mFrame result.1.error excFrame) w
      else
        let data : bytesFields := { u16_0 := result.1.data % 65536, u16_1 := reps }
        ReadValues_loop handle SelectedReg mFrame excFrame n (u16Add + 1) ((reps + 1) % 65536)
          ((handle.reg k).appendData sFrame data) w

/-- The function `ReadValues(handle, mFrame)`; `sFrame0` is its uninitialised local `sFrame`. -/
def ReadValues {σ : Type} (handle : sMODBUS σ) (mFrame : sMaster_Frame) (sFrame0 : sSlave_Frame)
    (w : World σ) : Option (sSlave_Frame × World σ) :=
  let readLength := ((mFrame.u8Length_High <<< 8) + mFrame.u8Length_Low) % 65536
  let AddressOffset := ((mFrame.u8AddressHigh <<< 8) + mFrame.u8AddressLow) % 65536
  let u16EndAdd := (AddressOffset + readLength) % 65536
  let SelectedReg := ReadValues_select mFrame.u8FuncCode
  let raw := sFrame0.raw.set 0 mFrame.u8DevID
  let raw := raw.set 1 mFrame.u8FuncCode
  let raw := raw.set 2 0
  let sFrame : sSlave_Frame := { u16Length := 3, raw := raw }
  match ReadValues_loop handle SelectedReg mFrame sFrame0 (u16EndAdd - AddressOffset)
      AddressOffset 0 sFrame w with
  | LoopExit.undefined => none
  | LoopExit.returned sFrame w => some (sFrame, w)
  | LoopExit.finished sFrame w => some (FrameSlave_AppendCRC sFrame, w)

/-- The tail of `WriteSingle` after its `switch`: the call of `SelectedReg.writing` and the
construction of the reply. -/
def WriteSingle_write {σ : Type} (handle : sMODBUS σ) (mFrame : sMaster_Frame)
    (sFrame0 : sSlave_Frame) (w : World σ) (k : RegKind) (u16WriteAdd u16Data : Nat) :
    sSlave_Frame × World σ :=
  let r := (handle.reg k).writing u16WriteAdd u16Data w.app
  let w := w.call (Event.localWrite k u16WriteAdd u16Data) r.2
  if r.1 ≠ Exception_NoException then
    (setupExceptionFrame mFrame r.1 sFrame0, w)
  else
    let sFrame : sSlave_Frame :=
      { u16Length := 6, raw := memcpy sFrame0.raw mFrame.raw mFrame.u16Length }
    (FrameSlave_AppendCRC sFrame, w)

/-- The function `WriteSingle(handle, mFrame)`; `sFrame0` is its uninitialised local `sFrame`. -/
def WriteSingle {σ : Type} (handle : sMODBUS σ) (mFrame : sMaster_Frame) (sFrame0 : sSlave_Frame)
    (w : World σ) : Option (sSlave_Frame × World σ) :=
  let u16WriteAdd := ((mFrame.u8AddressHigh <<< 8) + mFrame.u8AddressLow) % 65536
  let u16Data := ((mFrame.u8Length_High <<< 8) + mFrame.u8Length_Low) % 65536
  match mFrame.u8FuncCode with
  | 5 =>
    if u16Data = 0xFF00 then
      some (WriteSingle_write handle mFrame sFrame0 w RegKind.coils u16WriteAdd 1)
    else if u16Data = 0x0000 then
      some (WriteSingle_write handle mFrame sFrame0 w RegKind.coils u16WriteAdd 0)
    else
      some (setupExceptionFrame mFrame Exception_InvalidDataValue sFrame0, w)
  | 6 => some (WriteSingle_write handle mFrame sFrame0 w RegKind.inputs u16WriteAdd u16Data)
  | _ => none

/-- The `for` loop of `WriteMultipleCoils`; the first argument is the number of iterations still
to run, `u16EndAdd - u16Add`. The value returned by the write handler is not looked at. -/
def WriteMultipleCoils_loop {σ : Type} (handle : sMODBUS σ) (mFrame : sMaster_Frame) :
    Nat → Nat → Nat → Nat → World σ → World σ
  | 0, _, _, _, w => w
  | n + 1, u16Add, reps, readIndex, w =>
    let readIndex := if reps % 8 = 0 then (readIndex + 1) % 65536 else readIndex
    let data := (mFrame.raw.getD readIndex 0 >>> (reps % 8)) &&& 0x01
    let r := handle.coils.writing u16Add data w.app
    let w := w.call (Event.localWrite RegKind.coils u16Add data) r.2
    WriteMultipleCoils_loop handle mFrame n (u16Add + 1) ((reps + 1) % 65536) readIndex w

/-- The function `WriteMultipleCoils(handle, mFrame)`. -/
def WriteMultipleCoils {σ : Type} (handle : sMODBUS σ) (mFrame : sMaster_Frame)
    (sFrame0 : sSlave_Frame) (w : World σ) : sSlave_Frame × World σ :=
  let writeLength := ((mFrame.u8Length_High <<< 8) + mFrame.u8Length_Low) % 65536
  let AddressOffset := ((mFrame.u8AddressHigh <<< 8) + mFrame.u8AddressLow) % 65536
  let u16EndAdd := (AddressOffset + writeLength) % 65536
  let w := WriteMultipleCoils_loop handle mFrame (u16EndAdd - AddressOffset) AddressOffset 0 6 w
  let sFrame : sSlave_Frame :=
    { u16Length := 6, raw := memcpy sFrame0.raw mFrame.raw mFrame.u16Length }
  (FrameSlave_AppendCRC sFrame, w)

/-- The `for` loop of `WriteMultipleRegisters`; the first argument is the number of iterations
still to run. -/
def WriteMultipleRegisters_loop {σ : Type} (handle : sMODBUS σ) (mFrame : sMaster_Frame)
    (excFrame : sSlave_Frame) : Nat → Nat → Nat → World σ → Option sSlave_Frame × World σ
  | 0, _, _, w => (none, w)
  | n + 1, u16Add, readIndex, w =>
    let data : bytesFields :=
      { u16_0 := mFrame.raw.getD (readIndex + 1) 0 % 256 +
          256 * (mFrame.raw.getD (readIndex + 0) 0 % 256)
        u16_1 := 0 }
    let r := handle.inputs.writing u16Add data.u16_0 w.app
    let w := w.call (Event.localWrite RegKind.inputs u16Add data.u16_0) r.2
    if r.1 ≠ Exception_NoException then
      (some (setupExceptionFrame mFrame r.1 excFrame), w)
    else
      WriteMultipleRegisters_loop handle mFrame excFrame n (u16Add + 1)
        ((readIndex + 2) % 65536) w

/-- The function `WriteMultipleRegisters(handle, mFrame)`. -/
def WriteMultipleRegisters {σ : Type} (handle : sMODBUS σ) (mFrame : sMaster_Frame)
    (sFrame0 : sSlave_Frame) (w : World σ) : sSlave_Frame × World σ :=
  let writeLength := ((mFrame.u8Length_High <<< 8) + mFrame.u8Length_Low) % 65536
  let AddressOffset := ((mFrame.u8AddressHigh <<< 8) + mFrame.u8AddressLow) % 65536
  let u16EndAdd := (AddressOffset + writeLength) % 65536
  match WriteMultipleRegisters_loop handle mFrame sFrame0 (u16EndAdd - AddressOffset)
      AddressOffset 7 w with
  | (some sFrame, w) => (sFrame, w)
  | (none, w) =>
    let sFrame : sSlave_Frame :=
      { u16Length := 6, raw := memcpy sFrame0.raw mFrame.raw mFrame.u16Length }
    (FrameSlave_AppendCRC sFrame, w)

/-! ## Slave task -/

/-- The statement `if (handle->writeCmpltCallback != 0) handle->writeCmpltCallback();`. -/
def fireWriteCmplt {σ : Type} (handle : sMODBUS σ) (w : World σ) : World σ :=
  match handle.writeCmpltCallback with
  | some cb => w.call Event.writeCmplt (cb w.app)
  | none => w

/-- The `switch` of `MODBUS_SlaveTask` on the function code of an accepted request. When no
`case` matches, the local `sFrame` of the task keeps its initial content `sFrame0`. -/
def MODBUS_SlaveTask_dispatch {σ : Type} (handle : sMODBUS σ) (mFrame : sMaster_Frame)
    (sFrame0 : sSlave_Frame) (w : World σ) : Option (sSlave_Frame × World σ) :=
  match mFrame.u8FuncCode with
  | 15 =>
    let r := WriteMultipleCoils handle mFrame sFrame0 w
    some (r.1, fireWriteCmplt handle r.2)
  | 16 =>
    let r := WriteMultipleRegisters handle mFrame sFrame0 w
    some (r.1, fireWriteCmplt handle r.2)
  | 1 | 2 | 3 | 4 => ReadValues handle mFrame sFrame0 w
  | 5 | 6 =>
    match WriteSingle handle mFrame sFrame0 w with
    | none => none
    | some r => some (r.1, fireWriteCmplt handle r.2)
  | _ => some (sFrame0, w)

/-- The function `MODBUS_SlaveTask(handle)`. `mFrame0` and `sFrame0` are the initial contents of
the uninitialised locals; the length passed to `hwDataTx` is a `uint8_t`. -/
def MODBUS_SlaveTask {σ : Type} (handle : sMODBUS σ) (w : World σ) (mFrame0 : sMaster_Frame)
    (sFrame0 : sSlave_Frame) : Option (sMODBUS σ × World σ) :=
  if handle.u8RxComplete ≠ 1 then
    some (handle, w)
  else
    let handle := { handle with u8RxComplete := 0 }
    let decoded := ReadMasterFrame handle mFrame0
    let error := decoded.1
    let handle := decoded.2.1
    let mFrame := decoded.2.2
    let reply : Option (sSlave_Frame × World σ) :=
      if error = Exception_NoException then
        MODBUS_SlaveTask_dispatch handle mFrame sFrame0 w
      else
        some (setupExceptionFrame mFrame error sFrame0, w)
    match reply with
    | none => none
    | some (sFrame, w) =>
      if error ≠ Exception_InvalidFrame then
        let data := sFrame.raw.take (sFrame.u16Length % 256)
        some (handle, w.call (Event.hwDataTx data) (handle.hwDataTx data w.app))
      else
        some (handle, w)

/-- The part of `MODBUS_NewHandle(port)` that initialises the handle: ring of 32 bytes, dummy
read, write and transmit functions, library append and payload functions, slave mode. The
address pointer is set afterwards by `MODBUS_SetAddress`; `address` is the byte it points to. -/
def MODBUS_NewHandle (σ : Type) (address : Nat) : sMODBUS σ :=
  { RTOR := 17
    u8myAddress := address
    uxMode := eMODBUS_Mode.MODBUS_Mode_Slave
    commands := []
    lastCmd := { functionCode := 0, slaveID := 0, regAddress := 0, length := 0 }
    u8RxComplete := 0
    u16RxTimeout := 0
    pxRxBuff := RingNew 32
    coils :=
      { reading := dummyReadingFunction, writing := dummyWritingFunction, remote := none
        appendData := FrameSlave_AppendCoil, readPayload := FrameSlave_ReadCoils }
    discretes :=
      { reading := dummyReadingFunction, writing := dummyWritingFunction, remote := none
        appendData := FrameSlave_AppendCoil, readPayload := FrameSlave_ReadCoils }
    holdings :=
      { reading := dummyReadingFunction, writing := dummyWritingFunction, remote := none
        appendData := FrameSlave_AppendRegister, readPayload := FrameSlave_ReadRegisters }
    inputs :=
      { reading := dummyReadingFunction, writing := dummyWritingFunction, remote := none
        appendData := FrameSlave_AppendRegister, readPayload := FrameSlave_ReadRegisters }
    task := ExecuteTask.SlaveTask
    writeCmpltCallback := none
    remoteRxOKCallback := none
    remoteRxErrorCallback := none
    rxTimeout := none
    hwDataTx := dummyTxData }

/-- The function `MODBUS_SaveByte(handle, u8Data)`. -/
def MODBUS_SaveByte {σ : Type} (handle : sMODBUS σ) (u8Data : Nat) : sMODBUS σ :=
  { handle with pxRxBuff := RingAdd handle.pxRxBuff u8Data }

/-- The function `MODBUS_Holdings_SetReadingFn(handle, readFn)`. -/
def MODBUS_Holdings_SetReadingFn {σ : Type} (handle : sMODBUS σ)
    (readFn : Nat → σ → sMODBUS_ReadResult × σ) : sMODBUS σ :=
  { handle with holdings := { handle.holdings with reading := readFn } }

/-- The function `MODBUS_Coils_SetReadingFn(handle, readFn)`. -/
def MODBUS_Coils_SetReadingFn {σ : Type} (handle : sMODBUS σ)
    (readFn : Nat → σ → sMODBUS_ReadResult × σ) : sMODBUS σ :=
  { handle with coils := { handle.coils with reading := readFn } }

/-- The function `MODBUS_Coils_SetWritingFn(handle, writeFn)`. -/
def MODBUS_Coils_SetWritingFn {σ : Type} (handle : sMODBUS σ)
    (writeFn : Nat → Nat → σ → eMODBUS_Excpt × σ) : sMODBUS σ :=
  { handle with coils := { handle.coils with writing := writeFn } }

/-- The function `MODBUS_Inputs_SetWritingFn(handle, writeFn)`. -/
def MODBUS_Inputs_SetWritingFn {σ : Type} (handle : sMODBUS σ)
    (writeFn : Nat → Nat → σ → eMODBUS_Excpt × σ) : sMODBUS σ :=
  { handle with inputs := { handle.inputs with writing := writeFn } }

/-- The function `MODBUS_SetWriteCompleteCallback(handle, writeCmplt)`. -/
def MODBUS_SetWriteCompleteCallback {σ : Type} (handle : sMODBUS σ) (writeCmplt : σ → σ) :
    sMODBUS σ :=
  { handle with writeCmpltCallback := some writeCmplt }

/-! ## Command queue -/

abbrev SLAVE_BITS_TIMEOUT : Nat := 17
abbrev MASTER_BITS_TIMEOUT : Nat := 38
abbrev QUEUED_COMMANDS : Nat := 16
abbrev RX_TIMEOUT_ms : Nat := 250

/-- Modelled from the spec: the primitive `q_push` of the queue library `cQueue`, which
`modbus_core.c` includes and whose source is not among the files. The command queue is "a
bounded FIFO of 16 entries; overflow policy is reject at enqueue": the record goes behind the
records that wait, and a full queue is left as it is. The queue is the list of its records,
oldest first. -/
def q_push (q : List sMODBUS_Commmand) (record : sMODBUS_Commmand) : List sMODBUS_Commmand :=
  if q.length < QUEUED_COMMANDS then q ++ [record] else q

/-- Modelled from the spec: the primitive `q_isEmpty` of the queue library `cQueue`, whose
source is not among the files: whether no record waits. -/
def q_isEmpty (q : List sMODBUS_Commmand) : Bool :=
  q.isEmpty

/-- Modelled from the spec: the primitive `q_pop` of the queue library `cQueue`, whose source
is not among the files: "pop one command", which for a FIFO is the oldest record; it is removed
from the queue. An empty queue gives nothing. -/
def q_pop (q : List sMODBUS_Commmand) : Option (sMODBUS_Commmand × List sMODBUS_Commmand) :=
  match q with
  | [] => none
  | record :: rest => some (record, rest)

/-- Modelled from the spec: the primitive `q_flush` of the queue library `cQueue`, whose source
is not among the files: "flushes the command queue", no record waits afterwards. -/
def q_flush (_q : List sMODBUS_Commmand) : List sMODBUS_Commmand :=
  []

/-! ## Mode, reception flag and command queue of a handle -/

/-- The enumerator of `eMODBUS_Mode` with the integer value `mode`, for the two valid values 0
and 1. -/
def eMODBUS_Mode.ofValue (mode : Nat) : eMODBUS_Mode :=
  match mode with
  | 0 => eMODBUS_Mode.MODBUS_Mode_Master
  | _ => eMODBUS_Mode.MODBUS_Mode_Slave

/-- The function `MODBUS_SetMode(handle, mode)`. The argument `mode` is the integer value the
caller passes: 0 is `MODBUS_Mode_Master`, 1 is `MODBUS_Mode_Slave`, every other value takes the
`default` case of the `switch`. -/
def MODBUS_SetMode {σ : Type} (handle : sMODBUS σ) (mode : Nat) : sMODBUS σ :=
  let timeout := 0
  let setup_ok := 0
  let r : Nat × Nat × sMODBUS σ :=
    match mode with
    | 0 =>
      (1, MASTER_BITS_TIMEOUT,
        { handle with
          task := ExecuteTask.MasterTask_WaitAndSendCommand
          commands := q_flush handle.commands })
    | 1 => (1, SLAVE_BITS_TIMEOUT, { handle with task := ExecuteTask.SlaveTask })
    | _ => (setup_ok, timeout, handle)
  if r.1 ≠ 0 then
    { r.2.2 with uxMode := eMODBUS_Mode.ofValue mode, RTOR := r.2.1 }
  else
    r.2.2

/-- The function `MODBUS_SetRemoteCmptCallback(handle, remoteCmplt)`. -/
def MODBUS_SetRemoteCmptCallback {σ : Type} (handle : sMODBUS σ) (remoteCmplt : σ → σ) :
    sMODBUS σ :=
  { handle with remoteRxOKCallback := some remoteCmplt }

/-- The function `MODBUS_SetRemoteErrorCallback(handle, remoteError)`. -/
def MODBUS_SetRemoteErrorCallback {σ : Type} (handle : sMODBUS σ)
    (remoteError : eMODBUS_Excpt → σ → σ) : sMODBUS σ :=
  { handle with remoteRxErrorCallback := some remoteError }

/-- The function `MODBUS_SetRxTimeoutCallback(handle, rxTimeout)`. -/
def MODBUS_SetRxTimeoutCallback {σ : Type} (handle : sMODBUS σ) (rxTimeout : σ → σ) :
    sMODBUS σ :=
  { handle with rxTimeout := some rxTimeout }

/-- The function `MODBUS_Holdings_SetRemoteFn(handle, remoteFn)`. -/
def MODBUS_Holdings_SetRemoteFn {σ : Type} (handle : sMODBUS σ)
    (remoteFn : Nat → Nat → Nat → σ → σ) : sMODBUS σ :=
  { handle with holdings := { handle.holdings with remote := some remoteFn } }

/-- The function `MODBUS_SetRxComplete(handle)`. -/
def MODBUS_SetRxComplete {σ : Type} (handle : sMODBUS σ) : sMODBUS σ :=
  if handle.task = ExecuteTask.MasterTask_WaitRx then
    { handle with u8RxComplete := 1 }
  else
    handle

/-- The function `MODBUS_QueueCommand(handle, cmd)`. -/
def MODBUS_QueueCommand {σ : Type} (handle : sMODBUS σ) (cmd : sMODBUS_Commmand) : sMODBUS σ :=
  { handle with commands := q_push handle.commands cmd }

/-- The function `MODBUS_MasterTickRxTimer(handle)`. -/
def MODBUS_MasterTickRxTimer {σ : Type} (handle : sMODBUS σ) : sMODBUS σ :=
  if handle.u16RxTimeout ≠ 0 ∧ handle.task = ExecuteTask.MasterTask_WaitRx then
    { handle with u16RxTimeout := (handle.u16RxTimeout - 1) % 65536 }
  else
    handle

/-! ## Master task -/

/-- The statements of `MODBUS_MasterTask_WaitAndSendCommand(handle)` that precede the call of
`hwDataTx`: nothing when the queue is empty (the function returns), else the handle after
`q_pop`, the change of `task` and the reset of `u16RxTimeout`, and the frame built from the
command. This handle is the first argument of the call of `hwDataTx`; `mFrame0` is the
uninitialised local of `FrameMaster_FromCommand`. -/
def MODBUS_MasterTask_WaitAndSendCommand_setup {σ : Type} (handle : sMODBUS σ)
    (mFrame0 : sMaster_Frame) : Option (sMODBUS σ × sMaster_Frame) :=
  if q_isEmpty handle.commands then
    none
  else
    match q_pop handle.commands with
    | none => none
    | some (record, rest) =>
      let handle := { handle with commands := rest, lastCmd := record }
      let mFrame := FrameMaster_FromCommand handle.lastCmd mFrame0
      let handle := { handle with
        task := ExecuteTask.MasterTask_WaitRx
        u16RxTimeout := RX_TIMEOUT_ms }
      some (handle, mFrame)

/-- The function `MODBUS_MasterTask_WaitAndSendCommand(handle)`; the length passed to `hwDataTx`
is a `uint8_t`. -/
def MODBUS_MasterTask_WaitAndSendCommand {σ : Type} (handle : sMODBUS σ) (w : World σ)
    (mFrame0 : sMaster_Frame) : sMODBUS σ × World σ :=
  match MODBUS_MasterTask_WaitAndSendCommand_setup handle mFrame0 with
  | none => (handle, w)
  | some (handle, mFrame) =>
    let data := mFrame.raw.take (mFrame.u16Length % 256)
    (handle, w.call (Event.hwDataTx data) (handle.hwDataTx data w.app))

/-- The function `MODBUS_MasterTask_WaitRx(handle)`: two `if` statements, one after the
other. -/
def MODBUS_MasterTask_WaitRx {σ : Type} (handle : sMODBUS σ) (w : World σ) :
    sMODBUS σ × World σ :=
  let handle :=
    if handle.u8RxComplete = 1 then
      { handle with u8RxComplete := 0, task := ExecuteTask.MasterTask_ElaborateRx }
    else handle
  if handle.u16RxTimeout = 0 then
    let w :=
      match handle.rxTimeout with
      | some rxTimeout => w.call Event.rxTimeoutEvent (rxTimeout w.app)
      | none => w
    ({ handle with task := ExecuteTask.MasterTask_WaitAndSendCommand }, w)
  else
    (handle, w)

/-- The `switch` of `MODBUS_MasterTask_ElaborateRx`: which strategy `SelectedReg` is a copy of;
in every other case `SelectedReg` stays uninitialised. -/
def MODBUS_MasterTask_ElaborateRx_select (u8FuncCode : Nat) : Option RegKind :=
  match u8FuncCode with
  | 1 => some RegKind.coils
  | 2 => some RegKind.discretes
  | 3 => some RegKind.holdings
  | 4 => some RegKind.inputs
  | _ => none

/-- The `for` loop of `MODBUS_MasterTask_ElaborateRx`; the first argument is the number of
iterations still to run, `lastCmd.length - addr`. A call through the uninitialised `SelectedReg`
or through a `remote` pointer that was never set has no defined result. -/
def MODBUS_MasterTask_ElaborateRx_loop {σ : Type} (handle : sMODBUS σ)
    (SelectedReg : Option RegKind) (sFrame : sSlave_Frame) : Nat → Nat → World σ → Option (World σ)
  | 0, _, w => some w
  | n + 1, addr, w =>
    match SelectedReg with
    | none => none
    | some k =>
      match (handle.reg k).remote with
      | none => none
      | some remote =>
        let data := (handle.reg k).readPayload sFrame addr % 65536
        let id := handle.lastCmd.slaveID % 256
        let address := (handle.lastCmd.regAddress + addr) % 65536
        MODBUS_MasterTask_ElaborateRx_loop handle SelectedReg sFrame n (addr + 1)
          (w.call (Event.remoteData k id address data) (remote id address data w.app))

/-- The function `MODBUS_MasterTask_ElaborateRx(handle)`; `sFrame0` is its uninitialised local
`sFrame`. -/
def MODBUS_MasterTask_ElaborateRx {σ : Type} (handle : sMODBUS σ) (w : World σ)
    (sFrame0 : sSlave_Frame) : Option (sMODBUS σ × World σ) :=
  let decoded := ReadSlaveFrame handle sFrame0
  let error := decoded.1
  let handle := decoded.2.1
  let sFrame := decoded.2.2
  let done : Option (World σ) :=
    if error = Exception_NoException then
      match MODBUS_MasterTask_ElaborateRx_loop handle
          (MODBUS_MasterTask_ElaborateRx_select sFrame.u8FuncCode) sFrame
          (handle.lastCmd.length % 65536) 0 w with
      | none => none
      | some w =>
        match handle.remoteRxOKCallback with
        | some remoteRxOK => some (w.call Event.remoteRxOK (remoteRxOK w.app))
        | none => some w
    else
      match handle.remoteRxErrorCallback with
      | some remoteRxError => some (w.call (Event.remoteRxError error) (remoteRxError error w.app))
      | none => some w
  match done with
  | none => none
  | some w => some ({ handle with task := ExecuteTask.MasterTask_WaitAndSendCommand }, w)

/-- The function `MODBUS_ExecuteTask(handle)`: the call `handle->task(handle)`. The frames are
the uninitialised locals of the task that runs. -/
def MODBUS_ExecuteTask {σ : Type} (handle : sMODBUS σ) (w : World σ) (mFrame0 : sMaster_Frame)
    (sFrame0 : sSlave_Frame) : Option (sMODBUS σ × World σ) :=
  match handle.task with
  | ExecuteTask.SlaveTask => MODBUS_SlaveTask handle w mFrame0 sFrame0
  | ExecuteTask.MasterTask_WaitAndSendCommand =>
    some (MODBUS_MasterTask_WaitAndSendCommand handle w mFrame0)
  | ExecuteTask.MasterTask_WaitRx => some (MODBUS_MasterTask_WaitRx handle w)
  | ExecuteTask.MasterTask_ElaborateRx => MODBUS_MasterTask_ElaborateRx handle w sFrame0

/-! ## Notions used to state the properties -/

/-- The bytes held by a ring buffer, oldest first. -/
def RingContent (buff : sRing) : List Nat :=
  (List.range buff.u8available).map
    (fun i => buff.u8Buffer.getD ((buff.u8start + i) % buff.u16BufferSize) 0)

/-- A ring buffer whose fields fit their C types and respect the bounds of the buffer. -/
def RingOK (buff : sRing) : Prop :=
  0 < buff.u16BufferSize ∧ buff.u16BufferSize ≤ 255 ∧
  buff.u8Buffer.length = buff.u16BufferSize ∧
  buff.u8start < buff.u16BufferSize ∧ buff.u8available ≤ buff.u16BufferSize

instance (buff : sRing) : Decidable (RingOK buff) := by
  unfold RingOK; infer_instance

/-- Every element of the list is a byte. -/
def IsBytes (l : List Nat) : Prop := ∀ b ∈ l, b < 256

instance (l : List Nat) : Decidable (IsBytes l) := by
  unfold IsBytes; infer_instance

/-- The eight function codes of `eMODBUS_FuncCode`. -/
def SupportedFC (fc : Nat) : Prop :=
  fc = 1 ∨ fc = 2 ∨ fc = 3 ∨ fc = 4 ∨ fc = 5 ∨ fc = 6 ∨ fc = 15 ∨ fc = 16

instance (fc : Nat) : Decidable (SupportedFC fc) := by
  unfold SupportedFC; infer_instance

/-- The frames that the transmit callback was called with, in order. -/
def txFrames : List Event → List (List Nat)
  | [] => []
  | Event.hwDataTx data :: rest => data :: txFrames rest
  | _ :: rest => txFrames rest

/-- The five bytes of an exception reply: slave id, function code with bit 7 set, exception
code, and the CRC of these three bytes, high byte of `calcCRC` first. -/
def exceptionReply (id fc e : Nat) : List Nat :=
  [id, fc ||| 0x80, e, calcCRC [id, fc ||| 0x80, e] 3 >>> 8, calcCRC [id, fc ||| 0x80, e] 3 &&& 0xFF]

/-- The CRC-covered length of a request, as the specification gives it: 6 for the function
codes 1 to 6, `6 + byteCount + 1` for 15 and 16. -/
def specCrcLength (B : List Nat) : Nat :=
  if B.getD 1 0 = 15 ∨ B.getD 1 0 = 16 then 6 + B.getD 6 0 + 1 else 6

/-- The six header bytes of a master request: slave id, function code, address and length, the
16-bit fields high byte first. -/
def commandHeader (cmd : sMODBUS_Commmand) : List Nat :=
  [cmd.slaveID, cmd.functionCode, cmd.regAddress >>> 8, cmd.regAddress &&& 0xFF,
    cmd.length >>> 8, cmd.length &&& 0xFF]

/-- The eight bytes of a master request: the header and `k >> 8`, `k & 0xFF`, where `k` is the
`calcCRC` of the header. -/
def commandFrame (cmd : sMODBUS_Commmand) : List Nat :=
  commandHeader cmd ++
    [calcCRC (commandHeader cmd) 6 >>> 8, calcCRC (commandHeader cmd) 6 &&& 0xFF]

/-- The fields of a command fit their C types. -/
def CommandOK (cmd : sMODBUS_Commmand) : Prop :=
  cmd.slaveID < 256 ∧ cmd.functionCode < 256 ∧ cmd.regAddress < 65536 ∧ cmd.length < 65536

instance (cmd : sMODBUS_Commmand) : Decidable (CommandOK cmd) := by
  unfold CommandOK; infer_instance

/-- The results of `n` successive calls of a read handler at the addresses `addr`, `addr + 1`,
..., each call starting from the application state the previous one left, and the final
application state. -/
def readRun {σ : Type} (reading : Nat → σ → sMODBUS_ReadResult × σ) :
    Nat → Nat → σ → List sMODBUS_ReadResult × σ
  | 0, _, app => ([], app)
  | n + 1, addr, app =>
    ((reading addr app).1 :: (readRun reading n (addr + 1) (reading addr app).2).1,
      (readRun reading n (addr + 1) (reading addr app).2).2)

/-- The payload of a register read response: each 16-bit value as high byte, low byte. -/
def regBytes : List Nat → List Nat
  | [] => []
  | v :: vs => (v / 256) % 256 :: v % 256 :: regBytes vs

/-- The reply to a register read: id, function code, byte count `2N`, the `N` values high byte
first, and the CRC of all these bytes, high byte of `calcCRC` first. -/
def registerReply (id fc : Nat) (vals : List Nat) : List Nat :=
  ([id, fc, 2 * vals.length] ++ regBytes vals) ++
    [calcCRC ([id, fc, 2 * vals.length] ++ regBytes vals) (3 + 2 * vals.length) >>> 8,
      calcCRC ([id, fc, 2 * vals.length] ++ regBytes vals) (3 + 2 * vals.length) &&& 0xFF]

/-- The calls of write handlers recorded in a trace, in order: strategy, address, value. -/
def writeCalls : List Event → List (RegKind × Nat × Nat)
  | [] => []
  | Event.localWrite k address data :: rest => (k, address, data) :: writeCalls rest
  | _ :: rest => writeCalls rest

/-- The calls of read handlers recorded in a trace, in order: strategy and address. -/
def readCalls : List Event → List (RegKind × Nat)
  | [] => []
  | Event.localRead k address :: rest => (k, address) :: readCalls rest
  | _ :: rest => readCalls rest

/-- How many times the write-complete callback was called in a trace. -/
def cmpltCount : List Event → Nat
  | [] => 0
  | Event.writeCmplt :: rest => cmpltCount rest + 1
  | _ :: rest => cmpltCount rest

/-- The append functions of the four strategies are the ones `MODBUS_NewHandle` installs; no
setter changes them. -/
def Wired {σ : Type} (handle : sMODBUS σ) : Prop :=
  handle.coils.appendData = FrameSlave_AppendCoil ∧
  handle.discretes.appendData = FrameSlave_AppendCoil ∧
  handle.holdings.appendData = FrameSlave_AppendRegister ∧
  handle.inputs.appendData = FrameSlave_AppendRegister

/-- A Write Multiple request: the six header bytes, the byte count, the payload and the CRC of
all bytes before it, high byte of `calcCRC` first. -/
def multiWriteFrame (cmd : sMODBUS_Commmand) (payload : List Nat) : List Nat :=
  (commandHeader cmd ++ payload.length :: payload) ++
    [calcCRC (commandHeader cmd ++ payload.length :: payload) (7 + payload.length) >>> 8,
      calcCRC (commandHeader cmd ++ payload.length :: payload) (7 + payload.length) &&& 0xFF]

/-- The payload bytes of a coil response after one more value: the effect of
`FrameSlave_AppendCoil` on the bytes behind the three header bytes. -/
def coilPush (bytes : List Nat) (reps v : Nat) : List Nat :=
  if reps % 8 = 0 then
    bytes ++ [(0 ||| ((v &&& 0x01) <<< (reps % 8))) % 256]
  else
    bytes.set (bytes.length - 1)
      ((bytes.getD (bytes.length - 1) 0 ||| ((v &&& 0x01) <<< (reps % 8))) % 256)

/-- The payload bytes of a coil response: `coilPush` for each value in turn, the first value
having bit index `reps`. -/
def coilFold : List Nat → Nat → List Nat → List Nat
  | bytes, _, [] => bytes
  | bytes, reps, v :: vs => coilFold (coilPush bytes reps v) (reps + 1) vs

/-- A transmitted frame that is an exception frame carrying an internal code: bit 7 of the
function code byte is set and the exception code byte is 0 or 100. -/
def InternalExceptionFrame (f : List Nat) : Prop :=
  2 < f.length ∧ f.getD 1 0 &&& 0x80 = 0x80 ∧ (f.getD 2 0 = 0 ∨ f.getD 2 0 = 100)

instance (f : List Nat) : Decidable (InternalExceptionFrame f) := by
  unfold InternalExceptionFrame; infer_instance

/-- The payload `bytes` packs the first `r` values of `all`: it has `ceil(r / 8)` bytes, bit
`b` of byte `j` is the lowest bit of value `8 j + b` when `8 j + b < r`, and is 0 otherwise. -/
def CoilPacked (bytes : List Nat) (r : Nat) (all : List Nat) : Prop :=
  bytes.length = (r + 7) / 8 ∧
  ∀ j b, b < 8 →
    (bytes.getD j 0).testBit b = (decide (8 * j + b < r) && (all.getD (8 * j + b) 0).testBit 0)

/-- The reply to a coil read: id, function code, byte count, the packed payload, and the CRC of
all these bytes, high byte of `calcCRC` first. -/
def coilReply (id fc : Nat) (vals : List Nat) : List Nat :=
  ([id, fc, (coilFold [] 0 vals).length] ++ coilFold [] 0 vals) ++
    [calcCRC ([id, fc, (coilFold [] 0 vals).length] ++ coilFold [] 0 vals)
        (3 + (coilFold [] 0 vals).length) >>> 8,
      calcCRC ([id, fc, (coilFold [] 0 vals).length] ++ coilFold [] 0 vals)
        (3 + (coilFold [] 0 vals).length) &&& 0xFF]

/-- No read or write handler of the handle returns the internal code
`Exception_InvalidFrame`. -/
def NoInternalReturn {σ : Type} (handle : sMODBUS σ) : Prop :=
  (∀ k address app, ((handle.reg k).reading address app).1.error ≠ Exception_InvalidFrame) ∧
  (∀ k address data app, ((handle.reg k).writing address data app).1 ≠ Exception_InvalidFrame)

/-- The count of a received read request is within the limit of the protocol, 2000 coils or
125 registers, so that the response fits in the frame buffer. -/
def ReadCountOK (B : List Nat) : Prop :=
  ((B.getD 1 0 = 1 ∨ B.getD 1 0 = 2) → ((B.getD 4 0 <<< 8) + B.getD 5 0) % 65536 ≤ 2000) ∧
  ((B.getD 1 0 = 3 ∨ B.getD 1 0 = 4) → ((B.getD 4 0 <<< 8) + B.getD 5 0) % 65536 ≤ 125)

instance (B : List Nat) : Decidable (ReadCountOK B) := by
  unfold ReadCountOK; infer_instance

/-- The slave response obtained from `sFrame` by appending the values of the list in order with
the append function of a strategy, as the loop of `ReadValues` does: the first value with bit
index `i`, the next with `i + 1`, and so on. -/
def appendValues (appendData : sSlave_Frame → bytesFields → sSlave_Frame) :
    Nat → List Nat → sSlave_Frame → sSlave_Frame
  | _, [], sFrame => sFrame
  | i, v :: vs, sFrame =>
    appendValues appendData (i + 1) vs (appendData sFrame { u16_0 := v, u16_1 := i })

/-- One call that the application makes on a master engine between two transmissions: the
task execution (with the contents of its uninitialised frame variables), the timer tick, the
end-of-frame notification and the reception of one byte. -/
inductive MasterOp where
  | executeTask (mFrame0 : sMaster_Frame) (sFrame0 : sSlave_Frame)
  | tickRxTimer
  | setRxComplete
  | saveByte (u8Data : Nat)

/-- The effect of one call on the handle and the world; `none` when the task execution has no
defined result. -/
def MasterOp.apply {σ : Type} (op : MasterOp) (s : sMODBUS σ × World σ) :
    Option (sMODBUS σ × World σ) :=
  match op with
  | MasterOp.executeTask mFrame0 sFrame0 => MODBUS_ExecuteTask s.1 s.2 mFrame0 sFrame0
  | MasterOp.tickRxTimer => some (MODBUS_MasterTickRxTimer s.1, s.2)
  | MasterOp.setRxComplete => some (MODBUS_SetRxComplete s.1, s.2)
  | MasterOp.saveByte u8Data => some (MODBUS_SaveByte s.1 u8Data, s.2)

/-- The effect of a sequence of calls, made one after the other. -/
def runOps {σ : Type} : List MasterOp → sMODBUS σ × World σ → Option (sMODBUS σ × World σ)
  | [], s => some s
  | op :: ops, s =>
    match op.apply s with
    | none => none
    | some s => runOps ops s

/-- The arguments of a call fit their C types: the master frame variable has the 260 bytes of
its buffer and a received byte is a byte. -/
def MasterOp.OK : MasterOp → Prop
  | MasterOp.executeTask mFrame0 _ => mFrame0.raw.length = MODBUS_FRAME_MAX_SIZE
  | MasterOp.saveByte u8Data => u8Data < 256
  | _ => True

instance (op : MasterOp) : Decidable op.OK := by
  cases op <;> unfold MasterOp.OK <;> infer_instance

/-- The bytes that a sequence of calls hands to `MODBUS_SaveByte`, in order. -/
def savedBytes : List MasterOp → List Nat
  | [] => []
  | MasterOp.saveByte u8Data :: ops => u8Data :: savedBytes ops
  | _ :: ops => savedBytes ops

/-- The engine is not in the state Elaborate before any call of the sequence: no Elaborate
step runs during the sequence, only after it. -/
def NoElaborateBefore {σ : Type} (ops : List MasterOp) (s : sMODBUS σ × World σ) : Prop :=
  ∀ k, k < ops.length →
    (runOps (ops.take k) s).map (fun sk => sk.1.task) ≠
      some ExecuteTask.MasterTask_ElaborateRx

instance {σ : Type} (ops : List MasterOp) (s : sMODBUS σ × World σ) :
    Decidable (NoElaborateBefore ops s) := by
  unfold NoElaborateBefore; infer_instance

/-- The end index of a ring is where the next byte goes: `start + available`, modulo the
size. `RingNew`, `RingAdd` and the drain keep it so. -/
def RingEndOK (buff : sRing) : Prop :=
  buff.u8end = (buff.u8start + buff.u8available) % buff.u16BufferSize

instance (buff : sRing) : Decidable (RingEndOK buff) := by
  unfold RingEndOK; infer_instance

/-- No call recorded in the trace is a call of the write handler of the holdings strategy. -/
def NoHoldingsWrite (t : List Event) : Prop :=
  ∀ c ∈ writeCalls t, c.1 ≠ RegKind.holdings

instance (t : List Event) : Decidable (NoHoldingsWrite t) := by
  unfold NoHoldingsWrite; infer_instance

/-- The trace `t1` continues the trace `t` with calls among which there is no call of the
write handler of the holdings strategy. -/
def ExtendsWithoutHoldingsWrite (t t1 : List Event) : Prop :=
  ∃ ext, t1 = t ++ ext ∧ NoHoldingsWrite ext

/-- The application state after the write handler `writing` was called with each pair
(address, value) of the list in order, each call starting from the state the previous one
left, whatever the calls returned. -/
def writeRun {σ : Type} (writing : Nat → Nat → σ → eMODBUS_Excpt × σ) :
    List (Nat × Nat) → σ → σ
  | [], app => app
  | c :: rest, app => writeRun writing rest (writing c.1 c.2 app).2

/-- Writing the pairs (address, value) of a list in order through the handler `writing`, each
call starting from the state the previous one left, and stopping after the first call that
returns an error: the pairs the handler was called with, the code the last call returned
(`Exception_NoException` when no call failed) and the application state the calls left. -/
def writeUntilError {σ : Type} (writing : Nat → Nat → σ → eMODBUS_Excpt × σ) :
    List (Nat × Nat) → σ → List (Nat × Nat) × eMODBUS_Excpt × σ
  | [], app => ([], Exception_NoException, app)
  | c :: rest, app =>
    if (writing c.1 c.2 app).1 ≠ Exception_NoException then
      ([c], (writing c.1 c.2 app).1, (writing c.1 c.2 app).2)
    else
      (c :: (writeUntilError writing rest (writing c.1 c.2 app).2).1,
        (writeUntilError writing rest (writing c.1 c.2 app).2).2.1,
        (writeUntilError writing rest (writing c.1 c.2 app).2).2.2)

/-- The application state after the remote-data handler `remote` was called with each triple
(slave id, address, value) of the list in order, each call starting from the state the
previous one left. -/
def remoteRun {σ : Type} (remote : Nat → Nat → Nat → σ → σ) :
    List (Nat × Nat × Nat) → σ → σ
  | [], app => app
  | c :: rest, app => remoteRun remote rest (remote c.1 c.2.1 c.2.2 app)

/-- The world at the end of an accepted write request: `w` is the world the calls of the write
handlers left; the write-complete callback is called when one is assigned, then the transmit
callback is called with the reply `data`. -/
def writeReplied {σ : Type} (handle : sMODBUS σ) (w : World σ) (data : List Nat) : World σ :=
  World.call (fireWriteCmplt handle w) (Event.hwDataTx data)
    (handle.hwDataTx data (fireWriteCmplt handle w).app)

/-- The reply to the write request `cmd` when the last call of the write handler returned `e`:
the six header bytes of the request with their CRC when `e` is `Exception_NoException`, else
the exception reply with the code `e`. -/
def writeReply (cmd : sMODBUS_Commmand) (e : eMODBUS_Excpt) : List Nat :=
  if e = Exception_NoException then commandFrame cmd
  else exceptionReply cmd.slaveID cmd.functionCode e.toNat

/-- The handle with the write handler of the holdings strategy replaced by `writing`. -/
def withHoldingsWriting {σ : Type} (handle : sMODBUS σ)
    (writing : Nat → Nat → σ → eMODBUS_Excpt × σ) : sMODBUS σ :=
  { handle with holdings := { handle.holdings with writing := writing } }

/-- Both stores of `FrameSlave_AppendRegister(sFrame, data)`, at `raw[u16Length + 0]` and
`raw[u16Length + 1]`, are inside the `MODBUS_FRAME_MAX_SIZE` bytes of `raw`. -/
def AppendRegisterInside (sFrame : sSlave_Frame) : Prop :=
  sFrame.u16Length + 1 < MODBUS_FRAME_MAX_SIZE

instance (sFrame : sSlave_Frame) : Decidable (AppendRegisterInside sFrame) := by
  unfold AppendRegisterInside; infer_instance

/-! ## Concrete handles and frames used in the examples -/

/-- A master frame variable whose 260 bytes are all zero. -/
def zeroMaster : sMaster_Frame := { u16Length := 0, raw := List.replicate 260 0 }

/-- A slave frame variable whose 260 bytes are all zero. -/
def zeroSlave : sSlave_Frame := { u16Length := 0, raw := List.replicate 260 0 }

/-- A world without application state and with an empty trace. -/
def world0 : World Unit := { app := (), trace := [] }

/-- The handle after the bytes `B` were saved one by one and the RX-complete flag was raised. -/
def received {σ : Type} (handle : sMODBUS σ) (B : List Nat) : sMODBUS σ :=
  { B.foldl MODBUS_SaveByte handle with u8RxComplete := 1 }

/-- Holding registers of scenario S1: `AE41`, `5652`, `004B` at `6B`, `6C`, `6D`. -/
def S1_read (address : Nat) (app : Unit) : sMODBUS_ReadResult × Unit :=
  match address with
  | 0x6B => ({ data := 0xAE41, error := Exception_NoException }, app)
  | 0x6C => ({ data := 0x5652, error := Exception_NoException }, app)
  | 0x6D => ({ data := 0x004B, error := Exception_NoException }, app)
  | _ => ({ data := 0, error := Exception_IllegalAddr }, app)

/-- The request of scenario S1. -/
def S1_request : List Nat := [0x11, 0x03, 0x00, 0x6B, 0x00, 0x03, 0x76, 0x87]

/-- The slave of scenario S1, address `0x11`, after it received the request. -/
def S1_handle : sMODBUS Unit :=
  received (MODBUS_Holdings_SetReadingFn (MODBUS_NewHandle Unit 0x11) S1_read) S1_request

/-- The request of scenario S4: function code 7, with its correct CRC `B6 9A`. -/
def S4_request : List Nat := [0x11, 0x07, 0x00, 0x00, 0x00, 0x00, 0xB6, 0x9A]

/-- The slave of scenario S4, address `0x11`, after it received the request. -/
def S4_handle : sMODBUS Unit := received (MODBUS_NewHandle Unit 0x11) S4_request

/-- A slave with address `0x12` that received the request of scenario S1, sent to `0x11`. -/
def other_handle : sMODBUS Unit := received (MODBUS_NewHandle Unit 0x12) S1_request

/-- Eight received bytes with function code 15 and `FB` at the place of the byte count; bytes 2
and 3 are the CRC of bytes 0 and 1. -/
def wrap_request : List Nat := [0x11, 0x0F, 0x4D, 0xE4, 0x00, 0x00, 0xFB, 0x00]

/-- The slave with address `0x11` after it received `wrap_request`. -/
def wrap_handle : sMODBUS Unit := received (MODBUS_NewHandle Unit 0x11) wrap_request

/-- The request of scenario S4 with a wrong CRC (`00 00` in place of `B6 9A`). -/
def S4_corrupted : List Nat := [0x11, 0x07, 0x00, 0x00, 0x00, 0x00, 0x00, 0x00]

/-- The slave with address `0x11` after it received `S4_corrupted`. -/
def S4_corrupted_handle : sMODBUS Unit := received (MODBUS_NewHandle Unit 0x11) S4_corrupted

/-- The request of scenario S1 with a wrong CRC (`76 88` in place of `76 87`). -/
def S5_request : List Nat := [0x11, 0x03, 0x00, 0x6B, 0x00, 0x03, 0x76, 0x88]

/-- The slave of scenario S1 after it received `S5_request`. -/
def S5_handle : sMODBUS Unit :=
  received (MODBUS_Holdings_SetReadingFn (MODBUS_NewHandle Unit 0x11) S1_read) S5_request

/-- A master frame variable whose 260 bytes are all `0xFF`. -/
def onesMaster : sMaster_Frame := { u16Length := 0, raw := List.replicate 260 0xFF }

/-- A read command: three holding registers of slave `0x11` from address `0x6B`. -/
def S1_command : sMODBUS_Commmand :=
  { functionCode := 3, slaveID := 0x11, regAddress := 0x6B, length := 3 }

/-- The slave with address `0x11` after it received the encoding of `S1_command`. -/
def S1_command_handle : sMODBUS Unit :=
  received (MODBUS_NewHandle Unit 0x11)
    ((FrameMaster_FromCommand S1_command zeroMaster).raw.take
      (FrameMaster_FromCommand S1_command zeroMaster).u16Length)

/-- A Write Multiple Registers command whose encoding is `11 10 20 13 00 01 F9 5C`. -/
def wrap_command : sMODBUS_Commmand :=
  { functionCode := 16, slaveID := 0x11, regAddress := 0x2013, length := 1 }

/-- The slave with address `0x11` after it received the encoding of `wrap_command`. -/
def wrap_command_handle : sMODBUS Unit :=
  received (MODBUS_NewHandle Unit 0x11)
    ((FrameMaster_FromCommand wrap_command zeroMaster).raw.take
      (FrameMaster_FromCommand wrap_command zeroMaster).u16Length)

/-- A Write Multiple Registers command for one register at address 0. -/
def multi_command : sMODBUS_Commmand :=
  { functionCode := 16, slaveID := 0x11, regAddress := 0, length := 1 }

/-- The slave with address `0x11` after it received the encoding of `multi_command`. -/
def multi_command_handle : sMODBUS Unit :=
  received (MODBUS_NewHandle Unit 0x11)
    ((FrameMaster_FromCommand multi_command zeroMaster).raw.take
      (FrameMaster_FromCommand multi_command zeroMaster).u16Length)

/-- A write handler that accepts every address and value. -/
def acceptWrite (_address _data : Nat) (app : Unit) : eMODBUS_Excpt × Unit :=
  (Exception_NoException, app)

/-- The request of scenario S2: Write Single Coil, address `0x00AC`, value `0xFF00`. -/
def S2_request : List Nat := [0x11, 0x05, 0x00, 0xAC, 0xFF, 0x00, 0x4E, 0x8B]

/-- The slave of scenario S2, address `0x11`, after it received the request. -/
def S2_handle : sMODBUS Unit :=
  received (MODBUS_Coils_SetWritingFn (MODBUS_NewHandle Unit 0x11) acceptWrite) S2_request

/-- The request of scenario S3: Write Single Coil with the value `0x1234`. -/
def S3_request : List Nat := [0x11, 0x05, 0x00, 0xAC, 0x12, 0x34, 0x02, 0x0C]

/-- The slave of scenario S3, address `0x11`, with a write-complete callback, after it received
the request. -/
def S3_handle : sMODBUS Unit :=
  received (MODBUS_SetWriteCompleteCallback
    (MODBUS_Coils_SetWritingFn (MODBUS_NewHandle Unit 0x11) acceptWrite) id) S3_request

/-- Coil values for the examples: the coils at `0x13`, `0x15`, `0x16` and `0x1C` are on. -/
def coil_read (address : Nat) (app : Unit) : sMODBUS_ReadResult × Unit :=
  match address with
  | 0x13 | 0x15 | 0x16 | 0x1C => ({ data := 1, error := Exception_NoException }, app)
  | _ => ({ data := 0, error := Exception_NoException }, app)

/-- A Read Coils request: ten coils from address `0x13`. -/
def coil_request : List Nat := [0x11, 0x01, 0x00, 0x13, 0x00, 0x0A, 0x4F, 0x58]

/-- The slave with address `0x11` and the coils of `coil_read` after it received
`coil_request`. -/
def coil_handle : sMODBUS Unit :=
  received (MODBUS_Coils_SetReadingFn (MODBUS_NewHandle Unit 0x11) coil_read) coil_request

/-- A Read Holding Registers request: four registers from address `0x6B`. -/
def read4_request : List Nat := [0x11, 0x03, 0x00, 0x6B, 0x00, 0x04, 0x37, 0x45]

/-- The slave of scenario S1 after it received `read4_request`; its handler knows the
addresses `6B`, `6C`, `6D` only. -/
def read4_handle : sMODBUS Unit :=
  received (MODBUS_Holdings_SetReadingFn (MODBUS_NewHandle Unit 0x11) S1_read) read4_request

/-- A Write Multiple Coils request: ten coils from address `0x13`, payload `CD 01`. -/
def wmc_request : List Nat :=
  [0x11, 0x0F, 0x00, 0x13, 0x00, 0x0A, 0x02, 0xCD, 0x01, 0xBF, 0x0B]

/-- The slave with address `0x11` and an accepting coil write handler after it received
`wmc_request`. -/
def wmc_handle : sMODBUS Unit :=
  received (MODBUS_Coils_SetWritingFn (MODBUS_NewHandle Unit 0x11) acceptWrite) wmc_request

/-- The slave with address `0x11` and the handlers `MODBUS_NewHandle` installs (every write
returns `Exception_IllegalFunc`) after it received `wmc_request`. -/
def wmc_dummy_handle : sMODBUS Unit := received (MODBUS_NewHandle Unit 0x11) wmc_request

/-- A Write Multiple Registers request: one register, the last address `0xFFFF`, value
`0x1234`. -/
def wmr_top_request : List Nat :=
  [0x11, 0x10, 0xFF, 0xFF, 0x00, 0x01, 0x02, 0x12, 0x34, 0x7D, 0xE7]

/-- The slave with address `0x11` and an accepting register write handler after it received
`wmr_top_request`. -/
def wmr_top_handle : sMODBUS Unit :=
  received (MODBUS_Inputs_SetWritingFn (MODBUS_NewHandle Unit 0x11) acceptWrite) wmr_top_request

/-- A read handler that returns the internal code `Exception_InvalidFrame`. -/
def internal_read (_address : Nat) (app : Unit) : sMODBUS_ReadResult × Unit :=
  ({ data := 0, error := Exception_InvalidFrame }, app)

/-- The slave with address `0x11` and the handler `internal_read` after it received the request
of scenario S1. -/
def internal_handle : sMODBUS Unit :=
  received (MODBUS_Holdings_SetReadingFn (MODBUS_NewHandle Unit 0x11) internal_read) S1_request

/-- Six received bytes of a read response with `FF` at the place of the byte count; bytes 2 and
3 are the CRC of bytes 0 and 1. -/
def wrap_response : List Nat := [0x55, 0x01, 0xFF, 0x20, 0x01, 0x00]

/-- An engine after it received `wrap_response`. -/
def wrap_response_handle : sMODBUS Unit := received (MODBUS_NewHandle Unit 0x11) wrap_response

/-- A remote-data callback that leaves the application as it is. -/
def acceptRemote (_id _address _data : Nat) (app : Unit) : Unit := app

/-- A master engine: `MODBUS_NewHandle`, `MODBUS_SetMode(Master)`, a remote-data function for
the holding registers and the three event callbacks of the master role. -/
def master_handle : sMODBUS Unit :=
  MODBUS_SetRxTimeoutCallback
    (MODBUS_SetRemoteErrorCallback
      (MODBUS_SetRemoteCmptCallback
        (MODBUS_Holdings_SetRemoteFn (MODBUS_SetMode (MODBUS_NewHandle Unit 0x01) 0) acceptRemote)
        id)
      (fun _ app => app))
    id

/-- A read command: two holding registers of slave `0x11` from address `0x10`. -/
def second_command : sMODBUS_Commmand :=
  { functionCode := 3, slaveID := 0x11, regAddress := 0x10, length := 2 }

/-- A read command: one input register of slave `0x12` from address `0x20`. -/
def third_command : sMODBUS_Commmand :=
  { functionCode := 4, slaveID := 0x12, regAddress := 0x20, length := 1 }

/-- The reply of scenario S1 with the CRC `calcCRC` gives. -/
def S1_reply : List Nat := [0x11, 0x03, 0x06, 0xAE, 0x41, 0x56, 0x52, 0x00, 0x4B, 0x39, 0x5A]

/-- The master after `S1_command` was queued. -/
def queued_handle : sMODBUS Unit := MODBUS_QueueCommand master_handle S1_command

/-- The master right after it sent `S1_command`. -/
def sent_handle : sMODBUS Unit :=
  (MODBUS_MasterTask_WaitAndSendCommand queued_handle world0 zeroMaster).1

/-- The world right after the master sent `S1_command`. -/
def sent_world : World Unit :=
  (MODBUS_MasterTask_WaitAndSendCommand queued_handle world0 zeroMaster).2

/-- The master whose reply arrives late: after it sent `S1_command` the timer ticked 250
times, then the bytes of `S1_reply` were saved and `MODBUS_SetRxComplete` was called. -/
def late_reply_handle : sMODBUS Unit :=
  MODBUS_SetRxComplete (S1_reply.foldl MODBUS_SaveByte (MODBUS_MasterTickRxTimer^[250] sent_handle))

/-- The master whose reply arrived in time, after the task ran once in the state Await: the
bytes of `S1_reply` were saved after 3 ticks and `MODBUS_SetRxComplete` was called. -/
def replied_handle : sMODBUS Unit :=
  (MODBUS_MasterTask_WaitRx
    (MODBUS_SetRxComplete
      (S1_reply.foldl MODBUS_SaveByte (MODBUS_MasterTickRxTimer^[3] sent_handle)))
    sent_world).1

/-- The master right after it sent `S1_command`, with `second_command` still queued. -/
def sent2_handle : sMODBUS Unit :=
  (MODBUS_MasterTask_WaitAndSendCommand (MODBUS_QueueCommand queued_handle second_command)
    world0 zeroMaster).1

/-- Nine received bytes: the request of scenario S1 followed by one more byte. -/
def long_request : List Nat := S1_request ++ [0x00]

/-- The slave of scenario S1 after it received `long_request`. -/
def long_handle : sMODBUS Unit :=
  received (MODBUS_Holdings_SetReadingFn (MODBUS_NewHandle Unit 0x11) S1_read) long_request

/-- The master whose reply arrived in time with its last byte changed from `5A` to `5B`, after
the task ran once in the state Await. -/
def garbled_handle : sMODBUS Unit :=
  (MODBUS_MasterTask_WaitRx
    (MODBUS_SetRxComplete
      ((S1_reply.take 10 ++ [0x5B]).foldl MODBUS_SaveByte
        (MODBUS_MasterTickRxTimer^[3] sent_handle)))
    sent_world).1

/-- The calls of a master whose first command times out: the task sends the command, the timer
ticks 250 times, the task notices the timeout, the task runs once more. -/
def timeout_route : List MasterOp :=
  [MasterOp.executeTask zeroMaster zeroSlave] ++ List.replicate 250 MasterOp.tickRxTimer ++
    [MasterOp.executeTask zeroMaster zeroSlave, MasterOp.executeTask zeroMaster zeroSlave]

/-- The calls of a master whose first command is answered: the task sends the command, the
timer ticks 3 times, the bytes of `S1_reply` arrive, the end of the frame is notified, the
task runs in the states Await and Elaborate, the task runs once more. -/
def response_route : List MasterOp :=
  [MasterOp.executeTask zeroMaster zeroSlave] ++ List.replicate 3 MasterOp.tickRxTimer ++
    S1_reply.map MasterOp.saveByte ++
    [MasterOp.setRxComplete, MasterOp.executeTask zeroMaster zeroSlave,
      MasterOp.executeTask zeroMaster zeroSlave, MasterOp.executeTask zeroMaster zeroSlave]
/-- A ring of capacity 8 after the bytes 1 to 6 were pushed. -/
def six_ring : sRing := [1, 2, 3, 4, 5, 6].foldl RingAdd (RingNew 8)

/-- The calls of an application that runs a slave: the bytes of `S1_request` arrive, the end
of the frame is notified, the timer ticks and the task runs twice. -/
def slave_route : List MasterOp :=
  S1_request.map MasterOp.saveByte ++
    [MasterOp.setRxComplete, MasterOp.tickRxTimer, MasterOp.executeTask zeroMaster zeroSlave,
      MasterOp.executeTask zeroMaster zeroSlave]

/-- The slave of scenario S1 before any byte arrived: `MODBUS_NewHandle` with the read handler
of the holding registers. -/
def S1_slave : sMODBUS Unit := MODBUS_Holdings_SetReadingFn (MODBUS_NewHandle Unit 0x11) S1_read

/-- The exception reply of the slave `0x11` to the request of scenario S1 with the exception
code 2 (illegal address): the five bytes `setupExceptionFrame` builds. -/
def refusal : List Nat :=
  (setupExceptionFrame { u16Length := 8, raw := S1_request ++ List.replicate 252 0 }
    Exception_IllegalAddr zeroSlave).raw.take
  (setupExceptionFrame { u16Length := 8, raw := S1_request ++ List.replicate 252 0 }
    Exception_IllegalAddr zeroSlave).u16Length

/-- The master that sent `S1_command` and got the exception reply `refusal`, after the task
ran once in the state Await. -/
def refused_handle : sMODBUS Unit :=
  (MODBUS_MasterTask_WaitRx
    (MODBUS_SetRxComplete
      (refusal.foldl MODBUS_SaveByte (MODBUS_MasterTickRxTimer^[3] sent_handle)))
    sent_world).1

/-- A write command: the value 3 to the register `0x0001` of slave `0x11`. -/
def write_command : sMODBUS_Commmand :=
  { functionCode := 6, slaveID := 0x11, regAddress := 0x0001, length := 0x0003 }

/-- The master that sent `write_command` and got the acknowledgement of the slave, the eight
bytes of the request, after the task ran once in the state Await. -/
def acknowledged_handle : sMODBUS Unit :=
  (MODBUS_MasterTask_WaitRx
    (MODBUS_SetRxComplete
      ((commandFrame write_command).foldl MODBUS_SaveByte
        (MODBUS_MasterTickRxTimer^[3]
          (MODBUS_MasterTask_WaitAndSendCommand
            (MODBUS_QueueCommand master_handle write_command) world0 zeroMaster).1)))
    world0).1

/-- A read request whose range passes the last address: two holding registers of slave `0x11`
from address `0xFFFF`. -/
def top_read_command : sMODBUS_Commmand :=
  { functionCode := 3, slaveID := 0x11, regAddress := 0xFFFF, length := 2 }

/-- The slave of scenario S1 after it received the encoding of `top_read_command`. -/
def top_read_handle : sMODBUS Unit := received S1_slave (commandFrame top_read_command)

/-- The first eight bytes of `S1_reply`: what arrived of a reply when the timeout ran out. -/
def late_bytes : List Nat := S1_reply.take 8

/-- The master that sent `S1_command` with `second_command` still queued, got the eight
`late_bytes` and no end of frame, and saw 250 ticks: state Await, counter 0. -/
def timed_out_handle : sMODBUS Unit :=
  MODBUS_MasterTickRxTimer^[250] (late_bytes.foldl MODBUS_SaveByte sent2_handle)

/-- The reply of slave `0x11` to `second_command`: the registers `0102` and `0304`. -/
def second_reply : List Nat := registerReply 0x11 0x03 [0x0102, 0x0304]

/-- The calls after a timeout that lead to the next Elaborate step: the task sends the queued
command, the bytes of `second_reply` arrive, the end of the frame is notified, and the task
runs in the state Await. -/
def next_route : List MasterOp :=
  [MasterOp.executeTask zeroMaster zeroSlave] ++ second_reply.map MasterOp.saveByte ++
    [MasterOp.setRxComplete, MasterOp.executeTask zeroMaster zeroSlave]

/-- Twenty-nine bytes: a reply with twelve registers, all `ABCD`. -/
def long_late_bytes : List Nat := registerReply 0x11 0x03 (List.replicate 12 0xABCD)

/-- The master that sent `S1_command` with `second_command` still queued, got the 29
`long_late_bytes` and no end of frame, and saw 250 ticks: state Await, counter 0. -/
def flooded_handle : sMODBUS Unit :=
  MODBUS_MasterTickRxTimer^[250] (long_late_bytes.foldl MODBUS_SaveByte sent2_handle)

/-- The slave with address `0x11` whose inputs strategy accepts every write, and whose other
write handlers are the ones `MODBUS_NewHandle` installs, which refuse every write, after it
received the encoding of `write_command`. -/
def write6_handle : sMODBUS Unit :=
  received (MODBUS_Inputs_SetWritingFn (MODBUS_NewHandle Unit 0x11) acceptWrite)
    (commandFrame write_command)

/-- A Write Multiple Registers request: the words `000A` and `0102` for the registers 1 and 2
of slave `0x11`. -/
def write16_request : List Nat :=
  multiWriteFrame { functionCode := 16, slaveID := 0x11, regAddress := 0x0001, length := 2 }
    [0x00, 0x0A, 0x01, 0x02]

/-- The slave with address `0x11` whose inputs strategy accepts every write, after it received
`write16_request`. -/
def write16_handle : sMODBUS Unit :=
  received (MODBUS_Inputs_SetWritingFn (MODBUS_NewHandle Unit 0x11) acceptWrite)
    write16_request

/-- A write handler that accepts every write and keeps the list of the pairs (address, value)
it was called with, oldest first. -/
def recordWrite (address data : Nat) (app : List (Nat × Nat)) :
    eMODBUS_Excpt × List (Nat × Nat) :=
  (Exception_NoException, app ++ [(address, data)])

/-- A world whose application state is an empty list of writes, with an empty trace. -/
def recordWorld : World (List (Nat × Nat)) := { app := [], trace := [] }

/-- The slave with address `0x11` whose coils strategy has the handler `recordWrite`, after it
received the request of scenario S2, Write Single Coil at `0x00AC` with the value `0xFF00`. -/
def record5_handle : sMODBUS (List (Nat × Nat)) :=
  received (MODBUS_Coils_SetWritingFn (MODBUS_NewHandle (List (Nat × Nat)) 0x11) recordWrite)
    S2_request

/-- The slave with address `0x11` whose coils strategy has the handler `recordWrite`, after it
received `wmc_request`. -/
def record15_handle : sMODBUS (List (Nat × Nat)) :=
  received (MODBUS_Coils_SetWritingFn (MODBUS_NewHandle (List (Nat × Nat)) 0x11) recordWrite)
    wmc_request

/-- The slave with address `0x11` whose inputs strategy has the handler `recordWrite`, after
it received the encoding of `write_command`. -/
def record6_handle : sMODBUS (List (Nat × Nat)) :=
  received (MODBUS_Inputs_SetWritingFn (MODBUS_NewHandle (List (Nat × Nat)) 0x11) recordWrite)
    (commandFrame write_command)

/-- The slave with address `0x11` whose inputs strategy has the handler `recordWrite`, after
it received `write16_request`. -/
def record16_handle : sMODBUS (List (Nat × Nat)) :=
  received (MODBUS_Inputs_SetWritingFn (MODBUS_NewHandle (List (Nat × Nat)) 0x11) recordWrite)
    write16_request

/-- The slave with address `0x11` and the handlers `MODBUS_NewHandle` installs (every write
returns `Exception_IllegalFunc`) after it received `write16_request`. -/
def refused16_handle : sMODBUS Unit := received (MODBUS_NewHandle Unit 0x11) write16_request

/-- A remote-data callback that keeps the list of the pairs (address, value) it was called
with, oldest first. -/
def recordRemote (_id address data : Nat) (app : List (Nat × Nat)) : List (Nat × Nat) :=
  app ++ [(address, data)]

/-- A read request for 130 holding registers of slave `0x11` from address 0. -/
def overrun_command : sMODBUS_Commmand :=
  { functionCode := 3, slaveID := 0x11, regAddress := 0, length := 130 }

/-- A read handler that knows the addresses 0 to 128, each register holding its address, and
returns `Exception_IllegalAddr` for every other address. -/
def overrun_read (address : Nat) (app : Unit) : sMODBUS_ReadResult × Unit :=
  if address < 129 then ({ data := address, error := Exception_NoException }, app)
  else ({ data := 0, error := Exception_IllegalAddr }, app)

/-- The slave with address `0x11` and the read handler `overrun_read` for the holding
registers, after it received the encoding of `overrun_command`. -/
def overrun_handle : sMODBUS Unit :=
  received (MODBUS_Holdings_SetReadingFn (MODBUS_NewHandle Unit 0x11) overrun_read)
    (commandFrame overrun_command)

/-- The calls of a master whose first command is `write_command` and is acknowledged by the
slave: the task sends the command, the timer ticks 3 times, the eight bytes of the
acknowledgement arrive, the end of the frame is notified, the task runs in the state Await. -/
def acknowledged_route : List MasterOp :=
  [MasterOp.executeTask zeroMaster zeroSlave] ++ List.replicate 3 MasterOp.tickRxTimer ++
    (commandFrame write_command).map MasterOp.saveByte ++
    [MasterOp.setRxComplete, MasterOp.executeTask zeroMaster zeroSlave]

/-- A master engine whose application state is the list of the values it received:
`MODBUS_NewHandle`, `MODBUS_SetMode(Master)`, the remote-data function `recordRemote` for the
holding registers and a remote-complete callback. -/
def record_master : sMODBUS (List (Nat × Nat)) :=
  MODBUS_SetRemoteCmptCallback
    (MODBUS_Holdings_SetRemoteFn (MODBUS_SetMode (MODBUS_NewHandle (List (Nat × Nat)) 0x01) 0)
      recordRemote)
    id

/-- The master `record_master` after it sent `S1_command` and the reply `S1_reply` arrived in
time, after the task ran once in the state Await. -/
def record_replied_handle : sMODBUS (List (Nat × Nat)) :=
  (MODBUS_MasterTask_WaitRx
    (MODBUS_SetRxComplete
      (S1_reply.foldl MODBUS_SaveByte
        (MODBUS_MasterTickRxTimer^[3]
          (MODBUS_MasterTask_WaitAndSendCommand (MODBUS_QueueCommand record_master S1_command)
            recordWorld zeroMaster).1)))
    recordWorld).1

/-! # Properties -/

set_option maxRecDepth 100000

theorem crcBit_eq_spec (t : Nat) : crcBit t = specShiftStep t := by
  unfold crcBit specShiftStep
  simp only [Nat.and_one_is_mod, Nat.shiftRight_eq_div_pow, pow_one]
  rcases Nat.mod_two_eq_zero_or_one t with h | h <;> simp [h]

theorem crcBit_lt {t : Nat} (h : t < 65536) : crcBit t < 65536 := by
  unfold crcBit
  simp only [Nat.shiftRight_eq_div_pow, pow_one]
  have h2 : t / 2 < 2 ^ 16 := by omega
  split
  · exact Nat.xor_lt_two_pow h2 (by norm_num)
  · omega

theorem testBit_hi_part (acc i : Nat) :
    Nat.testBit (2 ^ 8 * (acc / 2 ^ 8)) i = (decide (8 ≤ i) && acc.testBit i) := by
  have e : 2 ^ 8 * (acc / 2 ^ 8) = (acc >>> 8) <<< 8 := by
    rw [Nat.shiftLeft_eq, Nat.shiftRight_eq_div_pow, Nat.mul_comm]
  rw [e, Nat.testBit_shiftLeft, Nat.testBit_shiftRight]
  by_cases h8 : 8 ≤ i
  · have : 8 + (i - 8) = i := by omega
    simp [h8, this]
  · simp [h8]

theorem testBit_byte_hi {b i : Nat} (hb : b < 256) (hi : 8 ≤ i) : b.testBit i = false :=
  Nat.testBit_lt_two_pow (lt_of_lt_of_le hb (by
    have : 2 ^ 8 ≤ 2 ^ i := Nat.pow_le_pow_right (by norm_num) hi
    simpa using this))

theorem xor_low_byte {acc b : Nat} (hb : b < 256) :
    acc ^^^ b = (acc / 256) * 256 + ((acc % 256) ^^^ b) := by
  have hx : (acc % 2 ^ 8) ^^^ b < 2 ^ 8 :=
    Nat.xor_lt_two_pow (Nat.mod_lt _ (by norm_num)) (by simpa using hb)
  have key : acc ^^^ b = 2 ^ 8 * (acc / 2 ^ 8) + ((acc % 2 ^ 8) ^^^ b) := by
    rw [Nat.mul_add_lt_is_or hx]
    apply Nat.eq_of_testBit_eq
    intro i
    simp only [Nat.testBit_xor, Nat.testBit_or, Nat.testBit_mod_two_pow, testBit_hi_part]
    by_cases hi : 8 ≤ i
    · have hi' : ¬ i < 8 := by omega
      simp [hi, hi', testBit_byte_hi hb hi]
    · have hi' : i < 8 := by omega
      simp [hi, hi']
  simpa [Nat.mul_comm] using key

theorem swap_bytes {t : Nat} (h : t < 65536) :
    (((t <<< 8) ||| (t >>> 8)) % 65536) &&& 0xFFFF = (t % 256) * 256 + t / 256 := by
  have e1 : (65535 : Nat) = 2 ^ 16 - 1 := by norm_num
  rw [e1, Nat.and_pow_two_sub_one_eq_mod]
  have hlo : t >>> 8 < 2 ^ 8 := by
    rw [Nat.shiftRight_eq_div_pow]
    have : t < 2 ^ 8 * 2 ^ 8 := by simpa using h
    exact Nat.div_lt_of_lt_mul this
  have key : ((t <<< 8) ||| (t >>> 8)) % 2 ^ 16 = 2 ^ 8 * (t % 2 ^ 8) + t >>> 8 := by
    rw [Nat.mul_add_lt_is_or hlo]
    apply Nat.eq_of_testBit_eq
    intro i
    simp only [Nat.testBit_mod_two_pow, Nat.testBit_or, Nat.testBit_shiftLeft,
      Nat.testBit_shiftRight, Nat.testBit_mul_pow_two]
    by_cases hi : 8 ≤ i
    · have hb : t.testBit (8 + i) = false := by
        apply Nat.testBit_lt_two_pow
        have h1 : 2 ^ 16 ≤ 2 ^ (8 + i) := Nat.pow_le_pow_right (by norm_num) (by omega)
        have h2 : t < 2 ^ 16 := by simpa using h
        exact lt_of_lt_of_le h2 h1
      by_cases h16 : i < 16
      · have : i - 8 < 8 := by omega
        simp [hi, h16, this, hb]
      · have : ¬ i - 8 < 8 := by omega
        simp [hi, h16, this, hb]
    · have h16 : i < 16 := by omega
      simp [hi, h16]
  have e2 : (65536 : Nat) = 2 ^ 16 := by norm_num
  rw [e2, Nat.mod_mod, key, Nat.shiftRight_eq_div_pow]
  norm_num [Nat.mul_comm]

theorem iter_crcBit_lt {t : Nat} (h : t < 65536) (l : List Nat) :
    l.foldl (fun t _ => crcBit t) t < 65536 := by
  induction l generalizing t with
  | nil => simpa using h
  | cons _ l ih => exact ih (crcBit_lt h)

theorem crcByte_lt (t b : Nat) : crcByte t b < 65536 :=
  iter_crcBit_lt (Nat.mod_lt _ (by norm_num)) _

theorem foldl_crcBit_eq_iterate (l : List Nat) (t : Nat) :
    l.foldl (fun t _ => crcBit t) t = specShiftStep^[l.length] t := by
  induction l generalizing t with
  | nil => rfl
  | cons _ l ih =>
    simp only [List.foldl_cons, List.length_cons, Function.iterate_succ, Function.comp_apply]
    rw [ih, crcBit_eq_spec]

theorem crcByte_eq_spec {t b : Nat} (ht : t < 65536) (hb : b < 256) :
    crcByte t b = specByteStep t b := by
  unfold crcByte specByteStep
  have hx : t ^^^ b < 2 ^ 16 := Nat.xor_lt_two_pow (by simpa using ht) (by omega)
  rw [foldl_crcBit_eq_iterate, Nat.mod_eq_of_lt (by simpa using hx), xor_low_byte hb]
  rfl

/-- The index loop of `calcCRC` reads exactly the first `n` bytes of the buffer. -/
theorem foldl_range_getD (f : Nat → Nat → Nat) (B : List Nat) (n : Nat) (hn : n ≤ B.length)
    (a : Nat) :
    (List.range n).foldl (fun t i => f t (B.getD i 0)) a = (B.take n).foldl f a := by
  induction n with
  | zero => simp
  | succ n ih =>
    have hlt : n < B.length := by omega
    have ht : B.take (n + 1) = B.take n ++ [B.getD n 0] := by
      rw [List.take_succ, List.getD_eq_getElem?_getD, List.getElem?_eq_getElem hlt]
      rfl
    rw [List.range_succ, List.foldl_append, ih (by omega), ht, List.foldl_append]
    rfl

theorem calcCRC_eq_fold (B : List Nat) (n : Nat) (hn : n ≤ B.length) (h255 : n ≤ 255) :
    calcCRC B n =
      (((B.take n).foldl crcByte 0xFFFF) % 256) * 256 + ((B.take n).foldl crcByte 0xFFFF) / 256 := by
  have hacc : ∀ (l : List Nat) (a : Nat), a < 65536 → l.foldl crcByte a < 65536 := by
    intro l
    induction l with
    | nil => intro a ha; simpa using ha
    | cons b l ih => intro a _; exact ih _ (crcByte_lt a b)
  unfold calcCRC
  simp only []
  rw [Nat.mod_eq_of_lt (by omega : n < 256), foldl_range_getD crcByte B n hn]
  exact swap_bytes (hacc _ _ (by norm_num))

theorem foldl_crcByte_eq_spec (B : List Nat) (hB : IsBytes B) (a : Nat) (ha : a < 65536) :
    B.foldl crcByte a = B.foldl specByteStep a := by
  induction B generalizing a with
  | nil => rfl
  | cons b l ih =>
    simp only [List.foldl_cons]
    rw [← crcByte_eq_spec ha (hB b (by simp))]
    exact ih (fun x hx => hB x (by simp [hx])) _ (crcByte_lt a b)

/-- Claim C1. For every byte sequence `B` of length at most 255, `calcCRC` over all of `B`
equals the reference MODBUS CRC-16 of the specification: seed `0xFFFF`, each byte XOR-ed into
the low byte of the accumulator and followed by 8 right shifts with `0xA001` XOR-ed in whenever
the bit shifted out was 1, and the two bytes of the accumulator swapped in the result. -/
theorem C1_calcCRC_eq_reference (B : List Nat) (hlen : B.length ≤ 255) (hB : IsBytes B) :
    calcCRC B B.length = crc16_modbus B := by
  rw [calcCRC_eq_fold B B.length (le_refl _) hlen, List.take_length]
  unfold crc16_modbus
  rw [foldl_crcByte_eq_spec B hB _ (by norm_num)]

/-- Instance of claim C1: the six header bytes of the request of scenario S1. -/
theorem C1_calcCRC_eq_reference_witness :
    [0x11, 0x03, 0x00, 0x6B, 0x00, 0x03].length ≤ 255 ∧ IsBytes [0x11, 0x03, 0x00, 0x6B, 0x00, 0x03] ∧
      calcCRC [0x11, 0x03, 0x00, 0x6B, 0x00, 0x03] [0x11, 0x03, 0x00, 0x6B, 0x00, 0x03].length
        = crc16_modbus [0x11, 0x03, 0x00, 0x6B, 0x00, 0x03] :=
  ⟨by decide, by decide, C1_calcCRC_eq_reference _ (by decide) (by decide)⟩

theorem crcBit_double (y : Nat) : crcBit (2 * y) = y := by
  unfold crcBit
  simp [Nat.shiftRight_eq_div_pow]

theorem iter8_shift (x : Nat) :
    (List.range 8).foldl (fun t _ => crcBit t) (x * 256) = x := by
  have e : x * 256 = 2 * (2 * (2 * (2 * (2 * (2 * (2 * (2 * x))))))) := by omega
  rw [e]
  simp [List.range, List.range.loop, crcBit_double]

theorem crcByte_low {r : Nat} (hr : r < 65536) : crcByte r (r % 256) = r / 256 := by
  unfold crcByte
  have hx : r ^^^ (r % 256) < 2 ^ 16 := Nat.xor_lt_two_pow (by simpa using hr) (by omega)
  rw [Nat.mod_eq_of_lt (by simpa using hx), xor_low_byte (Nat.mod_lt _ (by norm_num)),
    Nat.xor_self, Nat.add_zero]
  exact iter8_shift _

theorem crcByte_self (x : Nat) : crcByte x x = 0 := by
  unfold crcByte
  rw [Nat.xor_self]
  simp [List.range, List.range.loop, crcBit]

/-- Claim C2. CRC residue: for every byte sequence `B` of length at most 253, with
`c = calcCRC B`, the CRC of `B` followed by the two bytes `c >> 8` and `c & 0xFF` is 0. -/
theorem C2_crc_residue (B : List Nat) (hlen : B.length ≤ 253) :
    calcCRC (B ++ [calcCRC B B.length >>> 8, calcCRC B B.length &&& 0xFF]) (B.length + 2) = 0 := by
  have hacc : ∀ (l : List Nat) (a : Nat), a < 65536 → l.foldl crcByte a < 65536 := by
    intro l
    induction l with
    | nil => intro a ha; simpa using ha
    | cons b l ih => intro a _; exact ih _ (crcByte_lt a b)
  have hr := hacc B 0xFFFF (by norm_num)
  have hc := calcCRC_eq_fold B B.length (le_refl _) (by omega)
  rw [List.take_length] at hc
  have hhi : calcCRC B B.length >>> 8 = B.foldl crcByte 0xFFFF % 256 := by
    rw [hc, Nat.shiftRight_eq_div_pow]; omega
  have hlo : calcCRC B B.length &&& 0xFF = B.foldl crcByte 0xFFFF / 256 := by
    have e : (0xFF : Nat) = 2 ^ 8 - 1 := by norm_num
    rw [e, Nat.and_pow_two_sub_one_eq_mod, hc]; omega
  rw [hhi, hlo, calcCRC_eq_fold _ _ (by simp) (by omega)]
  have ht : List.take (B.length + 2) (B ++ [B.foldl crcByte 0xFFFF % 256, B.foldl crcByte 0xFFFF / 256])
      = B ++ [B.foldl crcByte 0xFFFF % 256, B.foldl crcByte 0xFFFF / 256] := by
    apply List.take_of_length_le; simp
  rw [ht, List.foldl_append]
  simp only [List.foldl_cons, List.foldl_nil]
  rw [crcByte_low hr, crcByte_self]

/-- Instance of claim C2: the six header bytes of the request of scenario S1. -/
theorem C2_crc_residue_witness :
    [0x11, 0x03, 0x00, 0x6B, 0x00, 0x03].length ≤ 253 ∧
      calcCRC ([0x11, 0x03, 0x00, 0x6B, 0x00, 0x03] ++
        [calcCRC [0x11, 0x03, 0x00, 0x6B, 0x00, 0x03] [0x11, 0x03, 0x00, 0x6B, 0x00, 0x03].length >>> 8,
          calcCRC [0x11, 0x03, 0x00, 0x6B, 0x00, 0x03] [0x11, 0x03, 0x00, 0x6B, 0x00, 0x03].length
            &&& 0xFF])
        ([0x11, 0x03, 0x00, 0x6B, 0x00, 0x03].length + 2) = 0 :=
  ⟨by decide, C2_crc_residue _ (by decide)⟩

/-! ## Lists as byte arrays -/

theorem set_append_drop (pre buffer : List Nat) (v : Nat) (h : pre.length < buffer.length) :
    (pre ++ buffer.drop pre.length).set pre.length v
      = (pre ++ [v]) ++ buffer.drop (pre.length + 1) := by
  rw [List.set_append_right _ _ (le_refl _), Nat.sub_self]
  rw [List.drop_eq_getElem_cons h, List.set_cons_zero, List.append_assoc]
  rfl

/-- The copy loop of `RingGetNBytes` after `n` iterations. -/
theorem ring_copy_loop (buff : sRing) (buffer : List Nat) (hok : RingOK buff) (n : Nat)
    (hn : n ≤ buffer.length) :
    (List.range n).foldl
      (fun (st : List Nat × Nat) uCounter =>
        (st.1.set uCounter (buff.u8Buffer.getD st.2 0), ((st.2 + 1) % buff.u16BufferSize) % 256))
      (buffer, buff.u8start)
    = ((List.range n).map
        (fun i => buff.u8Buffer.getD ((buff.u8start + i) % buff.u16BufferSize) 0)
        ++ buffer.drop n, (buff.u8start + n) % buff.u16BufferSize) := by
  obtain ⟨hpos, h255, _, hstart, _⟩ := hok
  induction n with
  | zero => simp [Nat.mod_eq_of_lt hstart]
  | succ n ih =>
    rw [List.range_succ, List.foldl_append, ih (by omega)]
    simp only [List.foldl_cons, List.foldl_nil, List.map_append, List.map_cons, List.map_nil]
    have hlen : ((List.range n).map
        (fun i => buff.u8Buffer.getD ((buff.u8start + i) % buff.u16BufferSize) 0)).length = n := by
      simp
    have hset := set_append_drop ((List.range n).map
        (fun i => buff.u8Buffer.getD ((buff.u8start + i) % buff.u16BufferSize) 0)) buffer
        (buff.u8Buffer.getD ((buff.u8start + n) % buff.u16BufferSize) 0) (by rw [hlen]; omega)
    rw [hlen] at hset
    rw [hset]
    have hm : ((buff.u8start + n) % buff.u16BufferSize + 1) % buff.u16BufferSize % 256
        = (buff.u8start + (n + 1)) % buff.u16BufferSize := by
      have h1 : ((buff.u8start + n) % buff.u16BufferSize + 1) % buff.u16BufferSize
          = (buff.u8start + (n + 1)) % buff.u16BufferSize := by
        rw [← Nat.add_assoc, Nat.add_mod (buff.u8start + n) 1, Nat.add_mod _ 1 buff.u16BufferSize]
        simp
      rw [h1]
      apply Nat.mod_eq_of_lt
      have := Nat.mod_lt (buff.u8start + (n + 1)) hpos
      omega
    rw [hm]

/-- Draining a ring buffer copies its content to the front of the destination and clears it;
an empty ring buffer is left as it is. -/
theorem RingGetAllBytes_eq (buff : sRing) (buffer : List Nat) (hok : RingOK buff)
    (hlen : buff.u8available ≤ buffer.length) :
    RingGetAllBytes buff buffer =
      (if buff.u8available = 0 then buff else RingClear buff,
        RingContent buff ++ buffer.drop (RingContent buff).length,
        (RingContent buff).length) := by
  have hc : (RingContent buff).length = buff.u8available := by simp [RingContent]
  unfold RingGetAllBytes RingGetNBytes
  by_cases h0 : buff.u8available = 0
  · simp [h0, RingContent]
  · have hle : ¬ buff.u8available > buff.u16BufferSize := by
      have := hok.2.2.2.2; omega
    simp only [h0, or_self, if_false, hle, Nat.min_self]
    rw [ring_copy_loop buff buffer hok _ hlen, hc]
    simp [RingClear, RingContent]

/-- The handle after `ReadMasterFrame` drained the FIFO. -/
theorem ReadMasterFrame_eq {σ : Type} (handle : sMODBUS σ) (mFrame0 : sMaster_Frame)
    (B : List Nat) (hok : RingOK handle.pxRxBuff) (hB : RingContent handle.pxRxBuff = B)
    (hm : mFrame0.raw.length = MODBUS_FRAME_MAX_SIZE) :
    ∃ handle1 : sMODBUS σ,
      handle1.u8RxComplete = handle.u8RxComplete ∧ handle1.u8myAddress = handle.u8myAddress ∧
      handle1.coils = handle.coils ∧ handle1.discretes = handle.discretes ∧
      handle1.holdings = handle.holdings ∧ handle1.inputs = handle.inputs ∧
      handle1.hwDataTx = handle.hwDataTx ∧
      handle1.writeCmpltCallback = handle.writeCmpltCallback ∧
      ReadMasterFrame handle mFrame0 =
        (if B.length < MASTER_FRAME_LENGTH ∨
            (B ++ mFrame0.raw.drop B.length).getD 0 0 ≠ handle.u8myAddress then
          (Exception_InvalidFrame, handle1,
            { u16Length := B.length, raw := B ++ mFrame0.raw.drop B.length })
        else
          match ReadMasterFrame_len
            { u16Length := B.length, raw := B ++ mFrame0.raw.drop B.length } with
          | none => (Exception_IllegalFunc, handle1,
              { u16Length := B.length, raw := B ++ mFrame0.raw.drop B.length })
          | some len =>
            if calcCRC (B ++ mFrame0.raw.drop B.length) len ≠
                ((B ++ mFrame0.raw.drop B.length).getD (len + 0) 0 <<< 8 |||
                  (B ++ mFrame0.raw.drop B.length).getD (len + 1) 0) then
              (Exception_InvalidFrame, handle1,
                { u16Length := B.length, raw := B ++ mFrame0.raw.drop B.length })
            else
              (Exception_NoException, handle1,
                { u16Length := B.length, raw := B ++ mFrame0.raw.drop B.length })) := by
  have havail : handle.pxRxBuff.u8available ≤ mFrame0.raw.length := by
    have h1 := hok.2.1
    have h2 := hok.2.2.2.2
    have h3 : mFrame0.raw.length = 260 := hm
    omega
  refine ⟨{ handle with pxRxBuff :=
      if handle.pxRxBuff.u8available = 0 then handle.pxRxBuff else RingClear handle.pxRxBuff },
    rfl, rfl, rfl, rfl, rfl, rfl, rfl, rfl, ?_⟩
  unfold ReadMasterFrame
  rw [RingGetAllBytes_eq _ _ hok havail, hB]
  rfl

/-- Claim C4. A frame for another slave is dropped: when the first byte of the FIFO content
differs from the local address, one run of `MODBUS_SlaveTask` with the RX-complete flag set
calls no callback at all (the world, trace included, is unchanged), so the transmit callback is
invoked zero times, whatever the handlers are. -/
theorem C4_no_reply_to_other_slave {σ : Type} (handle : sMODBUS σ) (w : World σ)
    (mFrame0 : sMaster_Frame) (sFrame0 : sSlave_Frame) (b : Nat) (rest : List Nat)
    (hok : RingOK handle.pxRxBuff) (hB : RingContent handle.pxRxBuff = b :: rest)
    (hm : mFrame0.raw.length = MODBUS_FRAME_MAX_SIZE)
    (hflag : handle.u8RxComplete = 1) (haddr : b ≠ handle.u8myAddress) :
    ∃ handle1 : sMODBUS σ, MODBUS_SlaveTask handle w mFrame0 sFrame0 = some (handle1, w) := by
  obtain ⟨h1, _, _, _, _, _, _, _, _, hread⟩ :=
    ReadMasterFrame_eq { handle with u8RxComplete := 0 } mFrame0 (b :: rest) hok hB hm
  refine ⟨h1, ?_⟩
  unfold MODBUS_SlaveTask
  simp only [hflag, ne_eq, not_true_eq_false, if_false]
  rw [hread]
  simp [haddr]

/-! ## Helper lemmas on frames -/

theorem calcCRC_lt (l : List Nat) (n : Nat) : calcCRC l n < 65536 := by
  unfold calcCRC
  simp only []
  have e1 : (65535 : Nat) = 2 ^ 16 - 1 := by norm_num
  rw [e1, Nat.and_pow_two_sub_one_eq_mod]
  exact Nat.mod_lt _ (by norm_num)

theorem foldl_range_congr (f g : Nat → Nat → Nat) (n : Nat)
    (h : ∀ i, i < n → ∀ a, f a i = g a i) (a : Nat) :
    (List.range n).foldl f a = (List.range n).foldl g a := by
  induction n with
  | zero => rfl
  | succ n ih =>
    rw [List.range_succ, List.foldl_append, List.foldl_append,
      ih (fun i hi => h i (Nat.lt_succ_of_lt hi))]
    simp only [List.foldl_cons, List.foldl_nil]
    exact h n (Nat.lt_succ_self n) _

/-- The function `calcCRC` only looks at the first `n % 256` bytes of its buffer. -/
theorem calcCRC_congr (l1 l2 : List Nat) (n : Nat)
    (h : ∀ i, i < n % 256 → l1.getD i 0 = l2.getD i 0) : calcCRC l1 n = calcCRC l2 n := by
  unfold calcCRC
  simp only []
  rw [foldl_range_congr (fun temp i => crcByte temp (l1.getD i 0))
    (fun temp i => crcByte temp (l2.getD i 0)) (n % 256) (fun i hi a => by simp only [h i hi])]

theorem getD_append_lt (B l : List Nat) (i : Nat) (h : i < B.length) :
    (B ++ l).getD i 0 = B.getD i 0 := by
  simp [List.getD_eq_getElem?_getD, List.getElem?_append_left h]

theorem calcCRC_append (B l : List Nat) (n : Nat) (h : n ≤ B.length) :
    calcCRC (B ++ l) n = calcCRC B n :=
  calcCRC_congr _ _ n (fun i hi => getD_append_lt B l i
    (lt_of_lt_of_le (lt_of_lt_of_le hi (Nat.mod_le _ _)) h))

theorem and_255_eq_mod (c : Nat) : c &&& 0xFF = c % 256 := by
  have e : (0xFF : Nat) = 2 ^ 8 - 1 := by norm_num
  rw [e, Nat.and_pow_two_sub_one_eq_mod]

theorem shr8_lt {c : Nat} (h : c < 65536) : c >>> 8 < 256 := by
  rw [Nat.shiftRight_eq_div_pow]; omega

theorem or_80_lt {fc : Nat} (h : fc < 256) : 0x80 ||| fc < 256 := by
  have : 0x80 ||| fc < 2 ^ 8 := Nat.or_lt_two_pow (by norm_num) (by simpa using h)
  simpa using this

theorem ReadMasterFrame_len_none (f : sMaster_Frame) (h : ¬ SupportedFC f.u8FuncCode) :
    ReadMasterFrame_len f = none := by
  unfold ReadMasterFrame_len
  unfold SupportedFC at h
  split <;> first | rfl | (exfalso; apply h; simp [*])

theorem ReadMasterFrame_len_short (f : sMaster_Frame)
    (h : f.u8FuncCode = 1 ∨ f.u8FuncCode = 2 ∨ f.u8FuncCode = 3 ∨ f.u8FuncCode = 4 ∨
      f.u8FuncCode = 5 ∨ f.u8FuncCode = 6) :
    ReadMasterFrame_len f = some 6 := by
  unfold ReadMasterFrame_len
  rcases h with h | h | h | h | h | h <;> rw [h]

theorem ReadMasterFrame_len_long (f : sMaster_Frame)
    (h : f.u8FuncCode = 15 ∨ f.u8FuncCode = 16) :
    ReadMasterFrame_len f = some ((6 + f.u8ByteCount + 1) % 256) := by
  unfold ReadMasterFrame_len
  rcases h with h | h <;> rw [h]

/-- Every list with at least five elements starts with five elements. -/
theorem exists_cons5 (l : List Nat) (h : 5 ≤ l.length) :
    ∃ x0 x1 x2 x3 x4 tl, l = x0 :: x1 :: x2 :: x3 :: x4 :: tl := by
  match l, h with
  | x0 :: x1 :: x2 :: x3 :: x4 :: tl, _ => exact ⟨x0, x1, x2, x3, x4, tl, rfl⟩

/-- The five bytes of an exception reply. -/
theorem setupExceptionFrame_eq (mFrame : sMaster_Frame) (excpt : eMODBUS_Excpt)
    (sFrame0 : sSlave_Frame) (hs : 5 ≤ sFrame0.raw.length) (hfc : mFrame.u8FuncCode < 256) :
    (setupExceptionFrame mFrame excpt sFrame0).u16Length = 5 ∧
    (setupExceptionFrame mFrame excpt sFrame0).raw.take 5 =
      [mFrame.u8DevID, 0x80 ||| mFrame.u8FuncCode, excpt.toNat,
        calcCRC [mFrame.u8DevID, 0x80 ||| mFrame.u8FuncCode, excpt.toNat] 3 >>> 8,
        calcCRC [mFrame.u8DevID, 0x80 ||| mFrame.u8FuncCode, excpt.toNat] 3 &&& 0xFF] := by
  obtain ⟨x0, x1, x2, x3, x4, tl, hl⟩ := exists_cons5 sFrame0.raw hs
  have he : excpt.toNat % 256 = excpt.toNat := by cases excpt <;> rfl
  have hcrc : calcCRC (mFrame.u8DevID :: (0x80 ||| mFrame.u8FuncCode) :: excpt.toNat :: x3 :: x4 :: tl) 3
      = calcCRC [mFrame.u8DevID, 0x80 ||| mFrame.u8FuncCode, excpt.toNat] 3 :=
    calcCRC_append [mFrame.u8DevID, 0x80 ||| mFrame.u8FuncCode, excpt.toNat] (x3 :: x4 :: tl) 3
      (by simp)
  unfold setupExceptionFrame
  simp only [hl, he, Nat.mod_eq_of_lt (or_80_lt hfc), List.set_cons_zero, List.set_cons_succ,
    List.take_succ_cons, List.take_zero, hcrc, and_255_eq_mod,
    Nat.mod_eq_of_lt (shr8_lt (calcCRC_lt _ _)), true_and]

/-- Instance of claim C4: the slave with address `0x12` gets the request of scenario S1, which
is addressed to `0x11`. -/
theorem C4_no_reply_to_other_slave_witness :
    RingOK other_handle.pxRxBuff ∧
    RingContent other_handle.pxRxBuff = 0x11 :: [0x03, 0x00, 0x6B, 0x00, 0x03, 0x76, 0x87] ∧
    zeroMaster.raw.length = MODBUS_FRAME_MAX_SIZE ∧ other_handle.u8RxComplete = 1 ∧
    0x11 ≠ other_handle.u8myAddress ∧
    ∃ handle1 : sMODBUS Unit,
      MODBUS_SlaveTask other_handle world0 zeroMaster zeroSlave = some (handle1, world0) :=
  ⟨by decide, by decide, by decide, by decide, by decide,
    C4_no_reply_to_other_slave other_handle world0 zeroMaster zeroSlave 0x11
      [0x03, 0x00, 0x6B, 0x00, 0x03, 0x76, 0x87] (by decide) (by decide) (by decide) (by decide)
      (by decide)⟩

/-- Claim C6. Scenario S4 in general: when the received frame has at least 8 bytes, starts with
the local address and carries a function code `f` outside the eight supported ones, one run of
`MODBUS_SlaveTask` calls the transmit callback once, with the 5 bytes
`[address, f OR 0x80, 0x01, c >> 8, c & 0xFF]`, `c` the `calcCRC` of the first three, and calls
no other callback. -/
theorem C6_unsupported_function_reply {σ : Type} (handle : sMODBUS σ) (w : World σ)
    (mFrame0 : sMaster_Frame) (sFrame0 : sSlave_Frame) (B : List Nat)
    (hok : RingOK handle.pxRxBuff) (hB : RingContent handle.pxRxBuff = B) (hbytes : IsBytes B)
    (hm : mFrame0.raw.length = MODBUS_FRAME_MAX_SIZE)
    (hs : sFrame0.raw.length = MODBUS_FRAME_MAX_SIZE)
    (hflag : handle.u8RxComplete = 1) (hlen : 8 ≤ B.length)
    (haddr : B.getD 0 0 = handle.u8myAddress) (hfc : ¬ SupportedFC (B.getD 1 0)) :
    ∃ handle1 : sMODBUS σ,
      MODBUS_SlaveTask handle w mFrame0 sFrame0 =
        some (handle1,
          w.call (Event.hwDataTx (exceptionReply handle.u8myAddress (B.getD 1 0) 0x01))
            (handle.hwDataTx (exceptionReply handle.u8myAddress (B.getD 1 0) 0x01) w.app)) := by
  obtain ⟨h1, _, _, _, _, _, _, htx, _, hread⟩ :=
    ReadMasterFrame_eq { handle with u8RxComplete := 0 } mFrame0 B hok hB hm
  have hlen8 : ¬ B.length < 8 := by omega
  have h0 : (B ++ mFrame0.raw.drop B.length).getD 0 0 = handle.u8myAddress := by
    rw [getD_append_lt _ _ _ (by omega)]; exact haddr
  have h1fc : (B ++ mFrame0.raw.drop B.length).getD 1 0 = B.getD 1 0 :=
    getD_append_lt _ _ _ (by omega)
  have hfcb : B.getD 1 0 < 256 := by
    have hmem : B.getD 1 0 ∈ B := by
      rw [List.getD_eq_getElem?_getD, List.getElem?_eq_getElem (by omega : 1 < B.length)]
      exact List.getElem_mem _
    exact hbytes _ hmem
  have hnone : ReadMasterFrame_len
      { u16Length := B.length, raw := B ++ mFrame0.raw.drop B.length } = none :=
    ReadMasterFrame_len_none _ (by
      show ¬ SupportedFC ((B ++ mFrame0.raw.drop B.length).getD 1 0)
      rw [h1fc]; exact hfc)
  have hexc := setupExceptionFrame_eq
    { u16Length := B.length, raw := B ++ mFrame0.raw.drop B.length } Exception_IllegalFunc sFrame0
    (by have h3 : sFrame0.raw.length = 260 := hs
        omega)
    (by show (B ++ mFrame0.raw.drop B.length).getD 1 0 < 256
        rw [h1fc]; exact hfcb)
  have hid : ({ u16Length := B.length, raw := B ++ mFrame0.raw.drop B.length } :
      sMaster_Frame).u8DevID = handle.u8myAddress := h0
  have hfc2 : ({ u16Length := B.length, raw := B ++ mFrame0.raw.drop B.length } :
      sMaster_Frame).u8FuncCode = B.getD 1 0 := h1fc
  rw [hid, hfc2] at hexc
  refine ⟨h1, ?_⟩
  unfold MODBUS_SlaveTask
  simp only [hflag, ne_eq, not_true_eq_false, if_false]
  rw [hread]
  simp only [hlen8, MASTER_FRAME_LENGTH, h0, ne_eq, not_true_eq_false, or_self, if_false, hnone]
  have hdata : (setupExceptionFrame
      { u16Length := B.length, raw := B ++ mFrame0.raw.drop B.length } Exception_IllegalFunc
        sFrame0).raw.take
      ((setupExceptionFrame
        { u16Length := B.length, raw := B ++ mFrame0.raw.drop B.length } Exception_IllegalFunc
          sFrame0).u16Length % 256) = exceptionReply handle.u8myAddress (B.getD 1 0) 0x01 := by
    rw [hexc.1]
    show List.take 5 _ = _
    rw [hexc.2]
    simp only [exceptionReply, eMODBUS_Excpt.toNat, Nat.lor_comm]
  simp only [reduceCtorEq, if_false, ne_eq, not_false_eq_true, if_true, hdata, htx]

/-- Claim C3, at the input where the code leaves it. The slave with address `0x11` received the
eight bytes `11 0F 4D E4 00 00 FB 00`: function code 15 and byte count `0xFB = 251`. The
specification's CRC-covered length is `6 + 251 + 1 = 258`, and the CRC of the first 258 bytes of
the frame buffer differs from the bytes 258 and 259; the code computes the length in a `uint8_t`,
gets `258 mod 256 = 2`, compares the CRC of the first two bytes with bytes 2 and 3 and returns
`Exception_NoException`. -/
theorem C3_wrapped_length_accepted :
    (ReadMasterFrame wrap_handle zeroMaster).1 = Exception_NoException ∧
    (ReadMasterFrame wrap_handle zeroMaster).2.2.u16Length = 8 ∧
    (ReadMasterFrame wrap_handle zeroMaster).2.2.u8FuncCode = 15 ∧
    (ReadMasterFrame wrap_handle zeroMaster).2.2.u8ByteCount = 251 ∧
    crc16_modbus ((ReadMasterFrame wrap_handle zeroMaster).2.2.raw.take (6 + 251 + 1)) ≠
      ((ReadMasterFrame wrap_handle zeroMaster).2.2.raw.getD (6 + 251 + 1) 0 <<< 8 |||
        (ReadMasterFrame wrap_handle zeroMaster).2.2.raw.getD (6 + 251 + 1 + 1) 0) := by
  have hraw : (ReadMasterFrame wrap_handle zeroMaster).2.2.raw =
      wrap_request ++ List.replicate 252 0 := by decide
  have htake : (wrap_request ++ List.replicate 252 0).take (6 + 251 + 1) =
      wrap_request ++ (List.replicate 36 0 ++ (List.replicate 36 0 ++ (List.replicate 36 0 ++
        (List.replicate 36 0 ++ (List.replicate 36 0 ++ (List.replicate 36 0 ++
          List.replicate 34 0)))))) := by decide
  have hget : (wrap_request ++ List.replicate 252 0).getD (6 + 251 + 1) 0 <<< 8 |||
      (wrap_request ++ List.replicate 252 0).getD (6 + 251 + 1 + 1) 0 = 0 := by decide
  have c0 : wrap_request.foldl specByteStep 0xFFFF = 12355 := by decide
  have c1 : (List.replicate 36 0).foldl specByteStep 12355 = 4411 := by decide
  have c2 : (List.replicate 36 0).foldl specByteStep 4411 = 61114 := by decide
  have c3 : (List.replicate 36 0).foldl specByteStep 61114 = 18550 := by decide
  have c4 : (List.replicate 36 0).foldl specByteStep 18550 = 37541 := by decide
  have c5 : (List.replicate 36 0).foldl specByteStep 37541 = 26329 := by decide
  have c6 : (List.replicate 36 0).foldl specByteStep 26329 = 61905 := by decide
  have c7 : (List.replicate 34 0).foldl specByteStep 61905 = 39686 := by decide
  refine ⟨by decide, by decide, by decide, by decide, ?_⟩
  rw [hraw, htake, hget]
  unfold crc16_modbus
  simp only [List.foldl_append, c0, c1, c2, c3, c4, c5, c6, c7]
  decide

/-- Instance of claim C6, scenario S4: the slave with address `0x11` received
`11 07 00 00 00 00 B6 9A` and transmits `11 87 01 83 F5`. -/
theorem C6_unsupported_function_reply_witness :
    RingOK S4_handle.pxRxBuff ∧ RingContent S4_handle.pxRxBuff = S4_request ∧
    IsBytes S4_request ∧ zeroMaster.raw.length = MODBUS_FRAME_MAX_SIZE ∧
    zeroSlave.raw.length = MODBUS_FRAME_MAX_SIZE ∧ S4_handle.u8RxComplete = 1 ∧
    8 ≤ S4_request.length ∧ S4_request.getD 0 0 = S4_handle.u8myAddress ∧
    ¬ SupportedFC (S4_request.getD 1 0) ∧
    exceptionReply S4_handle.u8myAddress (S4_request.getD 1 0) 0x01
      = [0x11, 0x87, 0x01, 0x83, 0xF5] ∧
    ∃ handle1 : sMODBUS Unit,
      MODBUS_SlaveTask S4_handle world0 zeroMaster zeroSlave =
        some (handle1,
          world0.call
            (Event.hwDataTx (exceptionReply S4_handle.u8myAddress (S4_request.getD 1 0) 0x01))
            (S4_handle.hwDataTx (exceptionReply S4_handle.u8myAddress (S4_request.getD 1 0) 0x01)
              world0.app)) :=
  ⟨by decide, by decide, by decide, by decide, by decide, by decide, by decide, by decide,
    by decide, by decide,
    C6_unsupported_function_reply S4_handle world0 zeroMaster zeroSlave S4_request (by decide)
      (by decide) (by decide) (by decide) (by decide) (by decide) (by decide) (by decide)
      (by decide)⟩

/-- Claim C5 fails when the function code is not supported: the slave with address `0x11`
received `11 07 00 00 00 00 00 00`, whose last two bytes are not the CRC of the six bytes before
them, with the RX-complete flag set, and it transmits the exception reply `11 87 01 83 F5`. -/
theorem C5_counterexample :
    S4_corrupted_handle.u8RxComplete = 1 ∧
    RingContent S4_corrupted_handle.pxRxBuff = S4_corrupted ∧
    calcCRC (S4_corrupted.take (S4_corrupted.length - 2)) (S4_corrupted.length - 2) ≠
      (S4_corrupted.getD (S4_corrupted.length - 2) 0 <<< 8 |||
        S4_corrupted.getD (S4_corrupted.length - 1) 0) ∧
    (MODBUS_SlaveTask S4_corrupted_handle world0 zeroMaster zeroSlave).map
      (fun r => txFrames r.2.trace) = some [[0x11, 0x87, 0x01, 0x83, 0xF5]] := by
  decide

/-- Claim C5, amended. A corrupted frame with a supported function code is dropped: when the
received frame carries one of the eight supported function codes, has the length that function
code implies (the CRC-covered length of the specification plus 2) and its last two bytes are not
the CRC of the bytes before them, one run of `MODBUS_SlaveTask` with the RX-complete flag set
calls no callback at all (so the transmit callback is invoked zero times) and leaves the
RX-complete flag cleared. -/
theorem C5_no_reply_to_corrupted_frame {σ : Type} (handle : sMODBUS σ) (w : World σ)
    (mFrame0 : sMaster_Frame) (sFrame0 : sSlave_Frame) (B : List Nat)
    (hok : RingOK handle.pxRxBuff) (hB : RingContent handle.pxRxBuff = B)
    (hm : mFrame0.raw.length = MODBUS_FRAME_MAX_SIZE)
    (hflag : handle.u8RxComplete = 1) (hfc : SupportedFC (B.getD 1 0))
    (hlen : B.length = specCrcLength B + 2)
    (hcrc : calcCRC (B.take (B.length - 2)) (B.length - 2) ≠
      (B.getD (B.length - 2) 0 <<< 8 ||| B.getD (B.length - 1) 0)) :
    ∃ handle1 : sMODBUS σ,
      MODBUS_SlaveTask handle w mFrame0 sFrame0 = some (handle1, w) ∧
      handle1.u8RxComplete = 0 := by
  obtain ⟨h1, hrx, _, _, _, _, _, _, _, hread⟩ :=
    ReadMasterFrame_eq { handle with u8RxComplete := 0 } mFrame0 B hok hB hm
  have hB255 : B.length ≤ 255 := by
    have e : B.length = handle.pxRxBuff.u8available := by rw [← hB]; simp [RingContent]
    have h1 := hok.2.1
    have h2 := hok.2.2.2.2
    omega
  have hL : specCrcLength B + 2 = B.length := hlen.symm
  have hlen8 : ¬ B.length < 8 := by
    unfold specCrcLength at hL
    split at hL <;> omega
  have h1fc : (B ++ mFrame0.raw.drop B.length).getD 1 0 = B.getD 1 0 :=
    getD_append_lt _ _ _ (by omega)
  have h6 : (B ++ mFrame0.raw.drop B.length).getD 6 0 = B.getD 6 0 :=
    getD_append_lt _ _ _ (by omega)
  have hF1 : ({ u16Length := B.length, raw := B ++ mFrame0.raw.drop B.length } :
      sMaster_Frame).u8FuncCode = B.getD 1 0 := h1fc
  have hF6 : ({ u16Length := B.length, raw := B ++ mFrame0.raw.drop B.length } :
      sMaster_Frame).u8ByteCount = B.getD 6 0 := h6
  have hlenEq : ReadMasterFrame_len
      { u16Length := B.length, raw := B ++ mFrame0.raw.drop B.length } =
        some (B.length - 2) := by
    by_cases hlong : B.getD 1 0 = 15 ∨ B.getD 1 0 = 16
    · rw [ReadMasterFrame_len_long _ (by rw [hF1]; exact hlong), hF6]
      unfold specCrcLength at hL
      rw [if_pos hlong] at hL
      congr 1
      omega
    · rw [ReadMasterFrame_len_short _ (by
        rw [hF1]
        unfold SupportedFC at hfc
        tauto)]
      unfold specCrcLength at hL
      rw [if_neg hlong] at hL
      congr 1
      omega
  have hcrcEq : calcCRC (B ++ mFrame0.raw.drop B.length) (B.length - 2) =
      calcCRC (B.take (B.length - 2)) (B.length - 2) := by
    rw [calcCRC_append _ _ _ (by omega)]
    apply calcCRC_congr
    intro i hi
    have hi2 : i < B.length - 2 := lt_of_lt_of_le hi (Nat.mod_le _ _)
    simp only [List.getD_eq_getElem?_getD, List.getElem?_take, hi2, if_true]
  have hg1 : (B ++ mFrame0.raw.drop B.length).getD (B.length - 2 + 0) 0 =
      B.getD (B.length - 2) 0 := getD_append_lt _ _ _ (by omega)
  have hg2 : (B ++ mFrame0.raw.drop B.length).getD (B.length - 2 + 1) 0 =
      B.getD (B.length - 1) 0 := by
    rw [getD_append_lt _ _ _ (by omega)]
    congr 1
    omega
  refine ⟨h1, ?_, hrx⟩
  unfold MODBUS_SlaveTask
  simp only [hflag, ne_eq, not_true_eq_false, if_false]
  rw [hread]
  by_cases haddr : (B ++ mFrame0.raw.drop B.length).getD 0 0 = handle.u8myAddress
  · simp only [hlen8, MASTER_FRAME_LENGTH, haddr, ne_eq, not_true_eq_false, or_self, if_false,
      hlenEq, hcrcEq, hg1, hg2, hcrc, not_false_eq_true, if_true, reduceCtorEq]
  · simp only [haddr, ne_eq, not_false_eq_true, or_true, if_true, reduceCtorEq, if_false,
      not_true_eq_false]

/-- Instance of claim C5 as amended: the request of scenario S1 with the CRC `76 88`. -/
theorem C5_no_reply_to_corrupted_frame_witness :
    RingOK S5_handle.pxRxBuff ∧ RingContent S5_handle.pxRxBuff = S5_request ∧
    zeroMaster.raw.length = MODBUS_FRAME_MAX_SIZE ∧ S5_handle.u8RxComplete = 1 ∧
    SupportedFC (S5_request.getD 1 0) ∧ S5_request.length = specCrcLength S5_request + 2 ∧
    calcCRC (S5_request.take (S5_request.length - 2)) (S5_request.length - 2) ≠
      (S5_request.getD (S5_request.length - 2) 0 <<< 8 |||
        S5_request.getD (S5_request.length - 1) 0) ∧
    ∃ handle1 : sMODBUS Unit,
      MODBUS_SlaveTask S5_handle world0 zeroMaster zeroSlave = some (handle1, world0) ∧
      handle1.u8RxComplete = 0 :=
  ⟨by decide, by decide, by decide, by decide, by decide, by decide, by decide,
    C5_no_reply_to_corrupted_frame S5_handle world0 zeroMaster zeroSlave S5_request (by decide)
      (by decide) (by decide) (by decide) (by decide) (by decide) (by decide)⟩

/-! ## Master request encoding and its decoding -/

theorem exists_cons8 (l : List Nat) (h : 8 ≤ l.length) :
    ∃ x0 x1 x2 x3 x4 x5 x6 x7 tl, l = x0 :: x1 :: x2 :: x3 :: x4 :: x5 :: x6 :: x7 :: tl := by
  match l, h with
  | x0 :: x1 :: x2 :: x3 :: x4 :: x5 :: x6 :: x7 :: tl, _ =>
    exact ⟨x0, x1, x2, x3, x4, x5, x6, x7, tl, rfl⟩

theorem shr8_lt_of_lt {x : Nat} (h : x < 65536) : (x >>> 8) % 256 = x >>> 8 :=
  Nat.mod_eq_of_lt (shr8_lt h)

theorem and_255_mod (x : Nat) : (x &&& 0xff) % 256 = x &&& 0xFF := by
  rw [and_255_eq_mod, Nat.mod_mod]

theorem hi_lo_or (k : Nat) : (k >>> 8) <<< 8 ||| (k &&& 0xFF) = k := by
  have hlt : k % 2 ^ 8 < 2 ^ 8 := Nat.mod_lt _ (by norm_num)
  have e := Nat.mul_add_lt_is_or hlt (k / 2 ^ 8)
  rw [Nat.shiftLeft_eq, Nat.shiftRight_eq_div_pow, and_255_eq_mod, Nat.mul_comm]
  have e2 : (256 : Nat) = 2 ^ 8 := by norm_num
  rw [e2, ← e]
  exact Nat.div_add_mod k (2 ^ 8)

theorem hi_lo_add (k : Nat) : (k >>> 8) <<< 8 + (k &&& 0xFF) = k := by
  rw [Nat.shiftLeft_eq, Nat.shiftRight_eq_div_pow, and_255_eq_mod]
  have := Nat.div_add_mod k 256
  omega

/-- The frame built by `FrameMaster_FromCommand`: the eight bytes of `commandFrame` followed by
what the frame variable held before. -/
theorem FrameMaster_FromCommand_eq (cmd : sMODBUS_Commmand) (mFrame0 : sMaster_Frame)
    (hm : mFrame0.raw.length = MODBUS_FRAME_MAX_SIZE) (hcmd : CommandOK cmd) :
    FrameMaster_FromCommand cmd mFrame0 =
      { u16Length := 8, raw := commandFrame cmd ++ mFrame0.raw.drop 8 } := by
  obtain ⟨hid, hfc, haddr, hlen⟩ := hcmd
  have h8 : 8 ≤ mFrame0.raw.length := by
    have h3 : mFrame0.raw.length = 260 := hm
    omega
  obtain ⟨x0, x1, x2, x3, x4, x5, x6, x7, tl, hl⟩ := exists_cons8 mFrame0.raw h8
  have hcrc : calcCRC (cmd.slaveID :: cmd.functionCode :: cmd.regAddress >>> 8 ::
      (cmd.regAddress &&& 0xFF) :: cmd.length >>> 8 :: (cmd.length &&& 0xFF) :: x6 :: x7 :: tl) 6
      = calcCRC (commandHeader cmd) 6 :=
    calcCRC_append (commandHeader cmd) (x6 :: x7 :: tl) 6 (by simp [commandHeader])
  unfold FrameMaster_FromCommand FrameMaster_AppendCRC
  simp only [hl, MASTER_HEADER_BYTES, Nat.mod_eq_of_lt hid, Nat.mod_eq_of_lt hfc,
    shr8_lt_of_lt haddr, shr8_lt_of_lt hlen, and_255_mod, List.set_cons_zero, List.set_cons_succ,
    hcrc, Nat.mod_eq_of_lt (shr8_lt (calcCRC_lt _ _))]
  simp [commandFrame, commandHeader, and_255_eq_mod]

/-- Claim C7. Layout of `FrameMaster_FromCommand`: for every command `c` (its fields within
their C types) the frame has total length 8 and its bytes are `c.slaveID`, `c.functionCode`,
`c.regAddress >> 8`, `c.regAddress & 0xFF`, `c.length >> 8`, `c.length & 0xFF`, `k >> 8`,
`k & 0xFF`, with `k` the `calcCRC` of the first six bytes. -/
theorem C7_FromCommand_layout (cmd : sMODBUS_Commmand) (mFrame0 : sMaster_Frame)
    (hm : mFrame0.raw.length = MODBUS_FRAME_MAX_SIZE) (hcmd : CommandOK cmd) :
    (FrameMaster_FromCommand cmd mFrame0).u16Length = 8 ∧
    (FrameMaster_FromCommand cmd mFrame0).raw.take
        (FrameMaster_FromCommand cmd mFrame0).u16Length =
      [cmd.slaveID, cmd.functionCode, cmd.regAddress >>> 8, cmd.regAddress &&& 0xFF,
        cmd.length >>> 8, cmd.length &&& 0xFF,
        calcCRC [cmd.slaveID, cmd.functionCode, cmd.regAddress >>> 8, cmd.regAddress &&& 0xFF,
          cmd.length >>> 8, cmd.length &&& 0xFF] 6 >>> 8,
        calcCRC [cmd.slaveID, cmd.functionCode, cmd.regAddress >>> 8, cmd.regAddress &&& 0xFF,
          cmd.length >>> 8, cmd.length &&& 0xFF] 6 &&& 0xFF] := by
  rw [FrameMaster_FromCommand_eq cmd mFrame0 hm hcmd]
  refine ⟨rfl, ?_⟩
  show List.take 8 (commandFrame cmd ++ mFrame0.raw.drop 8) = _
  rw [List.take_append_of_le_length (by simp [commandFrame, commandHeader])]
  simp [commandFrame, commandHeader]

/-- Instance of claim C7: the read command of scenario S1 is encoded as
`11 03 00 6B 00 03 76 87`. -/
theorem C7_FromCommand_layout_witness :
    zeroMaster.raw.length = MODBUS_FRAME_MAX_SIZE ∧ CommandOK S1_command ∧
    (FrameMaster_FromCommand S1_command zeroMaster).raw.take
        (FrameMaster_FromCommand S1_command zeroMaster).u16Length
      = [0x11, 0x03, 0x00, 0x6B, 0x00, 0x03, 0x76, 0x87] ∧
    ((FrameMaster_FromCommand S1_command zeroMaster).u16Length = 8 ∧
    (FrameMaster_FromCommand S1_command zeroMaster).raw.take
        (FrameMaster_FromCommand S1_command zeroMaster).u16Length =
      [S1_command.slaveID, S1_command.functionCode, S1_command.regAddress >>> 8,
        S1_command.regAddress &&& 0xFF, S1_command.length >>> 8, S1_command.length &&& 0xFF,
        calcCRC [S1_command.slaveID, S1_command.functionCode, S1_command.regAddress >>> 8,
          S1_command.regAddress &&& 0xFF, S1_command.length >>> 8,
          S1_command.length &&& 0xFF] 6 >>> 8,
        calcCRC [S1_command.slaveID, S1_command.functionCode, S1_command.regAddress >>> 8,
          S1_command.regAddress &&& 0xFF, S1_command.length >>> 8,
          S1_command.length &&& 0xFF] 6 &&& 0xFF]) :=
  ⟨by decide, by decide, by decide,
    C7_FromCommand_layout S1_command zeroMaster (by decide) (by decide)⟩

theorem commandFrame_length (cmd : sMODBUS_Commmand) : (commandFrame cmd).length = 8 := by
  simp [commandFrame, commandHeader]

/-- Decoding of the eight bytes of a request with a function code from 1 to 6, sent to the
local address: the request is accepted and the frame holds its bytes. -/
theorem ReadMasterFrame_command {σ : Type} (handle : sMODBUS σ) (mFrame0 : sMaster_Frame)
    (cmd : sMODBUS_Commmand) (hok : RingOK handle.pxRxBuff)
    (hB : RingContent handle.pxRxBuff = commandFrame cmd)
    (hm : mFrame0.raw.length = MODBUS_FRAME_MAX_SIZE)
    (haddr : handle.u8myAddress = cmd.slaveID)
    (hfc : cmd.functionCode = 1 ∨ cmd.functionCode = 2 ∨ cmd.functionCode = 3 ∨
      cmd.functionCode = 4 ∨ cmd.functionCode = 5 ∨ cmd.functionCode = 6) :
    ∃ handle1 : sMODBUS σ,
      handle1.u8RxComplete = handle.u8RxComplete ∧ handle1.u8myAddress = handle.u8myAddress ∧
      handle1.coils = handle.coils ∧ handle1.discretes = handle.discretes ∧
      handle1.holdings = handle.holdings ∧ handle1.inputs = handle.inputs ∧
      handle1.hwDataTx = handle.hwDataTx ∧
      handle1.writeCmpltCallback = handle.writeCmpltCallback ∧
      ReadMasterFrame handle mFrame0 =
        (Exception_NoException, handle1,
          { u16Length := 8, raw := commandFrame cmd ++ mFrame0.raw.drop 8 }) := by
  obtain ⟨h1, f1, f2, f3, f4, f5, f6, f7, f8, hread⟩ :=
    ReadMasterFrame_eq handle mFrame0 (commandFrame cmd) hok hB hm
  refine ⟨h1, f1, f2, f3, f4, f5, f6, f7, f8, ?_⟩
  rw [hread, commandFrame_length]
  have h0 : (commandFrame cmd ++ mFrame0.raw.drop 8).getD 0 0 = handle.u8myAddress := by
    rw [haddr]; rfl
  have hF1 : ({ u16Length := 8, raw := commandFrame cmd ++ mFrame0.raw.drop 8 } :
      sMaster_Frame).u8FuncCode = cmd.functionCode := rfl
  have hlenEq := ReadMasterFrame_len_short
    { u16Length := 8, raw := commandFrame cmd ++ mFrame0.raw.drop 8 } (by rw [hF1]; exact hfc)
  have hcrc : calcCRC (commandFrame cmd ++ mFrame0.raw.drop 8) 6 =
      calcCRC (commandHeader cmd) 6 := by
    unfold commandFrame
    rw [List.append_assoc]
    exact calcCRC_append _ _ 6 (by simp [commandHeader])
  have hrx : (commandFrame cmd ++ mFrame0.raw.drop 8).getD (6 + 0) 0 <<< 8 |||
      (commandFrame cmd ++ mFrame0.raw.drop 8).getD (6 + 1) 0 = calcCRC (commandHeader cmd) 6 :=
    hi_lo_or _
  simp only [MASTER_FRAME_LENGTH, Nat.lt_irrefl, h0, ne_eq, not_true_eq_false, or_self, if_false,
    hlenEq, hcrc, hrx]

/-- Claim C8 fails for the function codes 15 and 16, whose encoding carries neither byte count
nor payload. First conjuncts: the command (slave `0x11`, code 16, address `0x2013`, length 1) is
encoded as `11 10 20 13 00 01 F9 5C`; the decoder takes `F9` for the byte count and rejects the
frame. Last conjuncts: for (slave `0x11`, code 16, address 0, length 1) the decoder looks for
the CRC behind the eight received bytes; when the frame variable held `0xFF` bytes, it rejects
the frame. -/
theorem C8_counterexample :
    CommandOK wrap_command ∧ SupportedFC wrap_command.functionCode ∧
    wrap_command_handle.u8myAddress = wrap_command.slaveID ∧
    RingContent wrap_command_handle.pxRxBuff =
      (FrameMaster_FromCommand wrap_command zeroMaster).raw.take
        (FrameMaster_FromCommand wrap_command zeroMaster).u16Length ∧
    (ReadMasterFrame wrap_command_handle zeroMaster).1 = Exception_InvalidFrame ∧
    CommandOK multi_command ∧ SupportedFC multi_command.functionCode ∧
    multi_command_handle.u8myAddress = multi_command.slaveID ∧
    RingContent multi_command_handle.pxRxBuff =
      (FrameMaster_FromCommand multi_command zeroMaster).raw.take
        (FrameMaster_FromCommand multi_command zeroMaster).u16Length ∧
    (ReadMasterFrame multi_command_handle onesMaster).1 = Exception_InvalidFrame := by
  decide

/-- Claim C8, amended. Encode/decode round trip for the function codes 1 to 6: when the bytes of
`FrameMaster_FromCommand c` are the FIFO content of an engine whose local address is
`c.slaveID`, `ReadMasterFrame` returns `Exception_NoException` and the decoded slave id,
function code, 16-bit address and 16-bit length equal those of `c`. -/
theorem C8_round_trip {σ : Type} (handle : sMODBUS σ) (cmd : sMODBUS_Commmand)
    (encFrame0 mFrame0 : sMaster_Frame)
    (henc : encFrame0.raw.length = MODBUS_FRAME_MAX_SIZE)
    (hm : mFrame0.raw.length = MODBUS_FRAME_MAX_SIZE) (hcmd : CommandOK cmd)
    (hfc : cmd.functionCode = 1 ∨ cmd.functionCode = 2 ∨ cmd.functionCode = 3 ∨
      cmd.functionCode = 4 ∨ cmd.functionCode = 5 ∨ cmd.functionCode = 6)
    (hok : RingOK handle.pxRxBuff)
    (hB : RingContent handle.pxRxBuff =
      (FrameMaster_FromCommand cmd encFrame0).raw.take
        (FrameMaster_FromCommand cmd encFrame0).u16Length)
    (haddr : handle.u8myAddress = cmd.slaveID) :
    (ReadMasterFrame handle mFrame0).1 = Exception_NoException ∧
    (ReadMasterFrame handle mFrame0).2.2.u8DevID = cmd.slaveID ∧
    (ReadMasterFrame handle mFrame0).2.2.u8FuncCode = cmd.functionCode ∧
    ((ReadMasterFrame handle mFrame0).2.2.u8AddressHigh <<< 8) +
      (ReadMasterFrame handle mFrame0).2.2.u8AddressLow = cmd.regAddress ∧
    ((ReadMasterFrame handle mFrame0).2.2.u8Length_High <<< 8) +
      (ReadMasterFrame handle mFrame0).2.2.u8Length_Low = cmd.length := by
  have hB2 : RingContent handle.pxRxBuff = commandFrame cmd := by
    rw [hB, FrameMaster_FromCommand_eq cmd encFrame0 henc hcmd]
    show List.take 8 (commandFrame cmd ++ encFrame0.raw.drop 8) = _
    rw [List.take_append_of_le_length (by rw [commandFrame_length]), List.take_of_length_le]
    rw [commandFrame_length]
  obtain ⟨h1, _, _, _, _, _, _, _, _, hread⟩ :=
    ReadMasterFrame_command handle mFrame0 cmd hok hB2 hm haddr hfc
  rw [hread]
  refine ⟨rfl, rfl, rfl, ?_, ?_⟩
  · exact hi_lo_add cmd.regAddress
  · exact hi_lo_add cmd.length

/-- Instance of claim C8 as amended: the read command of scenario S1. -/
theorem C8_round_trip_witness :
    zeroMaster.raw.length = MODBUS_FRAME_MAX_SIZE ∧ CommandOK S1_command ∧
    (S1_command.functionCode = 1 ∨ S1_command.functionCode = 2 ∨ S1_command.functionCode = 3 ∨
      S1_command.functionCode = 4 ∨ S1_command.functionCode = 5 ∨
      S1_command.functionCode = 6) ∧
    RingOK S1_command_handle.pxRxBuff ∧
    RingContent S1_command_handle.pxRxBuff =
      (FrameMaster_FromCommand S1_command zeroMaster).raw.take
        (FrameMaster_FromCommand S1_command zeroMaster).u16Length ∧
    S1_command_handle.u8myAddress = S1_command.slaveID ∧
    ((ReadMasterFrame S1_command_handle zeroMaster).1 = Exception_NoException ∧
    (ReadMasterFrame S1_command_handle zeroMaster).2.2.u8DevID = S1_command.slaveID ∧
    (ReadMasterFrame S1_command_handle zeroMaster).2.2.u8FuncCode = S1_command.functionCode ∧
    ((ReadMasterFrame S1_command_handle zeroMaster).2.2.u8AddressHigh <<< 8) +
      (ReadMasterFrame S1_command_handle zeroMaster).2.2.u8AddressLow = S1_command.regAddress ∧
    ((ReadMasterFrame S1_command_handle zeroMaster).2.2.u8Length_High <<< 8) +
      (ReadMasterFrame S1_command_handle zeroMaster).2.2.u8Length_Low = S1_command.length) :=
  ⟨by decide, by decide, by decide, by decide, by decide, by decide,
    C8_round_trip S1_command_handle S1_command zeroMaster zeroMaster (by decide) (by decide)
      (by decide) (by decide) (by decide) (by decide) (by decide)⟩

/-! ## Register read response -/

theorem set_at_length (pre : List Nat) (x v : Nat) (tl : List Nat) :
    (pre ++ x :: tl).set pre.length v = pre ++ v :: tl := by
  rw [List.set_append_right _ _ (le_refl _), Nat.sub_self, List.set_cons_zero]

theorem set_skip3 (a b c : Nat) (l : List Nat) (i v : Nat) :
    (a :: b :: c :: l).set (3 + i) v = a :: b :: c :: l.set i v := by
  rw [Nat.add_comm]; rfl

theorem regBytes_length (vals : List Nat) : (regBytes vals).length = 2 * vals.length := by
  induction vals with
  | nil => rfl
  | cons v vs ih => simp only [regBytes, List.length_cons, ih]; omega

/-- One call of `FrameSlave_AppendRegister` on a response that holds `m` registers. -/
theorem FrameSlave_AppendRegister_eq (id fc m : Nat) (bytes : List Nat) (x y : Nat)
    (tl : List Nat) (d : bytesFields) (hb : bytes.length = 2 * m) (hm : 2 * m + 2 < 256) :
    FrameSlave_AppendRegister
        { u16Length := 3 + 2 * m, raw := id :: fc :: (2 * m) :: (bytes ++ x :: y :: tl) } d =
      { u16Length := 3 + 2 * (m + 1)
        raw := id :: fc :: (2 * (m + 1)) :: ((bytes ++ [d.u8_1, d.u8_0]) ++ tl) } := by
  unfold FrameSlave_AppendRegister
  have e1 : 3 + 2 * m + 0 = 3 + bytes.length := by omega
  have e2 : 3 + 2 * m + 1 = 3 + (bytes ++ [d.u8_1]).length := by simp; omega
  have e3 : bytes ++ d.u8_1 :: y :: tl = (bytes ++ [d.u8_1]) ++ y :: tl := by simp
  simp only []
  rw [e1, set_skip3, set_at_length, e2, set_skip3, e3, set_at_length]
  have e4 : (3 + 2 * m + 2) % 65536 = 3 + 2 * (m + 1) := by omega
  have e5 : (2 * m + 2) % 256 = 2 * (m + 1) := by omega
  rw [e4]
  simp only [List.getD_eq_getElem?_getD, List.set_cons_succ, List.set_cons_zero,
    List.getElem?_cons_succ, List.getElem?_cons_zero, Option.getD_some, e5, List.append_assoc,
    List.cons_append, List.nil_append]

theorem exists_cons2 (l : List Nat) (h : 2 ≤ l.length) : ∃ x y tl, l = x :: y :: tl := by
  match l, h with
  | x :: y :: tl, _ => exact ⟨x, y, tl, rfl⟩

theorem exists_cons3 (l : List Nat) (h : 3 ≤ l.length) : ∃ x y z tl, l = x :: y :: z :: tl := by
  match l, h with
  | x :: y :: z :: tl, _ => exact ⟨x, y, z, tl, rfl⟩

theorem range_succ_map_add {α : Type} (f : Nat → α) (n a : Nat) :
    (List.range (n + 1)).map (fun i => f (a + i)) =
      f a :: (List.range n).map (fun i => f (a + 1 + i)) := by
  rw [List.range_succ_eq_map, List.map_cons, List.map_map]
  simp only [Nat.add_zero, List.cons.injEq, true_and]
  apply List.map_congr_left
  intro i _
  simp only [Function.comp_apply]
  congr 1
  omega

/-- The loop of `ReadValues` for a register strategy whose reads all succeed: it runs to its
end, reads the addresses in ascending order and appends every value to the response. -/
theorem ReadValues_loop_registers {σ : Type} (handle : sMODBUS σ) (k : RegKind)
    (mFrame : sMaster_Frame) (excFrame : sSlave_Frame) (id fc : Nat)
    (happ : (handle.reg k).appendData = FrameSlave_AppendRegister) :
    ∀ (n u16Add reps m : Nat) (bytes tl : List Nat) (w : World σ),
      bytes.length = 2 * m → 2 * n ≤ tl.length → 2 * (m + n) < 256 →
      (∀ r ∈ (readRun (handle.reg k).reading n u16Add w.app).1,
        r.error = Exception_NoException) →
      ReadValues_loop handle (some k) mFrame excFrame n u16Add reps
          { u16Length := 3 + 2 * m, raw := id :: fc :: (2 * m) :: (bytes ++ tl) } w =
        LoopExit.finished
          { u16Length := 3 + 2 * (m + n)
            raw := id :: fc :: (2 * (m + n)) ::
              ((bytes ++ regBytes ((readRun (handle.reg k).reading n u16Add w.app).1.map
                (fun r => r.data))) ++ tl.drop (2 * n)) }
          { app := (readRun (handle.reg k).reading n u16Add w.app).2
            trace := w.trace ++ (List.range n).map (fun i => Event.localRead k (u16Add + i)) } := by
  intro n
  induction n with
  | zero =>
    intro u16Add reps m bytes tl w _ _ _ _
    simp [ReadValues_loop, readRun, regBytes]
  | succ n ih =>
    intro u16Add reps m bytes tl w hb htl hm hsucc
    obtain ⟨x, y, tl2, rfl⟩ := exists_cons2 tl (by omega)
    have herr : ((handle.reg k).reading u16Add w.app).1.error = Exception_NoException :=
      hsucc _ (by simp [readRun])
    have hrest : ∀ r ∈ (readRun (handle.reg k).reading n (u16Add + 1)
        ((handle.reg k).reading u16Add w.app).2).1, r.error = Exception_NoException :=
      fun r hr => hsucc r (by simp [readRun, hr])
    have hlen2 : 2 * n ≤ tl2.length := by
      simp only [List.length_cons] at htl; omega
    rw [ReadValues_loop]
    simp only [herr, ne_eq, not_true_eq_false, if_false, happ]
    rw [FrameSlave_AppendRegister_eq id fc m bytes x y tl2 _ hb (by omega)]
    have hb2 : (bytes ++ [bytesFields.u8_1
        { u16_0 := ((handle.reg k).reading u16Add w.app).1.data % 65536, u16_1 := reps },
        bytesFields.u8_0
        { u16_0 := ((handle.reg k).reading u16Add w.app).1.data % 65536, u16_1 := reps }]).length
        = 2 * (m + 1) := by simp; omega
    rw [ih (u16Add + 1) ((reps + 1) % 65536) (m + 1) _ tl2
      (w.call (Event.localRead k u16Add) ((handle.reg k).reading u16Add w.app).2)
      hb2 hlen2 (by omega) hrest]
    have hd : List.drop (2 * (n + 1)) (x :: y :: tl2) = List.drop (2 * n) tl2 := by
      have e : 2 * (n + 1) = 2 * n + 1 + 1 := by omega
      rw [e, List.drop_succ_cons, List.drop_succ_cons]
    have hhi : ((handle.reg k).reading u16Add w.app).1.data % 65536 / 256 % 256 =
        ((handle.reg k).reading u16Add w.app).1.data / 256 % 256 := by omega
    have hlo : ((handle.reg k).reading u16Add w.app).1.data % 65536 % 256 =
        ((handle.reg k).reading u16Add w.app).1.data % 256 := by omega
    have e1 : m + 1 + n = m + (n + 1) := by omega
    rw [hd, e1, range_succ_map_add (fun j => Event.localRead k j) n u16Add]
    simp only [readRun, World.call, List.map_cons, regBytes, bytesFields.u8_1, bytesFields.u8_0,
      hhi, hlo, List.append_assoc, List.cons_append, List.nil_append]

/-- The function `FrameSlave_AppendCRC` on a response of `pre.length` bytes. -/
theorem FrameSlave_AppendCRC_eq (pre : List Nat) (x y : Nat) (tl : List Nat)
    (hlen : pre.length ≤ 253) :
    FrameSlave_AppendCRC { u16Length := pre.length, raw := pre ++ x :: y :: tl } =
      { u16Length := pre.length + 2
        raw := (pre ++ [calcCRC pre pre.length >>> 8, calcCRC pre pre.length &&& 0xFF]) ++ tl } := by
  unfold FrameSlave_AppendCRC
  have hcrc : calcCRC (pre ++ x :: y :: tl) pre.length = calcCRC pre pre.length :=
    calcCRC_append pre _ _ (le_refl _)
  have e2 : pre.length + 1 = (pre ++ [calcCRC pre pre.length >>> 8]).length := by simp
  have e3 : pre ++ calcCRC pre pre.length >>> 8 :: y :: tl =
      (pre ++ [calcCRC pre pre.length >>> 8]) ++ y :: tl := by simp
  simp only [hcrc, Nat.add_zero, Nat.mod_eq_of_lt (shr8_lt (calcCRC_lt _ _))]
  rw [set_at_length, e2, e3, set_at_length, Nat.mod_eq_of_lt (by omega : pre.length + 2 < 65536)]
  simp only [and_255_eq_mod, List.append_assoc, List.cons_append, List.nil_append]

theorem reg_congr {σ : Type} (handle1 handle : sMODBUS σ) (k : RegKind)
    (h1 : handle1.coils = handle.coils) (h2 : handle1.discretes = handle.discretes)
    (h3 : handle1.holdings = handle.holdings) (h4 : handle1.inputs = handle.inputs) :
    handle1.reg k = handle.reg k := by
  cases k <;> simp [sMODBUS.reg, h1, h2, h3, h4]

theorem readRun_length {σ : Type} (reading : Nat → σ → sMODBUS_ReadResult × σ) (n addr : Nat)
    (app : σ) : (readRun reading n addr app).1.length = n := by
  induction n generalizing addr app with
  | zero => rfl
  | succ n ih => simp [readRun, ih]

/-- The function `ReadValues` on an accepted request for `N` registers from address `a`, when
every read succeeds. -/
theorem ReadValues_registers {σ : Type} (handle : sMODBUS σ) (k : RegKind)
    (cmd : sMODBUS_Commmand) (tlm : List Nat) (sFrame0 : sSlave_Frame) (w : World σ)
    (hs : sFrame0.raw.length = MODBUS_FRAME_MAX_SIZE)
    (hfc : (cmd.functionCode = 3 ∧ k = RegKind.holdings) ∨
      (cmd.functionCode = 4 ∧ k = RegKind.inputs))
    (hN : cmd.length ≤ 125) (haN : cmd.regAddress + cmd.length ≤ 0xFFFF)
    (happ : (handle.reg k).appendData = FrameSlave_AppendRegister)
    (hsucc : ∀ r ∈ (readRun (handle.reg k).reading cmd.length cmd.regAddress w.app).1,
      r.error = Exception_NoException) :
    ∃ tl : List Nat,
      ReadValues handle { u16Length := 8, raw := commandFrame cmd ++ tlm } sFrame0 w =
        some ({ u16Length := 5 + 2 * cmd.length
                raw := registerReply cmd.slaveID cmd.functionCode
                  ((readRun (handle.reg k).reading cmd.length cmd.regAddress w.app).1.map
                    (fun r => r.data)) ++ tl },
          { app := (readRun (handle.reg k).reading cmd.length cmd.regAddress w.app).2
            trace := w.trace ++
              (List.range cmd.length).map (fun i => Event.localRead k (cmd.regAddress + i)) }) := by
  have hs260 : sFrame0.raw.length = 260 := hs
  obtain ⟨s0, s1, s2, rest, hraw⟩ := exists_cons3 sFrame0.raw (by omega)
  have hrest : rest.length = 257 := by
    rw [hraw] at hs260; simp only [List.length_cons] at hs260; omega
  have hsel : ReadValues_select cmd.functionCode = some k := by
    rcases hfc with ⟨h, hk⟩ | ⟨h, hk⟩ <;> rw [h, hk] <;> rfl
  have hlen : ((cmd.length >>> 8) <<< 8 + (cmd.length &&& 0xFF)) % 65536 = cmd.length := by
    rw [hi_lo_add]; omega
  have haddr : ((cmd.regAddress >>> 8) <<< 8 + (cmd.regAddress &&& 0xFF)) % 65536
      = cmd.regAddress := by
    rw [hi_lo_add]; omega
  have hcount : (cmd.regAddress + cmd.length) % 65536 - cmd.regAddress = cmd.length := by omega
  have hloop := ReadValues_loop_registers handle k
    { u16Length := 8, raw := commandFrame cmd ++ tlm } sFrame0 cmd.slaveID cmd.functionCode happ
    cmd.length cmd.regAddress 0 0 [] rest w rfl (by omega) (by omega) hsucc
  have hvals : ((readRun (handle.reg k).reading cmd.length cmd.regAddress w.app).1.map
      (fun r => r.data)).length = cmd.length := by
    rw [List.length_map, readRun_length]
  obtain ⟨x, y, tl, htl⟩ := exists_cons2 (rest.drop (2 * cmd.length))
    (by rw [List.length_drop]; omega)
  refine ⟨tl, ?_⟩
  unfold ReadValues
  have hf1 : ({ u16Length := 8, raw := commandFrame cmd ++ tlm } : sMaster_Frame).u8FuncCode
      = cmd.functionCode := rfl
  have hf2 : ({ u16Length := 8, raw := commandFrame cmd ++ tlm } : sMaster_Frame).u8DevID
      = cmd.slaveID := rfl
  have hf3 : ({ u16Length := 8, raw := commandFrame cmd ++ tlm } : sMaster_Frame).u8Length_High
      = cmd.length >>> 8 := rfl
  have hf4 : ({ u16Length := 8, raw := commandFrame cmd ++ tlm } : sMaster_Frame).u8Length_Low
      = cmd.length &&& 0xFF := rfl
  have hf5 : ({ u16Length := 8, raw := commandFrame cmd ++ tlm } : sMaster_Frame).u8AddressHigh
      = cmd.regAddress >>> 8 := rfl
  have hf6 : ({ u16Length := 8, raw := commandFrame cmd ++ tlm } : sMaster_Frame).u8AddressLow
      = cmd.regAddress &&& 0xFF := rfl
  simp only [hf1, hf2, hf3, hf4, hf5, hf6, hlen, haddr, hcount, hsel, hraw, List.set_cons_zero,
    List.set_cons_succ]
  simp only [Nat.mul_zero, Nat.add_zero, Nat.zero_add, List.nil_append] at hloop
  rw [hloop]
  simp only [htl]
  have hpre : (cmd.slaveID :: cmd.functionCode :: (2 * cmd.length) ::
      regBytes ((readRun (handle.reg k).reading cmd.length cmd.regAddress w.app).1.map
        (fun r => r.data))).length = 3 + 2 * cmd.length := by
    simp only [List.length_cons, regBytes_length, hvals]; omega
  have hcrcf := FrameSlave_AppendCRC_eq
    (cmd.slaveID :: cmd.functionCode :: (2 * cmd.length) ::
      regBytes ((readRun (handle.reg k).reading cmd.length cmd.regAddress w.app).1.map
        (fun r => r.data))) x y tl (by rw [hpre]; omega)
  rw [hpre] at hcrcf
  have e5 : 3 + 2 * cmd.length + 2 = 5 + 2 * cmd.length := by omega
  rw [e5] at hcrcf
  simp only [List.cons_append] at hcrcf ⊢
  rw [hcrcf]
  simp only [registerReply, hvals, List.cons_append, List.nil_append, List.append_assoc]

theorem registerReply_length (id fc : Nat) (vals : List Nat) :
    (registerReply id fc vals).length = 5 + 2 * vals.length := by
  simp only [registerReply, List.length_append, List.length_cons, List.length_nil,
    regBytes_length]
  omega

theorem dispatch_read {σ : Type} (handle : sMODBUS σ) (mFrame : sMaster_Frame)
    (sFrame0 : sSlave_Frame) (w : World σ)
    (h : mFrame.u8FuncCode = 3 ∨ mFrame.u8FuncCode = 4) :
    MODBUS_SlaveTask_dispatch handle mFrame sFrame0 w = ReadValues handle mFrame sFrame0 w := by
  unfold MODBUS_SlaveTask_dispatch
  rcases h with h | h <;> rw [h]

/-- Claim C9. Register read response: for a valid request (the eight bytes of a read request
with its CRC, sent to the local address) with function code 3 or 4, start address `a` and
count `N`, `N ≤ 125`, `a + N ≤ 0xFFFF`, if every `local_read` succeeds, then one run of
`MODBUS_SlaveTask` calls the `local_read` of the selected strategy (holdings for 3, inputs for
4) once for each of `a`, `a + 1`, ..., `a + N - 1` in ascending order, then calls the transmit
callback once with `[id, fc, 2N, hi v0, lo v0, ..., crc hi, crc lo]`, `5 + 2N` bytes, where
`vi` is the value read at `a + i`; it calls no other callback. -/
theorem C9_register_read_response {σ : Type} (handle : sMODBUS σ) (w : World σ)
    (mFrame0 : sMaster_Frame) (sFrame0 : sSlave_Frame) (fc a N : Nat) (k : RegKind)
    (hok : RingOK handle.pxRxBuff)
    (hB : RingContent handle.pxRxBuff = commandFrame
      { functionCode := fc, slaveID := handle.u8myAddress, regAddress := a, length := N })
    (hm : mFrame0.raw.length = MODBUS_FRAME_MAX_SIZE)
    (hs : sFrame0.raw.length = MODBUS_FRAME_MAX_SIZE)
    (hflag : handle.u8RxComplete = 1)
    (hfc : (fc = 3 ∧ k = RegKind.holdings) ∨ (fc = 4 ∧ k = RegKind.inputs))
    (hN : N ≤ 125) (haN : a + N ≤ 0xFFFF)
    (happ : (handle.reg k).appendData = FrameSlave_AppendRegister)
    (hsucc : ∀ r ∈ (readRun (handle.reg k).reading N a w.app).1,
      r.error = Exception_NoException) :
    (registerReply handle.u8myAddress fc
      ((readRun (handle.reg k).reading N a w.app).1.map (fun r => r.data))).length
        = 5 + 2 * N ∧
    ∃ handle1 : sMODBUS σ,
      MODBUS_SlaveTask handle w mFrame0 sFrame0 =
        some (handle1,
          World.call
            { app := (readRun (handle.reg k).reading N a w.app).2
              trace := w.trace ++ (List.range N).map (fun i => Event.localRead k (a + i)) }
            (Event.hwDataTx (registerReply handle.u8myAddress fc
              ((readRun (handle.reg k).reading N a w.app).1.map (fun r => r.data))))
            (handle.hwDataTx (registerReply handle.u8myAddress fc
              ((readRun (handle.reg k).reading N a w.app).1.map (fun r => r.data)))
              (readRun (handle.reg k).reading N a w.app).2)) := by
  have hvals : ((readRun (handle.reg k).reading N a w.app).1.map (fun r => r.data)).length = N := by
    rw [List.length_map, readRun_length]
  have hrl := registerReply_length handle.u8myAddress fc
    ((readRun (handle.reg k).reading N a w.app).1.map (fun r => r.data))
  rw [hvals] at hrl
  refine ⟨hrl, ?_⟩
  obtain ⟨h1, _, _, g1, g2, g3, g4, htx, _, hread⟩ :=
    ReadMasterFrame_command { handle with u8RxComplete := 0 } mFrame0
      { functionCode := fc, slaveID := handle.u8myAddress, regAddress := a, length := N }
      hok hB hm rfl (by rcases hfc with ⟨h, _⟩ | ⟨h, _⟩ <;> simp [h])
  have hreg : h1.reg k = handle.reg k := reg_congr h1 _ k g1 g2 g3 g4
  obtain ⟨tl, hrv⟩ := ReadValues_registers h1 k
    { functionCode := fc, slaveID := handle.u8myAddress, regAddress := a, length := N }
    (mFrame0.raw.drop 8) sFrame0 w hs hfc hN haN (by rw [hreg]; exact happ)
    (by rw [hreg]; exact hsucc)
  rw [hreg] at hrv
  refine ⟨h1, ?_⟩
  unfold MODBUS_SlaveTask
  simp only [hflag, ne_eq, not_true_eq_false, if_false]
  rw [hread]
  simp only [if_true]
  rw [dispatch_read _ _ _ _ (by rcases hfc with ⟨h, _⟩ | ⟨h, _⟩ <;> simp [h, sMaster_Frame.u8FuncCode,
    commandFrame, commandHeader]), hrv]
  have hmod : (5 + 2 * N) % 256 = 5 + 2 * N := Nat.mod_eq_of_lt (by omega)
  simp only [reduceCtorEq, not_false_eq_true, if_true, hmod, htx]
  rw [List.take_append_of_le_length (by rw [hrl]), List.take_of_length_le (by rw [hrl])]

/-- Instance of claim C9: scenario S1, three holding registers from address `0x6B`. -/
theorem C9_register_read_response_witness :
    RingOK S1_handle.pxRxBuff ∧
    RingContent S1_handle.pxRxBuff = commandFrame
      { functionCode := 3, slaveID := S1_handle.u8myAddress, regAddress := 0x6B, length := 3 } ∧
    zeroMaster.raw.length = MODBUS_FRAME_MAX_SIZE ∧ zeroSlave.raw.length = MODBUS_FRAME_MAX_SIZE ∧
    S1_handle.u8RxComplete = 1 ∧
    ((3 = 3 ∧ RegKind.holdings = RegKind.holdings) ∨ (3 = 4 ∧ RegKind.holdings = RegKind.inputs)) ∧
    3 ≤ 125 ∧ 0x6B + 3 ≤ 0xFFFF ∧
    (S1_handle.reg RegKind.holdings).appendData = FrameSlave_AppendRegister ∧
    (∀ r ∈ (readRun (S1_handle.reg RegKind.holdings).reading 3 0x6B world0.app).1,
      r.error = Exception_NoException) ∧
    ((registerReply S1_handle.u8myAddress 3
      ((readRun (S1_handle.reg RegKind.holdings).reading 3 0x6B world0.app).1.map
        (fun r => r.data))).length = 5 + 2 * 3 ∧
    ∃ handle1 : sMODBUS Unit,
      MODBUS_SlaveTask S1_handle world0 zeroMaster zeroSlave =
        some (handle1,
          World.call
            { app := (readRun (S1_handle.reg RegKind.holdings).reading 3 0x6B world0.app).2
              trace := world0.trace ++
                (List.range 3).map (fun i => Event.localRead RegKind.holdings (0x6B + i)) }
            (Event.hwDataTx (registerReply S1_handle.u8myAddress 3
              ((readRun (S1_handle.reg RegKind.holdings).reading 3 0x6B world0.app).1.map
                (fun r => r.data))))
            (S1_handle.hwDataTx (registerReply S1_handle.u8myAddress 3
              ((readRun (S1_handle.reg RegKind.holdings).reading 3 0x6B world0.app).1.map
                (fun r => r.data)))
              (readRun (S1_handle.reg RegKind.holdings).reading 3 0x6B world0.app).2))) :=
  ⟨by decide, by decide, by decide, by decide, by decide, by decide, by decide, by decide, rfl,
    by decide,
    C9_register_read_response S1_handle world0 zeroMaster zeroSlave 3 0x6B 3 RegKind.holdings
      (by decide) (by decide) (by decide) (by decide) (by decide) (by decide) (by decide)
      (by decide) rfl (by decide)⟩

/-- Claim C10 fails on its last two bytes. Scenario S1 (local address `0x11`, received request
`11 03 00 6B 00 03 76 87`, holding registers `AE41`, `5652`, `004B` at `6B`, `6C`, `6D`): the
frames handed to the transmit callback are not the single frame
`11 03 06 AE 41 56 52 00 4B C2 CC`. -/
theorem C10_counterexample :
    S1_handle.u8myAddress = 0x11 ∧ S1_handle.u8RxComplete = 1 ∧
    RingContent S1_handle.pxRxBuff = [0x11, 0x03, 0x00, 0x6B, 0x00, 0x03, 0x76, 0x87] ∧
    (S1_handle.holdings.reading 0x6B ()).1 = { data := 0xAE41, error := Exception_NoException } ∧
    (S1_handle.holdings.reading 0x6C ()).1 = { data := 0x5652, error := Exception_NoException } ∧
    (S1_handle.holdings.reading 0x6D ()).1 = { data := 0x004B, error := Exception_NoException } ∧
    (MODBUS_SlaveTask S1_handle world0 zeroMaster zeroSlave).map (fun r => txFrames r.2.trace) ≠
      some [[0x11, 0x03, 0x06, 0xAE, 0x41, 0x56, 0x52, 0x00, 0x4B, 0xC2, 0xCC]] := by
  decide

/-- Claim C10, amended. Scenario S1 (local address `0x11`, received request
`11 03 00 6B 00 03 76 87`, holding registers `AE41`, `5652`, `004B` at `6B`, `6C`, `6D`): the
task reads the three registers in order and transmits exactly the 11 bytes
`11 03 06 AE 41 56 52 00 4B 39 5A`; `39 5A` is the CRC of the nine bytes before. -/
theorem C10_scenario_S1 :
    S1_handle.u8myAddress = 0x11 ∧ S1_handle.u8RxComplete = 1 ∧
    RingContent S1_handle.pxRxBuff = [0x11, 0x03, 0x00, 0x6B, 0x00, 0x03, 0x76, 0x87] ∧
    (S1_handle.holdings.reading 0x6B ()).1 = { data := 0xAE41, error := Exception_NoException } ∧
    (S1_handle.holdings.reading 0x6C ()).1 = { data := 0x5652, error := Exception_NoException } ∧
    (S1_handle.holdings.reading 0x6D ()).1 = { data := 0x004B, error := Exception_NoException } ∧
    (MODBUS_SlaveTask S1_handle world0 zeroMaster zeroSlave).map (fun r => r.2.trace) =
      some [Event.localRead RegKind.holdings 0x6B, Event.localRead RegKind.holdings 0x6C,
        Event.localRead RegKind.holdings 0x6D,
        Event.hwDataTx [0x11, 0x03, 0x06, 0xAE, 0x41, 0x56, 0x52, 0x00, 0x4B, 0x39, 0x5A]] ∧
    crc16_modbus [0x11, 0x03, 0x06, 0xAE, 0x41, 0x56, 0x52, 0x00, 0x4B] = 0x395A := by
  decide

/-! ## Evaluations at concrete inputs -/

/-- Claim C20, at the input where the code leaves it. The engine received the six bytes
`55 01 FF 20 01 00`: function code 1 and byte count `0xFF = 255`. The specification's
CRC-covered length is `3 + 255 = 258`, and the CRC of the first 258 bytes of the frame buffer
differs from the bytes 258 and 259; the code computes the length in a `uint8_t`, gets
`258 mod 256 = 2`, compares the CRC of the first two bytes with bytes 2 and 3 and returns
`Exception_NoException`. -/
theorem C20_wrapped_length_accepted :
    RingContent wrap_response_handle.pxRxBuff = [0x55, 0x01, 0xFF, 0x20, 0x01, 0x00] ∧
    (ReadSlaveFrame wrap_response_handle zeroSlave).1 = Exception_NoException ∧
    (ReadSlaveFrame wrap_response_handle zeroSlave).2.2.u16Length = 6 ∧
    (ReadSlaveFrame wrap_response_handle zeroSlave).2.2.u8FuncCode = 1 ∧
    (ReadSlaveFrame wrap_response_handle zeroSlave).2.2.u8ByteCount = 255 ∧
    crc16_modbus ((ReadSlaveFrame wrap_response_handle zeroSlave).2.2.raw.take (3 + 255)) ≠
      ((ReadSlaveFrame wrap_response_handle zeroSlave).2.2.raw.getD (3 + 255) 0 <<< 8 |||
        (ReadSlaveFrame wrap_response_handle zeroSlave).2.2.raw.getD (3 + 255 + 1) 0) := by
  have hraw : (ReadSlaveFrame wrap_response_handle zeroSlave).2.2.raw =
      wrap_response ++ List.replicate 254 0 := by decide
  have htake : (wrap_response ++ List.replicate 254 0).take (3 + 255) =
      wrap_response ++ (List.replicate 36 0 ++ (List.replicate 36 0 ++ (List.replicate 36 0 ++
        (List.replicate 36 0 ++ (List.replicate 36 0 ++ (List.replicate 36 0 ++
          List.replicate 36 0)))))) := by decide
  have hget : (wrap_response ++ List.replicate 254 0).getD (3 + 255) 0 <<< 8 |||
      (wrap_response ++ List.replicate 254 0).getD (3 + 255 + 1) 0 = 0 := by decide
  have c0 : wrap_response.foldl specByteStep 0xFFFF = 36865 := by decide
  have c1 : (List.replicate 36 0).foldl specByteStep 36865 = 51601 := by decide
  have c2 : (List.replicate 36 0).foldl specByteStep 51601 = 64848 := by decide
  have c3 : (List.replicate 36 0).foldl specByteStep 64848 = 46921 := by decide
  have c4 : (List.replicate 36 0).foldl specByteStep 46921 = 54008 := by decide
  have c5 : (List.replicate 36 0).foldl specByteStep 54008 = 34128 := by decide
  have c6 : (List.replicate 36 0).foldl specByteStep 34128 = 47633 := by decide
  have c7 : (List.replicate 36 0).foldl specByteStep 47633 = 20736 := by decide
  refine ⟨by decide, by decide, by decide, by decide, by decide, ?_⟩
  rw [hraw, htake, hget]
  unfold crc16_modbus
  simp only [List.foldl_append, c0, c1, c2, c3, c4, c5, c6, c7]
  decide

/-- Claim C16, at the input where the code leaves it. The slave with address `0x11` and a
register write handler that accepts everything received the valid request
`11 10 FF FF 00 01 02 12 34 7D E7`: write the value `0x1234` to the one register at address
`0xFFFF`. No call fails, so the claim expects one call of the write handler. The code computes
the end address `0xFFFF + 1` in a `uint16_t`, gets 0, runs its loop zero times, calls no
handler and transmits the acknowledgement `11 10 FF FF 00 01 03 7D`. -/
theorem C16_top_address_not_written :
    RingContent wmr_top_handle.pxRxBuff =
      multiWriteFrame { functionCode := 16, slaveID := 0x11, regAddress := 0xFFFF, length := 1 }
        [0x12, 0x34] ∧
    wmr_top_handle.u8myAddress = 0x11 ∧ wmr_top_handle.u8RxComplete = 1 ∧
    (wmr_top_handle.inputs.writing 0xFFFF 0x1234 ()).1 = Exception_NoException ∧
    (MODBUS_SlaveTask wmr_top_handle world0 zeroMaster zeroSlave).map (fun r => r.2.trace) =
      some [Event.hwDataTx [0x11, 0x10, 0xFF, 0xFF, 0x00, 0x01, 0x03, 0x7D]] := by
  decide

/-- Claim C17, at the input where the code leaves it. The slave with address `0x11` and the
write handlers `MODBUS_NewHandle` installs, which return `Exception_IllegalFunc`, received the
valid Write Multiple Coils request `11 0F 00 13 00 0A 02 CD 01 BF 0B`. Every one of the ten
handler calls returns the error; the claim expects the exception reply `11 8F 01 84 35`. The
code does not look at the value the handler returns and transmits the acknowledgement
`11 0F 00 13 00 0A 26 99`. -/
theorem C17_coil_write_error_ignored :
    RingContent wmc_dummy_handle.pxRxBuff =
      multiWriteFrame { functionCode := 15, slaveID := 0x11, regAddress := 0x13, length := 10 }
        [0xCD, 0x01] ∧
    wmc_dummy_handle.u8myAddress = 0x11 ∧ wmc_dummy_handle.u8RxComplete = 1 ∧
    (wmc_dummy_handle.coils.writing 0x13 1 ()).1 = Exception_IllegalFunc ∧
    exceptionReply 0x11 0x0F Exception_IllegalFunc.toNat = [0x11, 0x8F, 0x01, 0x84, 0x35] ∧
    (MODBUS_SlaveTask wmc_dummy_handle world0 zeroMaster zeroSlave).map
        (fun r => (writeCalls r.2.trace).length) = some 10 ∧
    (MODBUS_SlaveTask wmc_dummy_handle world0 zeroMaster zeroSlave).map
        (fun r => txFrames r.2.trace) =
      some [[0x11, 0x0F, 0x00, 0x13, 0x00, 0x0A, 0x26, 0x99]] := by
  decide

theorem txFrames_append (l1 l2 : List Event) :
    txFrames (l1 ++ l2) = txFrames l1 ++ txFrames l2 := by
  induction l1 with
  | nil => rfl
  | cons e l ih => cases e <;> simp [txFrames, ih]

theorem writeCalls_append (l1 l2 : List Event) :
    writeCalls (l1 ++ l2) = writeCalls l1 ++ writeCalls l2 := by
  induction l1 with
  | nil => rfl
  | cons e l ih => cases e <;> simp [writeCalls, ih]

theorem readCalls_append (l1 l2 : List Event) :
    readCalls (l1 ++ l2) = readCalls l1 ++ readCalls l2 := by
  induction l1 with
  | nil => rfl
  | cons e l ih => cases e <;> simp [readCalls, ih]

theorem cmpltCount_append (l1 l2 : List Event) :
    cmpltCount (l1 ++ l2) = cmpltCount l1 + cmpltCount l2 := by
  induction l1 with
  | nil => simp [cmpltCount]
  | cons e l ih =>
    cases e <;> simp [cmpltCount, ih]
    all_goals omega

theorem dispatch_read4 {σ : Type} (handle : sMODBUS σ) (mFrame : sMaster_Frame)
    (sFrame0 : sSlave_Frame) (w : World σ)
    (h : mFrame.u8FuncCode = 1 ∨ mFrame.u8FuncCode = 2 ∨ mFrame.u8FuncCode = 3 ∨
      mFrame.u8FuncCode = 4) :
    MODBUS_SlaveTask_dispatch handle mFrame sFrame0 w = ReadValues handle mFrame sFrame0 w := by
  unfold MODBUS_SlaveTask_dispatch
  rcases h with h | h | h | h <;> rw [h]

/-! ## Read error -/

/-- The loop of `ReadValues` when the first `j` reads succeed and the next one returns the
error `e`: the loop is left by the `return`, after `j + 1` reads, with the exception frame. -/
theorem ReadValues_loop_error {σ : Type} (handle : sMODBUS σ) (k : RegKind)
    (mFrame : sMaster_Frame) (excFrame : sSlave_Frame) (e : eMODBUS_Excpt)
    (hne : e ≠ Exception_NoException) :
    ∀ (j n u16Add reps : Nat) (sFrame : sSlave_Frame) (w : World σ), j < n →
      (∀ r ∈ (readRun (handle.reg k).reading j u16Add w.app).1,
        r.error = Exception_NoException) →
      ((handle.reg k).reading (u16Add + j)
        (readRun (handle.reg k).reading j u16Add w.app).2).1.error = e →
      ReadValues_loop handle (some k) mFrame excFrame n u16Add reps sFrame w =
        LoopExit.returned (setupExceptionFrame mFrame e excFrame)
          { app := ((handle.reg k).reading (u16Add + j)
              (readRun (handle.reg k).reading j u16Add w.app).2).2
            trace := w.trace ++
              (List.range (j + 1)).map (fun i => Event.localRead k (u16Add + i)) } := by
  intro j
  induction j with
  | zero =>
    intro n u16Add reps sFrame w hn _ herr
    obtain ⟨n, rfl⟩ : ∃ m, n = m + 1 := ⟨n - 1, by omega⟩
    simp only [readRun, Nat.add_zero] at herr
    rw [ReadValues_loop]
    simp only [herr, ne_eq, hne, not_false_eq_true, if_true, World.call, readRun, Nat.add_zero]
    rfl
  | succ j ih =>
    intro n u16Add reps sFrame w hn hsucc herr
    obtain ⟨n, rfl⟩ : ∃ m, n = m + 1 := ⟨n - 1, by omega⟩
    have h0 : ((handle.reg k).reading u16Add w.app).1.error = Exception_NoException :=
      hsucc _ (by simp [readRun])
    have hrest : ∀ r ∈ (readRun (handle.reg k).reading j (u16Add + 1)
        ((handle.reg k).reading u16Add w.app).2).1, r.error = Exception_NoException :=
      fun r hr => hsucc r (by simp [readRun, hr])
    have herr2 : ((handle.reg k).reading (u16Add + 1 + j)
        (readRun (handle.reg k).reading j (u16Add + 1)
          ((handle.reg k).reading u16Add w.app).2).2).1.error = e := by
      have e1 : u16Add + 1 + j = u16Add + (j + 1) := by omega
      rw [e1]; exact herr
    rw [ReadValues_loop]
    simp only [h0, ne_eq, not_true_eq_false, if_false]
    rw [ih n (u16Add + 1) ((reps + 1) % 65536) _
      (w.call (Event.localRead k u16Add) ((handle.reg k).reading u16Add w.app).2)
      (by omega) hrest herr2]
    have e1 : u16Add + 1 + j = u16Add + (j + 1) := by omega
    rw [range_succ_map_add (fun i => Event.localRead k i) (j + 1) u16Add]
    simp only [World.call, readRun, e1, List.append_assoc, List.singleton_append]

/-- The function `ReadValues` on an accepted read request when the first `j` reads succeed and
the next one returns the error `e`. -/
theorem ReadValues_error {σ : Type} (handle : sMODBUS σ) (k : RegKind)
    (cmd : sMODBUS_Commmand) (tlm : List Nat) (sFrame0 : sSlave_Frame) (w : World σ)
    (e : eMODBUS_Excpt) (j : Nat) (hne : e ≠ Exception_NoException)
    (hsel : ReadValues_select cmd.functionCode = some k)
    (haN : cmd.regAddress + cmd.length ≤ 0xFFFF) (hj : j < cmd.length)
    (hsucc : ∀ r ∈ (readRun (handle.reg k).reading j cmd.regAddress w.app).1,
      r.error = Exception_NoException)
    (herr : ((handle.reg k).reading (cmd.regAddress + j)
      (readRun (handle.reg k).reading j cmd.regAddress w.app).2).1.error = e) :
    ReadValues handle { u16Length := 8, raw := commandFrame cmd ++ tlm } sFrame0 w =
      some (setupExceptionFrame { u16Length := 8, raw := commandFrame cmd ++ tlm } e sFrame0,
        { app := ((handle.reg k).reading (cmd.regAddress + j)
            (readRun (handle.reg k).reading j cmd.regAddress w.app).2).2
          trace := w.trace ++
            (List.range (j + 1)).map (fun i => Event.localRead k (cmd.regAddress + i)) }) := by
  have hlen : ((cmd.length >>> 8) <<< 8 + (cmd.length &&& 0xFF)) % 65536 = cmd.length := by
    rw [hi_lo_add]; omega
  have haddr : ((cmd.regAddress >>> 8) <<< 8 + (cmd.regAddress &&& 0xFF)) % 65536
      = cmd.regAddress := by
    rw [hi_lo_add]; omega
  have hcount : (cmd.regAddress + cmd.length) % 65536 - cmd.regAddress = cmd.length := by omega
  have hf1 : ({ u16Length := 8, raw := commandFrame cmd ++ tlm } : sMaster_Frame).u8FuncCode
      = cmd.functionCode := rfl
  have hf3 : ({ u16Length := 8, raw := commandFrame cmd ++ tlm } : sMaster_Frame).u8Length_High
      = cmd.length >>> 8 := rfl
  have hf4 : ({ u16Length := 8, raw := commandFrame cmd ++ tlm } : sMaster_Frame).u8Length_Low
      = cmd.length &&& 0xFF := rfl
  have hf5 : ({ u16Length := 8, raw := commandFrame cmd ++ tlm } : sMaster_Frame).u8AddressHigh
      = cmd.regAddress >>> 8 := rfl
  have hf6 : ({ u16Length := 8, raw := commandFrame cmd ++ tlm } : sMaster_Frame).u8AddressLow
      = cmd.regAddress &&& 0xFF := rfl
  unfold ReadValues
  simp only [hf1, hf3, hf4, hf5, hf6, hlen, haddr, hcount, hsel]
  rw [ReadValues_loop_error handle k _ sFrame0 e hne j cmd.length cmd.regAddress 0 _ w hj hsucc
    herr]

/-- One run of the slave task on a valid read request (function code 1, 2, 3 or 4, start
address `a`, count `N`, `a + N ≤ 0xFFFF`) whose count is within the limit of the protocol
(2000 coils, 125 registers, so that the response fits the frame buffer): if the reads at `a`, ...,
`a + j - 1` succeed and the read at `a + j` (`j < N`) returns an error `e` different from
`Exception_NoException`, then one run of `MODBUS_SlaveTask` makes exactly these `j + 1` reads,
none after the failing one, and then transmits exactly the five bytes
`[id, fc OR 0x80, e, crc hi, crc lo]`. -/
theorem SlaveTask_read_error {σ : Type} (handle : sMODBUS σ) (w : World σ)
    (mFrame0 : sMaster_Frame) (sFrame0 : sSlave_Frame) (fc a N j : Nat) (k : RegKind)
    (e : eMODBUS_Excpt)
    (hok : RingOK handle.pxRxBuff)
    (hB : RingContent handle.pxRxBuff = commandFrame
      { functionCode := fc, slaveID := handle.u8myAddress, regAddress := a, length := N })
    (hm : mFrame0.raw.length = MODBUS_FRAME_MAX_SIZE)
    (hs : sFrame0.raw.length = MODBUS_FRAME_MAX_SIZE)
    (hflag : handle.u8RxComplete = 1)
    (hfc : (fc = 1 ∧ k = RegKind.coils) ∨ (fc = 2 ∧ k = RegKind.discretes) ∨
      (fc = 3 ∧ k = RegKind.holdings) ∨ (fc = 4 ∧ k = RegKind.inputs))
    (haN : a + N ≤ 0xFFFF) (hj : j < N)
    (hsucc : ∀ r ∈ (readRun (handle.reg k).reading j a w.app).1,
      r.error = Exception_NoException)
    (herr : ((handle.reg k).reading (a + j)
      (readRun (handle.reg k).reading j a w.app).2).1.error = e)
    (hne : e ≠ Exception_NoException)
    (_hcnt : ReadCountOK (RingContent handle.pxRxBuff)) :
    ∃ handle1 : sMODBUS σ,
      MODBUS_SlaveTask handle w mFrame0 sFrame0 =
        some (handle1,
          World.call
            { app := ((handle.reg k).reading (a + j)
                (readRun (handle.reg k).reading j a w.app).2).2
              trace := w.trace ++ (List.range (j + 1)).map (fun i => Event.localRead k (a + i)) }
            (Event.hwDataTx (exceptionReply handle.u8myAddress fc e.toNat))
            (handle.hwDataTx (exceptionReply handle.u8myAddress fc e.toNat)
              ((handle.reg k).reading (a + j)
                (readRun (handle.reg k).reading j a w.app).2).2)) := by
  have hfc4 : fc = 1 ∨ fc = 2 ∨ fc = 3 ∨ fc = 4 := by
    rcases hfc with ⟨h, _⟩ | ⟨h, _⟩ | ⟨h, _⟩ | ⟨h, _⟩ <;> simp [h]
  have hsel : ReadValues_select fc = some k := by
    rcases hfc with ⟨h, hk⟩ | ⟨h, hk⟩ | ⟨h, hk⟩ | ⟨h, hk⟩ <;> rw [h, hk] <;> rfl
  obtain ⟨h1, _, _, g1, g2, g3, g4, htx, _, hread⟩ :=
    ReadMasterFrame_command { handle with u8RxComplete := 0 } mFrame0
      { functionCode := fc, slaveID := handle.u8myAddress, regAddress := a, length := N }
      hok hB hm rfl (by rcases hfc4 with h | h | h | h <;> simp [h])
  have hreg : h1.reg k = handle.reg k := reg_congr h1 _ k g1 g2 g3 g4
  have hrv := ReadValues_error h1 k
    { functionCode := fc, slaveID := handle.u8myAddress, regAddress := a, length := N }
    (mFrame0.raw.drop 8) sFrame0 w e j hne hsel haN hj (by rw [hreg]; exact hsucc)
    (by rw [hreg]; exact herr)
  rw [hreg] at hrv
  have hexc := setupExceptionFrame_eq
    ⟨8, commandFrame ⟨fc, handle.u8myAddress, a, N⟩ ++ mFrame0.raw.drop 8⟩ e sFrame0
    (by have h3 : sFrame0.raw.length = 260 := hs
        omega)
    (by show fc < 256
        rcases hfc4 with h | h | h | h <;> omega)
  have hid : (⟨8, commandFrame ⟨fc, handle.u8myAddress, a, N⟩ ++ mFrame0.raw.drop 8⟩ :
      sMaster_Frame).u8DevID = handle.u8myAddress := rfl
  have hfcv : (⟨8, commandFrame ⟨fc, handle.u8myAddress, a, N⟩ ++ mFrame0.raw.drop 8⟩ :
      sMaster_Frame).u8FuncCode = fc := rfl
  rw [hid, hfcv] at hexc
  refine ⟨h1, ?_⟩
  unfold MODBUS_SlaveTask
  simp only [hflag, ne_eq, not_true_eq_false, if_false]
  rw [hread]
  simp only [if_true]
  rw [dispatch_read4 _ _ _ _ (by rw [hfcv]; exact hfc4), hrv]
  simp only [reduceCtorEq, not_false_eq_true, if_true, hexc.1, htx]
  have htake : List.take (5 % 256) (setupExceptionFrame
      ⟨8, commandFrame ⟨fc, handle.u8myAddress, a, N⟩ ++ mFrame0.raw.drop 8⟩ e sFrame0).raw =
        exceptionReply handle.u8myAddress fc e.toNat := by
    show List.take 5 _ = _
    rw [hexc.2]
    simp only [exceptionReply, Nat.lor_comm]
  rw [htake]

/-- Four holding registers from `0x6B` are requested and the handler of
scenario S1 returns `Exception_IllegalAddr` for the fourth; the reply is `11 83 02 C1 34`. -/
theorem SlaveTask_read_error_read4 :
    RingOK read4_handle.pxRxBuff ∧
    RingContent read4_handle.pxRxBuff = commandFrame
      { functionCode := 3, slaveID := read4_handle.u8myAddress, regAddress := 0x6B,
        length := 4 } ∧
    zeroMaster.raw.length = MODBUS_FRAME_MAX_SIZE ∧ zeroSlave.raw.length = MODBUS_FRAME_MAX_SIZE ∧
    read4_handle.u8RxComplete = 1 ∧
    ((3 = 1 ∧ RegKind.holdings = RegKind.coils) ∨ (3 = 2 ∧ RegKind.holdings = RegKind.discretes) ∨
      (3 = 3 ∧ RegKind.holdings = RegKind.holdings) ∨
      (3 = 4 ∧ RegKind.holdings = RegKind.inputs)) ∧
    0x6B + 4 ≤ 0xFFFF ∧ 3 < 4 ∧
    (∀ r ∈ (readRun (read4_handle.reg RegKind.holdings).reading 3 0x6B world0.app).1,
      r.error = Exception_NoException) ∧
    ((read4_handle.reg RegKind.holdings).reading (0x6B + 3)
      (readRun (read4_handle.reg RegKind.holdings).reading 3 0x6B world0.app).2).1.error
        = Exception_IllegalAddr ∧
    Exception_IllegalAddr ≠ Exception_NoException ∧
    exceptionReply read4_handle.u8myAddress 3 Exception_IllegalAddr.toNat
      = [0x11, 0x83, 0x02, 0xC1, 0x34] ∧
    ReadCountOK (RingContent read4_handle.pxRxBuff) ∧
    ∃ handle1 : sMODBUS Unit,
      MODBUS_SlaveTask read4_handle world0 zeroMaster zeroSlave =
        some (handle1,
          World.call
            { app := ((read4_handle.reg RegKind.holdings).reading (0x6B + 3)
                (readRun (read4_handle.reg RegKind.holdings).reading 3 0x6B world0.app).2).2
              trace := world0.trace ++
                (List.range (3 + 1)).map (fun i => Event.localRead RegKind.holdings (0x6B + i)) }
            (Event.hwDataTx (exceptionReply read4_handle.u8myAddress 3
              Exception_IllegalAddr.toNat))
            (read4_handle.hwDataTx (exceptionReply read4_handle.u8myAddress 3
              Exception_IllegalAddr.toNat)
              ((read4_handle.reg RegKind.holdings).reading (0x6B + 3)
                (readRun (read4_handle.reg RegKind.holdings).reading 3 0x6B
                  world0.app).2).2)) :=
  ⟨by decide, by decide, by decide, by decide, by decide, by decide, by decide, by decide,
    by decide, by decide, by decide, by decide, by decide,
    SlaveTask_read_error read4_handle world0 zeroMaster zeroSlave 3 0x6B 4 3 RegKind.holdings
      Exception_IllegalAddr (by decide) (by decide) (by decide) (by decide) (by decide)
      (by decide) (by decide) (by decide) (by decide) (by decide) (by decide) (by decide)⟩

/-! ## The slave task on an accepted request -/

theorem txFrames_call_tx {σ : Type} (w : World σ) (data : List Nat) (app : σ) :
    txFrames (w.call (Event.hwDataTx data) app).trace = txFrames w.trace ++ [data] := by
  simp [World.call, txFrames_append, txFrames]

theorem writeCalls_call_tx {σ : Type} (w : World σ) (data : List Nat) (app : σ) :
    writeCalls (w.call (Event.hwDataTx data) app).trace = writeCalls w.trace := by
  simp [World.call, writeCalls_append, writeCalls]

theorem cmpltCount_call_tx {σ : Type} (w : World σ) (data : List Nat) (app : σ) :
    cmpltCount (w.call (Event.hwDataTx data) app).trace = cmpltCount w.trace := by
  simp [World.call, cmpltCount_append, cmpltCount]

theorem txFrames_fire {σ : Type} (handle : sMODBUS σ) (w : World σ) :
    txFrames (fireWriteCmplt handle w).trace = txFrames w.trace := by
  unfold fireWriteCmplt
  split <;> simp [World.call, txFrames_append, txFrames]

theorem writeCalls_fire {σ : Type} (handle : sMODBUS σ) (w : World σ) :
    writeCalls (fireWriteCmplt handle w).trace = writeCalls w.trace := by
  unfold fireWriteCmplt
  split <;> simp [World.call, writeCalls_append, writeCalls]

theorem cmpltCount_fire {σ : Type} (handle : sMODBUS σ) (w : World σ) :
    cmpltCount (fireWriteCmplt handle w).trace =
      cmpltCount w.trace + (if handle.writeCmpltCallback.isSome then 1 else 0) := by
  unfold fireWriteCmplt
  split <;> rename_i h <;> simp [World.call, cmpltCount_append, cmpltCount, h]

/-- One run of the slave task when the decoder accepted the request and the handler of its
function code returned the reply `sFrame`. -/
theorem SlaveTask_accepted {σ : Type} (handle handle1 : sMODBUS σ) (w w1 : World σ)
    (mFrame0 mFrame : sMaster_Frame) (sFrame0 sFrame : sSlave_Frame)
    (hflag : handle.u8RxComplete = 1)
    (hread : ReadMasterFrame { handle with u8RxComplete := 0 } mFrame0 =
      (Exception_NoException, handle1, mFrame))
    (hd : MODBUS_SlaveTask_dispatch handle1 mFrame sFrame0 w = some (sFrame, w1)) :
    MODBUS_SlaveTask handle w mFrame0 sFrame0 =
      some (handle1,
        w1.call (Event.hwDataTx (sFrame.raw.take (sFrame.u16Length % 256)))
          (handle1.hwDataTx (sFrame.raw.take (sFrame.u16Length % 256)) w1.app)) := by
  unfold MODBUS_SlaveTask
  simp only [hflag, ne_eq, not_true_eq_false, if_false]
  rw [hread]
  simp only [if_true, hd, reduceCtorEq, not_false_eq_true]

theorem dispatch_single {σ : Type} (handle : sMODBUS σ) (mFrame : sMaster_Frame)
    (sFrame0 : sSlave_Frame) (w : World σ)
    (h : mFrame.u8FuncCode = 5 ∨ mFrame.u8FuncCode = 6) :
    MODBUS_SlaveTask_dispatch handle mFrame sFrame0 w =
      match WriteSingle handle mFrame sFrame0 w with
      | none => none
      | some r => some (r.1, fireWriteCmplt handle r.2) := by
  unfold MODBUS_SlaveTask_dispatch
  rcases h with h | h <;> rw [h]

/-! ## Single writes -/

theorem WriteSingle_write_trace {σ : Type} (handle : sMODBUS σ) (mFrame : sMaster_Frame)
    (sFrame0 : sSlave_Frame) (w : World σ) (k : RegKind) (a d : Nat) :
    (WriteSingle_write handle mFrame sFrame0 w k a d).2.trace =
      w.trace ++ [Event.localWrite k a d] := by
  unfold WriteSingle_write
  simp only []
  split <;> rfl

/-- The acknowledgement of a write: the first six bytes of the request and their CRC. -/
theorem echo_frame (cmd : sMODBUS_Commmand) (rest tlm : List Nat) (n : Nat)
    (sFrame0 : sSlave_Frame)
    (hn : n = (commandHeader cmd ++ rest).length) (hr : 2 ≤ rest.length) :
    ∃ tl : List Nat,
      FrameSlave_AppendCRC
          { u16Length := 6, raw := memcpy sFrame0.raw ((commandHeader cmd ++ rest) ++ tlm) n } =
        { u16Length := 8, raw := commandFrame cmd ++ tl } := by
  obtain ⟨x, y, rest2, rfl⟩ := exists_cons2 rest hr
  have h6 : (commandHeader cmd).length = 6 := rfl
  have hmem : memcpy sFrame0.raw ((commandHeader cmd ++ x :: y :: rest2) ++ tlm) n =
      commandHeader cmd ++ x :: y :: (rest2 ++ sFrame0.raw.drop n) := by
    unfold memcpy
    rw [List.take_append_of_le_length (by omega), List.take_of_length_le (by omega)]
    simp
  rw [hmem]
  have hcrc := FrameSlave_AppendCRC_eq (commandHeader cmd) x y (rest2 ++ sFrame0.raw.drop n)
    (by rw [h6]; omega)
  rw [h6] at hcrc
  exact ⟨rest2 ++ sFrame0.raw.drop n, hcrc⟩

theorem WriteSingle_write_ok {σ : Type} (handle : sMODBUS σ) (cmd : sMODBUS_Commmand)
    (tlm : List Nat) (sFrame0 : sSlave_Frame) (w : World σ) (k : RegKind) (a d : Nat)
    (hok : ((handle.reg k).writing a d w.app).1 = Exception_NoException) :
    ∃ tl : List Nat,
      (WriteSingle_write handle ⟨8, commandFrame cmd ++ tlm⟩ sFrame0 w k a d).1 =
        { u16Length := 8, raw := commandFrame cmd ++ tl } := by
  obtain ⟨tl, htl⟩ := echo_frame cmd
    [calcCRC (commandHeader cmd) 6 >>> 8, calcCRC (commandHeader cmd) 6 &&& 0xFF] tlm 8 sFrame0
    (by simp [commandHeader]) (by simp)
  refine ⟨tl, ?_⟩
  unfold WriteSingle_write
  simp only [hok, ne_eq, not_true_eq_false, if_false]
  exact htl

theorem WriteSingle_five {σ : Type} (handle : sMODBUS σ) (cmd : sMODBUS_Commmand)
    (tlm : List Nat) (sFrame0 : sSlave_Frame) (w : World σ) (hfc : cmd.functionCode = 5)
    (ha : cmd.regAddress < 65536) (hv : cmd.length < 65536) :
    WriteSingle handle ⟨8, commandFrame cmd ++ tlm⟩ sFrame0 w =
      if cmd.length = 0xFF00 then
        some (WriteSingle_write handle ⟨8, commandFrame cmd ++ tlm⟩ sFrame0 w RegKind.coils
          cmd.regAddress 1)
      else if cmd.length = 0 then
        some (WriteSingle_write handle ⟨8, commandFrame cmd ++ tlm⟩ sFrame0 w RegKind.coils
          cmd.regAddress 0)
      else
        some (setupExceptionFrame ⟨8, commandFrame cmd ++ tlm⟩ Exception_InvalidDataValue
          sFrame0, w) := by
  have hlen : ((cmd.length >>> 8) <<< 8 + (cmd.length &&& 0xFF)) % 65536 = cmd.length := by
    rw [hi_lo_add]; omega
  have haddr : ((cmd.regAddress >>> 8) <<< 8 + (cmd.regAddress &&& 0xFF)) % 65536
      = cmd.regAddress := by
    rw [hi_lo_add]; omega
  have hf1 : (⟨8, commandFrame cmd ++ tlm⟩ : sMaster_Frame).u8FuncCode = 5 := hfc
  have hf3 : (⟨8, commandFrame cmd ++ tlm⟩ : sMaster_Frame).u8Length_High
      = cmd.length >>> 8 := rfl
  have hf4 : (⟨8, commandFrame cmd ++ tlm⟩ : sMaster_Frame).u8Length_Low
      = cmd.length &&& 0xFF := rfl
  have hf5 : (⟨8, commandFrame cmd ++ tlm⟩ : sMaster_Frame).u8AddressHigh
      = cmd.regAddress >>> 8 := rfl
  have hf6 : (⟨8, commandFrame cmd ++ tlm⟩ : sMaster_Frame).u8AddressLow
      = cmd.regAddress &&& 0xFF := rfl
  unfold WriteSingle
  simp only [hf1, hf3, hf4, hf5, hf6, hlen, haddr]

theorem WriteSingle_six {σ : Type} (handle : sMODBUS σ) (cmd : sMODBUS_Commmand)
    (tlm : List Nat) (sFrame0 : sSlave_Frame) (w : World σ) (hfc : cmd.functionCode = 6)
    (ha : cmd.regAddress < 65536) (hv : cmd.length < 65536) :
    WriteSingle handle ⟨8, commandFrame cmd ++ tlm⟩ sFrame0 w =
      some (WriteSingle_write handle ⟨8, commandFrame cmd ++ tlm⟩ sFrame0 w RegKind.inputs
        cmd.regAddress cmd.length) := by
  have hlen : ((cmd.length >>> 8) <<< 8 + (cmd.length &&& 0xFF)) % 65536 = cmd.length := by
    rw [hi_lo_add]; omega
  have haddr : ((cmd.regAddress >>> 8) <<< 8 + (cmd.regAddress &&& 0xFF)) % 65536
      = cmd.regAddress := by
    rw [hi_lo_add]; omega
  have hf1 : (⟨8, commandFrame cmd ++ tlm⟩ : sMaster_Frame).u8FuncCode = 6 := hfc
  have hf3 : (⟨8, commandFrame cmd ++ tlm⟩ : sMaster_Frame).u8Length_High
      = cmd.length >>> 8 := rfl
  have hf4 : (⟨8, commandFrame cmd ++ tlm⟩ : sMaster_Frame).u8Length_Low
      = cmd.length &&& 0xFF := rfl
  have hf5 : (⟨8, commandFrame cmd ++ tlm⟩ : sMaster_Frame).u8AddressHigh
      = cmd.regAddress >>> 8 := rfl
  have hf6 : (⟨8, commandFrame cmd ++ tlm⟩ : sMaster_Frame).u8AddressLow
      = cmd.regAddress &&& 0xFF := rfl
  unfold WriteSingle
  simp only [hf1, hf3, hf4, hf5, hf6, hlen, haddr]

/-- Claim C14. Single-write echo (scenario S2): for a valid 8-byte request with function code 5
or 6 whose write handler returns `Exception_NoException`, the reply transmitted by the slave
has length 8 and equals the request byte for byte. -/
theorem C14_single_write_echo {σ : Type} (handle : sMODBUS σ) (w : World σ)
    (mFrame0 : sMaster_Frame) (sFrame0 : sSlave_Frame) (fc a V : Nat)
    (hok : RingOK handle.pxRxBuff)
    (hB : RingContent handle.pxRxBuff = commandFrame
      { functionCode := fc, slaveID := handle.u8myAddress, regAddress := a, length := V })
    (hm : mFrame0.raw.length = MODBUS_FRAME_MAX_SIZE)
    (hflag : handle.u8RxComplete = 1) (ha : a < 65536) (hV : V < 65536)
    (hcase :
      (fc = 5 ∧ V = 0xFF00 ∧ (handle.coils.writing a 1 w.app).1 = Exception_NoException) ∨
      (fc = 5 ∧ V = 0x0000 ∧ (handle.coils.writing a 0 w.app).1 = Exception_NoException) ∨
      (fc = 6 ∧ (handle.inputs.writing a V w.app).1 = Exception_NoException)) :
    ∃ (handle1 : sMODBUS σ) (w1 : World σ),
      MODBUS_SlaveTask handle w mFrame0 sFrame0 = some (handle1, w1) ∧
      txFrames w1.trace = txFrames w.trace ++ [RingContent handle.pxRxBuff] ∧
      (RingContent handle.pxRxBuff).length = 8 := by
  have hfc56 : fc = 5 ∨ fc = 6 := by
    rcases hcase with ⟨h, _⟩ | ⟨h, _⟩ | ⟨h, _⟩ <;> simp [h]
  obtain ⟨h1, _, _, g1, g2, g3, g4, _, _, hread⟩ :=
    ReadMasterFrame_command { handle with u8RxComplete := 0 } mFrame0
      ⟨fc, handle.u8myAddress, a, V⟩ hok hB hm rfl
      (by rcases hfc56 with h | h <;> simp [h])
  have hdisp := dispatch_single h1
    ⟨8, commandFrame ⟨fc, handle.u8myAddress, a, V⟩ ++ mFrame0.raw.drop 8⟩ sFrame0 w
    (by rcases hfc56 with h | h
        · exact Or.inl h
        · exact Or.inr h)
  have hc : h1.coils = handle.coils := g1
  have hi : h1.inputs = handle.inputs := g4
  have key : ∃ (k : RegKind) (d : Nat),
      WriteSingle h1 ⟨8, commandFrame ⟨fc, handle.u8myAddress, a, V⟩ ++ mFrame0.raw.drop 8⟩
          sFrame0 w =
        some (WriteSingle_write h1
          ⟨8, commandFrame ⟨fc, handle.u8myAddress, a, V⟩ ++ mFrame0.raw.drop 8⟩ sFrame0 w k a d) ∧
      ((h1.reg k).writing a d w.app).1 = Exception_NoException := by
    rcases hcase with ⟨h5, hv, hh⟩ | ⟨h5, hv, hh⟩ | ⟨h6, hh⟩
    · refine ⟨RegKind.coils, 1, ?_, ?_⟩
      · have := WriteSingle_five h1 ⟨fc, handle.u8myAddress, a, V⟩ (mFrame0.raw.drop 8)
          sFrame0 w h5 ha hV
        simp only [] at this
        rw [this, if_pos hv]
      · show (h1.coils.writing a 1 w.app).1 = _
        rw [hc]; exact hh
    · refine ⟨RegKind.coils, 0, ?_, ?_⟩
      · have := WriteSingle_five h1 ⟨fc, handle.u8myAddress, a, V⟩ (mFrame0.raw.drop 8)
          sFrame0 w h5 ha hV
        simp only [] at this
        rw [this, if_neg (by omega), if_pos hv]
      · show (h1.coils.writing a 0 w.app).1 = _
        rw [hc]; exact hh
    · refine ⟨RegKind.inputs, V, ?_, ?_⟩
      · exact WriteSingle_six h1 ⟨fc, handle.u8myAddress, a, V⟩ (mFrame0.raw.drop 8)
          sFrame0 w h6 ha hV
      · show (h1.inputs.writing a V w.app).1 = _
        rw [hi]; exact hh
  obtain ⟨k, d, hws, hwok⟩ := key
  obtain ⟨tl, hecho⟩ := WriteSingle_write_ok h1 ⟨fc, handle.u8myAddress, a, V⟩
    (mFrame0.raw.drop 8) sFrame0 w k a d hwok
  rw [hws] at hdisp
  have hlen8 : (commandFrame ⟨fc, handle.u8myAddress, a, V⟩).length = 8 :=
    commandFrame_length _
  refine ⟨h1, _, SlaveTask_accepted handle h1 w _ mFrame0 _ sFrame0 _ hflag hread hdisp, ?_, ?_⟩
  · rw [txFrames_call_tx, txFrames_fire, WriteSingle_write_trace, txFrames_append, hecho, hB]
    show _ ++ [List.take 8 _] = _
    rw [List.take_append_of_le_length (by rw [hlen8]), List.take_of_length_le (by rw [hlen8])]
    simp [txFrames]
  · rw [hB]; exact hlen8

/-- Instance of claim C14, scenario S2: the request `11 05 00 AC FF 00 4E 8B` at address
`0x11`, with a handler that accepts the write, is answered with the same eight bytes. -/
theorem C14_single_write_echo_witness :
    RingOK S2_handle.pxRxBuff ∧
    RingContent S2_handle.pxRxBuff = commandFrame
      { functionCode := 5, slaveID := S2_handle.u8myAddress, regAddress := 0xAC,
        length := 0xFF00 } ∧
    RingContent S2_handle.pxRxBuff = [0x11, 0x05, 0x00, 0xAC, 0xFF, 0x00, 0x4E, 0x8B] ∧
    zeroMaster.raw.length = MODBUS_FRAME_MAX_SIZE ∧ S2_handle.u8RxComplete = 1 ∧
    0xAC < 65536 ∧ 0xFF00 < 65536 ∧
    ((5 = 5 ∧ 0xFF00 = 0xFF00 ∧
        (S2_handle.coils.writing 0xAC 1 world0.app).1 = Exception_NoException) ∨
      (5 = 5 ∧ 0xFF00 = 0x0000 ∧
        (S2_handle.coils.writing 0xAC 0 world0.app).1 = Exception_NoException) ∨
      (5 = 6 ∧ (S2_handle.inputs.writing 0xAC 0xFF00 world0.app).1 = Exception_NoException)) ∧
    ∃ (handle1 : sMODBUS Unit) (w1 : World Unit),
      MODBUS_SlaveTask S2_handle world0 zeroMaster zeroSlave = some (handle1, w1) ∧
      txFrames w1.trace = txFrames world0.trace ++ [RingContent S2_handle.pxRxBuff] ∧
      (RingContent S2_handle.pxRxBuff).length = 8 :=
  ⟨by decide, by decide, by decide, by decide, by decide, by decide, by decide, by decide,
    C14_single_write_echo S2_handle world0 zeroMaster zeroSlave 5 0xAC 0xFF00 (by decide)
      (by decide) (by decide) (by decide) (by decide) (by decide) (by decide)⟩

/-! ## Write Multiple requests -/

theorem multiWriteFrame_length (cmd : sMODBUS_Commmand) (payload : List Nat) :
    (multiWriteFrame cmd payload).length = 9 + payload.length := by
  simp only [multiWriteFrame, commandHeader, List.length_append, List.length_cons,
    List.length_nil]
  omega

theorem getD_at_length (pre : List Nat) (x : Nat) (tl : List Nat) :
    (pre ++ x :: tl).getD pre.length 0 = x := by
  rw [List.getD_eq_getElem?_getD, List.getElem?_append_right (le_refl _), Nat.sub_self]
  simp

theorem getD_at_length_succ (pre : List Nat) (x y : Nat) (tl : List Nat) :
    (pre ++ x :: y :: tl).getD (pre.length + 1) 0 = y := by
  have e : pre ++ x :: y :: tl = (pre ++ [x]) ++ y :: tl := by simp
  have e2 : pre.length + 1 = (pre ++ [x]).length := by simp
  rw [e, e2, getD_at_length]

/-- Decoding of a Write Multiple request sent to the local address: the request is accepted
and the frame holds its bytes. -/
theorem ReadMasterFrame_multi {σ : Type} (handle : sMODBUS σ) (mFrame0 : sMaster_Frame)
    (cmd : sMODBUS_Commmand) (payload : List Nat) (hok : RingOK handle.pxRxBuff)
    (hB : RingContent handle.pxRxBuff = multiWriteFrame cmd payload)
    (hm : mFrame0.raw.length = MODBUS_FRAME_MAX_SIZE)
    (haddr : handle.u8myAddress = cmd.slaveID)
    (hfc : cmd.functionCode = 15 ∨ cmd.functionCode = 16) :
    ∃ handle1 : sMODBUS σ,
      handle1.u8RxComplete = handle.u8RxComplete ∧ handle1.u8myAddress = handle.u8myAddress ∧
      handle1.coils = handle.coils ∧ handle1.discretes = handle.discretes ∧
      handle1.holdings = handle.holdings ∧ handle1.inputs = handle.inputs ∧
      handle1.hwDataTx = handle.hwDataTx ∧
      handle1.writeCmpltCallback = handle.writeCmpltCallback ∧
      ReadMasterFrame handle mFrame0 =
        (Exception_NoException, handle1,
          { u16Length := 9 + payload.length
            raw := multiWriteFrame cmd payload ++ mFrame0.raw.drop (9 + payload.length) }) := by
  obtain ⟨h1, f1, f2, f3, f4, f5, f6, f7, f8, hread⟩ :=
    ReadMasterFrame_eq handle mFrame0 (multiWriteFrame cmd payload) hok hB hm
  refine ⟨h1, f1, f2, f3, f4, f5, f6, f7, f8, ?_⟩
  have hB255 : (multiWriteFrame cmd payload).length ≤ 255 := by
    have e : (multiWriteFrame cmd payload).length = handle.pxRxBuff.u8available := by
      rw [← hB]; simp [RingContent]
    have h1 := hok.2.1
    have h2 := hok.2.2.2.2
    omega
  rw [multiWriteFrame_length] at hB255
  rw [hread, multiWriteFrame_length]
  have h0 : (multiWriteFrame cmd payload ++ mFrame0.raw.drop (9 + payload.length)).getD 0 0 =
      handle.u8myAddress := by
    rw [haddr]; rfl
  have hF1 : (⟨9 + payload.length, multiWriteFrame cmd payload ++
      mFrame0.raw.drop (9 + payload.length)⟩ : sMaster_Frame).u8FuncCode = cmd.functionCode := rfl
  have hF6 : (⟨9 + payload.length, multiWriteFrame cmd payload ++
      mFrame0.raw.drop (9 + payload.length)⟩ : sMaster_Frame).u8ByteCount = payload.length := rfl
  have hlenEq := ReadMasterFrame_len_long
    ⟨9 + payload.length, multiWriteFrame cmd payload ++ mFrame0.raw.drop (9 + payload.length)⟩
    (by rw [hF1]; exact hfc)
  rw [hF6, Nat.mod_eq_of_lt (by omega)] at hlenEq
  have hpre : (commandHeader cmd ++ payload.length :: payload).length = 6 + payload.length + 1 := by
    simp only [commandHeader, List.length_append, List.length_cons, List.length_nil]
    omega
  have hcrc : calcCRC (multiWriteFrame cmd payload ++ mFrame0.raw.drop (9 + payload.length))
      (6 + payload.length + 1) =
        calcCRC (commandHeader cmd ++ payload.length :: payload) (7 + payload.length) := by
    unfold multiWriteFrame
    rw [List.append_assoc, calcCRC_append _ _ _ (by rw [hpre])]
    congr 1
    omega
  have hrx : (multiWriteFrame cmd payload ++ mFrame0.raw.drop (9 + payload.length)).getD
        (6 + payload.length + 1 + 0) 0 <<< 8 |||
      (multiWriteFrame cmd payload ++ mFrame0.raw.drop (9 + payload.length)).getD
        (6 + payload.length + 1 + 1) 0 =
        calcCRC (commandHeader cmd ++ payload.length :: payload) (7 + payload.length) := by
    unfold multiWriteFrame
    rw [List.append_assoc, List.cons_append, List.cons_append, List.nil_append, Nat.add_zero,
      ← hpre, getD_at_length, getD_at_length_succ]
    exact hi_lo_or _
  have hlt : ¬ 9 + payload.length < 8 := by omega
  simp only [MASTER_FRAME_LENGTH, hlt, h0, ne_eq, not_true_eq_false, or_self, if_false,
    hlenEq, hcrc, hrx]

theorem writeCalls_map_localWrite {α : Type} (l : List α) (k : RegKind) (f g : α → Nat) :
    writeCalls (l.map (fun i => Event.localWrite k (f i) (g i))) =
      l.map (fun i => (k, f i, g i)) := by
  induction l with
  | nil => rfl
  | cons x l ih => simp [writeCalls, ih]

theorem txFrames_map_localWrite {α : Type} (l : List α) (k : RegKind) (f g : α → Nat) :
    txFrames (l.map (fun i => Event.localWrite k (f i) (g i))) = [] := by
  induction l with
  | nil => rfl
  | cons x l ih => simp [txFrames, ih]

/-- The loop of `WriteMultipleCoils`: one write per coil, in ascending order, each with the bit
of the frame that belongs to it. -/
theorem WriteMultipleCoils_loop_trace {σ : Type} (handle : sMODBUS σ)
    (mFrame : sMaster_Frame) :
    ∀ (n u16Add reps readIndex : Nat) (w : World σ), reps + n ≤ 65535 →
      readIndex = 6 + (reps + 7) / 8 →
      (WriteMultipleCoils_loop handle mFrame n u16Add reps readIndex w).trace =
        w.trace ++ (List.range n).map (fun i => Event.localWrite RegKind.coils (u16Add + i)
          ((mFrame.raw.getD (7 + (reps + i) / 8) 0 >>> ((reps + i) % 8)) &&& 0x01)) := by
  intro n
  induction n with
  | zero => intro u16Add reps readIndex w _ _; simp [WriteMultipleCoils_loop]
  | succ n ih =>
    intro u16Add reps readIndex w hb hri
    have hidx : (if reps % 8 = 0 then (readIndex + 1) % 65536 else readIndex) = 7 + reps / 8 := by
      split <;> omega
    rw [WriteMultipleCoils_loop]
    simp only [hidx]
    rw [ih (u16Add + 1) ((reps + 1) % 65536) (7 + reps / 8) _ (by omega) (by omega)]
    have e1 : (reps + 1) % 65536 = reps + 1 := Nat.mod_eq_of_lt (by omega)
    rw [List.range_succ_eq_map, List.map_cons, List.map_map]
    simp only [World.call, e1, Nat.add_zero, List.append_assoc, List.singleton_append,
      List.cons.injEq, true_and]
    congr 1
    apply congrArg
    apply List.map_congr_left
    intro i _
    simp only [Function.comp_apply]
    have e2 : u16Add + 1 + i = u16Add + (i + 1) := by omega
    have e3 : reps + 1 + i = reps + (i + 1) := by omega
    rw [e2, e3]

theorem dispatch_coils {σ : Type} (handle : sMODBUS σ) (mFrame : sMaster_Frame)
    (sFrame0 : sSlave_Frame) (w : World σ) (h : mFrame.u8FuncCode = 15) :
    MODBUS_SlaveTask_dispatch handle mFrame sFrame0 w =
      some ((WriteMultipleCoils handle mFrame sFrame0 w).1,
        fireWriteCmplt handle (WriteMultipleCoils handle mFrame sFrame0 w).2) := by
  unfold MODBUS_SlaveTask_dispatch
  rw [h]

theorem multi_fields (cmd : sMODBUS_Commmand) (payload tlm : List Nat) (n : Nat) :
    (⟨n, multiWriteFrame cmd payload ++ tlm⟩ : sMaster_Frame).u8Length_High = cmd.length >>> 8 ∧
    (⟨n, multiWriteFrame cmd payload ++ tlm⟩ : sMaster_Frame).u8Length_Low
      = cmd.length &&& 0xFF ∧
    (⟨n, multiWriteFrame cmd payload ++ tlm⟩ : sMaster_Frame).u8AddressHigh
      = cmd.regAddress >>> 8 ∧
    (⟨n, multiWriteFrame cmd payload ++ tlm⟩ : sMaster_Frame).u8AddressLow
      = cmd.regAddress &&& 0xFF ∧
    (⟨n, multiWriteFrame cmd payload ++ tlm⟩ : sMaster_Frame).u8FuncCode = cmd.functionCode ∧
    (⟨n, multiWriteFrame cmd payload ++ tlm⟩ : sMaster_Frame).u8DevID = cmd.slaveID :=
  ⟨rfl, rfl, rfl, rfl, rfl, rfl⟩

/-- The acknowledgement of a Write Multiple request. -/
theorem multi_echo (cmd : sMODBUS_Commmand) (payload tlm : List Nat) (sFrame0 : sSlave_Frame) :
    ∃ tl : List Nat,
      FrameSlave_AppendCRC
          { u16Length := 6
            raw := memcpy sFrame0.raw (multiWriteFrame cmd payload ++ tlm)
              (9 + payload.length) } =
        { u16Length := 8, raw := commandFrame cmd ++ tl } := by
  have e : multiWriteFrame cmd payload =
      commandHeader cmd ++ (payload.length :: payload ++
        [calcCRC (commandHeader cmd ++ payload.length :: payload) (7 + payload.length) >>> 8,
          calcCRC (commandHeader cmd ++ payload.length :: payload) (7 + payload.length)
            &&& 0xFF]) := by
    simp [multiWriteFrame]
  rw [e]
  exact echo_frame cmd _ tlm (9 + payload.length) sFrame0
    (by simp [commandHeader]; omega) (by simp)

/-! ## Coil read response -/

theorem getD_set_eq (l : List Nat) (i v : Nat) (h : i < l.length) : (l.set i v).getD i 0 = v := by
  simp [List.getD_eq_getElem?_getD, List.getElem?_set_self h]

theorem getD_set_ne (l : List Nat) (i j v : Nat) (h : i ≠ j) :
    (l.set i v).getD j 0 = l.getD j 0 := by
  simp [List.getD_eq_getElem?_getD, List.getElem?_set_ne h]

theorem getD_beyond (l : List Nat) (j : Nat) (h : l.length ≤ j) : l.getD j 0 = 0 := by
  simp [List.getD_eq_getElem?_getD, List.getElem?_eq_none h]

theorem one_testBit (k : Nat) : (1 : Nat).testBit k = decide (k = 0) := by
  have h := Nat.testBit_two_pow (n := 0) (m := k)
  simp only [Nat.pow_zero] at h
  rw [h]
  by_cases hk : k = 0
  · simp [hk]
  · have : ¬ 0 = k := fun e => hk e.symm
    simp [hk, this]

/-- Bit `b` of a payload byte after one more value was OR-ed in at bit `s`. -/
theorem testBit_coil_byte (old v s b : Nat) (hb : b < 8) :
    (((old ||| ((v &&& 0x01) <<< s)) % 256).testBit b) =
      (old.testBit b || (decide (b = s) && v.testBit 0)) := by
  have e : (256 : Nat) = 2 ^ 8 := by norm_num
  rw [e, Nat.testBit_mod_two_pow, Nat.testBit_or, Nat.testBit_shiftLeft, Nat.testBit_and,
    one_testBit]
  by_cases hs : b = s
  · subst hs
    simp [hb]
  · by_cases hge : b ≥ s
    · have : ¬ b - s = 0 := by omega
      simp [hb, hs, hge, this]
    · simp [hb, hs, hge]

theorem coilPush_length (bytes : List Nat) (reps v : Nat) :
    (coilPush bytes reps v).length =
      if reps % 8 = 0 then bytes.length + 1 else bytes.length := by
  unfold coilPush
  split <;> simp

/-- One more value keeps the payload packed. -/
theorem CoilPacked_push (bytes : List Nat) (r : Nat) (all : List Nat)
    (hP : CoilPacked bytes r all) :
    CoilPacked (coilPush bytes r (all.getD r 0)) (r + 1) all := by
  obtain ⟨hlen, hbits⟩ := hP
  refine ⟨?_, ?_⟩
  · rw [coilPush_length, hlen]
    split <;> omega
  · intro j b hb
    unfold coilPush
    by_cases hr : r % 8 = 0
    · simp only [hr, if_true]
      rcases Nat.lt_trichotomy j bytes.length with hj | hj | hj
      · rw [getD_append_lt _ _ _ hj, hbits j b hb]
        have h1 : 8 * j + b < r := by omega
        have h2 : 8 * j + b < r + 1 := by omega
        simp [h1, h2]
      · rw [hj, getD_at_length, testBit_coil_byte 0 _ 0 b hb]
        by_cases hb0 : b = 0
        · subst hb0
          have h3 : 8 * bytes.length + 0 = r := by omega
          rw [h3]
          simp
        · have h2 : ¬ 8 * bytes.length + b < r + 1 := by omega
          simp [hb0, h2]
      · rw [getD_beyond _ _ (by simp; omega)]
        have h2 : ¬ 8 * j + b < r + 1 := by omega
        simp [h2]
    · simp only [hr, if_false]
      have hlast : bytes.length - 1 = r / 8 := by omega
      have hpos : r / 8 < bytes.length := by omega
      rw [hlast]
      by_cases hj : j = r / 8
      · rw [hj, getD_set_eq _ _ _ hpos, testBit_coil_byte _ _ _ b hb, hbits (r / 8) b hb]
        by_cases hbs : b = r % 8
        · have h3 : 8 * (r / 8) + b = r := by omega
          rw [h3]
          simp [hbs]
        · by_cases hlt : b < r % 8
          · have h1 : 8 * (r / 8) + b < r := by omega
            have h2 : 8 * (r / 8) + b < r + 1 := by omega
            simp [hbs, h1, h2]
          · have h1 : ¬ 8 * (r / 8) + b < r := by omega
            have h2 : ¬ 8 * (r / 8) + b < r + 1 := by omega
            simp [hbs, h1, h2]
      · rw [getD_set_ne _ _ _ _ (fun e => hj e.symm), hbits j b hb]
        have h1 : decide (8 * j + b < r) = decide (8 * j + b < r + 1) := by
          have : (8 * j + b < r) ↔ (8 * j + b < r + 1) := by
            constructor
            · intro h; omega
            · intro h
              have hne : 8 * j + b ≠ r := by
                intro e
                apply hj
                omega
              omega
          simp [this]
        rw [h1]

/-- Folding all the remaining values keeps the payload packed. -/
theorem CoilPacked_fold (all : List Nat) :
    ∀ (vs bytes : List Nat) (r : Nat), CoilPacked bytes r all → r ≤ all.length →
      vs = all.drop r → CoilPacked (coilFold bytes r vs) all.length all := by
  intro vs
  induction vs with
  | nil =>
    intro bytes r hP hle hvs
    have hr : all.length ≤ r := by
      by_contra hlt
      have : (all.drop r).length = all.length - r := List.length_drop _ _
      rw [← hvs] at this
      simp at this
      omega
    have e : r = all.length := by omega
    rw [coilFold, ← e]
    exact hP
  | cons v vs ih =>
    intro bytes r hP _ hvs
    have hlt : r < all.length := by
      by_contra hge
      have : all.drop r = [] := List.drop_eq_nil_of_le (by omega)
      rw [this] at hvs
      cases hvs
    have hv : v = all.getD r 0 := by
      rw [List.drop_eq_getElem_cons hlt] at hvs
      rw [List.getD_eq_getElem?_getD, List.getElem?_eq_getElem hlt]
      exact (List.cons.inj hvs).1
    have hrest : vs = all.drop (r + 1) := by
      rw [List.drop_eq_getElem_cons hlt] at hvs
      exact (List.cons.inj hvs).2
    rw [coilFold, hv]
    exact ih _ _ (CoilPacked_push bytes r all hP) hlt hrest

theorem coilPush_mod (bytes : List Nat) (reps v : Nat) :
    coilPush bytes reps (v % 65536) = coilPush bytes reps v := by
  have e : (v % 65536) &&& 0x01 = v &&& 0x01 := by
    rw [Nat.and_one_is_mod, Nat.and_one_is_mod]; omega
  unfold coilPush
  rw [e]

theorem coilFold_length : ∀ (vs bytes : List Nat) (reps : Nat),
    bytes.length = (reps + 7) / 8 →
      (coilFold bytes reps vs).length = (reps + vs.length + 7) / 8 := by
  intro vs
  induction vs with
  | nil => intro bytes reps h; simpa [coilFold] using h
  | cons v vs ih =>
    intro bytes reps h
    rw [coilFold, ih (coilPush bytes reps v) (reps + 1)]
    · simp only [List.length_cons]
      congr 1
      omega
    · rw [coilPush_length, h]
      split <;> omega

theorem lookup_skip3 (a b c : Nat) (l : List Nat) (i : Nat) :
    (a :: b :: c :: l)[3 + i]? = l[i]? := by
  rw [Nat.add_comm 3 i]
  simp only [List.getElem?_cons_succ]

/-- One call of `FrameSlave_AppendCoil` on a response whose payload is `bytes`. -/
theorem FrameSlave_AppendCoil_eq (id fc : Nat) (bytes tl : List Nat) (d : bytesFields)
    (hm : bytes.length + 1 < 256) (htl : 1 ≤ tl.length)
    (hpos : d.u16_1 % 8 ≠ 0 → 1 ≤ bytes.length) :
    FrameSlave_AppendCoil
        { u16Length := 3 + bytes.length, raw := id :: fc :: bytes.length :: (bytes ++ tl) } d =
      { u16Length := 3 + (coilPush bytes d.u16_1 d.u16_0).length
        raw := id :: fc :: (coilPush bytes d.u16_1 d.u16_0).length ::
          (coilPush bytes d.u16_1 d.u16_0 ++
            tl.drop ((coilPush bytes d.u16_1 d.u16_0).length - bytes.length)) } := by
  unfold FrameSlave_AppendCoil
  by_cases hr : d.u16_1 % 8 = 0
  · obtain ⟨x, tl2, rfl⟩ : ∃ x tl2, tl = x :: tl2 := by
      match tl, htl with
      | x :: tl2, _ => exact ⟨x, tl2, rfl⟩
    have e1 : (3 + bytes.length + 1) % 65536 = 3 + (bytes.length + 1) := by omega
    have e2 : 3 + (bytes.length + 1) - 1 = 3 + bytes.length := by omega
    have e3 : (bytes.length + 1) % 256 = bytes.length + 1 := by omega
    have e4 : bytes.length + 1 - bytes.length = 1 := by omega
    simp only [hr, if_true, coilPush, e1, e2, set_skip3, set_at_length, List.set_cons_succ,
      List.set_cons_zero, List.getD_eq_getElem?_getD, List.getElem?_cons_succ,
      List.getElem?_cons_zero, Option.getD_some, e3, List.length_append, List.length_cons,
      List.length_nil, Nat.zero_add, e4, List.drop_succ_cons, List.drop_zero]
    have e5 : (id :: fc :: (bytes.length + 1) :: (bytes ++ 0 :: tl2))[3 + bytes.length]? =
        some 0 := by
      rw [lookup_skip3, List.getElem?_append_right (le_refl _), Nat.sub_self]
      simp
    rw [e5]
    simp only [Option.getD_some, List.append_assoc, List.singleton_append]
  · have hb := hpos hr
    have e1 : 3 + bytes.length - 1 = 3 + (bytes.length - 1) := by omega
    have hlt : bytes.length - 1 < bytes.length := by omega
    have e2 : (id :: fc :: bytes.length :: (bytes ++ tl)).getD (3 + (bytes.length - 1)) 0 =
        bytes.getD (bytes.length - 1) 0 := by
      rw [List.getD_eq_getElem?_getD, lookup_skip3, ← List.getD_eq_getElem?_getD]
      exact getD_append_lt _ _ _ hlt
    simp only [hr, if_false, coilPush, e1, set_skip3, e2, List.length_set, Nat.sub_self,
      List.drop_zero]
    rw [List.set_append_left _ _ hlt]

theorem coilFold_length_ge : ∀ (vs bytes : List Nat) (reps : Nat),
    bytes.length ≤ (coilFold bytes reps vs).length := by
  intro vs
  induction vs with
  | nil => intro bytes reps; simp [coilFold]
  | cons v vs ih =>
    intro bytes reps
    rw [coilFold]
    refine le_trans ?_ (ih _ _)
    rw [coilPush_length]
    split <;> omega

/-- The loop of `ReadValues` for a coil strategy whose reads all succeed: it runs to its end,
reads the addresses in ascending order and packs every value into the response. -/
theorem ReadValues_loop_coils {σ : Type} (handle : sMODBUS σ) (k : RegKind)
    (mFrame : sMaster_Frame) (excFrame : sSlave_Frame) (id fc : Nat)
    (happ : (handle.reg k).appendData = FrameSlave_AppendCoil) :
    ∀ (n u16Add reps : Nat) (bytes tl : List Nat) (w : World σ),
      bytes.length = (reps + 7) / 8 → reps + n ≤ 2000 → 251 ≤ bytes.length + tl.length →
      (∀ r ∈ (readRun (handle.reg k).reading n u16Add w.app).1,
        r.error = Exception_NoException) →
      ReadValues_loop handle (some k) mFrame excFrame n u16Add reps
          { u16Length := 3 + bytes.length, raw := id :: fc :: bytes.length :: (bytes ++ tl) } w =
        LoopExit.finished
          { u16Length := 3 + (coilFold bytes reps
              ((readRun (handle.reg k).reading n u16Add w.app).1.map (fun r => r.data))).length
            raw := id :: fc :: (coilFold bytes reps
                ((readRun (handle.reg k).reading n u16Add w.app).1.map (fun r => r.data))).length ::
              (coilFold bytes reps
                  ((readRun (handle.reg k).reading n u16Add w.app).1.map (fun r => r.data)) ++
                tl.drop ((coilFold bytes reps
                  ((readRun (handle.reg k).reading n u16Add w.app).1.map
                    (fun r => r.data))).length - bytes.length)) }
          { app := (readRun (handle.reg k).reading n u16Add w.app).2
            trace := w.trace ++ (List.range n).map (fun i => Event.localRead k (u16Add + i)) } := by
  intro n
  induction n with
  | zero =>
    intro u16Add reps bytes tl w _ _ _ _
    simp [ReadValues_loop, readRun, coilFold]
  | succ n ih =>
    intro u16Add reps bytes tl w hb hn htl hsucc
    have herr : ((handle.reg k).reading u16Add w.app).1.error = Exception_NoException :=
      hsucc _ (by simp [readRun])
    have hrest : ∀ r ∈ (readRun (handle.reg k).reading n (u16Add + 1)
        ((handle.reg k).reading u16Add w.app).2).1, r.error = Exception_NoException :=
      fun r hr => hsucc r (by simp [readRun, hr])
    rw [ReadValues_loop]
    simp only [herr, ne_eq, not_true_eq_false, if_false, happ]
    rw [FrameSlave_AppendCoil_eq id fc bytes tl _ (by omega)
      (by omega) (by intro h; simp only at h; omega)]
    simp only [coilPush_mod]
    have hl1 := coilPush_length bytes reps ((handle.reg k).reading u16Add w.app).1.data
    have hb1 : (coilPush bytes reps ((handle.reg k).reading u16Add w.app).1.data).length =
        (reps + 1 + 7) / 8 := by
      rw [hl1, hb]; split <;> omega
    have hge1 : bytes.length ≤
        (coilPush bytes reps ((handle.reg k).reading u16Add w.app).1.data).length := by
      rw [hl1]; split <;> omega
    have hreps : (reps + 1) % 65536 = reps + 1 := by omega
    rw [hreps, ih (u16Add + 1) (reps + 1) _ _
      (w.call (Event.localRead k u16Add) ((handle.reg k).reading u16Add w.app).2)
      hb1 (by omega) (by rw [List.length_drop]; omega) hrest]
    have hge2 := coilFold_length_ge
      ((readRun (handle.reg k).reading n (u16Add + 1)
        ((handle.reg k).reading u16Add w.app).2).1.map (fun r => r.data))
      (coilPush bytes reps ((handle.reg k).reading u16Add w.app).1.data) (reps + 1)
    rw [range_succ_map_add (fun j => Event.localRead k j) n u16Add, List.drop_drop]
    simp only [readRun, World.call, List.map_cons, coilFold, List.append_assoc, List.cons_append,
      List.nil_append]
    simp only [World.call] at hge2
    have harith : ∀ p f b : Nat, b ≤ p → p ≤ f → p - b + (f - p) = f - b := by
      intro p f b h1 h2; omega
    rw [harith _ _ _ hge1 hge2]

theorem coilReply_length (id fc : Nat) (vals : List Nat) :
    (coilReply id fc vals).length = 3 + (coilFold [] 0 vals).length + 2 := by
  simp only [coilReply, List.length_append, List.length_cons, List.length_nil]

theorem coilReply_payload (id fc : Nat) (vals : List Nat) (j : Nat)
    (hj : j < (coilFold [] 0 vals).length) :
    (coilReply id fc vals).getD (3 + j) 0 = (coilFold [] 0 vals).getD j 0 := by
  unfold coilReply
  rw [getD_append_lt _ _ _ (by simp; omega)]
  rw [List.getD_eq_getElem?_getD]
  simp only [List.cons_append, List.nil_append]
  rw [lookup_skip3, ← List.getD_eq_getElem?_getD]

theorem shr_and_one (x b : Nat) : (x >>> b) &&& 1 = if x.testBit b then 1 else 0 := by
  rw [Nat.and_one_is_mod, Nat.shiftRight_eq_div_pow, Nat.testBit_to_div_mod]
  by_cases h : x / 2 ^ b % 2 = 1
  · simp [h]
  · have : x / 2 ^ b % 2 = 0 := by omega
    simp [this]

/-- The bits of the packed payload of `vals`. -/
theorem coilFold_bits (vals : List Nat) :
    (coilFold [] 0 vals).length = (vals.length + 7) / 8 ∧
    (∀ i, i < vals.length →
      ((coilFold [] 0 vals).getD (i / 8) 0 >>> (i % 8)) &&& 1 = vals.getD i 0 &&& 1) ∧
    (∀ i, vals.length ≤ i → ((coilFold [] 0 vals).getD (i / 8) 0 >>> (i % 8)) &&& 1 = 0) := by
  have h0 : CoilPacked [] 0 vals := by
    refine ⟨rfl, ?_⟩
    intro j b _
    simp
  obtain ⟨hlen, hbits⟩ := CoilPacked_fold vals vals [] 0 h0 (Nat.zero_le _) rfl
  refine ⟨hlen, ?_, ?_⟩
  · intro i hi
    have e : 8 * (i / 8) + i % 8 = i := by omega
    rw [shr_and_one, hbits (i / 8) (i % 8) (by omega), e]
    have e0 : vals.getD i 0 &&& 1 = (vals.getD i 0 >>> 0) &&& 1 := by simp
    rw [e0, shr_and_one]
    simp [hi]
  · intro i hi
    have e : 8 * (i / 8) + i % 8 = i := by omega
    rw [shr_and_one, hbits (i / 8) (i % 8) (by omega), e]
    have : ¬ i < vals.length := by omega
    simp [this]

/-- The function `ReadValues` on an accepted request for `N` coils from address `a`, when every
read succeeds. -/
theorem ReadValues_coils {σ : Type} (handle : sMODBUS σ) (k : RegKind)
    (cmd : sMODBUS_Commmand) (tlm : List Nat) (sFrame0 : sSlave_Frame) (w : World σ)
    (hs : sFrame0.raw.length = MODBUS_FRAME_MAX_SIZE)
    (hfc : (cmd.functionCode = 1 ∧ k = RegKind.coils) ∨
      (cmd.functionCode = 2 ∧ k = RegKind.discretes))
    (hN : cmd.length ≤ 2000) (haN : cmd.regAddress + cmd.length ≤ 0xFFFF)
    (happ : (handle.reg k).appendData = FrameSlave_AppendCoil)
    (hsucc : ∀ r ∈ (readRun (handle.reg k).reading cmd.length cmd.regAddress w.app).1,
      r.error = Exception_NoException) :
    ∃ tl : List Nat,
      ReadValues handle { u16Length := 8, raw := commandFrame cmd ++ tlm } sFrame0 w =
        some ({ u16Length := 3 + (cmd.length + 7) / 8 + 2
                raw := coilReply cmd.slaveID cmd.functionCode
                  ((readRun (handle.reg k).reading cmd.length cmd.regAddress w.app).1.map
                    (fun r => r.data)) ++ tl },
          { app := (readRun (handle.reg k).reading cmd.length cmd.regAddress w.app).2
            trace := w.trace ++
              (List.range cmd.length).map (fun i => Event.localRead k (cmd.regAddress + i)) }) := by
  have hs260 : sFrame0.raw.length = 260 := hs
  obtain ⟨s0, s1, s2, rest, hraw⟩ := exists_cons3 sFrame0.raw (by omega)
  have hrest : rest.length = 257 := by
    rw [hraw] at hs260; simp only [List.length_cons] at hs260; omega
  have hsel : ReadValues_select cmd.functionCode = some k := by
    rcases hfc with ⟨h, hk⟩ | ⟨h, hk⟩ <;> rw [h, hk] <;> rfl
  have hlen : ((cmd.length >>> 8) <<< 8 + (cmd.length &&& 0xFF)) % 65536 = cmd.length := by
    rw [hi_lo_add]; omega
  have haddr : ((cmd.regAddress >>> 8) <<< 8 + (cmd.regAddress &&& 0xFF)) % 65536
      = cmd.regAddress := by
    rw [hi_lo_add]; omega
  have hcount : (cmd.regAddress + cmd.length) % 65536 - cmd.regAddress = cmd.length := by omega
  have hloop := ReadValues_loop_coils handle k
    { u16Length := 8, raw := commandFrame cmd ++ tlm } sFrame0 cmd.slaveID cmd.functionCode happ
    cmd.length cmd.regAddress 0 [] rest w rfl (by omega)
    (by simp only [List.length_nil]; omega) hsucc
  have hvals : ((readRun (handle.reg k).reading cmd.length cmd.regAddress w.app).1.map
      (fun r => r.data)).length = cmd.length := by
    rw [List.length_map, readRun_length]
  have hP := (coilFold_bits ((readRun (handle.reg k).reading cmd.length cmd.regAddress w.app).1.map
      (fun r => r.data))).1
  rw [hvals] at hP
  obtain ⟨x, y, tl, htl⟩ := exists_cons2 (rest.drop ((cmd.length + 7) / 8))
    (by rw [List.length_drop]; omega)
  refine ⟨tl, ?_⟩
  unfold ReadValues
  have hf1 : ({ u16Length := 8, raw := commandFrame cmd ++ tlm } : sMaster_Frame).u8FuncCode
      = cmd.functionCode := rfl
  have hf2 : ({ u16Length := 8, raw := commandFrame cmd ++ tlm } : sMaster_Frame).u8DevID
      = cmd.slaveID := rfl
  have hf3 : ({ u16Length := 8, raw := commandFrame cmd ++ tlm } : sMaster_Frame).u8Length_High
      = cmd.length >>> 8 := rfl
  have hf4 : ({ u16Length := 8, raw := commandFrame cmd ++ tlm } : sMaster_Frame).u8Length_Low
      = cmd.length &&& 0xFF := rfl
  have hf5 : ({ u16Length := 8, raw := commandFrame cmd ++ tlm } : sMaster_Frame).u8AddressHigh
      = cmd.regAddress >>> 8 := rfl
  have hf6 : ({ u16Length := 8, raw := commandFrame cmd ++ tlm } : sMaster_Frame).u8AddressLow
      = cmd.regAddress &&& 0xFF := rfl
  simp only [hf1, hf2, hf3, hf4, hf5, hf6, hlen, haddr, hcount, hsel, hraw, List.set_cons_zero,
    List.set_cons_succ]
  simp only [List.length_nil, Nat.add_zero, Nat.sub_zero, List.nil_append] at hloop
  rw [hloop]
  simp only [hP, htl]
  have hpre : (cmd.slaveID :: cmd.functionCode :: ((cmd.length + 7) / 8) ::
      coilFold [] 0 ((readRun (handle.reg k).reading cmd.length cmd.regAddress w.app).1.map
        (fun r => r.data))).length = 3 + (cmd.length + 7) / 8 := by
    simp only [List.length_cons, hP]; omega
  have hcrcf := FrameSlave_AppendCRC_eq
    (cmd.slaveID :: cmd.functionCode :: ((cmd.length + 7) / 8) ::
      coilFold [] 0 ((readRun (handle.reg k).reading cmd.length cmd.regAddress w.app).1.map
        (fun r => r.data))) x y tl (by rw [hpre]; omega)
  rw [hpre] at hcrcf
  simp only [List.cons_append] at hcrcf ⊢
  rw [hcrcf]
  simp only [coilReply, hP, List.cons_append, List.nil_append, List.append_assoc]

/-- Claim C11. Coil read response packing: for a valid request (the eight bytes of a read
request with its CRC, sent to the local address) with function code 1 or 2, start address `a`
and count `N`, `N ≤ 2000`, `a + N ≤ 0xFFFF`, if every `local_read` succeeds, with the values
`vals`, then one run of `MODBUS_SlaveTask` reads the addresses `a`, ..., `a + N - 1` of the
selected strategy and transmits one reply `coilReply id fc vals`; this reply has byte count
`ceil(N / 8)` and total length `3 + ceil(N / 8) + 2`, bit `i mod 8` of its payload byte
`i div 8` is `vals[i] AND 1` for every `i < N`, and every payload bit at position `N` or above
is 0. -/
theorem C11_coil_read_packing {σ : Type} (handle : sMODBUS σ) (w : World σ)
    (mFrame0 : sMaster_Frame) (sFrame0 : sSlave_Frame) (fc a N : Nat) (k : RegKind)
    (vals : List Nat)
    (hok : RingOK handle.pxRxBuff)
    (hB : RingContent handle.pxRxBuff = commandFrame
      { functionCode := fc, slaveID := handle.u8myAddress, regAddress := a, length := N })
    (hm : mFrame0.raw.length = MODBUS_FRAME_MAX_SIZE)
    (hs : sFrame0.raw.length = MODBUS_FRAME_MAX_SIZE)
    (hflag : handle.u8RxComplete = 1)
    (hfc : (fc = 1 ∧ k = RegKind.coils) ∨ (fc = 2 ∧ k = RegKind.discretes))
    (hN : N ≤ 2000) (haN : a + N ≤ 0xFFFF)
    (happ : (handle.reg k).appendData = FrameSlave_AppendCoil)
    (hsucc : ∀ r ∈ (readRun (handle.reg k).reading N a w.app).1,
      r.error = Exception_NoException)
    (hvals : vals = (readRun (handle.reg k).reading N a w.app).1.map (fun r => r.data)) :
    (∃ handle1 : sMODBUS σ,
      MODBUS_SlaveTask handle w mFrame0 sFrame0 =
        some (handle1,
          World.call
            { app := (readRun (handle.reg k).reading N a w.app).2
              trace := w.trace ++ (List.range N).map (fun i => Event.localRead k (a + i)) }
            (Event.hwDataTx (coilReply handle.u8myAddress fc vals))
            (handle.hwDataTx (coilReply handle.u8myAddress fc vals)
              (readRun (handle.reg k).reading N a w.app).2))) ∧
    (coilReply handle.u8myAddress fc vals).getD 2 0 = (N + 7) / 8 ∧
    (coilReply handle.u8myAddress fc vals).length = 3 + (N + 7) / 8 + 2 ∧
    (∀ i, i < N →
      ((coilReply handle.u8myAddress fc vals).getD (3 + i / 8) 0 >>> (i % 8)) &&& 1 =
        vals.getD i 0 &&& 1) ∧
    (∀ i, N ≤ i → i < 8 * ((N + 7) / 8) →
      ((coilReply handle.u8myAddress fc vals).getD (3 + i / 8) 0 >>> (i % 8)) &&& 1 = 0) := by
  have hvl : vals.length = N := by
    rw [hvals, List.length_map, readRun_length]
  obtain ⟨hP, hlow, hhigh⟩ := coilFold_bits vals
  rw [hvl] at hP hlow hhigh
  have hrl := coilReply_length handle.u8myAddress fc vals
  rw [hP] at hrl
  refine ⟨?_, ?_, hrl, ?_, ?_⟩
  · obtain ⟨h1, _, _, g1, g2, g3, g4, htx, _, hread⟩ :=
      ReadMasterFrame_command { handle with u8RxComplete := 0 } mFrame0
        { functionCode := fc, slaveID := handle.u8myAddress, regAddress := a, length := N }
        hok hB hm rfl (by rcases hfc with ⟨h, _⟩ | ⟨h, _⟩ <;> simp [h])
    have hreg : h1.reg k = handle.reg k := reg_congr h1 _ k g1 g2 g3 g4
    obtain ⟨tl, hrv⟩ := ReadValues_coils h1 k
      { functionCode := fc, slaveID := handle.u8myAddress, regAddress := a, length := N }
      (mFrame0.raw.drop 8) sFrame0 w hs hfc hN haN (by rw [hreg]; exact happ)
      (by rw [hreg]; exact hsucc)
    rw [hreg] at hrv
    simp only [← hvals] at hrv
    refine ⟨h1, ?_⟩
    rw [SlaveTask_accepted handle h1 w _ mFrame0 _ sFrame0 _ hflag hread
      (by rw [dispatch_read4 _ _ _ _ (by rcases hfc with ⟨h, _⟩ | ⟨h, _⟩ <;>
        simp [h, sMaster_Frame.u8FuncCode, commandFrame, commandHeader]), hrv])]
    have hmod : (3 + (N + 7) / 8 + 2) % 256 = 3 + (N + 7) / 8 + 2 :=
      Nat.mod_eq_of_lt (by omega)
    simp only [hmod, htx]
    rw [List.take_append_of_le_length (by rw [hrl]), List.take_of_length_le (by rw [hrl])]
  · rw [← hP]
    simp [coilReply]
  · intro i hi
    rw [coilReply_payload _ _ _ _ (by rw [hP]; omega)]
    exact hlow i hi
  · intro i hi hi2
    rw [coilReply_payload _ _ _ _ (by rw [hP]; omega)]
    exact hhigh i hi

/-- Instance of claim C11: ten coils from address `0x13`, of which `0x13`, `0x15`, `0x16` and
`0x1C` are on; the reply is `11 01 02 0D 02 FD 6E`. -/
theorem C11_coil_read_packing_witness :
    RingOK coil_handle.pxRxBuff ∧
    RingContent coil_handle.pxRxBuff = commandFrame
      { functionCode := 1, slaveID := coil_handle.u8myAddress, regAddress := 0x13,
        length := 10 } ∧
    zeroMaster.raw.length = MODBUS_FRAME_MAX_SIZE ∧ zeroSlave.raw.length = MODBUS_FRAME_MAX_SIZE ∧
    coil_handle.u8RxComplete = 1 ∧
    ((1 = 1 ∧ RegKind.coils = RegKind.coils) ∨ (1 = 2 ∧ RegKind.coils = RegKind.discretes)) ∧
    10 ≤ 2000 ∧ 0x13 + 10 ≤ 0xFFFF ∧
    (coil_handle.reg RegKind.coils).appendData = FrameSlave_AppendCoil ∧
    (∀ r ∈ (readRun (coil_handle.reg RegKind.coils).reading 10 0x13 world0.app).1,
      r.error = Exception_NoException) ∧
    [1, 0, 1, 1, 0, 0, 0, 0, 0, 1] =
      (readRun (coil_handle.reg RegKind.coils).reading 10 0x13 world0.app).1.map
        (fun r => r.data) ∧
    coilReply coil_handle.u8myAddress 1 [1, 0, 1, 1, 0, 0, 0, 0, 0, 1] =
      [0x11, 0x01, 0x02, 0x0D, 0x02, 0xFD, 0x6E] ∧
    ((∃ handle1 : sMODBUS Unit,
      MODBUS_SlaveTask coil_handle world0 zeroMaster zeroSlave =
        some (handle1,
          World.call
            { app := (readRun (coil_handle.reg RegKind.coils).reading 10 0x13 world0.app).2
              trace := world0.trace ++
                (List.range 10).map (fun i => Event.localRead RegKind.coils (0x13 + i)) }
            (Event.hwDataTx (coilReply coil_handle.u8myAddress 1 [1, 0, 1, 1, 0, 0, 0, 0, 0, 1]))
            (coil_handle.hwDataTx (coilReply coil_handle.u8myAddress 1
                [1, 0, 1, 1, 0, 0, 0, 0, 0, 1])
              (readRun (coil_handle.reg RegKind.coils).reading 10 0x13 world0.app).2))) ∧
    (coilReply coil_handle.u8myAddress 1 [1, 0, 1, 1, 0, 0, 0, 0, 0, 1]).getD 2 0
      = (10 + 7) / 8 ∧
    (coilReply coil_handle.u8myAddress 1 [1, 0, 1, 1, 0, 0, 0, 0, 0, 1]).length
      = 3 + (10 + 7) / 8 + 2 ∧
    (∀ i, i < 10 →
      ((coilReply coil_handle.u8myAddress 1 [1, 0, 1, 1, 0, 0, 0, 0, 0, 1]).getD (3 + i / 8) 0
        >>> (i % 8)) &&& 1 = [1, 0, 1, 1, 0, 0, 0, 0, 0, 1].getD i 0 &&& 1) ∧
    (∀ i, 10 ≤ i → i < 8 * ((10 + 7) / 8) →
      ((coilReply coil_handle.u8myAddress 1 [1, 0, 1, 1, 0, 0, 0, 0, 0, 1]).getD (3 + i / 8) 0
        >>> (i % 8)) &&& 1 = 0)) :=
  ⟨by decide, by decide, by decide, by decide, by decide, by decide, by decide, by decide,
    rfl, by decide, by decide, by decide,
    C11_coil_read_packing coil_handle world0 zeroMaster zeroSlave 1 0x13 10 RegKind.coils
      [1, 0, 1, 1, 0, 0, 0, 0, 0, 1]
      (by decide) (by decide) (by decide) (by decide) (by decide) (by decide) (by decide)
      (by decide) rfl (by decide) (by decide)⟩

/-! ## What one run of the slave task adds to the trace -/

theorem txFrames_call_read {σ : Type} (w : World σ) (k : RegKind) (a : Nat) (app : σ) :
    txFrames (w.call (Event.localRead k a) app).trace = txFrames w.trace := by
  simp [World.call, txFrames_append, txFrames]

theorem cmpltCount_call_read {σ : Type} (w : World σ) (k : RegKind) (a : Nat) (app : σ) :
    cmpltCount (w.call (Event.localRead k a) app).trace = cmpltCount w.trace := by
  simp [World.call, cmpltCount_append, cmpltCount]

theorem txFrames_call_write {σ : Type} (w : World σ) (k : RegKind) (a d : Nat) (app : σ) :
    txFrames (w.call (Event.localWrite k a d) app).trace = txFrames w.trace := by
  simp [World.call, txFrames_append, txFrames]

theorem cmpltCount_call_write {σ : Type} (w : World σ) (k : RegKind) (a d : Nat) (app : σ) :
    cmpltCount (w.call (Event.localWrite k a d) app).trace = cmpltCount w.trace := by
  simp [World.call, cmpltCount_append, cmpltCount]

/-- The loop of `ReadValues` with an assigned strategy either runs to its end or returns the
exception frame of the error a read returned; it transmits nothing and fires no write-complete
callback. A property `P` of the response that every append keeps holds at the end. -/
theorem ReadValues_loop_outcome {σ : Type} (handle : sMODBUS σ) (k : RegKind)
    (mFrame : sMaster_Frame) (excFrame : sSlave_Frame) (P : Nat → sSlave_Frame → Prop)
    (hstep : ∀ n s d, P (n + 1) s → P n ((handle.reg k).appendData s d)) :
    ∀ (n u16Add reps : Nat) (sFrame : sSlave_Frame) (w : World σ), P n sFrame →
      (∃ s1 w1, ReadValues_loop handle (some k) mFrame excFrame n u16Add reps sFrame w =
          LoopExit.finished s1 w1 ∧ P 0 s1 ∧
        txFrames w1.trace = txFrames w.trace ∧ cmpltCount w1.trace = cmpltCount w.trace) ∨
      (∃ addr app w1, ((handle.reg k).reading addr app).1.error ≠ Exception_NoException ∧
        ReadValues_loop handle (some k) mFrame excFrame n u16Add reps sFrame w =
          LoopExit.returned
            (setupExceptionFrame mFrame ((handle.reg k).reading addr app).1.error excFrame) w1 ∧
        txFrames w1.trace = txFrames w.trace ∧ cmpltCount w1.trace = cmpltCount w.trace) := by
  intro n
  induction n with
  | zero =>
    intro u16Add reps sFrame w hP
    exact Or.inl ⟨sFrame, w, rfl, hP, rfl, rfl⟩
  | succ n ih =>
    intro u16Add reps sFrame w hP
    rw [ReadValues_loop]
    by_cases herr : ((handle.reg k).reading u16Add w.app).1.error = Exception_NoException
    · simp only [herr, ne_eq, not_true_eq_false, if_false]
      rcases ih (u16Add + 1) ((reps + 1) % 65536) _
        (w.call (Event.localRead k u16Add) ((handle.reg k).reading u16Add w.app).2)
        (hstep n sFrame
          { u16_0 := ((handle.reg k).reading u16Add w.app).1.data % 65536, u16_1 := reps } hP)
        with ⟨s1, w1, h1, h2, h3, h4⟩ | ⟨addr, app, w1, h1, h2, h3, h4⟩
      · refine Or.inl ⟨s1, w1, h1, h2, ?_, ?_⟩
        · rw [h3, txFrames_call_read]
        · rw [h4, cmpltCount_call_read]
      · refine Or.inr ⟨addr, app, w1, h1, h2, ?_, ?_⟩
        · rw [h3, txFrames_call_read]
        · rw [h4, cmpltCount_call_read]
    · refine Or.inr ⟨u16Add, w.app,
        w.call (Event.localRead k u16Add) ((handle.reg k).reading u16Add w.app).2, herr, ?_,
        txFrames_call_read _ _ _ _, cmpltCount_call_read _ _ _ _⟩
      simp only [herr, ne_eq, not_false_eq_true, if_true]

theorem ReadValues_select_some (fc : Nat) (h : fc = 1 ∨ fc = 2 ∨ fc = 3 ∨ fc = 4) :
    ∃ k, ReadValues_select fc = some k := by
  rcases h with h | h | h | h <;> rw [h] <;> exact ⟨_, rfl⟩

/-- The function `ReadValues` on a request with a read function code returns a reply; it
transmits nothing and fires no write-complete callback. -/
theorem ReadValues_total {σ : Type} (handle : sMODBUS σ) (mFrame : sMaster_Frame)
    (sFrame0 : sSlave_Frame) (w : World σ)
    (hfc : mFrame.u8FuncCode = 1 ∨ mFrame.u8FuncCode = 2 ∨ mFrame.u8FuncCode = 3 ∨
      mFrame.u8FuncCode = 4) :
    ∃ s w1, ReadValues handle mFrame sFrame0 w = some (s, w1) ∧
      txFrames w1.trace = txFrames w.trace ∧ cmpltCount w1.trace = cmpltCount w.trace := by
  obtain ⟨k, hk⟩ := ReadValues_select_some _ hfc
  unfold ReadValues
  simp only [hk]
  rcases ReadValues_loop_outcome handle k mFrame sFrame0 (fun _ _ => True)
      (fun _ _ _ _ => trivial)
      ((((mFrame.u8AddressHigh <<< 8) + mFrame.u8AddressLow) % 65536 +
          ((mFrame.u8Length_High <<< 8) + mFrame.u8Length_Low) % 65536) % 65536 -
        ((mFrame.u8AddressHigh <<< 8) + mFrame.u8AddressLow) % 65536)
      (((mFrame.u8AddressHigh <<< 8) + mFrame.u8AddressLow) % 65536) 0
      { u16Length := 3
        raw := ((sFrame0.raw.set 0 mFrame.u8DevID).set 1 mFrame.u8FuncCode).set 2 0 } w trivial
    with ⟨s1, w1, h1, _, h3, h4⟩ | ⟨addr, app, w1, _, h2, h3, h4⟩
  · rw [h1]
    exact ⟨_, _, rfl, h3, h4⟩
  · rw [h2]
    exact ⟨_, _, rfl, h3, h4⟩

/-- The function `WriteSingle` on a request with function code 5 or 6 returns a reply; it
transmits nothing and fires no write-complete callback. -/
theorem WriteSingle_total {σ : Type} (handle : sMODBUS σ) (mFrame : sMaster_Frame)
    (sFrame0 : sSlave_Frame) (w : World σ)
    (hfc : mFrame.u8FuncCode = 5 ∨ mFrame.u8FuncCode = 6) :
    ∃ s w1, WriteSingle handle mFrame sFrame0 w = some (s, w1) ∧
      txFrames w1.trace = txFrames w.trace ∧ cmpltCount w1.trace = cmpltCount w.trace := by
  have hw : ∀ k a d, txFrames (WriteSingle_write handle mFrame sFrame0 w k a d).2.trace =
      txFrames w.trace ∧
      cmpltCount (WriteSingle_write handle mFrame sFrame0 w k a d).2.trace =
        cmpltCount w.trace := by
    intro k a d
    rw [WriteSingle_write_trace]
    simp [txFrames_append, cmpltCount_append, txFrames, cmpltCount]
  unfold WriteSingle
  rcases hfc with h | h
  · simp only [h]
    split
    · exact ⟨_, _, rfl, (hw _ _ _).1, (hw _ _ _).2⟩
    · split
      · exact ⟨_, _, rfl, (hw _ _ _).1, (hw _ _ _).2⟩
      · exact ⟨_, _, rfl, rfl, rfl⟩
  · simp only [h]
    exact ⟨_, _, rfl, (hw _ _ _).1, (hw _ _ _).2⟩

theorem WriteMultipleCoils_loop_silent {σ : Type} (handle : sMODBUS σ)
    (mFrame : sMaster_Frame) :
    ∀ (n u16Add reps readIndex : Nat) (w : World σ),
      txFrames (WriteMultipleCoils_loop handle mFrame n u16Add reps readIndex w).trace =
        txFrames w.trace ∧
      cmpltCount (WriteMultipleCoils_loop handle mFrame n u16Add reps readIndex w).trace =
        cmpltCount w.trace := by
  intro n
  induction n with
  | zero => intro _ _ _ w; exact ⟨rfl, rfl⟩
  | succ n ih =>
    intro u16Add reps readIndex w
    rw [WriteMultipleCoils_loop]
    refine ⟨?_, ?_⟩
    · rw [(ih _ _ _ _).1, txFrames_call_write]
    · rw [(ih _ _ _ _).2, cmpltCount_call_write]

theorem WriteMultipleRegisters_loop_silent {σ : Type} (handle : sMODBUS σ)
    (mFrame : sMaster_Frame) (excFrame : sSlave_Frame) :
    ∀ (n u16Add readIndex : Nat) (w : World σ),
      txFrames (WriteMultipleRegisters_loop handle mFrame excFrame n u16Add readIndex w).2.trace =
        txFrames w.trace ∧
      cmpltCount
          (WriteMultipleRegisters_loop handle mFrame excFrame n u16Add readIndex w).2.trace =
        cmpltCount w.trace := by
  intro n
  induction n with
  | zero => intro _ _ w; exact ⟨rfl, rfl⟩
  | succ n ih =>
    intro u16Add readIndex w
    rw [WriteMultipleRegisters_loop]
    simp only []
    split
    · exact ⟨txFrames_call_write _ _ _ _ _, cmpltCount_call_write _ _ _ _ _⟩
    · refine ⟨?_, ?_⟩
      · rw [(ih _ _ _).1, txFrames_call_write]
      · rw [(ih _ _ _).2, cmpltCount_call_write]

theorem WriteMultipleRegisters_silent {σ : Type} (handle : sMODBUS σ) (mFrame : sMaster_Frame)
    (sFrame0 : sSlave_Frame) (w : World σ) :
    txFrames (WriteMultipleRegisters handle mFrame sFrame0 w).2.trace = txFrames w.trace ∧
    cmpltCount (WriteMultipleRegisters handle mFrame sFrame0 w).2.trace = cmpltCount w.trace := by
  unfold WriteMultipleRegisters
  simp only []
  have h := WriteMultipleRegisters_loop_silent handle mFrame sFrame0
    ((((mFrame.u8AddressHigh <<< 8) + mFrame.u8AddressLow) % 65536 +
        ((mFrame.u8Length_High <<< 8) + mFrame.u8Length_Low) % 65536) % 65536 -
      ((mFrame.u8AddressHigh <<< 8) + mFrame.u8AddressLow) % 65536)
    (((mFrame.u8AddressHigh <<< 8) + mFrame.u8AddressLow) % 65536) 7 w
  split <;> rename_i heq <;> rw [heq] at h <;> exact h

/-- The `switch` of the slave task on an accepted request: every supported function code gives
a reply, nothing is transmitted yet, and the write-complete callback, when one is assigned, is
fired once for the codes 5, 6, 15 and 16 and not for the codes 1 to 4. -/
theorem dispatch_total {σ : Type} (handle : sMODBUS σ) (mFrame : sMaster_Frame)
    (sFrame0 : sSlave_Frame) (w : World σ) (hfc : SupportedFC mFrame.u8FuncCode) :
    ∃ s w1, MODBUS_SlaveTask_dispatch handle mFrame sFrame0 w = some (s, w1) ∧
      txFrames w1.trace = txFrames w.trace ∧
      cmpltCount w1.trace = cmpltCount w.trace +
        (if (mFrame.u8FuncCode = 5 ∨ mFrame.u8FuncCode = 6 ∨ mFrame.u8FuncCode = 15 ∨
            mFrame.u8FuncCode = 16) ∧ handle.writeCmpltCallback.isSome then 1 else 0) := by
  rcases hfc with h | h | h | h | h | h | h | h
  case inr.inr.inr.inr.inl | inr.inr.inr.inr.inr.inl =>
    obtain ⟨s, w1, h1, h2, h3⟩ := WriteSingle_total handle mFrame sFrame0 w (by simp [h])
    rw [dispatch_single _ _ _ _ (by simp [h]), h1]
    refine ⟨_, _, rfl, ?_, ?_⟩
    · rw [txFrames_fire, h2]
    · rw [cmpltCount_fire, h3]
      simp [h]
  case inr.inr.inr.inr.inr.inr.inl =>
    rw [dispatch_coils _ _ _ _ h]
    refine ⟨_, _, rfl, ?_, ?_⟩
    · rw [txFrames_fire]
      exact (WriteMultipleCoils_loop_silent _ _ _ _ _ _ _).1
    · rw [cmpltCount_fire]
      have := (WriteMultipleCoils_loop_silent handle mFrame
        ((((mFrame.u8AddressHigh <<< 8) + mFrame.u8AddressLow) % 65536 +
            ((mFrame.u8Length_High <<< 8) + mFrame.u8Length_Low) % 65536) % 65536 -
          ((mFrame.u8AddressHigh <<< 8) + mFrame.u8AddressLow) % 65536)
        (((mFrame.u8AddressHigh <<< 8) + mFrame.u8AddressLow) % 65536) 0 6 w).2
      simp only [WriteMultipleCoils, this, h]
      simp
  case inr.inr.inr.inr.inr.inr.inr =>
    have hd : MODBUS_SlaveTask_dispatch handle mFrame sFrame0 w =
        some ((WriteMultipleRegisters handle mFrame sFrame0 w).1,
          fireWriteCmplt handle (WriteMultipleRegisters handle mFrame sFrame0 w).2) := by
      unfold MODBUS_SlaveTask_dispatch
      rw [h]
    rw [hd]
    refine ⟨_, _, rfl, ?_, ?_⟩
    · rw [txFrames_fire, (WriteMultipleRegisters_silent _ _ _ _).1]
    · rw [cmpltCount_fire, (WriteMultipleRegisters_silent _ _ _ _).2]
      simp [h]
  all_goals
    obtain ⟨s, w1, h1, h2, h3⟩ := ReadValues_total handle mFrame sFrame0 w (by simp [h])
    rw [dispatch_read4 _ _ _ _ (by simp [h]), h1]
    refine ⟨_, _, rfl, h2, ?_⟩
    rw [h3]
    simp [h]

/-! ## Write-complete event -/

theorem ReadMasterFrame_frame {σ : Type} (handle : sMODBUS σ) (mFrame0 : sMaster_Frame) :
    (ReadMasterFrame handle mFrame0).2.2 =
      { u16Length := (RingGetAllBytes handle.pxRxBuff mFrame0.raw).2.2
        raw := (RingGetAllBytes handle.pxRxBuff mFrame0.raw).2.1 } := by
  unfold ReadMasterFrame
  simp only []
  split
  · rfl
  · split
    · rfl
    · split <;> rfl

/-- A request that `ReadMasterFrame` accepts has a supported function code. -/
theorem ReadMasterFrame_accepted_supported {σ : Type} (handle : sMODBUS σ)
    (mFrame0 : sMaster_Frame)
    (h : (ReadMasterFrame handle mFrame0).1 = Exception_NoException) :
    SupportedFC (ReadMasterFrame handle mFrame0).2.2.u8FuncCode := by
  rw [ReadMasterFrame_frame]
  by_contra hno
  have hlen := ReadMasterFrame_len_none _ hno
  unfold ReadMasterFrame at h
  simp only [hlen] at h
  split at h <;> simp at h

theorem ReadMasterFrame_callback {σ : Type} (handle : sMODBUS σ) (mFrame0 : sMaster_Frame) :
    (ReadMasterFrame handle mFrame0).2.1.writeCmpltCallback = handle.writeCmpltCallback := by
  unfold ReadMasterFrame
  simp only []
  split
  · rfl
  · split
    · rfl
    · split <;> rfl

/-- The decoder does not look at the flag `u8RxComplete`. -/
theorem ReadMasterFrame_flag {σ : Type} (handle : sMODBUS σ) (mFrame0 : sMaster_Frame) :
    (ReadMasterFrame { handle with u8RxComplete := 0 } mFrame0).1 =
      (ReadMasterFrame handle mFrame0).1 ∧
    (ReadMasterFrame { handle with u8RxComplete := 0 } mFrame0).2.2 =
      (ReadMasterFrame handle mFrame0).2.2 := by
  unfold ReadMasterFrame
  simp only []
  split
  · exact ⟨rfl, rfl⟩
  · split
    · exact ⟨rfl, rfl⟩
    · split <;> exact ⟨rfl, rfl⟩

/-! ## Codes that reach the wire -/

theorem take_getD (l : List Nat) (n i : Nat) :
    (l.take n).getD i 0 = if i < n then l.getD i 0 else 0 := by
  rw [List.getD_eq_getElem?_getD, List.getElem?_take]
  split
  · rw [List.getD_eq_getElem?_getD]
  · rfl

/-- A reply whose second byte is a supported function code is not an exception frame. -/
theorem not_internal_of_code (raw : List Nat) (n fc : Nat) (hfc : SupportedFC fc)
    (h1 : raw.getD 1 0 = fc) : ¬ InternalExceptionFrame (raw.take n) := by
  rintro ⟨_, hbit, _⟩
  rw [take_getD, h1] at hbit
  split at hbit
  · rcases hfc with h | h | h | h | h | h | h | h <;> rw [h] at hbit <;> revert hbit <;> decide
  · revert hbit; decide

theorem setupExceptionFrame_code (mFrame : sMaster_Frame) (e : eMODBUS_Excpt)
    (sFrame0 : sSlave_Frame) (hs : 3 ≤ sFrame0.raw.length) :
    (setupExceptionFrame mFrame e sFrame0).raw.getD 2 0 = e.toNat % 256 := by
  unfold setupExceptionFrame
  simp only []
  rw [getD_set_ne _ _ _ _ (by decide), getD_set_ne _ _ _ _ (by decide),
    getD_set_eq _ _ _ (by simp only [List.length_set]; omega)]

/-- An exception frame for a code other than the two internal ones does not carry an internal
code. -/
theorem not_internal_exception (mFrame : sMaster_Frame) (e : eMODBUS_Excpt)
    (sFrame0 : sSlave_Frame) (hs : 3 ≤ sFrame0.raw.length)
    (h0 : e ≠ Exception_NoException) (h100 : e ≠ Exception_InvalidFrame) :
    ¬ InternalExceptionFrame ((setupExceptionFrame mFrame e sFrame0).raw.take
      ((setupExceptionFrame mFrame e sFrame0).u16Length % 256)) := by
  rintro ⟨_, _, hcode⟩
  have hl : (setupExceptionFrame mFrame e sFrame0).u16Length = 5 := rfl
  rw [hl, take_getD, setupExceptionFrame_code _ _ _ hs] at hcode
  cases e <;> simp [eMODBUS_Excpt.toNat] at hcode h0 h100

theorem FrameSlave_AppendCoil_keeps (s : sSlave_Frame) (d : bytesFields) (n fc : Nat)
    (h : s.raw.getD 1 0 = fc ∧ 3 ≤ s.u16Length ∧ s.u16Length + 2 * (n + 1) ≤ 65535) :
    (FrameSlave_AppendCoil s d).raw.getD 1 0 = fc ∧ 3 ≤ (FrameSlave_AppendCoil s d).u16Length ∧
      (FrameSlave_AppendCoil s d).u16Length + 2 * n ≤ 65535 := by
  obtain ⟨h1, h2, h3⟩ := h
  unfold FrameSlave_AppendCoil
  by_cases hr : d.u16_1 % 8 = 0
  · have e : (s.u16Length + 1) % 65536 = s.u16Length + 1 := by omega
    simp only [hr, if_true, e]
    refine ⟨?_, by omega, by omega⟩
    rw [getD_set_ne _ _ _ _ (by omega), getD_set_ne _ _ _ _ (by decide),
      getD_set_ne _ _ _ _ (by omega), h1]
  · simp only [hr, if_false]
    refine ⟨?_, h2, by omega⟩
    rw [getD_set_ne _ _ _ _ (by omega), h1]

theorem FrameSlave_AppendRegister_keeps (s : sSlave_Frame) (d : bytesFields) (n fc : Nat)
    (h : s.raw.getD 1 0 = fc ∧ 3 ≤ s.u16Length ∧ s.u16Length + 2 * (n + 1) ≤ 65535) :
    (FrameSlave_AppendRegister s d).raw.getD 1 0 = fc ∧
      3 ≤ (FrameSlave_AppendRegister s d).u16Length ∧
      (FrameSlave_AppendRegister s d).u16Length + 2 * n ≤ 65535 := by
  obtain ⟨h1, h2, h3⟩ := h
  unfold FrameSlave_AppendRegister
  have e : (s.u16Length + 2) % 65536 = s.u16Length + 2 := by omega
  simp only [e]
  refine ⟨?_, by omega, by omega⟩
  rw [getD_set_ne _ _ _ _ (by decide), getD_set_ne _ _ _ _ (by omega),
    getD_set_ne _ _ _ _ (by omega), h1]

theorem FrameSlave_AppendCRC_keeps (s : sSlave_Frame) (h : 3 ≤ s.u16Length) :
    (FrameSlave_AppendCRC s).raw.getD 1 0 = s.raw.getD 1 0 := by
  unfold FrameSlave_AppendCRC
  simp only []
  rw [getD_set_ne _ _ _ _ (by omega), getD_set_ne _ _ _ _ (by omega)]

/-- The echo reply of a write request keeps the function code of the request. -/
theorem echo_code (dst src : List Nat) (n : Nat) (hn : 2 ≤ n) (hsrc : 2 ≤ src.length) :
    (FrameSlave_AppendCRC { u16Length := 6, raw := memcpy dst src n }).raw.getD 1 0 =
      src.getD 1 0 := by
  rw [FrameSlave_AppendCRC_keeps _ (by show 3 ≤ 6; decide)]
  show (src.take n ++ dst.drop n).getD 1 0 = _
  rw [getD_append_lt _ _ _ (by rw [List.length_take]; omega), take_getD, if_pos (by omega)]

theorem Wired_append {σ : Type} (handle : sMODBUS σ) (hw : Wired handle) (k : RegKind) :
    (handle.reg k).appendData = FrameSlave_AppendCoil ∨
      (handle.reg k).appendData = FrameSlave_AppendRegister := by
  obtain ⟨h1, h2, h3, h4⟩ := hw
  cases k
  · exact Or.inl h1
  · exact Or.inl h2
  · exact Or.inr h3
  · exact Or.inr h4

/-- The reply of `ReadValues` to a read request within the count limit carries no internal
code when no read handler returns one. -/
theorem ReadValues_reply {σ : Type} (handle : sMODBUS σ) (mFrame : sMaster_Frame)
    (sFrame0 : sSlave_Frame) (w : World σ)
    (hfc : mFrame.u8FuncCode = 1 ∨ mFrame.u8FuncCode = 2 ∨ mFrame.u8FuncCode = 3 ∨
      mFrame.u8FuncCode = 4)
    (hw : Wired handle)
    (hret : ∀ k address app,
      ((handle.reg k).reading address app).1.error ≠ Exception_InvalidFrame)
    (hcnt : ((mFrame.u8Length_High <<< 8) + mFrame.u8Length_Low) % 65536 ≤ 2000)
    (hs : 3 ≤ sFrame0.raw.length) :
    ∀ s w1, ReadValues handle mFrame sFrame0 w = some (s, w1) →
      ¬ InternalExceptionFrame (s.raw.take (s.u16Length % 256)) := by
  intro s w1 hrv
  obtain ⟨k, hk⟩ := ReadValues_select_some _ hfc
  have hsup : SupportedFC mFrame.u8FuncCode := by
    unfold SupportedFC
    rcases hfc with h | h | h | h <;> simp [h]
  have hstep : ∀ n s d,
      (s.raw.getD 1 0 = mFrame.u8FuncCode ∧ 3 ≤ s.u16Length ∧
        s.u16Length + 2 * (n + 1) ≤ 65535) →
      (((handle.reg k).appendData s d).raw.getD 1 0 = mFrame.u8FuncCode ∧
        3 ≤ ((handle.reg k).appendData s d).u16Length ∧
        ((handle.reg k).appendData s d).u16Length + 2 * n ≤ 65535) := by
    intro n s d h
    rcases Wired_append handle hw k with ha | ha <;> rw [ha]
    · exact FrameSlave_AppendCoil_keeps s d n _ h
    · exact FrameSlave_AppendRegister_keeps s d n _ h
  have hinit : (((sFrame0.raw.set 0 mFrame.u8DevID).set 1 mFrame.u8FuncCode).set 2 0).getD 1 0 =
      mFrame.u8FuncCode := by
    rw [getD_set_ne _ _ _ _ (by decide),
      getD_set_eq _ _ _ (by simp only [List.length_set]; omega)]
  unfold ReadValues at hrv
  simp only [hk] at hrv
  rcases ReadValues_loop_outcome handle k mFrame sFrame0
      (fun n s => s.raw.getD 1 0 = mFrame.u8FuncCode ∧ 3 ≤ s.u16Length ∧
        s.u16Length + 2 * n ≤ 65535) hstep
      ((((mFrame.u8AddressHigh <<< 8) + mFrame.u8AddressLow) % 65536 +
          ((mFrame.u8Length_High <<< 8) + mFrame.u8Length_Low) % 65536) % 65536 -
        ((mFrame.u8AddressHigh <<< 8) + mFrame.u8AddressLow) % 65536)
      (((mFrame.u8AddressHigh <<< 8) + mFrame.u8AddressLow) % 65536) 0
      { u16Length := 3
        raw := ((sFrame0.raw.set 0 mFrame.u8DevID).set 1 mFrame.u8FuncCode).set 2 0 } w
      ⟨hinit, le_refl _, by simp only []; omega⟩
    with ⟨s1, w2, h1, ⟨hc, hl, _⟩, _, _⟩ | ⟨addr, app, w2, hne, h2, _, _⟩
  · rw [h1] at hrv
    simp only [Option.some.injEq, Prod.mk.injEq] at hrv
    rw [← hrv.1]
    exact not_internal_of_code _ _ _ hsup (by rw [FrameSlave_AppendCRC_keeps _ hl, hc])
  · rw [h2] at hrv
    simp only [Option.some.injEq, Prod.mk.injEq] at hrv
    rw [← hrv.1]
    exact not_internal_exception _ _ _ hs hne (hret k addr app)

/-- The reply of `WriteSingle` carries no internal code when no write handler returns one. -/
theorem WriteSingle_reply {σ : Type} (handle : sMODBUS σ) (mFrame : sMaster_Frame)
    (sFrame0 : sSlave_Frame) (w : World σ)
    (hfc : mFrame.u8FuncCode = 5 ∨ mFrame.u8FuncCode = 6)
    (hret : ∀ k address data app,
      ((handle.reg k).writing address data app).1 ≠ Exception_InvalidFrame)
    (hs : 3 ≤ sFrame0.raw.length) (hn : 2 ≤ mFrame.u16Length) (hm : 2 ≤ mFrame.raw.length) :
    ∀ s w1, WriteSingle handle mFrame sFrame0 w = some (s, w1) →
      ¬ InternalExceptionFrame (s.raw.take (s.u16Length % 256)) := by
  have hsup : SupportedFC mFrame.u8FuncCode := by
    unfold SupportedFC
    rcases hfc with h | h <;> simp [h]
  have hww : ∀ k a d, ¬ InternalExceptionFrame
      ((WriteSingle_write handle mFrame sFrame0 w k a d).1.raw.take
        ((WriteSingle_write handle mFrame sFrame0 w k a d).1.u16Length % 256)) := by
    intro k a d
    unfold WriteSingle_write
    simp only []
    split
    · rename_i hne
      exact not_internal_exception _ _ _ hs hne (hret k a d w.app)
    · exact not_internal_of_code _ _ _ hsup (echo_code _ _ _ hn hm)
  intro s w1 hws
  have key : ∀ r : sSlave_Frame × World σ,
      ¬ InternalExceptionFrame (r.1.raw.take (r.1.u16Length % 256)) → r = (s, w1) →
      ¬ InternalExceptionFrame (s.raw.take (s.u16Length % 256)) := by
    intro r hr he
    rw [he] at hr
    exact hr
  unfold WriteSingle at hws
  rcases hfc with h | h
  · simp only [h] at hws
    split at hws
    · simp only [Option.some.injEq] at hws
      exact key _ (hww _ _ _) hws
    · split at hws
      · simp only [Option.some.injEq] at hws
        exact key _ (hww _ _ _) hws
      · simp only [Option.some.injEq, Prod.mk.injEq] at hws
        rw [← hws.1]
        exact not_internal_exception _ _ _ hs (by decide) (by decide)
  · simp only [h] at hws
    simp only [Option.some.injEq] at hws
    exact key _ (hww _ _ _) hws

theorem WriteMultipleRegisters_loop_reply {σ : Type} (handle : sMODBUS σ)
    (mFrame : sMaster_Frame) (excFrame : sSlave_Frame) :
    ∀ (n u16Add readIndex : Nat) (w : World σ),
      (WriteMultipleRegisters_loop handle mFrame excFrame n u16Add readIndex w).1 = none ∨
      ∃ a d app, (handle.inputs.writing a d app).1 ≠ Exception_NoException ∧
        (WriteMultipleRegisters_loop handle mFrame excFrame n u16Add readIndex w).1 =
          some (setupExceptionFrame mFrame (handle.inputs.writing a d app).1 excFrame) := by
  intro n
  induction n with
  | zero => intro _ _ w; exact Or.inl rfl
  | succ n ih =>
    intro u16Add readIndex w
    rw [WriteMultipleRegisters_loop]
    simp only []
    split
    · rename_i hne
      exact Or.inr ⟨_, _, _, hne, rfl⟩
    · exact ih _ _ _

/-- The reply of `WriteMultipleRegisters` carries no internal code when no write handler
returns one. -/
theorem WriteMultipleRegisters_reply {σ : Type} (handle : sMODBUS σ) (mFrame : sMaster_Frame)
    (sFrame0 : sSlave_Frame) (w : World σ) (hfc : mFrame.u8FuncCode = 16)
    (hret : ∀ k address data app,
      ((handle.reg k).writing address data app).1 ≠ Exception_InvalidFrame)
    (hs : 3 ≤ sFrame0.raw.length) (hn : 2 ≤ mFrame.u16Length) (hm : 2 ≤ mFrame.raw.length) :
    ¬ InternalExceptionFrame ((WriteMultipleRegisters handle mFrame sFrame0 w).1.raw.take
      ((WriteMultipleRegisters handle mFrame sFrame0 w).1.u16Length % 256)) := by
  have hsup : SupportedFC mFrame.u8FuncCode := by
    unfold SupportedFC; simp [hfc]
  unfold WriteMultipleRegisters
  simp only []
  rcases WriteMultipleRegisters_loop_reply handle mFrame sFrame0
    ((((mFrame.u8AddressHigh <<< 8) + mFrame.u8AddressLow) % 65536 +
        ((mFrame.u8Length_High <<< 8) + mFrame.u8Length_Low) % 65536) % 65536 -
      ((mFrame.u8AddressHigh <<< 8) + mFrame.u8AddressLow) % 65536)
    (((mFrame.u8AddressHigh <<< 8) + mFrame.u8AddressLow) % 65536) 7 w
    with h | ⟨a, d, app, hne, h⟩
  · split
    · rename_i heq
      rw [heq] at h
      cases h
    · exact not_internal_of_code _ _ _ hsup (echo_code _ _ _ hn hm)
  · split
    · rename_i sF w2 heq
      rw [heq] at h
      simp only [Option.some.injEq] at h
      rw [h]
      exact not_internal_exception _ _ _ hs hne (hret RegKind.inputs a d app)
    · rename_i heq
      rw [heq] at h
      cases h

/-- The reply the `switch` of the slave task builds for an accepted request carries no
internal code, when no handler returns one and a read stays within the count limit. -/
theorem dispatch_reply {σ : Type} (handle : sMODBUS σ) (mFrame : sMaster_Frame)
    (sFrame0 : sSlave_Frame) (w : World σ) (hfc : SupportedFC mFrame.u8FuncCode)
    (hw : Wired handle) (hret : NoInternalReturn handle)
    (hcnt : (mFrame.u8FuncCode = 1 ∨ mFrame.u8FuncCode = 2 ∨ mFrame.u8FuncCode = 3 ∨
      mFrame.u8FuncCode = 4) →
        ((mFrame.u8Length_High <<< 8) + mFrame.u8Length_Low) % 65536 ≤ 2000)
    (hs : 3 ≤ sFrame0.raw.length) (hn : 2 ≤ mFrame.u16Length) (hm : 2 ≤ mFrame.raw.length) :
    ∀ s w1, MODBUS_SlaveTask_dispatch handle mFrame sFrame0 w = some (s, w1) →
      ¬ InternalExceptionFrame (s.raw.take (s.u16Length % 256)) := by
  intro s w1 hd
  have hsup := hfc
  rcases hfc with h | h | h | h | h | h | h | h
  case inr.inr.inr.inr.inl | inr.inr.inr.inr.inr.inl =>
    rw [dispatch_single _ _ _ _ (by simp [h])] at hd
    obtain ⟨s2, w2, h1, _, _⟩ := WriteSingle_total handle mFrame sFrame0 w (by simp [h])
    rw [h1] at hd
    simp only [Option.some.injEq, Prod.mk.injEq] at hd
    rw [← hd.1]
    exact WriteSingle_reply handle mFrame sFrame0 w (by simp [h]) hret.2 hs hn hm _ _ h1
  case inr.inr.inr.inr.inr.inr.inl =>
    rw [dispatch_coils _ _ _ _ h] at hd
    simp only [Option.some.injEq, Prod.mk.injEq] at hd
    rw [← hd.1]
    exact not_internal_of_code _ _ _ hsup (echo_code _ _ _ hn hm)
  case inr.inr.inr.inr.inr.inr.inr =>
    have hd2 : MODBUS_SlaveTask_dispatch handle mFrame sFrame0 w =
        some ((WriteMultipleRegisters handle mFrame sFrame0 w).1,
          fireWriteCmplt handle (WriteMultipleRegisters handle mFrame sFrame0 w).2) := by
      unfold MODBUS_SlaveTask_dispatch
      rw [h]
    rw [hd2] at hd
    simp only [Option.some.injEq, Prod.mk.injEq] at hd
    rw [← hd.1]
    exact WriteMultipleRegisters_reply handle mFrame sFrame0 w h hret.2 hs hn hm
  all_goals
    rw [dispatch_read4 _ _ _ _ (by simp [h])] at hd
    exact ReadValues_reply handle mFrame sFrame0 w (by simp [h]) hw hret.1
      (hcnt (by simp [h])) hs _ _ hd

/-- The three results of `ReadMasterFrame`: the handle it leaves, the frame it fills in, and
what an accepted frame satisfies. -/
theorem ReadMasterFrame_cases {σ : Type} (handle : sMODBUS σ) (mFrame0 : sMaster_Frame)
    (B : List Nat) (hok : RingOK handle.pxRxBuff) (hB : RingContent handle.pxRxBuff = B)
    (hm : mFrame0.raw.length = MODBUS_FRAME_MAX_SIZE) :
    ∃ (handle1 : sMODBUS σ) (e : eMODBUS_Excpt),
      handle1.coils = handle.coils ∧ handle1.discretes = handle.discretes ∧
      handle1.holdings = handle.holdings ∧ handle1.inputs = handle.inputs ∧
      handle1.hwDataTx = handle.hwDataTx ∧
      ReadMasterFrame handle mFrame0 =
        (e, handle1, ⟨B.length, B ++ mFrame0.raw.drop B.length⟩) ∧
      (e = Exception_NoException → 8 ≤ B.length ∧ SupportedFC (B.getD 1 0)) := by
  obtain ⟨h1, _, _, g1, g2, g3, g4, htx, _, hread⟩ :=
    ReadMasterFrame_eq handle mFrame0 B hok hB hm
  by_cases hshort : B.length < MASTER_FRAME_LENGTH ∨
      (B ++ mFrame0.raw.drop B.length).getD 0 0 ≠ handle.u8myAddress
  · rw [if_pos hshort] at hread
    exact ⟨h1, _, g1, g2, g3, g4, htx, hread, by intro h; cases h⟩
  · rw [if_neg hshort] at hread
    have h8 : 8 ≤ B.length := by
      have : ¬ B.length < 8 := fun h => hshort (Or.inl h)
      omega
    have hfc : (⟨B.length, B ++ mFrame0.raw.drop B.length⟩ : sMaster_Frame).u8FuncCode =
        B.getD 1 0 :=
      getD_append_lt _ _ _ (by omega)
    by_cases hsup : SupportedFC (B.getD 1 0)
    · split at hread
      · exact ⟨h1, _, g1, g2, g3, g4, htx, hread, by intro h; cases h⟩
      · split at hread
        · exact ⟨h1, _, g1, g2, g3, g4, htx, hread, by intro h; cases h⟩
        · exact ⟨h1, _, g1, g2, g3, g4, htx, hread, fun _ => ⟨h8, hsup⟩⟩
    · rw [ReadMasterFrame_len_none _ (by rw [hfc]; exact hsup)] at hread
      exact ⟨h1, _, g1, g2, g3, g4, htx, hread, by intro h; cases h⟩

theorem S1_read_no_internal (address : Nat) (app : Unit) :
    (S1_read address app).1.error ≠ Exception_InvalidFrame := by
  unfold S1_read
  split <;> simp

/-- The handlers of the slave of scenario S1 return no internal code. -/
theorem read4_handle_no_internal : NoInternalReturn read4_handle := by
  refine ⟨fun k address app => ?_, fun k address data app => ?_⟩
  · cases k
    · exact fun h => by cases h
    · exact fun h => by cases h
    · exact S1_read_no_internal address app
    · exact fun h => by cases h
  · cases k <;> exact fun h => by cases h

theorem mod_add_inj (s i j C : Nat) (hi : i < C) (hj : j < C)
    (h : (s + i) % C = (s + j) % C) : i = j := by
  have h1 : i ≡ j [MOD C] := Nat.ModEq.add_left_cancel' s h
  have h2 : i % C = j % C := h1
  rwa [Nat.mod_eq_of_lt hi, Nat.mod_eq_of_lt hj] at h2

theorem RingContent_length (buff : sRing) : (RingContent buff).length = buff.u8available := by
  simp [RingContent]

theorem RingContent_getD (buff : sRing) (i : Nat) (hi : i < buff.u8available) :
    (RingContent buff).getD i 0 =
      buff.u8Buffer.getD ((buff.u8start + i) % buff.u16BufferSize) 0 := by
  unfold RingContent
  rw [List.getD_eq_getElem?_getD, List.getElem?_map, List.getElem?_range hi]
  rfl

theorem list_eq_of_getD (l1 l2 : List Nat) (hl : l1.length = l2.length)
    (h : ∀ i, i < l1.length → l1.getD i 0 = l2.getD i 0) : l1 = l2 := by
  apply List.ext_getElem hl
  intro i h1 h2
  have := h i h1
  rw [List.getD_eq_getElem?_getD, List.getD_eq_getElem?_getD, List.getElem?_eq_getElem h1,
    List.getElem?_eq_getElem h2] at this
  exact this

/-- One `RingAdd` on a ring whose end index is `start + available`: the ring keeps that shape
and its content is the old content followed by the new byte, without the oldest byte when the
ring was full. -/
theorem RingAdd_content (buff : sRing) (b : Nat) (hok : RingOK buff)
    (hend : buff.u8end = (buff.u8start + buff.u8available) % buff.u16BufferSize)
    (hb : b < 256) :
    RingOK (RingAdd buff b) ∧
    (RingAdd buff b).u16BufferSize = buff.u16BufferSize ∧
    (RingAdd buff b).u8end =
      ((RingAdd buff b).u8start + (RingAdd buff b).u8available) % buff.u16BufferSize ∧
    RingContent (RingAdd buff b) =
      (RingContent buff ++ [b]).drop (buff.u8available + 1 - buff.u16BufferSize) := by
  obtain ⟨h0, h255, hlen, hst, hav⟩ := hok
  have hendlt : buff.u8end < buff.u16BufferSize := by
    rw [hend]; exact Nat.mod_lt _ h0
  have hm1 : ∀ x, x % buff.u16BufferSize % 256 = x % buff.u16BufferSize := by
    intro x
    have := Nat.mod_lt x h0
    exact Nat.mod_eq_of_lt (by omega)
  have hbm : b % 256 = b := Nat.mod_eq_of_lt hb
  by_cases hfull : buff.u8available = buff.u16BufferSize
  · have hR : RingAdd buff b =
        { buff with
          u8Buffer := buff.u8Buffer.set buff.u8end b
          u8end := (buff.u8end + 1) % buff.u16BufferSize
          u8overflow := 1
          u8start := (buff.u8start + 1) % buff.u16BufferSize } := by
      unfold RingAdd
      simp only [hfull, if_true, hm1, hbm]
    rw [hR]
    have hes : buff.u8end = buff.u8start := by
      rw [hend, hfull, Nat.add_mod_right, Nat.mod_eq_of_lt hst]
    refine ⟨⟨h0, h255, ?_, Nat.mod_lt _ h0, hav⟩, rfl, ?_, ?_⟩
    · show (buff.u8Buffer.set buff.u8end b).length = _
      rw [List.length_set, hlen]
    · show (buff.u8end + 1) % buff.u16BufferSize =
        ((buff.u8start + 1) % buff.u16BufferSize + buff.u8available) % buff.u16BufferSize
      rw [hfull, Nat.add_mod_right, Nat.mod_mod, hes]
    · have hd : buff.u8available + 1 - buff.u16BufferSize = 1 := by omega
      rw [hd]
      apply list_eq_of_getD
      · simp [RingContent, hfull]
      · intro i hi
        have hi2 : i < buff.u16BufferSize := by
          simpa [RingContent, hfull] using hi
        rw [RingContent_getD _ _ (by show i < buff.u8available; rw [hfull]; exact hi2)]
        show (buff.u8Buffer.set buff.u8end b).getD
          (((buff.u8start + 1) % buff.u16BufferSize + i) % buff.u16BufferSize) 0 = _
        have hidx : ((buff.u8start + 1) % buff.u16BufferSize + i) % buff.u16BufferSize =
            (buff.u8start + (i + 1)) % buff.u16BufferSize := by
          rw [Nat.mod_add_mod]; congr 1; omega
        rw [hidx, List.getD_eq_getElem?_getD (l := List.drop 1 _), List.getElem?_drop,
          ← List.getD_eq_getElem?_getD]
        have h1i : 1 + i = i + 1 := by omega
        rw [h1i]
        by_cases hlast : i + 1 = buff.u16BufferSize
        · have e1 : (buff.u8start + (i + 1)) % buff.u16BufferSize = buff.u8end := by
            rw [hlast, Nat.add_mod_right, Nat.mod_eq_of_lt hst, hes]
          rw [e1, getD_set_eq _ _ _ (by rw [hlen]; exact hendlt)]
          have e2 : i + 1 = (RingContent buff).length := by
            rw [RingContent_length, hfull]; exact hlast
          rw [e2, getD_at_length]
        · have hlt : i + 1 < buff.u16BufferSize := by omega
          have hne : buff.u8end ≠ (buff.u8start + (i + 1)) % buff.u16BufferSize := by
            intro e
            rw [hes] at e
            have e3 : (buff.u8start + 0) % buff.u16BufferSize =
                (buff.u8start + (i + 1)) % buff.u16BufferSize := by
              rw [Nat.add_zero, Nat.mod_eq_of_lt hst]; exact e
            have := mod_add_inj _ _ _ _ h0 hlt e3
            omega
          rw [getD_set_ne _ _ _ _ hne, getD_append_lt _ _ _
            (by rw [RingContent_length, hfull]; exact hlt),
            RingContent_getD _ _ (by rw [hfull]; exact hlt)]
  · have hlt : buff.u8available < buff.u16BufferSize := by omega
    have hav1 : (buff.u8available + 1) % 256 = buff.u8available + 1 := by omega
    have hR : RingAdd buff b =
        { buff with
          u8Buffer := buff.u8Buffer.set buff.u8end b
          u8end := (buff.u8end + 1) % buff.u16BufferSize
          u8overflow := 0
          u8available := buff.u8available + 1 } := by
      unfold RingAdd
      simp only [hfull, if_false, hm1, hbm, hav1]
    rw [hR]
    refine ⟨⟨h0, h255, ?_, hst, by show buff.u8available + 1 ≤ buff.u16BufferSize; omega⟩, rfl, ?_, ?_⟩
    · show (buff.u8Buffer.set buff.u8end b).length = _
      rw [List.length_set, hlen]
    · show (buff.u8end + 1) % buff.u16BufferSize =
        (buff.u8start + (buff.u8available + 1)) % buff.u16BufferSize
      rw [hend, Nat.mod_add_mod]; rfl
    · have hd : buff.u8available + 1 - buff.u16BufferSize = 0 := by omega
      rw [hd, List.drop_zero]
      apply list_eq_of_getD
      · simp [RingContent]
      · intro i hi
        have hi2 : i < buff.u8available + 1 := by
          simpa [RingContent] using hi
        rw [RingContent_getD _ _ (by show i < buff.u8available + 1; exact hi2)]
        show (buff.u8Buffer.set buff.u8end b).getD
          ((buff.u8start + i) % buff.u16BufferSize) 0 = _
        by_cases hlast : i = buff.u8available
        · rw [hlast, ← hend, getD_set_eq _ _ _ (by rw [hlen]; exact hendlt)]
          have e2 : buff.u8available = (RingContent buff).length := by
            rw [RingContent_length]
          rw [e2, getD_at_length]
        · have hil : i < buff.u8available := by omega
          have hne : buff.u8end ≠ (buff.u8start + i) % buff.u16BufferSize := by
            intro e
            rw [hend] at e
            have := mod_add_inj _ _ _ _ hlt (by omega) e
            omega
          rw [getD_set_ne _ _ _ _ hne, getD_append_lt _ _ _
            (by rw [RingContent_length]; exact hil), RingContent_getD _ _ hil]

theorem keep_last_step (pre : List Nat) (b C : Nat) (hC : 0 < C) :
    (pre.drop (pre.length - C) ++ [b]).drop (min pre.length C + 1 - C) =
      (pre ++ [b]).drop ((pre ++ [b]).length - C) := by
  have hl : (pre ++ [b]).length = pre.length + 1 := by simp
  rw [hl]
  by_cases h : pre.length < C
  · have e1 : pre.length - C = 0 := by omega
    have e2 : min pre.length C + 1 - C = 0 := by omega
    have e3 : pre.length + 1 - C = 0 := by omega
    rw [e1, e2, e3]
    rfl
  · have e2 : min pre.length C + 1 - C = 1 := by omega
    have e3 : pre.length + 1 - C = (pre.length - C) + 1 := by omega
    have e4 : (pre ++ [b]).drop ((pre.length - C) + 1) =
        ((pre ++ [b]).drop (pre.length - C)).drop 1 := by
      rw [List.drop_drop]
    have e5 : (pre ++ [b]).drop (pre.length - C) = pre.drop (pre.length - C) ++ [b] :=
      List.drop_append_of_le_length (by omega)
    rw [e2, e3, e4, e5]

/-- Pushing the bytes `bs` into a ring that holds the last bytes of `pre`: the ring then holds
the last bytes of `pre ++ bs`, as many as its capacity allows. -/
theorem RingAdd_fold (C : Nat) :
    ∀ (bs pre : List Nat) (buff : sRing), RingOK buff → buff.u16BufferSize = C →
      buff.u8end = (buff.u8start + buff.u8available) % C →
      RingContent buff = pre.drop (pre.length - C) → IsBytes bs →
      RingOK (bs.foldl RingAdd buff) ∧ (bs.foldl RingAdd buff).u16BufferSize = C ∧
      RingContent (bs.foldl RingAdd buff) = (pre ++ bs).drop ((pre ++ bs).length - C) := by
  intro bs
  induction bs with
  | nil =>
    intro pre buff hok hsz _ hcont _
    simp only [List.foldl_nil, List.append_nil]
    exact ⟨hok, hsz, hcont⟩
  | cons b bs ih =>
    intro pre buff hok hsz hend hcont hb
    have hb1 : b < 256 := hb b (by simp)
    have hbs : IsBytes bs := fun x hx => hb x (by simp [hx])
    have hC : 0 < C := by rw [← hsz]; exact hok.1
    obtain ⟨hok2, hsz2, hend2, hcont2⟩ :=
      RingAdd_content buff b hok (by rw [hsz]; exact hend) hb1
    have hav : buff.u8available = min pre.length C := by
      rw [← RingContent_length, hcont, List.length_drop]
      omega
    rw [hsz, hcont, hav, keep_last_step pre b C hC] at hcont2
    rw [hsz] at hsz2 hend2
    have := ih (pre ++ [b]) (RingAdd buff b) hok2 hsz2 hend2 hcont2 hbs
    simpa [List.foldl_cons, List.append_assoc] using this

/-- Claim C27. Byte FIFO semantics: for a ring buffer of capacity `C`, `1 ≤ C ≤ 255`, that is
empty with `start = end = 0`, after the bytes `bs` were pushed one after the other with
`RingAdd`, `RingCountBytes` returns `min k C`, where `k` is the number of bytes pushed, and
`RingGetAllBytes` copies the last `min k C` bytes pushed, in the order they were pushed, to the
front of the destination, returns `min k C`, and leaves the buffer empty with
`start = end = 0`. -/
theorem C27_byte_fifo (buff : sRing) (bs dst : List Nat) (C : Nat)
    (hC1 : 1 ≤ C) (hC : C ≤ 255)
    (hsz : buff.u16BufferSize = C) (hbuf : buff.u8Buffer.length = C)
    (hs : buff.u8start = 0) (he : buff.u8end = 0) (ha : buff.u8available = 0)
    (hb : IsBytes bs) (hdst : min bs.length C ≤ dst.length) :
    RingCountBytes (bs.foldl RingAdd buff) = min bs.length C ∧
    (RingGetAllBytes (bs.foldl RingAdd buff) dst).2.2 = min bs.length C ∧
    (RingGetAllBytes (bs.foldl RingAdd buff) dst).2.1 =
      bs.drop (bs.length - min bs.length C) ++ dst.drop (min bs.length C) ∧
    (RingGetAllBytes (bs.foldl RingAdd buff) dst).1.u8available = 0 ∧
    (RingGetAllBytes (bs.foldl RingAdd buff) dst).1.u8start = 0 ∧
    (RingGetAllBytes (bs.foldl RingAdd buff) dst).1.u8end = 0 := by
  have hok : RingOK buff := ⟨by omega, by omega, by rw [hbuf, hsz], by omega, by omega⟩
  have hcont0 : RingContent buff = ([] : List Nat).drop (([] : List Nat).length - C) := by
    simp [RingContent, ha]
  obtain ⟨hok2, _, hcont⟩ := RingAdd_fold C bs [] buff hok hsz
    (by rw [hs, ha]; simp [he]) hcont0 hb
  rw [List.nil_append] at hcont
  have hdrop : bs.length - min bs.length C = bs.length - C := by omega
  have hav : (bs.foldl RingAdd buff).u8available = min bs.length C := by
    rw [← RingContent_length, hcont, List.length_drop]
    omega
  have hget := RingGetAllBytes_eq (bs.foldl RingAdd buff) dst hok2 (by rw [hav]; exact hdst)
  have hclen : (RingContent (bs.foldl RingAdd buff)).length = min bs.length C := by
    rw [RingContent_length, hav]
  rw [hget, hclen, hdrop, ← hcont]
  refine ⟨hav, rfl, rfl, ?_, ?_, ?_⟩
  all_goals
    by_cases h0 : (bs.foldl RingAdd buff).u8available = 0
    · have hnil : bs = [] := by
        rw [hav] at h0
        have : bs.length = 0 := by omega
        exact List.length_eq_zero.mp this
      subst hnil
      simp [ha, hs, he]
    · simp [h0, RingClear]

/-- Instance of claim C27: six bytes pushed into a new ring of capacity 4; the ring holds the
last four. -/
theorem C27_byte_fifo_witness :
    1 ≤ 4 ∧ 4 ≤ 255 ∧ (RingNew 4).u16BufferSize = 4 ∧ (RingNew 4).u8Buffer.length = 4 ∧
    (RingNew 4).u8start = 0 ∧ (RingNew 4).u8end = 0 ∧ (RingNew 4).u8available = 0 ∧
    IsBytes [1, 2, 3, 4, 5, 6] ∧
    min [1, 2, 3, 4, 5, 6].length 4 ≤ [9, 9, 9, 9, 9, 9, 9, 9].length ∧
    (RingGetAllBytes ([1, 2, 3, 4, 5, 6].foldl RingAdd (RingNew 4))
      [9, 9, 9, 9, 9, 9, 9, 9]).2.1 = [3, 4, 5, 6, 9, 9, 9, 9] ∧
    (RingCountBytes ([1, 2, 3, 4, 5, 6].foldl RingAdd (RingNew 4)) =
      min [1, 2, 3, 4, 5, 6].length 4 ∧
    (RingGetAllBytes ([1, 2, 3, 4, 5, 6].foldl RingAdd (RingNew 4))
      [9, 9, 9, 9, 9, 9, 9, 9]).2.2 = min [1, 2, 3, 4, 5, 6].length 4 ∧
    (RingGetAllBytes ([1, 2, 3, 4, 5, 6].foldl RingAdd (RingNew 4))
      [9, 9, 9, 9, 9, 9, 9, 9]).2.1 =
      [1, 2, 3, 4, 5, 6].drop ([1, 2, 3, 4, 5, 6].length - min [1, 2, 3, 4, 5, 6].length 4) ++
        [9, 9, 9, 9, 9, 9, 9, 9].drop (min [1, 2, 3, 4, 5, 6].length 4) ∧
    (RingGetAllBytes ([1, 2, 3, 4, 5, 6].foldl RingAdd (RingNew 4))
      [9, 9, 9, 9, 9, 9, 9, 9]).1.u8available = 0 ∧
    (RingGetAllBytes ([1, 2, 3, 4, 5, 6].foldl RingAdd (RingNew 4))
      [9, 9, 9, 9, 9, 9, 9, 9]).1.u8start = 0 ∧
    (RingGetAllBytes ([1, 2, 3, 4, 5, 6].foldl RingAdd (RingNew 4))
      [9, 9, 9, 9, 9, 9, 9, 9]).1.u8end = 0) :=
  ⟨by decide, by decide, by decide, by decide, by decide, by decide, by decide, by decide,
    by decide, by decide,
    C27_byte_fifo (RingNew 4) [1, 2, 3, 4, 5, 6] [9, 9, 9, 9, 9, 9, 9, 9] 4 (by decide)
      (by decide) (by decide) (by decide) (by decide) (by decide) (by decide) (by decide)
      (by decide)⟩

/-! ## Mode switch and reception flag -/

/-- Claim C29. Mode switch: `MODBUS_SetMode(Master)` sets the mode to master, the task selector
to the master Idle/Send state, the receive timeout register to 38 and leaves the command queue
empty; `MODBUS_SetMode(Slave)` sets the mode to slave, the task selector to the slave task and
the receive timeout register to 17; a mode value that is neither (any `m + 2`) leaves the
handle, so its mode, task selector and timeout register, unchanged. -/
theorem C29_mode_switch {σ : Type} (handle : sMODBUS σ) (m : Nat) :
    ((MODBUS_SetMode handle 0).uxMode = eMODBUS_Mode.MODBUS_Mode_Master ∧
      (MODBUS_SetMode handle 0).task = ExecuteTask.MasterTask_WaitAndSendCommand ∧
      (MODBUS_SetMode handle 0).RTOR = 38 ∧
      (MODBUS_SetMode handle 0).commands = []) ∧
    ((MODBUS_SetMode handle 1).uxMode = eMODBUS_Mode.MODBUS_Mode_Slave ∧
      (MODBUS_SetMode handle 1).task = ExecuteTask.SlaveTask ∧
      (MODBUS_SetMode handle 1).RTOR = 17) ∧
    (MODBUS_SetMode handle (m + 2) = handle ∧
      (MODBUS_SetMode handle (m + 2)).uxMode = handle.uxMode ∧
      (MODBUS_SetMode handle (m + 2)).task = handle.task ∧
      (MODBUS_SetMode handle (m + 2)).RTOR = handle.RTOR) :=
  ⟨⟨rfl, rfl, rfl, rfl⟩, ⟨rfl, rfl, rfl⟩, ⟨rfl, rfl, rfl, rfl⟩⟩

/-- Claim C24. `MODBUS_SetRxComplete` sets the RX-complete flag to 1 when the task selector is
the master Await state and changes nothing else; for every other task selector (master
Idle/Send, master Elaborate, slave) it leaves the whole handle unchanged. So the call changes
the handle only in the state Await. -/
theorem C24_SetRxComplete {σ : Type} (handle : sMODBUS σ) :
    (handle.task = ExecuteTask.MasterTask_WaitRx →
      MODBUS_SetRxComplete handle = { handle with u8RxComplete := 1 }) ∧
    (handle.task = ExecuteTask.MasterTask_WaitAndSendCommand →
      MODBUS_SetRxComplete handle = handle) ∧
    (handle.task = ExecuteTask.MasterTask_ElaborateRx → MODBUS_SetRxComplete handle = handle) ∧
    (handle.task = ExecuteTask.SlaveTask → MODBUS_SetRxComplete handle = handle) ∧
    ((MODBUS_SetRxComplete handle).u8RxComplete = 1 ↔
      (handle.task = ExecuteTask.MasterTask_WaitRx ∨ handle.u8RxComplete = 1)) := by
  unfold MODBUS_SetRxComplete
  refine ⟨fun h => by simp [h], fun h => by simp [h], fun h => by simp [h],
    fun h => by simp [h], ?_⟩
  by_cases h : handle.task = ExecuteTask.MasterTask_WaitRx
  · simp [h]
  · simp [h]

/-! ## Master task: Idle/Send -/

/-- The statements of the Idle/Send task before the transmission, for a queue whose oldest
command is `c`. -/
theorem WaitAndSendCommand_setup_cons {σ : Type} (handle : sMODBUS σ) (mFrame0 : sMaster_Frame)
    (c : sMODBUS_Commmand) (rest : List sMODBUS_Commmand)
    (hm : mFrame0.raw.length = MODBUS_FRAME_MAX_SIZE) (hq : handle.commands = c :: rest)
    (hc : CommandOK c) :
    MODBUS_MasterTask_WaitAndSendCommand_setup handle mFrame0 =
      some ({ handle with
              commands := rest
              lastCmd := c
              task := ExecuteTask.MasterTask_WaitRx
              u16RxTimeout := 250 },
        ⟨8, commandFrame c ++ mFrame0.raw.drop 8⟩) := by
  unfold MODBUS_MasterTask_WaitAndSendCommand_setup
  simp only [hq, q_isEmpty, List.isEmpty_cons, Bool.false_eq_true, if_false, q_pop]
  rw [FrameMaster_FromCommand_eq c mFrame0 hm hc]

theorem commandFrame_take (c : sMODBUS_Commmand) (tl : List Nat) :
    (commandFrame c ++ tl).take (8 % 256) = commandFrame c := by
  rw [List.take_append_of_le_length (by rw [commandFrame_length])]
  exact List.take_of_length_le (by rw [commandFrame_length])

/-- The Idle/Send task for a queue whose oldest command is `c`. -/
theorem WaitAndSendCommand_cons {σ : Type} (handle : sMODBUS σ) (w : World σ)
    (mFrame0 : sMaster_Frame) (c : sMODBUS_Commmand) (rest : List sMODBUS_Commmand)
    (hm : mFrame0.raw.length = MODBUS_FRAME_MAX_SIZE) (hq : handle.commands = c :: rest)
    (hc : CommandOK c) :
    MODBUS_MasterTask_WaitAndSendCommand handle w mFrame0 =
      ({ handle with
          commands := rest
          lastCmd := c
          task := ExecuteTask.MasterTask_WaitRx
          u16RxTimeout := 250 },
        w.call (Event.hwDataTx (commandFrame c)) (handle.hwDataTx (commandFrame c) w.app)) := by
  unfold MODBUS_MasterTask_WaitAndSendCommand
  rw [WaitAndSendCommand_setup_cons handle mFrame0 c rest hm hq hc]
  simp only [commandFrame_take]

theorem WaitAndSendCommand_nil {σ : Type} (handle : sMODBUS σ) (w : World σ)
    (mFrame0 : sMaster_Frame) (hq : handle.commands = []) :
    MODBUS_MasterTask_WaitAndSendCommand handle w mFrame0 = (handle, w) := by
  unfold MODBUS_MasterTask_WaitAndSendCommand MODBUS_MasterTask_WaitAndSendCommand_setup
  simp [hq, q_isEmpty]

/-- The timer tick: one less while the state is Await and the counter is not zero, no change
otherwise. -/
theorem MasterTickRxTimer_eq {σ : Type} (h : sMODBUS σ) (hlt : h.u16RxTimeout < 65536) :
    (h.task = ExecuteTask.MasterTask_WaitRx ∧ h.u16RxTimeout ≠ 0 →
      MODBUS_MasterTickRxTimer h = { h with u16RxTimeout := h.u16RxTimeout - 1 }) ∧
    (¬ (h.task = ExecuteTask.MasterTask_WaitRx ∧ h.u16RxTimeout ≠ 0) →
      MODBUS_MasterTickRxTimer h = h) := by
  unfold MODBUS_MasterTickRxTimer
  refine ⟨fun ⟨h1, h2⟩ => ?_, fun hn => ?_⟩
  · have e : (h.u16RxTimeout - 1) % 65536 = h.u16RxTimeout - 1 :=
      Nat.mod_eq_of_lt (by omega)
    simp [h1, h2, e]
  · have : ¬ (h.u16RxTimeout ≠ 0 ∧ h.task = ExecuteTask.MasterTask_WaitRx) :=
      fun hc => hn ⟨hc.2, hc.1⟩
    simp only [this, if_false]

/-- The counter after `k` ticks in the state Await. -/
theorem MasterTickRxTimer_iterate {σ : Type} (handle : sMODBUS σ)
    (ht : handle.task = ExecuteTask.MasterTask_WaitRx) (hlt : handle.u16RxTimeout < 65536) :
    ∀ k, MODBUS_MasterTickRxTimer^[k] handle =
      { handle with u16RxTimeout := handle.u16RxTimeout - k } := by
  intro k
  induction k with
  | zero => rfl
  | succ k ih =>
    rw [Function.iterate_succ_apply', ih]
    obtain ⟨h1, hdef⟩ : ∃ h1 : sMODBUS σ,
        h1 = { handle with u16RxTimeout := handle.u16RxTimeout - k } := ⟨_, rfl⟩
    have ht1 : h1.task = ExecuteTask.MasterTask_WaitRx := by rw [hdef]; exact ht
    have hc1 : h1.u16RxTimeout = handle.u16RxTimeout - k := by rw [hdef]
    rw [← hdef]
    by_cases h0 : handle.u16RxTimeout - k = 0
    · rw [(MasterTickRxTimer_eq h1 (by omega)).2 (by intro hc; exact hc.2 (by omega)), hdef]
      have e : handle.u16RxTimeout - (k + 1) = handle.u16RxTimeout - k := by omega
      rw [e]
    · rw [(MasterTickRxTimer_eq h1 (by omega)).1 ⟨ht1, by omega⟩, hc1, hdef]
      have e : handle.u16RxTimeout - k - 1 = handle.u16RxTimeout - (k + 1) := by omega
      show { handle with u16RxTimeout := handle.u16RxTimeout - k - 1 } = _
      rw [e]

/-- The master that sent `S1_command`, after 250 ticks. -/
theorem sent_ticks :
    MODBUS_MasterTickRxTimer^[250] sent_handle =
      { sent_handle with u16RxTimeout := sent_handle.u16RxTimeout - 250 } :=
  MasterTickRxTimer_iterate sent_handle (by decide) (by decide) 250

/-- The master that sent `S1_command` with `second_command` queued, after 250 ticks. -/
theorem sent2_ticks :
    MODBUS_MasterTickRxTimer^[250] sent2_handle =
      { sent2_handle with u16RxTimeout := sent2_handle.u16RxTimeout - 250 } :=
  MasterTickRxTimer_iterate sent2_handle (by decide) (by decide) 250

theorem late_reply_handle_eq :
    late_reply_handle =
      MODBUS_SetRxComplete (S1_reply.foldl MODBUS_SaveByte
        { sent_handle with u16RxTimeout := sent_handle.u16RxTimeout - 250 }) := by
  unfold late_reply_handle
  rw [sent_ticks]

/-- Claim C22, at the input where the code leaves it. The master sent a command, the timer
ticked 250 times, then the reply arrived and `MODBUS_SetRxComplete` raised the flag: the state
is Await with the flag set and the counter at 0. The claim expects the task to clear the flag,
to go to Elaborate and not to fire the rx-timeout event. The two `if` statements of
`MODBUS_MasterTask_WaitRx` both run: the flag is cleared, the rx-timeout event is fired, the
state becomes Idle/Send, and the reply stays in the FIFO. -/
theorem C22_late_reply_times_out :
    late_reply_handle.task = ExecuteTask.MasterTask_WaitRx ∧
    late_reply_handle.u8RxComplete = 1 ∧ late_reply_handle.u16RxTimeout = 0 ∧
    late_reply_handle.rxTimeout.isSome = true ∧
    RingContent late_reply_handle.pxRxBuff = S1_reply ∧
    (MODBUS_ExecuteTask late_reply_handle world0 zeroMaster zeroSlave).map
        (fun r => (r.1.task, r.1.u8RxComplete, r.2.trace, RingContent r.1.pxRxBuff)) =
      some (ExecuteTask.MasterTask_WaitAndSendCommand, 0, [Event.rxTimeoutEvent], S1_reply) := by
  rw [late_reply_handle_eq]
  decide

/-- Claim C23 fails when another command waits in the queue. The master queued `S1_command` and
`second_command` and sent the first: the state is Await, the counter 250, no reply arrives.
After 250 ticks one task execution fires the rx-timeout event once and goes back to Idle/Send;
then `third_command` is queued, and the next task execution transmits `second_command`,
`11 03 00 10 00 02 C7 5E`, not the newly queued command. -/
theorem C23_counterexample :
    sent2_handle.task = ExecuteTask.MasterTask_WaitRx ∧ sent2_handle.u16RxTimeout = 250 ∧
    sent2_handle.u8RxComplete = 0 ∧ sent2_handle.commands = [second_command] ∧
    (MODBUS_ExecuteTask (MODBUS_MasterTickRxTimer^[250] sent2_handle) world0 zeroMaster
        zeroSlave).map (fun r => (r.1.task, r.2.trace)) =
      some (ExecuteTask.MasterTask_WaitAndSendCommand, [Event.rxTimeoutEvent]) ∧
    ((MODBUS_ExecuteTask (MODBUS_MasterTickRxTimer^[250] sent2_handle) world0 zeroMaster
        zeroSlave).bind
      (fun r => MODBUS_ExecuteTask (MODBUS_QueueCommand r.1 third_command) world0 zeroMaster
        zeroSlave)).map (fun r => r.2.trace) =
      some [Event.hwDataTx [0x11, 0x03, 0x00, 0x10, 0x00, 0x02, 0xC7, 0x5E]] ∧
    commandFrame second_command = [0x11, 0x03, 0x00, 0x10, 0x00, 0x02, 0xC7, 0x5E] ∧
    commandFrame third_command ≠ [0x11, 0x03, 0x00, 0x10, 0x00, 0x02, 0xC7, 0x5E] := by
  rw [sent2_ticks]
  decide

theorem ExecuteTask_WaitRx {σ : Type} (h : sMODBUS σ) (w : World σ) (mFrame0 : sMaster_Frame)
    (sFrame0 : sSlave_Frame) (ht : h.task = ExecuteTask.MasterTask_WaitRx) :
    MODBUS_ExecuteTask h w mFrame0 sFrame0 = some (MODBUS_MasterTask_WaitRx h w) := by
  unfold MODBUS_ExecuteTask
  rw [ht]

theorem ExecuteTask_WaitAndSendCommand {σ : Type} (h : sMODBUS σ) (w : World σ)
    (mFrame0 : sMaster_Frame) (sFrame0 : sSlave_Frame)
    (ht : h.task = ExecuteTask.MasterTask_WaitAndSendCommand) :
    MODBUS_ExecuteTask h w mFrame0 sFrame0 =
      some (MODBUS_MasterTask_WaitAndSendCommand h w mFrame0) := by
  unfold MODBUS_ExecuteTask
  rw [ht]

/-- The Await task when the RX-complete flag is not set. -/
theorem WaitRx_no_flag {σ : Type} (h : sMODBUS σ) (w : World σ) (hflag : h.u8RxComplete ≠ 1) :
    MODBUS_MasterTask_WaitRx h w =
      if h.u16RxTimeout = 0 then
        ({ h with task := ExecuteTask.MasterTask_WaitAndSendCommand },
          match h.rxTimeout with
          | some rxTimeout => w.call Event.rxTimeoutEvent (rxTimeout w.app)
          | none => w)
      else (h, w) := by
  unfold MODBUS_MasterTask_WaitRx
  rw [if_neg hflag]

/-- The Await task when the flag is not set and the counter is 0. -/
theorem WaitRx_timeout {σ : Type} (h : sMODBUS σ) (w : World σ) (rxTimeout : σ → σ)
    (hflag : h.u8RxComplete ≠ 1) (h0 : h.u16RxTimeout = 0)
    (hcb : h.rxTimeout = some rxTimeout) :
    MODBUS_MasterTask_WaitRx h w =
      ({ h with task := ExecuteTask.MasterTask_WaitAndSendCommand },
        w.call Event.rxTimeoutEvent (rxTimeout w.app)) := by
  rw [WaitRx_no_flag h w hflag, if_pos h0]
  congr 1
  rw [hcb]

/-- Claim C23, amended. Master timeout (scenario S6): starting from the state right after a
command was sent (Await, counter 250), after `k` calls of `MODBUS_MasterTickRxTimer` with no
RX-complete, one task execution moves the engine to Idle/Send and fires the rx-timeout event
once if `k ≥ 250`, and leaves it in Await, firing nothing, if `k < 250`; the tick takes one from
the counter only while the state is Await and the counter is not zero; and once back in
Idle/Send with no other command in the queue, a newly queued command is transmitted by the next
task execution. -/
theorem C23_master_timeout {σ : Type} (handle : sMODBUS σ) (w : World σ)
    (mFrame0 : sMaster_Frame) (sFrame0 : sSlave_Frame) (rxTimeout : σ → σ) (k : Nat)
    (ht : handle.task = ExecuteTask.MasterTask_WaitRx) (hcnt : handle.u16RxTimeout = 250)
    (hflag : handle.u8RxComplete ≠ 1) (hcb : handle.rxTimeout = some rxTimeout)
    (hm : mFrame0.raw.length = MODBUS_FRAME_MAX_SIZE) :
    (∀ h : sMODBUS σ, h.u16RxTimeout < 65536 →
      (h.task = ExecuteTask.MasterTask_WaitRx ∧ h.u16RxTimeout ≠ 0 →
        MODBUS_MasterTickRxTimer h = { h with u16RxTimeout := h.u16RxTimeout - 1 }) ∧
      (¬ (h.task = ExecuteTask.MasterTask_WaitRx ∧ h.u16RxTimeout ≠ 0) →
        MODBUS_MasterTickRxTimer h = h)) ∧
    MODBUS_MasterTickRxTimer^[k] handle = { handle with u16RxTimeout := 250 - k } ∧
    (k < 250 →
      MODBUS_ExecuteTask (MODBUS_MasterTickRxTimer^[k] handle) w mFrame0 sFrame0 =
        some ({ handle with u16RxTimeout := 250 - k }, w)) ∧
    (250 ≤ k →
      MODBUS_ExecuteTask (MODBUS_MasterTickRxTimer^[k] handle) w mFrame0 sFrame0 =
        some ({ handle with
                u16RxTimeout := 0
                task := ExecuteTask.MasterTask_WaitAndSendCommand },
          w.call Event.rxTimeoutEvent (rxTimeout w.app)) ∧
      ∀ c, CommandOK c → handle.commands = [] →
        MODBUS_ExecuteTask
            (MODBUS_QueueCommand
              { handle with
                u16RxTimeout := 0
                task := ExecuteTask.MasterTask_WaitAndSendCommand } c)
            (w.call Event.rxTimeoutEvent (rxTimeout w.app)) mFrame0 sFrame0 =
          some ({ handle with
                  commands := []
                  lastCmd := c
                  task := ExecuteTask.MasterTask_WaitRx
                  u16RxTimeout := 250 },
            (w.call Event.rxTimeoutEvent (rxTimeout w.app)).call
              (Event.hwDataTx (commandFrame c))
              (handle.hwDataTx (commandFrame c) (rxTimeout w.app)))) := by
  have hit := MasterTickRxTimer_iterate handle ht (by omega) k
  rw [hcnt] at hit
  obtain ⟨h1, hdef⟩ : ∃ h1 : sMODBUS σ, h1 = { handle with u16RxTimeout := 250 - k } :=
    ⟨_, rfl⟩
  have ht1 : h1.task = ExecuteTask.MasterTask_WaitRx := by rw [hdef]; exact ht
  have hc1 : h1.u16RxTimeout = 250 - k := by rw [hdef]
  have hf1 : h1.u8RxComplete ≠ 1 := by rw [hdef]; exact hflag
  have hcb1 : h1.rxTimeout = some rxTimeout := by rw [hdef]; exact hcb
  refine ⟨fun h hlt => MasterTickRxTimer_eq h hlt, hit, ?_, ?_⟩
  · intro hk
    rw [hit, ← hdef, ExecuteTask_WaitRx h1 w mFrame0 sFrame0 ht1, WaitRx_no_flag h1 w hf1,
      if_neg (by rw [hc1]; omega)]
  · intro hk
    have h0 : 250 - k = 0 := by omega
    refine ⟨?_, ?_⟩
    · rw [hit, ← hdef, ExecuteTask_WaitRx h1 w mFrame0 sFrame0 ht1,
        WaitRx_timeout h1 w rxTimeout hf1 (by rw [hc1]; exact h0) hcb1, hdef, h0]
    · intro c hc hq
      have hq2 : (MODBUS_QueueCommand
          { handle with
            u16RxTimeout := 0
            task := ExecuteTask.MasterTask_WaitAndSendCommand } c).commands = c :: [] := by
        show q_push handle.commands c = [c]
        rw [hq]
        rfl
      have hrun := WaitAndSendCommand_cons _ (w.call Event.rxTimeoutEvent (rxTimeout w.app))
        mFrame0 c [] hm hq2 hc
      rw [ExecuteTask_WaitAndSendCommand _ _ _ _ rfl, hrun]
      rfl

/-- Instance of claim C23, amended: scenario S6, 250 ticks after `S1_command` was sent. -/
theorem C23_master_timeout_witness :
    sent_handle.task = ExecuteTask.MasterTask_WaitRx ∧ sent_handle.u16RxTimeout = 250 ∧
    sent_handle.u8RxComplete ≠ 1 ∧ sent_handle.rxTimeout = some id ∧
    zeroMaster.raw.length = MODBUS_FRAME_MAX_SIZE ∧
    CommandOK second_command ∧ sent_handle.commands = [] ∧
    ((∀ h : sMODBUS Unit, h.u16RxTimeout < 65536 →
      (h.task = ExecuteTask.MasterTask_WaitRx ∧ h.u16RxTimeout ≠ 0 →
        MODBUS_MasterTickRxTimer h = { h with u16RxTimeout := h.u16RxTimeout - 1 }) ∧
      (¬ (h.task = ExecuteTask.MasterTask_WaitRx ∧ h.u16RxTimeout ≠ 0) →
        MODBUS_MasterTickRxTimer h = h)) ∧
    MODBUS_MasterTickRxTimer^[250] sent_handle = { sent_handle with u16RxTimeout := 250 - 250 } ∧
    (250 < 250 →
      MODBUS_ExecuteTask (MODBUS_MasterTickRxTimer^[250] sent_handle) sent_world zeroMaster
          zeroSlave =
        some ({ sent_handle with u16RxTimeout := 250 - 250 }, sent_world)) ∧
    (250 ≤ 250 →
      MODBUS_ExecuteTask (MODBUS_MasterTickRxTimer^[250] sent_handle) sent_world zeroMaster
          zeroSlave =
        some ({ sent_handle with
                u16RxTimeout := 0
                task := ExecuteTask.MasterTask_WaitAndSendCommand },
          sent_world.call Event.rxTimeoutEvent (id sent_world.app)) ∧
      ∀ c, CommandOK c → sent_handle.commands = [] →
        MODBUS_ExecuteTask
            (MODBUS_QueueCommand
              { sent_handle with
                u16RxTimeout := 0
                task := ExecuteTask.MasterTask_WaitAndSendCommand } c)
            (sent_world.call Event.rxTimeoutEvent (id sent_world.app)) zeroMaster zeroSlave =
          some ({ sent_handle with
                  commands := []
                  lastCmd := c
                  task := ExecuteTask.MasterTask_WaitRx
                  u16RxTimeout := 250 },
            (sent_world.call Event.rxTimeoutEvent (id sent_world.app)).call
              (Event.hwDataTx (commandFrame c))
              (sent_handle.hwDataTx (commandFrame c) (id sent_world.app))))) :=
  ⟨by decide, by decide, by decide, rfl, by decide, by decide, by decide,
    C23_master_timeout sent_handle sent_world zeroMaster zeroSlave id 250 (by decide)
      (by decide) (by decide) rfl (by decide)⟩

/-! ## Length of accepted requests -/

/-- Claim C30 fails: `ReadMasterFrame` accepts frames of other lengths. First conjuncts: the
slave with address `0x11` received the nine bytes `11 03 00 6B 00 03 76 87 00`, function code 3;
the frame is accepted and the slave answers it. Last conjuncts: it received the eight bytes
`11 10 00 00 00 01 03 59`, function code 16 with `03` at the place of the byte count; the frame
variable held zeros; the frame is accepted although `9 + 3 = 12` bytes were not received, and the
CRC bytes compared are the bytes 10 and 11, behind the received ones. -/
theorem C30_counterexample :
    RingContent long_handle.pxRxBuff = [0x11, 0x03, 0x00, 0x6B, 0x00, 0x03, 0x76, 0x87, 0x00] ∧
    (ReadMasterFrame long_handle zeroMaster).1 = Exception_NoException ∧
    (ReadMasterFrame long_handle zeroMaster).2.2.u8FuncCode = 3 ∧
    (ReadMasterFrame long_handle zeroMaster).2.2.u16Length = 9 ∧
    (MODBUS_SlaveTask long_handle world0 zeroMaster zeroSlave).map
        (fun r => txFrames r.2.trace) =
      some [[0x11, 0x03, 0x06, 0xAE, 0x41, 0x56, 0x52, 0x00, 0x4B, 0x39, 0x5A]] ∧
    RingContent multi_command_handle.pxRxBuff =
      [0x11, 0x10, 0x00, 0x00, 0x00, 0x01, 0x03, 0x59] ∧
    (ReadMasterFrame multi_command_handle zeroMaster).1 = Exception_NoException ∧
    (ReadMasterFrame multi_command_handle zeroMaster).2.2.u8FuncCode = 16 ∧
    (ReadMasterFrame multi_command_handle zeroMaster).2.2.u8ByteCount = 3 ∧
    (ReadMasterFrame multi_command_handle zeroMaster).2.2.u16Length = 8 ∧
    ReadMasterFrame_len (ReadMasterFrame multi_command_handle zeroMaster).2.2 = some 10 := by
  decide

/-- Claim C30, amended. Frame length of accepted requests: every frame for which
`ReadMasterFrame` returns `Exception_NoException` has a received total length of at least 8
bytes, the local address as its first byte and a supported function code; when its function
code is 1 to 6, the CRC that was compared is the CRC of the bytes 0 to 5 and the two CRC bytes
it was compared with are the bytes 6 and 7, which lie inside the received bytes. -/
theorem C30_accepted_length {σ : Type} (handle : sMODBUS σ) (mFrame0 : sMaster_Frame)
    (hok : RingOK handle.pxRxBuff) (hm : mFrame0.raw.length = MODBUS_FRAME_MAX_SIZE)
    (hacc : (ReadMasterFrame handle mFrame0).1 = Exception_NoException) :
    (ReadMasterFrame handle mFrame0).2.2.u16Length = (RingContent handle.pxRxBuff).length ∧
    (ReadMasterFrame handle mFrame0).2.2.raw.take (RingContent handle.pxRxBuff).length =
      RingContent handle.pxRxBuff ∧
    8 ≤ (RingContent handle.pxRxBuff).length ∧
    (RingContent handle.pxRxBuff).getD 0 0 = handle.u8myAddress ∧
    SupportedFC ((RingContent handle.pxRxBuff).getD 1 0) ∧
    ((RingContent handle.pxRxBuff).getD 1 0 = 1 ∨ (RingContent handle.pxRxBuff).getD 1 0 = 2 ∨
      (RingContent handle.pxRxBuff).getD 1 0 = 3 ∨ (RingContent handle.pxRxBuff).getD 1 0 = 4 ∨
      (RingContent handle.pxRxBuff).getD 1 0 = 5 ∨ (RingContent handle.pxRxBuff).getD 1 0 = 6 →
      calcCRC (RingContent handle.pxRxBuff) 6 =
        ((RingContent handle.pxRxBuff).getD 6 0 <<< 8 |||
          (RingContent handle.pxRxBuff).getD 7 0)) := by
  generalize hB : RingContent handle.pxRxBuff = B
  obtain ⟨h1, _, _, _, _, _, _, _, _, hread⟩ := ReadMasterFrame_eq handle mFrame0 B hok hB hm
  obtain ⟨mF, hmF⟩ : ∃ mF : sMaster_Frame, mF = ⟨B.length, B ++ mFrame0.raw.drop B.length⟩ :=
    ⟨_, rfl⟩
  rw [← hmF] at hread
  have hget : ∀ i, i < B.length → (B ++ mFrame0.raw.drop B.length).getD i 0 = B.getD i 0 :=
    fun i hi => getD_append_lt _ _ _ hi
  by_cases hshort : B.length < MASTER_FRAME_LENGTH ∨
      (B ++ mFrame0.raw.drop B.length).getD 0 0 ≠ handle.u8myAddress
  · rw [if_pos hshort] at hread
    rw [hread] at hacc
    cases hacc
  · rw [if_neg hshort] at hread
    have h8 : 8 ≤ B.length := by
      have : ¬ B.length < 8 := fun h => hshort (Or.inl h)
      omega
    have haddr : B.getD 0 0 = handle.u8myAddress := by
      by_contra hne
      exact hshort (Or.inr (by rw [hget 0 (by omega)]; exact hne))
    have hfc : mF.u8FuncCode = B.getD 1 0 := by
      rw [hmF]; exact hget 1 (by omega)
    by_cases hsup : SupportedFC (B.getD 1 0)
    · have hframe : (ReadMasterFrame handle mFrame0).2.2 = mF := by
        rw [hread]
        split
        · rfl
        · split <;> rfl
      refine ⟨by rw [hframe, hmF], ?_, h8, haddr, hsup, ?_⟩
      · rw [hframe, hmF]
        show (B ++ mFrame0.raw.drop B.length).take B.length = B
        rw [List.take_append_of_le_length (le_refl _), List.take_of_length_le (le_refl _)]
      · intro h16
        rw [ReadMasterFrame_len_short mF (by rw [hfc]; exact h16)] at hread
        simp only [] at hread
        by_cases hcrc : calcCRC (B ++ mFrame0.raw.drop B.length) 6 ≠
            ((B ++ mFrame0.raw.drop B.length).getD (6 + 0) 0 <<< 8 |||
              (B ++ mFrame0.raw.drop B.length).getD (6 + 1) 0)
        · rw [if_pos hcrc] at hread
          rw [hread] at hacc
          cases hacc
        · have := not_not.mp hcrc
          rw [calcCRC_append B _ 6 (by omega), hget (6 + 0) (by omega),
            hget (6 + 1) (by omega)] at this
          exact this
    · rw [ReadMasterFrame_len_none mF (by rw [hfc]; exact hsup)] at hread
      rw [hread] at hacc
      cases hacc

/-- Instance of claim C30, amended: the request of scenario S1. -/
theorem C30_accepted_length_witness :
    RingOK S1_handle.pxRxBuff ∧ zeroMaster.raw.length = MODBUS_FRAME_MAX_SIZE ∧
    (ReadMasterFrame S1_handle zeroMaster).1 = Exception_NoException ∧
    ((ReadMasterFrame S1_handle zeroMaster).2.2.u16Length =
      (RingContent S1_handle.pxRxBuff).length ∧
    (ReadMasterFrame S1_handle zeroMaster).2.2.raw.take (RingContent S1_handle.pxRxBuff).length =
      RingContent S1_handle.pxRxBuff ∧
    8 ≤ (RingContent S1_handle.pxRxBuff).length ∧
    (RingContent S1_handle.pxRxBuff).getD 0 0 = S1_handle.u8myAddress ∧
    SupportedFC ((RingContent S1_handle.pxRxBuff).getD 1 0) ∧
    ((RingContent S1_handle.pxRxBuff).getD 1 0 = 1 ∨
      (RingContent S1_handle.pxRxBuff).getD 1 0 = 2 ∨
      (RingContent S1_handle.pxRxBuff).getD 1 0 = 3 ∨
      (RingContent S1_handle.pxRxBuff).getD 1 0 = 4 ∨
      (RingContent S1_handle.pxRxBuff).getD 1 0 = 5 ∨
      (RingContent S1_handle.pxRxBuff).getD 1 0 = 6 →
      calcCRC (RingContent S1_handle.pxRxBuff) 6 =
        ((RingContent S1_handle.pxRxBuff).getD 6 0 <<< 8 |||
          (RingContent S1_handle.pxRxBuff).getD 7 0))) :=
  ⟨by decide, by decide, by decide,
    C30_accepted_length S1_handle zeroMaster (by decide) (by decide) (by decide)⟩

/-! ## Master task: Elaborate -/

/-- The decoder `ReadSlaveFrame` changes no field of the handle but the FIFO. -/
theorem ReadSlaveFrame_handle {σ : Type} (handle : sMODBUS σ) (sFrame0 : sSlave_Frame) :
    (ReadSlaveFrame handle sFrame0).2.1 =
      { handle with pxRxBuff := (RingGetAllBytes handle.pxRxBuff sFrame0.raw).1 } := by
  unfold ReadSlaveFrame
  simp only []
  split
  · rfl
  · split
    · rfl
    · split <;> rfl

/-- The loop of the Elaborate step with an assigned `remote` callback runs to its end and
records one call per index. -/
theorem ElaborateRx_loop_trace {σ : Type} (handle : sMODBUS σ) (k : RegKind)
    (sFrame : sSlave_Frame) (remote : Nat → Nat → Nat → σ → σ)
    (hr : (handle.reg k).remote = some remote) :
    ∀ (n addr : Nat) (w : World σ), ∃ w1 : World σ,
      MODBUS_MasterTask_ElaborateRx_loop handle (some k) sFrame n addr w = some w1 ∧
      w1.trace = w.trace ++ (List.range n).map (fun i =>
        Event.remoteData k (handle.lastCmd.slaveID % 256)
          ((handle.lastCmd.regAddress + (addr + i)) % 65536)
          ((handle.reg k).readPayload sFrame (addr + i) % 65536)) := by
  intro n
  induction n with
  | zero => intro addr w; exact ⟨w, rfl, by simp⟩
  | succ n ih =>
    intro addr w
    obtain ⟨w1, h1, h2⟩ := ih (addr + 1)
      (w.call (Event.remoteData k (handle.lastCmd.slaveID % 256)
          ((handle.lastCmd.regAddress + addr) % 65536)
          ((handle.reg k).readPayload sFrame addr % 65536))
        (remote (handle.lastCmd.slaveID % 256) ((handle.lastCmd.regAddress + addr) % 65536)
          ((handle.reg k).readPayload sFrame addr % 65536) w.app))
    refine ⟨w1, ?_, ?_⟩
    · rw [ MODBUS_MasterTask_ElaborateRx_loop]
      simp only [hr]
      exact h1
    · rw [h2, List.range_succ_eq_map, List.map_cons, List.map_map]
      show (w.trace ++ [_]) ++ _ = _
      rw [List.append_assoc]
      congr 1
      simp only [List.singleton_append, Nat.add_zero]
      congr 1
      apply List.map_congr_left
      intro i _
      simp only [Function.comp, Nat.succ_eq_add_one]
      rw [show addr + 1 + i = addr + (i + 1) by omega]

/-! ## Payload of a response: append and read -/

theorem regBytes_getD : ∀ (vals : List Nat) (i : Nat), i < vals.length →
    (regBytes vals).getD (2 * i) 0 = (vals.getD i 0 / 256) % 256 ∧
    (regBytes vals).getD (2 * i + 1) 0 = vals.getD i 0 % 256 := by
  intro vals
  induction vals with
  | nil => intro i hi; simp at hi
  | cons v vs ih =>
    intro i hi
    cases i with
    | zero => simp [regBytes]
    | succ i =>
      have h := ih i (by simpa using hi)
      have e1 : 2 * (i + 1) = (2 * i + 1) + 1 := by omega
      rw [e1]
      simp only [regBytes, List.getD_cons_succ]
      exact h

theorem payload_getD (a b c : Nat) (P T : List Nat) (j : Nat) (hj : j < P.length) :
    (a :: b :: c :: (P ++ T)).getD (3 + j) 0 = P.getD j 0 := by
  rw [List.getD_eq_getElem?_getD, lookup_skip3, List.getElem?_append_left hj,
    ← List.getD_eq_getElem?_getD]

/-- The response after `FrameSlave_AppendRegister` appended the values `vs` to a response that
held `m` registers. -/
theorem appendValues_registers (id fc : Nat) : ∀ (vs : List Nat) (i m : Nat)
    (bytes tl : List Nat), bytes.length = 2 * m → 2 * (m + vs.length) < 256 →
      2 * vs.length ≤ tl.length →
      appendValues FrameSlave_AppendRegister i vs
          { u16Length := 3 + 2 * m, raw := id :: fc :: (2 * m) :: (bytes ++ tl) } =
        { u16Length := 3 + 2 * (m + vs.length)
          raw := id :: fc :: (2 * (m + vs.length)) ::
            ((bytes ++ regBytes vs) ++ tl.drop (2 * vs.length)) } := by
  intro vs
  induction vs with
  | nil => intro i m bytes tl _ _ _; simp [appendValues, regBytes]
  | cons v vs ih =>
    intro i m bytes tl hb hm htl
    simp only [List.length_cons] at hm htl
    obtain ⟨x, y, tl2, rfl⟩ : ∃ x y tl2, tl = x :: y :: tl2 := by
      match tl, htl with
      | x :: y :: tl2, _ => exact ⟨x, y, tl2, rfl⟩
    simp only [List.length_cons] at htl
    rw [appendValues, FrameSlave_AppendRegister_eq id fc m bytes x y tl2 _ hb (by omega),
      ih (i + 1) (m + 1) _ tl2 (by simp; omega) (by omega) (by omega)]
    have e1 : m + 1 + vs.length = m + (vs.length + 1) := by omega
    have e2 : 2 * (vs.length + 1) = 2 * vs.length + 1 + 1 := by omega
    simp only [List.length_cons, e1, e2, List.drop_succ_cons, regBytes, bytesFields.u8_1,
      bytesFields.u8_0, List.append_assoc, List.cons_append, List.nil_append]

/-- The response after `FrameSlave_AppendCoil` appended the values `vs`, the first with bit
index `reps`, to a response whose payload `bytes` holds `reps` bits. -/
theorem appendValues_coils (id fc : Nat) : ∀ (vs : List Nat) (reps : Nat)
    (bytes tl : List Nat), bytes.length = (reps + 7) / 8 → reps + vs.length ≤ 2000 →
      251 ≤ bytes.length + tl.length →
      appendValues FrameSlave_AppendCoil reps vs
          { u16Length := 3 + bytes.length, raw := id :: fc :: bytes.length :: (bytes ++ tl) } =
        { u16Length := 3 + (coilFold bytes reps vs).length
          raw := id :: fc :: (coilFold bytes reps vs).length ::
            (coilFold bytes reps vs ++
              tl.drop ((coilFold bytes reps vs).length - bytes.length)) } := by
  intro vs
  induction vs with
  | nil => intro reps bytes tl _ _ _; simp [appendValues, coilFold]
  | cons v vs ih =>
    intro reps bytes tl hb hn htl
    simp only [List.length_cons] at hn
    have hl1 := coilPush_length bytes reps v
    have hb1 : (coilPush bytes reps v).length = (reps + 1 + 7) / 8 := by
      rw [hl1, hb]; split <;> omega
    have hge1 : bytes.length ≤ (coilPush bytes reps v).length := by
      rw [hl1]; split <;> omega
    have hge2 := coilFold_length_ge vs (coilPush bytes reps v) (reps + 1)
    rw [appendValues, FrameSlave_AppendCoil_eq id fc bytes tl _ (by omega) (by omega)
      (by intro h; simp only at h; omega)]
    simp only []
    rw [ih (reps + 1) _ _ hb1 (by omega) (by rw [List.length_drop]; omega), List.drop_drop]
    have harith : ∀ p f b : Nat, b ≤ p → p ≤ f → p - b + (f - p) = f - b := by
      intro p f b h1 h2; omega
    simp only [coilFold]
    rw [harith _ _ _ hge1 hge2]

/-- Testing one bit of a byte with a mask, as `FrameSlave_ReadCoils` does. -/
theorem and_mask_ne_zero (x b : Nat) : (x &&& (1 <<< b) ≠ 0) ↔ x.testBit b = true := by
  rw [Nat.one_shiftLeft]
  constructor
  · intro h
    by_contra hb
    apply h
    apply Nat.eq_of_testBit_eq
    intro j
    rw [Nat.testBit_and, Nat.testBit_two_pow, Nat.zero_testBit]
    by_cases hj : b = j
    · subst hj; simp [hb]
    · simp [hj]
  · intro hb h0
    have := congrArg (fun n => Nat.testBit n b) h0
    simp only [Nat.testBit_and, Nat.testBit_two_pow, Nat.zero_testBit, hb] at this
    simp at this

theorem read_appended_registers (id fc : Nat) (rest vals : List Nat)
    (hrest : rest.length = 257) (hn : vals.length ≤ 125) (hv : ∀ v ∈ vals, v < 65536)
    (i : Nat) (hi : i < vals.length) :
    FrameSlave_ReadRegisters (appendValues FrameSlave_AppendRegister 0 vals
      { u16Length := SLAVE_HEADER_BYTES, raw := id :: fc :: 0 :: rest }) i = vals.getD i 0 := by
  have h : appendValues FrameSlave_AppendRegister 0 vals
      { u16Length := SLAVE_HEADER_BYTES, raw := id :: fc :: 0 :: rest } = _ :=
    appendValues_registers id fc vals 0 0 [] rest rfl (by omega) (by omega)
  rw [h]
  unfold FrameSlave_ReadRegisters
  have e1 : (i * 2 + SLAVE_HEADER_BYTES) % 256 = 3 + 2 * i := by
    show (i * 2 + 3) % 256 = 3 + 2 * i
    omega
  have e2 : (3 + 2 * i + 1) % 256 = 3 + (2 * i + 1) := by omega
  have hlen : ([] ++ regBytes vals).length = 2 * vals.length := by
    rw [List.nil_append, regBytes_length]
  obtain ⟨g1, g2⟩ := regBytes_getD vals i hi
  have hvi : vals.getD i 0 < 65536 := by
    apply hv
    rw [List.getD_eq_getElem?_getD, List.getElem?_eq_getElem hi]
    exact List.getElem_mem _
  simp only [e1, e2]
  rw [payload_getD _ _ _ _ _ _ (by rw [hlen]; omega),
    payload_getD _ _ _ _ _ _ (by rw [hlen]; omega), List.nil_append, g1, g2, Nat.shiftLeft_eq]
  omega

theorem read_appended_coils (id fc : Nat) (rest vals : List Nat)
    (hrest : rest.length = 257) (hn : vals.length ≤ 2000) (i : Nat) (hi : i < vals.length) :
    FrameSlave_ReadCoils (appendValues FrameSlave_AppendCoil 0 vals
      { u16Length := SLAVE_HEADER_BYTES, raw := id :: fc :: 0 :: rest }) i =
      vals.getD i 0 &&& 1 := by
  have h : appendValues FrameSlave_AppendCoil 0 vals
      { u16Length := SLAVE_HEADER_BYTES, raw := id :: fc :: 0 :: rest } = _ :=
    appendValues_coils id fc vals 0 [] rest rfl (by omega)
      (by simp only [List.length_nil]; omega)
  rw [h]
  unfold FrameSlave_ReadCoils
  obtain ⟨hlen, hbits, _⟩ := coilFold_bits vals
  have e1 : (i % 8) % 256 = i % 8 := by omega
  have e2 : (i / 8 + SLAVE_HEADER_BYTES) % 256 = 3 + i / 8 := by
    show (i / 8 + 3) % 256 = 3 + i / 8
    omega
  simp only [e1, e2]
  rw [payload_getD _ _ _ _ _ _ (by rw [hlen]; omega), ← hbits i hi, shr_and_one]
  by_cases hb : ((coilFold [] 0 vals).getD (i / 8) 0).testBit (i % 8) = true
  · rw [if_pos ((and_mask_ne_zero _ _).mpr hb), if_pos hb]
  · rw [if_neg (fun hc => hb ((and_mask_ne_zero _ _).mp hc)), if_neg hb]

/-- Claim C28. Payload append/read round trip, for each of the four register strategies of a
handle made by `MODBUS_NewHandle`: a slave response is the three header bytes (byte count 0,
length 3) followed by the 257 other bytes of the buffer, whatever they hold, and the values
`vals` are appended in order with the append function of the strategy, the value number `i`
with bit index `i`. Then `readPayload(frame, i)` of the strategy returns the value number `i`
for holdings and inputs (at most 125 values, each a 16-bit value), and the value number `i`
AND 1 for coils and discretes (at most 2000 values), for every `i` below the number of
values. -/
theorem C28_payload_round_trip (σ : Type) (address id fc : Nat) (rest vals : List Nat)
    (k : RegKind) (hrest : rest.length = 257) :
    (k = RegKind.holdings ∨ k = RegKind.inputs → vals.length ≤ 125 →
      (∀ v ∈ vals, v < 65536) → ∀ i, i < vals.length →
        ((MODBUS_NewHandle σ address).reg k).readPayload
          (appendValues ((MODBUS_NewHandle σ address).reg k).appendData 0 vals
            { u16Length := SLAVE_HEADER_BYTES, raw := id :: fc :: 0 :: rest }) i =
          vals.getD i 0) ∧
    (k = RegKind.coils ∨ k = RegKind.discretes → vals.length ≤ 2000 →
      ∀ i, i < vals.length →
        ((MODBUS_NewHandle σ address).reg k).readPayload
          (appendValues ((MODBUS_NewHandle σ address).reg k).appendData 0 vals
            { u16Length := SLAVE_HEADER_BYTES, raw := id :: fc :: 0 :: rest }) i =
          vals.getD i 0 &&& 1) := by
  refine ⟨?_, ?_⟩
  · intro hk hn hv i hi
    rcases hk with hk | hk <;> subst hk <;>
      exact read_appended_registers id fc rest vals hrest hn hv i hi
  · intro hk hn i hi
    rcases hk with hk | hk <;> subst hk <;>
      exact read_appended_coils id fc rest vals hrest hn i hi

/-- Instance of claim C28: the three registers `AE41 5652 004B` appended with the holdings
strategy are read back, and the last of the ten coil values `1 0 1 1 0 0 1 1 1 2` appended
with the coils strategy is read back as `2 AND 1`, which is 0. -/
theorem C28_payload_round_trip_witness :
    (List.replicate 257 0xEE).length = 257 ∧
    (∀ i, i < 3 → FrameSlave_ReadRegisters
      (appendValues FrameSlave_AppendRegister 0 [0xAE41, 0x5652, 0x004B]
        { u16Length := 3, raw := 0x11 :: 0x03 :: 0 :: List.replicate 257 0xEE }) i =
      [0xAE41, 0x5652, 0x004B].getD i 0) ∧
    FrameSlave_ReadCoils
      (appendValues FrameSlave_AppendCoil 0 [1, 0, 1, 1, 0, 0, 1, 1, 1, 2]
        { u16Length := 3, raw := 0x11 :: 0x01 :: 0 :: List.replicate 257 0xEE }) 9 = 0 :=
  ⟨by decide,
    fun i hi => (C28_payload_round_trip Unit 0x11 0x11 0x03 (List.replicate 257 0xEE)
      [0xAE41, 0x5652, 0x004B] RegKind.holdings (by decide)).1 (Or.inl rfl) (by decide)
      (by decide) i hi,
    (C28_payload_round_trip Unit 0x11 0x11 0x01 (List.replicate 257 0xEE)
      [1, 0, 1, 1, 0, 0, 1, 1, 1, 2] RegKind.coils (by decide)).2 (Or.inl rfl) (by decide)
      9 (by decide)⟩

/-! ## Order of the transmitted commands -/

theorem txFrames_call_other {σ : Type} (w : World σ) (e : Event) (app : σ)
    (he : txFrames [e] = []) : txFrames (w.call e app).trace = txFrames w.trace := by
  show txFrames (w.trace ++ [e]) = _
  rw [txFrames_append, he, List.append_nil]

/-- The Await task keeps the queue, transmits nothing and leaves a master state. -/
theorem WaitRx_keeps {σ : Type} (h : sMODBUS σ) (w : World σ)
    (ht : h.task = ExecuteTask.MasterTask_WaitRx) :
    (MODBUS_MasterTask_WaitRx h w).1.commands = h.commands ∧
    (MODBUS_MasterTask_WaitRx h w).1.task ≠ ExecuteTask.SlaveTask ∧
    txFrames (MODBUS_MasterTask_WaitRx h w).2.trace = txFrames w.trace := by
  unfold MODBUS_MasterTask_WaitRx
  simp only []
  by_cases hflag : h.u8RxComplete = 1
  · rw [if_pos hflag]
    simp only []
    split
    · refine ⟨rfl, by simp, ?_⟩
      simp only []
      split
      · exact txFrames_call_other _ _ _ rfl
      · rfl
    · exact ⟨rfl, by simp, rfl⟩
  · rw [if_neg hflag]
    split
    · refine ⟨rfl, by simp, ?_⟩
      simp only []
      split
      · exact txFrames_call_other _ _ _ rfl
      · rfl
    · exact ⟨rfl, by rw [ht]; simp, rfl⟩

/-- The loop of the Elaborate step transmits nothing. -/
theorem ElaborateRx_loop_tx {σ : Type} (handle : sMODBUS σ) (sel : Option RegKind)
    (sFrame : sSlave_Frame) : ∀ (n addr : Nat) (w w1 : World σ),
      MODBUS_MasterTask_ElaborateRx_loop handle sel sFrame n addr w = some w1 →
      txFrames w1.trace = txFrames w.trace := by
  intro n
  induction n with
  | zero =>
    intro addr w w1 h
    rw [ MODBUS_MasterTask_ElaborateRx_loop] at h
    cases h
    rfl
  | succ n ih =>
    intro addr w w1 h
    cases sel with
    | none =>
      rw [ MODBUS_MasterTask_ElaborateRx_loop] at h
      cases h
    | some k =>
      rw [ MODBUS_MasterTask_ElaborateRx_loop] at h
      simp only [] at h
      cases hr : (handle.reg k).remote with
      | none => rw [hr] at h; cases h
      | some remote =>
        rw [hr] at h
        simp only [] at h
        rw [ih _ _ _ h]
        exact txFrames_call_other _ _ _ rfl

/-- The Elaborate task keeps the queue, transmits nothing and leaves the state Idle. -/
theorem ElaborateRx_keeps {σ : Type} (h : sMODBUS σ) (w : World σ) (sFrame0 : sSlave_Frame)
    (s1 : sMODBUS σ × World σ) (hs : MODBUS_MasterTask_ElaborateRx h w sFrame0 = some s1) :
    s1.1.commands = h.commands ∧ s1.1.task = ExecuteTask.MasterTask_WaitAndSendCommand ∧
    txFrames s1.2.trace = txFrames w.trace := by
  have hh := ReadSlaveFrame_handle h sFrame0
  unfold MODBUS_MasterTask_ElaborateRx at hs
  simp only [] at hs
  split at hs
  · cases hs
  · rename_i w2 hdone
    cases hs
    refine ⟨by show (ReadSlaveFrame h sFrame0).2.1.commands = _; rw [hh], rfl, ?_⟩
    show txFrames w2.trace = _
    split at hdone
    · split at hdone
      · cases hdone
      · rename_i w3 hloop
        have h3 := ElaborateRx_loop_tx _ _ _ _ _ _ _ hloop
        split at hdone
        · cases hdone
          rw [txFrames_call_other w3 Event.remoteRxOK _ rfl, h3]
        · cases hdone
          exact h3
    · split at hdone
      · cases hdone
        exact txFrames_call_other _ _ _ rfl
      · cases hdone
        rfl

theorem take_succ_of_drop {α : Type} : ∀ (cs : List α) (n : Nat) (c : α) (rest : List α),
    cs.drop n = c :: rest →
      cs.take (n + 1) = cs.take n ++ [c] ∧ cs.drop (n + 1) = rest ∧ n + 1 ≤ cs.length := by
  intro cs
  induction cs with
  | nil => intro n c rest h; simp at h
  | cons x xs ih =>
    intro n c rest h
    cases n with
    | zero =>
      simp only [List.drop_zero, List.cons.injEq] at h
      obtain ⟨rfl, rfl⟩ := h
      simp
    | succ n =>
      simp only [List.drop_succ_cons] at h
      obtain ⟨h1, h2, h3⟩ := ih n c rest h
      refine ⟨?_, ?_, ?_⟩
      · rw [List.take_succ_cons, h1]; rfl
      · rw [List.drop_succ_cons, h2]
      · simp only [List.length_cons]; omega

/-- One call on a master engine whose transmissions so far were the first `n` commands of `cs`,
in order, and whose queue holds the others: afterwards the same holds for some `n`. -/
theorem MasterOp_apply_fifo {σ : Type} (T0 : List (List Nat)) (cs : List sMODBUS_Commmand)
    (hcs : ∀ c ∈ cs, CommandOK c) (op : MasterOp) (hop : op.OK) (s s1 : sMODBUS σ × World σ)
    (happ : op.apply s = some s1) (n : Nat) (hn : n ≤ cs.length)
    (hq : s.1.commands = cs.drop n) (ht : s.1.task ≠ ExecuteTask.SlaveTask)
    (htx : txFrames s.2.trace = T0 ++ (cs.take n).map commandFrame) :
    ∃ n1, n1 ≤ cs.length ∧ s1.1.commands = cs.drop n1 ∧ s1.1.task ≠ ExecuteTask.SlaveTask ∧
      txFrames s1.2.trace = T0 ++ (cs.take n1).map commandFrame := by
  cases op with
  | executeTask mFrame0 sFrame0 =>
    have happ1 : MODBUS_ExecuteTask s.1 s.2 mFrame0 sFrame0 = some s1 := happ
    have hm : mFrame0.raw.length = MODBUS_FRAME_MAX_SIZE := hop
    cases htask : s.1.task with
    | SlaveTask => exact absurd htask ht
    | MasterTask_WaitAndSendCommand =>
      rw [ExecuteTask_WaitAndSendCommand _ _ _ _ htask] at happ1
      cases hd : cs.drop n with
      | nil =>
        rw [WaitAndSendCommand_nil _ _ _ (hq.trans hd)] at happ1
        cases happ1
        exact ⟨n, hn, hq, ht, htx⟩
      | cons c rest =>
        have hc : CommandOK c := hcs c (List.mem_of_mem_drop (by rw [hd]; simp))
        obtain ⟨e1, e2, e3⟩ := take_succ_of_drop cs n c rest hd
        rw [WaitAndSendCommand_cons _ _ _ c rest hm (hq.trans hd) hc] at happ1
        cases happ1
        refine ⟨n + 1, e3, e2.symm, by simp, ?_⟩
        rw [txFrames_call_tx, htx, e1, List.map_append, List.append_assoc]
        rfl
    | MasterTask_WaitRx =>
      rw [ExecuteTask_WaitRx _ _ _ _ htask] at happ1
      cases happ1
      obtain ⟨k1, k2, k3⟩ := WaitRx_keeps s.1 s.2 htask
      exact ⟨n, hn, k1.trans hq, k2, k3.trans htx⟩
    | MasterTask_ElaborateRx =>
      unfold MODBUS_ExecuteTask at happ1
      rw [htask] at happ1
      obtain ⟨k1, k2, k3⟩ := ElaborateRx_keeps s.1 s.2 sFrame0 s1 happ1
      exact ⟨n, hn, k1.trans hq, by rw [k2]; simp, k3.trans htx⟩
  | tickRxTimer =>
    have happ1 : some (MODBUS_MasterTickRxTimer s.1, s.2) = some s1 := happ
    cases happ1
    refine ⟨n, hn, ?_, ?_, htx⟩
    · show (MODBUS_MasterTickRxTimer s.1).commands = _
      unfold MODBUS_MasterTickRxTimer
      split <;> exact hq
    · show (MODBUS_MasterTickRxTimer s.1).task ≠ _
      unfold MODBUS_MasterTickRxTimer
      split <;> exact ht
  | setRxComplete =>
    have happ1 : some (MODBUS_SetRxComplete s.1, s.2) = some s1 := happ
    cases happ1
    refine ⟨n, hn, ?_, ?_, htx⟩
    · show (MODBUS_SetRxComplete s.1).commands = _
      unfold MODBUS_SetRxComplete
      split <;> exact hq
    · show (MODBUS_SetRxComplete s.1).task ≠ _
      unfold MODBUS_SetRxComplete
      split <;> exact ht
  | saveByte u8Data =>
    have happ1 : some (MODBUS_SaveByte s.1 u8Data, s.2) = some s1 := happ
    cases happ1
    exact ⟨n, hn, hq, ht, htx⟩

/-- A sequence of calls on a master engine transmits commands in the order of the queue. -/
theorem runOps_fifo {σ : Type} (T0 : List (List Nat)) (cs : List sMODBUS_Commmand)
    (hcs : ∀ c ∈ cs, CommandOK c) : ∀ (ops : List MasterOp) (s s1 : sMODBUS σ × World σ)
      (n : Nat), (∀ op ∈ ops, op.OK) → runOps ops s = some s1 → n ≤ cs.length →
      s.1.commands = cs.drop n → s.1.task ≠ ExecuteTask.SlaveTask →
      txFrames s.2.trace = T0 ++ (cs.take n).map commandFrame →
      ∃ n1, n1 ≤ cs.length ∧ s1.1.commands = cs.drop n1 ∧
        s1.1.task ≠ ExecuteTask.SlaveTask ∧
        txFrames s1.2.trace = T0 ++ (cs.take n1).map commandFrame := by
  intro ops
  induction ops with
  | nil =>
    intro s s1 n _ hrun hn hq ht htx
    cases hrun
    exact ⟨n, hn, hq, ht, htx⟩
  | cons op ops ih =>
    intro s s1 n hops hrun hn hq ht htx
    rw [runOps] at hrun
    cases happ : op.apply s with
    | none => rw [happ] at hrun; cases hrun
    | some s2 =>
      rw [happ] at hrun
      obtain ⟨n2, g1, g2, g3, g4⟩ := MasterOp_apply_fifo T0 cs hcs op
        (hops op (List.mem_cons_self _ _)) s s2 happ n hn hq ht htx
      exact ih s2 s1 n2 (fun o ho => hops o (List.mem_cons_of_mem _ ho)) hrun g1 g2 g3 g4

theorem runOps_append {σ : Type} : ∀ (a b : List MasterOp) (s : sMODBUS σ × World σ),
    runOps (a ++ b) s = (runOps a s).bind (runOps b) := by
  intro a
  induction a with
  | nil => intro b s; rfl
  | cons op a ih =>
    intro b s
    rw [List.cons_append, runOps, runOps]
    cases op.apply s with
    | none => rfl
    | some s1 => exact ih b s1

theorem runOps_ticks {σ : Type} : ∀ (k : Nat) (s : sMODBUS σ × World σ),
    runOps (List.replicate k MasterOp.tickRxTimer) s =
      some (MODBUS_MasterTickRxTimer^[k] s.1, s.2) := by
  intro k
  induction k with
  | zero => intro s; rfl
  | succ k ih =>
    intro s
    rw [List.replicate_succ, runOps]
    show runOps (List.replicate k MasterOp.tickRxTimer) (MODBUS_MasterTickRxTimer s.1, s.2) = _
    rw [ih]
    rfl

/-- The frames transmitted on the timeout route by the master with `S1_command` and
`second_command` queued. -/
theorem timeout_route_frames :
    (runOps timeout_route
        (MODBUS_QueueCommand (MODBUS_QueueCommand master_handle S1_command) second_command,
          world0)).map (fun s => txFrames s.2.trace) =
      some [[0x11, 0x03, 0x00, 0x6B, 0x00, 0x03, 0x76, 0x87],
        [0x11, 0x03, 0x00, 0x10, 0x00, 0x02, 0xC7, 0x5E]] := by
  have h1 : runOps [MasterOp.executeTask zeroMaster zeroSlave]
      (MODBUS_QueueCommand (MODBUS_QueueCommand master_handle S1_command) second_command,
        world0) =
      some (MODBUS_MasterTask_WaitAndSendCommand
        (MODBUS_QueueCommand (MODBUS_QueueCommand master_handle S1_command) second_command)
        world0 zeroMaster) := by
    rw [runOps]
    simp only [MasterOp.apply]
    rw [ExecuteTask_WaitAndSendCommand _ _ _ _ (by decide)]
    rfl
  unfold timeout_route
  rw [runOps_append, runOps_append, h1]
  simp only [Option.bind]
  rw [runOps_ticks]
  simp only [Option.bind]
  rw [MasterTickRxTimer_iterate _ (by decide) (by decide)]
  decide

/-- Order of the command queue on the runs that have a result: a master engine in Idle with
an empty queue gets `MODBUS_QueueCommand(c1)` then `MODBUS_QueueCommand(c2)`, and then any
sequence of task executions, timer ticks, end-of-frame notifications and received bytes. The
queue holds `c1` then `c2`; whenever the sequence has a result, the frames the transmit
callback was called with since then are the first `n` of `FrameMaster_FromCommand(c1)`,
`FrameMaster_FromCommand(c2)`, in this order, for some `n ≤ 2`; and whenever the engine is in
Idle then, the next task execution returns and makes this the first `n + 1` of them. The 8
bytes of `FrameMaster_FromCommand(c)` are `commandFrame c`. A sequence in which the Elaborate
step runs on the acknowledgement of a write command has no result. -/
theorem command_fifo_defined_runs {σ : Type} (handle : sMODBUS σ) (w : World σ)
    (c1 c2 : sMODBUS_Commmand) (ops : List MasterOp)
    (hidle : handle.task = ExecuteTask.MasterTask_WaitAndSendCommand)
    (hq : handle.commands = []) (hc1 : CommandOK c1) (hc2 : CommandOK c2)
    (hops : ∀ op ∈ ops, op.OK) :
    (∀ (c : sMODBUS_Commmand) (mFrame0 : sMaster_Frame), CommandOK c →
      mFrame0.raw.length = MODBUS_FRAME_MAX_SIZE →
      (FrameMaster_FromCommand c mFrame0).raw.take (FrameMaster_FromCommand c mFrame0).u16Length =
        commandFrame c) ∧
    (MODBUS_QueueCommand (MODBUS_QueueCommand handle c1) c2).commands = [c1, c2] ∧
    ∀ s1 : sMODBUS σ × World σ,
      runOps ops (MODBUS_QueueCommand (MODBUS_QueueCommand handle c1) c2, w) = some s1 →
      ∃ n, n ≤ 2 ∧
        txFrames s1.2.trace = txFrames w.trace ++ ([c1, c2].take n).map commandFrame ∧
        (s1.1.task = ExecuteTask.MasterTask_WaitAndSendCommand →
          ∀ (mFrame0 : sMaster_Frame) (sFrame0 : sSlave_Frame),
            mFrame0.raw.length = MODBUS_FRAME_MAX_SIZE →
            ∃ s2 : sMODBUS σ × World σ,
              MODBUS_ExecuteTask s1.1 s1.2 mFrame0 sFrame0 = some s2 ∧
              txFrames s2.2.trace =
                txFrames w.trace ++ ([c1, c2].take (n + 1)).map commandFrame) := by
  have hqueue : (MODBUS_QueueCommand (MODBUS_QueueCommand handle c1) c2).commands =
      [c1, c2] := by
    show q_push (q_push handle.commands c1) c2 = [c1, c2]
    rw [hq]
    rfl
  have hcs : ∀ c ∈ [c1, c2], CommandOK c := by
    intro c hc
    simp only [List.mem_cons, List.mem_singleton, List.not_mem_nil, or_false] at hc
    rcases hc with rfl | rfl
    · exact hc1
    · exact hc2
  refine ⟨?_, hqueue, ?_⟩
  · intro c mFrame0 hc hm
    rw [FrameMaster_FromCommand_eq c mFrame0 hm hc]
    exact commandFrame_take c _
  · intro s1 hrun
    obtain ⟨n, hn, g2, g3, g4⟩ := runOps_fifo (txFrames w.trace) [c1, c2] hcs ops _ s1 0 hops
      hrun (Nat.zero_le _) hqueue (by show handle.task ≠ _; rw [hidle]; simp)
      (by simp)
    refine ⟨n, hn, g4, ?_⟩
    intro ht mFrame0 sFrame0 hm
    rw [ExecuteTask_WaitAndSendCommand _ _ _ _ ht]
    refine ⟨_, rfl, ?_⟩
    cases hd : [c1, c2].drop n with
    | nil =>
      have hn2 : [c1, c2].length ≤ n := List.drop_eq_nil_iff.mp hd
      rw [WaitAndSendCommand_nil _ _ _ (g2.trans hd), g4,
        List.take_of_length_le hn2, List.take_of_length_le (by omega)]
    | cons c rest =>
      obtain ⟨e1, _, _⟩ := take_succ_of_drop [c1, c2] n c rest hd
      have hc : CommandOK c := hcs c (List.mem_of_mem_drop (by rw [hd]; simp))
      rw [WaitAndSendCommand_cons _ _ _ c rest hm (g2.trans hd) hc, txFrames_call_tx, g4, e1,
        List.map_append, List.append_assoc]
      rfl

/-- The master with the read commands `S1_command` and `second_command` queued: on the
response route and on the timeout route the two frames `11 03 00 6B 00 03 76 87` and
`11 03 00 10 00 02 C7 5E` are transmitted in this order. -/
theorem command_fifo_read_routes :
    master_handle.task = ExecuteTask.MasterTask_WaitAndSendCommand ∧
    master_handle.commands = [] ∧ CommandOK S1_command ∧ CommandOK second_command ∧
    (∀ op ∈ response_route, op.OK) ∧
    (∀ s1 : sMODBUS Unit × World Unit,
      runOps response_route
          (MODBUS_QueueCommand (MODBUS_QueueCommand master_handle S1_command) second_command,
            world0) = some s1 →
      ∃ n, n ≤ 2 ∧
        txFrames s1.2.trace =
          txFrames world0.trace ++ ([S1_command, second_command].take n).map commandFrame) ∧
    (runOps response_route
        (MODBUS_QueueCommand (MODBUS_QueueCommand master_handle S1_command) second_command,
          world0)).map (fun s => txFrames s.2.trace) =
      some [[0x11, 0x03, 0x00, 0x6B, 0x00, 0x03, 0x76, 0x87],
        [0x11, 0x03, 0x00, 0x10, 0x00, 0x02, 0xC7, 0x5E]] ∧
    (runOps timeout_route
        (MODBUS_QueueCommand (MODBUS_QueueCommand master_handle S1_command) second_command,
          world0)).map (fun s => txFrames s.2.trace) =
      some [[0x11, 0x03, 0x00, 0x6B, 0x00, 0x03, 0x76, 0x87],
        [0x11, 0x03, 0x00, 0x10, 0x00, 0x02, 0xC7, 0x5E]] ∧
    [commandFrame S1_command, commandFrame second_command] =
      [[0x11, 0x03, 0x00, 0x6B, 0x00, 0x03, 0x76, 0x87],
        [0x11, 0x03, 0x00, 0x10, 0x00, 0x02, 0xC7, 0x5E]] :=
  ⟨by decide, by decide, by decide, by decide, by decide,
    fun s1 hrun =>
      match (command_fifo_defined_runs master_handle world0 S1_command second_command response_route
        (by decide) (by decide) (by decide) (by decide) (by decide)).2.2 s1 hrun with
      | ⟨n, hn, htx, _⟩ => ⟨n, hn, htx⟩,
    by decide, timeout_route_frames, by decide⟩

/-! ## Partial drain of the ring buffer -/

theorem RingContent_take (buff : sRing) (n : Nat) :
    (RingContent buff).take n =
      (List.range (min n buff.u8available)).map
        (fun i => buff.u8Buffer.getD ((buff.u8start + i) % buff.u16BufferSize) 0) := by
  unfold RingContent
  rw [← List.map_take, List.take_range]

/-- Claim C36. A partial drain discards the rest: for a ring buffer in a state that fits its C
types, a byte count `n` and a destination that has room for the bytes copied. When the buffer
holds `m ≥ 1` bytes and `1 ≤ n ≤ capacity`, `RingGetNBytes(n)` copies the `min(n, m)` oldest
bytes in order to the front of the destination, returns `min(n, m)`, and leaves the buffer
empty: count, start, end and overflow flag are 0, also when `n < m`. When `n = 0`, or the
buffer is empty, or `n` exceeds the capacity, it returns 0 and changes neither the buffer nor
the destination. -/
theorem C36_partial_drain (buff : sRing) (buffer : List Nat) (n : Nat)
    (hok : RingOK buff) (hn : n < 256) (hlen : min n buff.u8available ≤ buffer.length) :
    (1 ≤ buff.u8available → 1 ≤ n → n ≤ buff.u16BufferSize →
      RingGetNBytes buff buffer n =
        ({ buff with u8start := 0, u8end := 0, u8available := 0, u8overflow := 0 },
          (RingContent buff).take n ++ buffer.drop (min n buff.u8available),
          min n buff.u8available) ∧
      ((RingContent buff).take n).length = min n buff.u8available ∧
      RingCountBytes (RingGetNBytes buff buffer n).1 = 0 ∧
      RingContent (RingGetNBytes buff buffer n).1 = []) ∧
    (n = 0 ∨ buff.u8available = 0 ∨ buff.u16BufferSize < n →
      RingGetNBytes buff buffer n = (buff, buffer, 0)) := by
  refine ⟨?_, ?_⟩
  · intro hm h1 hcap
    have hres : RingGetNBytes buff buffer n =
        ({ buff with u8start := 0, u8end := 0, u8available := 0, u8overflow := 0 },
          (RingContent buff).take n ++ buffer.drop (min n buff.u8available),
          min n buff.u8available) := by
      unfold RingGetNBytes
      have c1 : ¬ (buff.u8available = 0 ∨ n = 0) := by omega
      have c2 : ¬ n > buff.u16BufferSize := by omega
      rw [if_neg c1, if_neg c2]
      simp only []
      rw [ring_copy_loop buff buffer hok _ hlen, RingContent_take]
      rfl
    refine ⟨hres, ?_, ?_, ?_⟩
    · rw [List.length_take, RingContent_length]
    · rw [hres]; rfl
    · rw [hres]; rfl
  · intro h
    unfold RingGetNBytes
    by_cases c1 : buff.u8available = 0 ∨ n = 0
    · rw [if_pos c1]
    · have c2 : n > buff.u16BufferSize := by omega
      rw [if_neg c1, if_pos c2]

/-- Instance of claim C36: a ring of capacity 8 holds the bytes 1 to 6; `RingGetNBytes` with
`n = 2` copies 1 and 2, returns 2 and leaves the ring empty, the bytes 3 to 6 being lost. -/
theorem C36_partial_drain_witness :
    RingOK six_ring ∧ 2 < 256 ∧ min 2 six_ring.u8available ≤ [9, 9, 9, 9].length ∧
    RingContent six_ring = [1, 2, 3, 4, 5, 6] ∧
    (RingGetNBytes six_ring [9, 9, 9, 9] 2).2 = ([1, 2, 9, 9], 2) ∧
    RingContent (RingGetNBytes six_ring [9, 9, 9, 9] 2).1 = [] ∧
    (RingGetNBytes six_ring [9, 9, 9, 9] 2).1.u8start = 0 ∧
    (RingGetNBytes six_ring [9, 9, 9, 9] 2).1.u8end = 0 ∧
    RingGetNBytes six_ring [9, 9, 9, 9] 2 =
      ({ six_ring with u8start := 0, u8end := 0, u8available := 0, u8overflow := 0 },
        (RingContent six_ring).take 2 ++ [9, 9, 9, 9].drop (min 2 six_ring.u8available),
        min 2 six_ring.u8available) :=
  ⟨by decide, by decide, by decide, by decide, by decide, by decide, by decide, by decide,
    ((C36_partial_drain six_ring [9, 9, 9, 9] 2 (by decide) (by decide) (by decide)).1
      (by decide) (by decide) (by decide)).1⟩

/-! ## Receive-complete call in slave mode -/

/-- One call on a handle whose task is the slave task and whose RX-complete flag is 0: the
task selector, the flag and the world stay, and the FIFO changes by `MODBUS_SaveByte` only. -/
theorem MasterOp_apply_slave {σ : Type} (op : MasterOp) (handle : sMODBUS σ) (w : World σ)
    (ht : handle.task = ExecuteTask.SlaveTask) (hflag : handle.u8RxComplete = 0) :
    op.apply (handle, w) =
      some ({ handle with pxRxBuff := (savedBytes [op]).foldl RingAdd handle.pxRxBuff }, w) := by
  cases op with
  | executeTask mFrame0 sFrame0 =>
    have e : MODBUS_ExecuteTask handle w mFrame0 sFrame0 = some (handle, w) := by
      unfold MODBUS_ExecuteTask
      rw [ht]
      show MODBUS_SlaveTask handle w mFrame0 sFrame0 = _
      unfold MODBUS_SlaveTask
      rw [if_pos (by rw [hflag]; decide)]
    show MODBUS_ExecuteTask handle w mFrame0 sFrame0 = _
    rw [e]
    rfl
  | tickRxTimer =>
    have e : MODBUS_MasterTickRxTimer handle = handle := by
      unfold MODBUS_MasterTickRxTimer
      rw [if_neg (by rw [ht]; simp)]
    show some (MODBUS_MasterTickRxTimer handle, w) = _
    rw [e]
    rfl
  | setRxComplete =>
    have e : MODBUS_SetRxComplete handle = handle := by
      unfold MODBUS_SetRxComplete
      rw [if_neg (by rw [ht]; simp)]
    show some (MODBUS_SetRxComplete handle, w) = _
    rw [e]
    rfl
  | saveByte u8Data => rfl

theorem savedBytes_cons_fold (op : MasterOp) (ops : List MasterOp) (buff : sRing) :
    (savedBytes (op :: ops)).foldl RingAdd buff =
      (savedBytes ops).foldl RingAdd ((savedBytes [op]).foldl RingAdd buff) := by
  cases op <;> rfl

/-- Claim C32. In slave mode the public receive-complete call has no effect: for a handle
whose task selector is the slave task and whose RX-complete flag is 0, `MODBUS_SetRxComplete`
returns the handle as it is, and every sequence of `MODBUS_SaveByte`, `MODBUS_SetRxComplete`,
`MODBUS_MasterTickRxTimer` and `MODBUS_ExecuteTask` calls has a result in which the task
selector is the slave task, the flag is 0, the FIFO is the old one with the saved bytes pushed
and never drained, and the world is the one before the calls: no callback ran and the transmit
callback was never invoked. -/
theorem C32_slave_receive_complete {σ : Type} (handle : sMODBUS σ) (w : World σ)
    (ops : List MasterOp) (ht : handle.task = ExecuteTask.SlaveTask)
    (hflag : handle.u8RxComplete = 0) :
    MODBUS_SetRxComplete handle = handle ∧
    runOps ops (handle, w) =
      some ({ handle with pxRxBuff := (savedBytes ops).foldl RingAdd handle.pxRxBuff }, w) ∧
    (runOps ops (handle, w)).map (fun s => (s.1.task, s.1.u8RxComplete, txFrames s.2.trace)) =
      some (ExecuteTask.SlaveTask, 0, txFrames w.trace) := by
  have hrun : ∀ (ops : List MasterOp) (h : sMODBUS σ), h.task = ExecuteTask.SlaveTask →
      h.u8RxComplete = 0 →
      runOps ops (h, w) =
        some ({ h with pxRxBuff := (savedBytes ops).foldl RingAdd h.pxRxBuff }, w) := by
    intro ops
    induction ops with
    | nil => intro h _ _; rfl
    | cons op ops ih =>
      intro h ht1 hf1
      rw [runOps, MasterOp_apply_slave op h w ht1 hf1]
      obtain ⟨h1, hdef⟩ : ∃ h1 : sMODBUS σ,
          h1 = { h with pxRxBuff := (savedBytes [op]).foldl RingAdd h.pxRxBuff } := ⟨_, rfl⟩
      rw [← hdef]
      show runOps ops (h1, w) = _
      rw [ih h1 (by rw [hdef]; exact ht1) (by rw [hdef]; exact hf1), savedBytes_cons_fold, hdef]
  refine ⟨?_, hrun ops handle ht hflag, ?_⟩
  · unfold MODBUS_SetRxComplete
    rw [if_neg (by rw [ht]; simp)]
  · rw [hrun ops handle ht hflag]
    show some (handle.task, handle.u8RxComplete, txFrames w.trace) = _
    rw [ht, hflag]

/-- Instance of claim C32: the slave of scenario S1 gets the bytes of the request, the
end-of-frame notification, a tick and two task executions; the request stays in the FIFO and
nothing is transmitted. -/
theorem C32_slave_receive_complete_witness :
    S1_slave.task = ExecuteTask.SlaveTask ∧ S1_slave.u8RxComplete = 0 ∧
    (runOps slave_route (S1_slave, world0)).map
        (fun s => (RingContent s.1.pxRxBuff, s.1.u8RxComplete, s.2.trace)) =
      some (S1_request, 0, []) ∧
    (MODBUS_SetRxComplete S1_slave = S1_slave ∧
    runOps slave_route (S1_slave, world0) =
      some ({ S1_slave with
        pxRxBuff := (savedBytes slave_route).foldl RingAdd S1_slave.pxRxBuff }, world0) ∧
    (runOps slave_route (S1_slave, world0)).map
        (fun s => (s.1.task, s.1.u8RxComplete, txFrames s.2.trace)) =
      some (ExecuteTask.SlaveTask, 0, txFrames world0.trace)) :=
  ⟨by decide, by decide, by decide,
    C32_slave_receive_complete S1_slave world0 slave_route (by decide) (by decide)⟩

/-! ## Responses the master cannot elaborate -/

theorem setupExceptionFrame_length (mFrame : sMaster_Frame) (excpt : eMODBUS_Excpt)
    (sFrame0 : sSlave_Frame) :
    (setupExceptionFrame mFrame excpt sFrame0).u16Length = 5 ∧
    (setupExceptionFrame mFrame excpt sFrame0).raw.length = sFrame0.raw.length := by
  unfold setupExceptionFrame
  simp only [List.length_set, and_self]

/-- The decoder of the master on a FIFO that holds fewer than six bytes. -/
theorem ReadSlaveFrame_short {σ : Type} (handle : sMODBUS σ) (sFrame0 : sSlave_Frame)
    (hok : RingOK handle.pxRxBuff) (hs : sFrame0.raw.length = MODBUS_FRAME_MAX_SIZE)
    (hlen : (RingContent handle.pxRxBuff).length < SLAVE_FRAME_LENGTH) :
    (ReadSlaveFrame handle sFrame0).1 = Exception_InvalidFrame := by
  have hav : handle.pxRxBuff.u8available ≤ sFrame0.raw.length := by
    rw [← RingContent_length, hs]
    have : SLAVE_FRAME_LENGTH = 6 := rfl
    have h260 : MODBUS_FRAME_MAX_SIZE = 260 := rfl
    omega
  have hd := RingGetAllBytes_eq handle.pxRxBuff sFrame0.raw hok hav
  unfold ReadSlaveFrame
  simp only [hd]
  rw [if_pos hlen]

/-- Claim C33. A slave exception reply is not decodable by the master: for every request
header `mFrame` and every exception code `excpt`, when the FIFO of the master holds the five
bytes of the frame built by `setupExceptionFrame`, `ReadSlaveFrame` returns
`Exception_InvalidFrame`, whose number is 100, and the Elaborate step fires the assigned
remote-error event once with `Exception_InvalidFrame`, whatever `excpt` the slave sent, and
goes back to Idle. -/
theorem C33_exception_reply_not_decodable {σ : Type} (handle : sMODBUS σ) (w : World σ)
    (mFrame : sMaster_Frame) (excpt : eMODBUS_Excpt) (excFrame0 sFrame0 : sSlave_Frame)
    (remoteRxError : eMODBUS_Excpt → σ → σ)
    (hexc : excFrame0.raw.length = MODBUS_FRAME_MAX_SIZE)
    (hs : sFrame0.raw.length = MODBUS_FRAME_MAX_SIZE) (hok : RingOK handle.pxRxBuff)
    (hB : RingContent handle.pxRxBuff =
      (setupExceptionFrame mFrame excpt excFrame0).raw.take
        (setupExceptionFrame mFrame excpt excFrame0).u16Length)
    (hcb : handle.remoteRxErrorCallback = some remoteRxError) :
    (RingContent handle.pxRxBuff).length = 5 ∧
    (ReadSlaveFrame handle sFrame0).1 = Exception_InvalidFrame ∧
    Exception_InvalidFrame.toNat = 100 ∧
    MODBUS_MasterTask_ElaborateRx handle w sFrame0 =
      some ({ (ReadSlaveFrame handle sFrame0).2.1 with
          task := ExecuteTask.MasterTask_WaitAndSendCommand },
        w.call (Event.remoteRxError Exception_InvalidFrame)
          (remoteRxError Exception_InvalidFrame w.app)) := by
  obtain ⟨h5, hraw⟩ := setupExceptionFrame_length mFrame excpt excFrame0
  have hlen : (RingContent handle.pxRxBuff).length = 5 := by
    rw [hB, h5, List.length_take, hraw, hexc]
    rfl
  have hdec := ReadSlaveFrame_short handle sFrame0 hok hs (by rw [hlen]; decide)
  have hcb1 : (ReadSlaveFrame handle sFrame0).2.1.remoteRxErrorCallback =
      some remoteRxError := by
    rw [ReadSlaveFrame_handle]; exact hcb
  refine ⟨hlen, hdec, rfl, ?_⟩
  unfold MODBUS_MasterTask_ElaborateRx
  simp only [hdec, hcb1, reduceCtorEq, if_false]

/-- Instance of claim C33: the master that sent the read command of scenario S1 receives the
exception reply `11 83 02 C1 34` (illegal address, code 2); the remote-error event carries
`Exception_InvalidFrame`, not the code 2. -/
theorem C33_exception_reply_not_decodable_witness :
    zeroSlave.raw.length = MODBUS_FRAME_MAX_SIZE ∧ RingOK refused_handle.pxRxBuff ∧
    RingContent refused_handle.pxRxBuff = [0x11, 0x83, 0x02, 0xC1, 0x34] ∧
    refused_handle.task = ExecuteTask.MasterTask_ElaborateRx ∧
    (MODBUS_ExecuteTask refused_handle world0 zeroMaster zeroSlave).map
        (fun r => (r.1.task, r.2.trace)) =
      some (ExecuteTask.MasterTask_WaitAndSendCommand,
        [Event.remoteRxError Exception_InvalidFrame]) ∧
    ((RingContent refused_handle.pxRxBuff).length = 5 ∧
    (ReadSlaveFrame refused_handle zeroSlave).1 = Exception_InvalidFrame ∧
    Exception_InvalidFrame.toNat = 100 ∧
    MODBUS_MasterTask_ElaborateRx refused_handle world0 zeroSlave =
      some ({ (ReadSlaveFrame refused_handle zeroSlave).2.1 with
          task := ExecuteTask.MasterTask_WaitAndSendCommand },
        world0.call (Event.remoteRxError Exception_InvalidFrame)
          ((fun _ app => app) Exception_InvalidFrame world0.app))) :=
  ⟨by decide, by decide, by decide, by decide, by decide,
    C33_exception_reply_not_decodable refused_handle world0
      { u16Length := 8, raw := S1_request ++ List.replicate 252 0 } Exception_IllegalAddr
      zeroSlave zeroSlave (fun _ app => app) (by decide) (by decide) (by decide) (by decide)
      rfl⟩

/-- Claim C34, at the input where the code leaves it. The master sent the write command
`11 06 00 01 00 03` and received the acknowledgement of the slave, the same eight bytes
`11 06 00 01 00 03 9A 9B`; the state is Elaborate. `ReadSlaveFrame` accepts the response,
function code 6. The `switch` of `MODBUS_MasterTask_ElaborateRx` has the cases 1 to 4 only: for
the codes 5, 6, 15 and 16 it assigns nothing to `SelectedReg`, and the loop, which runs
`lastCmd.length = 3` times, calls `readPayload` and `remote` through the uninitialised
variable: the step has no defined result. -/
theorem C34_no_strategy_for_write_response :
    acknowledged_handle.task = ExecuteTask.MasterTask_ElaborateRx ∧
    RingContent acknowledged_handle.pxRxBuff =
      [0x11, 0x06, 0x00, 0x01, 0x00, 0x03, 0x9A, 0x9B] ∧
    (ReadSlaveFrame acknowledged_handle zeroSlave).1 = Exception_NoException ∧
    (ReadSlaveFrame acknowledged_handle zeroSlave).2.2.u8FuncCode = 6 ∧
    acknowledged_handle.lastCmd.length = 3 ∧
    MODBUS_MasterTask_ElaborateRx_select 5 = none ∧
    MODBUS_MasterTask_ElaborateRx_select 6 = none ∧
    MODBUS_MasterTask_ElaborateRx_select 15 = none ∧
    MODBUS_MasterTask_ElaborateRx_select 16 = none ∧
    (MODBUS_MasterTask_ElaborateRx acknowledged_handle world0 zeroSlave).isNone = true ∧
    (MODBUS_ExecuteTask acknowledged_handle world0 zeroMaster zeroSlave).isNone = true := by
  decide

/-! ## Read requests whose range passes the last address -/

/-- The function `ReadValues` on a request whose end address wraps: the loop does not run and
the reply is the header with byte count 0 and its CRC. -/
theorem ReadValues_wrap {σ : Type} (handle : sMODBUS σ) (cmd : sMODBUS_Commmand)
    (tlm : List Nat) (sFrame0 : sSlave_Frame) (w : World σ)
    (hs : sFrame0.raw.length = MODBUS_FRAME_MAX_SIZE)
    (ha : cmd.regAddress < 65536) (hN : cmd.length < 65536)
    (hwrap : 0xFFFF < cmd.regAddress + cmd.length) :
    ∃ tl : List Nat,
      ReadValues handle { u16Length := 8, raw := commandFrame cmd ++ tlm } sFrame0 w =
        some ({ u16Length := 5
                raw := [cmd.slaveID, cmd.functionCode, 0,
                  calcCRC [cmd.slaveID, cmd.functionCode, 0] 3 >>> 8,
                  calcCRC [cmd.slaveID, cmd.functionCode, 0] 3 &&& 0xFF] ++ tl }, w) := by
  have hlen : ((cmd.length >>> 8) <<< 8 + (cmd.length &&& 0xFF)) % 65536 = cmd.length := by
    rw [hi_lo_add]; omega
  have haddr : ((cmd.regAddress >>> 8) <<< 8 + (cmd.regAddress &&& 0xFF)) % 65536
      = cmd.regAddress := by
    rw [hi_lo_add]; omega
  have hf0 : (⟨8, commandFrame cmd ++ tlm⟩ : sMaster_Frame).u8DevID = cmd.slaveID := rfl
  have hf1 : (⟨8, commandFrame cmd ++ tlm⟩ : sMaster_Frame).u8FuncCode = cmd.functionCode :=
    rfl
  have hf3 : (⟨8, commandFrame cmd ++ tlm⟩ : sMaster_Frame).u8Length_High
      = cmd.length >>> 8 := rfl
  have hf4 : (⟨8, commandFrame cmd ++ tlm⟩ : sMaster_Frame).u8Length_Low
      = cmd.length &&& 0xFF := rfl
  have hf5 : (⟨8, commandFrame cmd ++ tlm⟩ : sMaster_Frame).u8AddressHigh
      = cmd.regAddress >>> 8 := rfl
  have hf6 : (⟨8, commandFrame cmd ++ tlm⟩ : sMaster_Frame).u8AddressLow
      = cmd.regAddress &&& 0xFF := rfl
  have hz : (cmd.regAddress + cmd.length) % 65536 - cmd.regAddress = 0 := by omega
  obtain ⟨x0, x1, x2, x3, x4, tl, hl⟩ := exists_cons5 sFrame0.raw
    (by rw [hs]; decide)
  have hcrc := FrameSlave_AppendCRC_eq [cmd.slaveID, cmd.functionCode, 0] x3 x4 tl (by simp)
  refine ⟨tl, ?_⟩
  unfold ReadValues
  simp only [hf0, hf1, hf3, hf4, hf5, hf6, hlen, haddr, hz, hl, List.set_cons_zero,
    List.set_cons_succ, ReadValues_loop]
  exact congrArg (fun s => some (s, w)) hcrc

/-- Claim C35. Address wrap-around in reads: for a valid read request (function code 1 to 4,
the eight bytes with their CRC, sent to the local address) with start address `a` and count
`N ≥ 1` such that `a + N > 0xFFFF`, one run of `MODBUS_SlaveTask` calls no handler and no
callback but the transmit callback, which it calls once with the five bytes
`[id, fc, 0, crc hi, crc lo]`: a reply with the function code of the request and byte
count 0. -/
theorem C35_read_wrap_empty_reply {σ : Type} (handle : sMODBUS σ) (w : World σ)
    (mFrame0 : sMaster_Frame) (sFrame0 : sSlave_Frame) (fc a N : Nat)
    (hok : RingOK handle.pxRxBuff)
    (hB : RingContent handle.pxRxBuff = commandFrame
      { functionCode := fc, slaveID := handle.u8myAddress, regAddress := a, length := N })
    (hm : mFrame0.raw.length = MODBUS_FRAME_MAX_SIZE)
    (hs : sFrame0.raw.length = MODBUS_FRAME_MAX_SIZE)
    (hflag : handle.u8RxComplete = 1)
    (hfc : fc = 1 ∨ fc = 2 ∨ fc = 3 ∨ fc = 4)
    (ha : a < 65536) (hN1 : 1 ≤ N) (hN : N < 65536) (hwrap : 0xFFFF < a + N) :
    ((a + N) % 65536 < a) ∧
    ∃ handle1 : sMODBUS σ,
      MODBUS_SlaveTask handle w mFrame0 sFrame0 =
        some (handle1,
          w.call
            (Event.hwDataTx [handle.u8myAddress, fc, 0,
              calcCRC [handle.u8myAddress, fc, 0] 3 >>> 8,
              calcCRC [handle.u8myAddress, fc, 0] 3 &&& 0xFF])
            (handle.hwDataTx [handle.u8myAddress, fc, 0,
              calcCRC [handle.u8myAddress, fc, 0] 3 >>> 8,
              calcCRC [handle.u8myAddress, fc, 0] 3 &&& 0xFF] w.app)) := by
  refine ⟨by omega, ?_⟩
  obtain ⟨h1, _, _, _, _, _, _, htx, _, hread⟩ :=
    ReadMasterFrame_command { handle with u8RxComplete := 0 } mFrame0
      ⟨fc, handle.u8myAddress, a, N⟩ hok hB hm rfl
      (by rcases hfc with h | h | h | h <;> simp [h])
  obtain ⟨tl, hrv⟩ := ReadValues_wrap h1 ⟨fc, handle.u8myAddress, a, N⟩ (mFrame0.raw.drop 8)
    sFrame0 w hs ha hN hwrap
  have hdisp := dispatch_read4 h1
    ⟨8, commandFrame ⟨fc, handle.u8myAddress, a, N⟩ ++ mFrame0.raw.drop 8⟩ sFrame0 w hfc
  rw [hrv] at hdisp
  have hrun := SlaveTask_accepted handle h1 w w mFrame0 _ sFrame0 _ hflag hread hdisp
  refine ⟨h1, ?_⟩
  rw [hrun, htx]
  rfl

/-- Instance of claim C35: the slave of scenario S1 is asked for two holding registers from
address `0xFFFF`; it reads nothing and transmits `11 03 00 21 35`. -/
theorem C35_read_wrap_empty_reply_witness :
    RingOK top_read_handle.pxRxBuff ∧
    RingContent top_read_handle.pxRxBuff = commandFrame
      { functionCode := 3, slaveID := top_read_handle.u8myAddress, regAddress := 0xFFFF,
        length := 2 } ∧
    zeroMaster.raw.length = MODBUS_FRAME_MAX_SIZE ∧
    zeroSlave.raw.length = MODBUS_FRAME_MAX_SIZE ∧ top_read_handle.u8RxComplete = 1 ∧
    (MODBUS_SlaveTask top_read_handle world0 zeroMaster zeroSlave).map (fun r => r.2.trace) =
      some [Event.hwDataTx [0x11, 0x03, 0x00, 0x21, 0x35]] ∧
    (((0xFFFF + 2) % 65536 < 0xFFFF) ∧
    ∃ handle1 : sMODBUS Unit,
      MODBUS_SlaveTask top_read_handle world0 zeroMaster zeroSlave =
        some (handle1,
          world0.call
            (Event.hwDataTx [top_read_handle.u8myAddress, 3, 0,
              calcCRC [top_read_handle.u8myAddress, 3, 0] 3 >>> 8,
              calcCRC [top_read_handle.u8myAddress, 3, 0] 3 &&& 0xFF])
            (top_read_handle.hwDataTx [top_read_handle.u8myAddress, 3, 0,
              calcCRC [top_read_handle.u8myAddress, 3, 0] 3 >>> 8,
              calcCRC [top_read_handle.u8myAddress, 3, 0] 3 &&& 0xFF] world0.app))) :=
  ⟨by decide, by decide, by decide, by decide, by decide, by decide,
    C35_read_wrap_empty_reply top_read_handle world0 zeroMaster zeroSlave 3 0xFFFF 2
      (by decide) (by decide) (by decide) (by decide) (by decide) (by decide) (by decide)
      (by decide) (by decide) (by decide)⟩

/-! ## The FIFO across a master timeout -/

/-- The Await task never touches the FIFO, and with the counter at 0 it leaves the state
Idle/Send. -/
theorem WaitRx_fifo {σ : Type} (h : sMODBUS σ) (w : World σ) :
    (MODBUS_MasterTask_WaitRx h w).1.pxRxBuff = h.pxRxBuff ∧
    (h.u16RxTimeout = 0 →
      (MODBUS_MasterTask_WaitRx h w).1.task = ExecuteTask.MasterTask_WaitAndSendCommand) := by
  unfold MODBUS_MasterTask_WaitRx
  simp only []
  by_cases hflag : h.u8RxComplete = 1
  · rw [if_pos hflag]
    simp only []
    by_cases h0 : h.u16RxTimeout = 0
    · rw [if_pos h0]; exact ⟨rfl, fun _ => rfl⟩
    · rw [if_neg h0]; exact ⟨rfl, fun hc => absurd hc h0⟩
  · rw [if_neg hflag]
    by_cases h0 : h.u16RxTimeout = 0
    · rw [if_pos h0]; exact ⟨rfl, fun _ => rfl⟩
    · rw [if_neg h0]; exact ⟨rfl, fun hc => absurd hc h0⟩

/-- The Idle/Send task never touches the FIFO and leaves a master state. -/
theorem WaitAndSendCommand_fifo {σ : Type} (h : sMODBUS σ) (w : World σ)
    (mFrame0 : sMaster_Frame) (ht : h.task ≠ ExecuteTask.SlaveTask) :
    (MODBUS_MasterTask_WaitAndSendCommand h w mFrame0).1.pxRxBuff = h.pxRxBuff ∧
    (MODBUS_MasterTask_WaitAndSendCommand h w mFrame0).1.task ≠ ExecuteTask.SlaveTask := by
  unfold MODBUS_MasterTask_WaitAndSendCommand MODBUS_MasterTask_WaitAndSendCommand_setup
  by_cases hq : q_isEmpty h.commands = true
  · rw [if_pos hq]
    exact ⟨rfl, ht⟩
  · rw [if_neg hq]
    cases hp : q_pop h.commands with
    | none => exact ⟨rfl, ht⟩
    | some r => exact ⟨rfl, by simp⟩

/-- One call on a master engine that is not in the state Elaborate has a result; the FIFO
changes by `MODBUS_SaveByte` only. -/
theorem MasterOp_apply_keeps_fifo {σ : Type} (op : MasterOp) (s s1 : sMODBUS σ × World σ)
    (happ : op.apply s = some s1) (ht : s.1.task ≠ ExecuteTask.SlaveTask)
    (hE : s.1.task ≠ ExecuteTask.MasterTask_ElaborateRx) :
    s1.1.pxRxBuff = (savedBytes [op]).foldl RingAdd s.1.pxRxBuff ∧
    s1.1.task ≠ ExecuteTask.SlaveTask := by
  cases op with
  | executeTask mFrame0 sFrame0 =>
    have happ1 : MODBUS_ExecuteTask s.1 s.2 mFrame0 sFrame0 = some s1 := happ
    cases htask : s.1.task with
    | SlaveTask => exact absurd htask ht
    | MasterTask_ElaborateRx => exact absurd htask hE
    | MasterTask_WaitAndSendCommand =>
      rw [ExecuteTask_WaitAndSendCommand _ _ _ _ htask] at happ1
      cases happ1
      exact WaitAndSendCommand_fifo s.1 s.2 mFrame0 ht
    | MasterTask_WaitRx =>
      rw [ExecuteTask_WaitRx _ _ _ _ htask] at happ1
      cases happ1
      exact ⟨(WaitRx_fifo s.1 s.2).1, (WaitRx_keeps s.1 s.2 htask).2.1⟩
  | tickRxTimer =>
    have happ1 : some (MODBUS_MasterTickRxTimer s.1, s.2) = some s1 := happ
    cases happ1
    refine ⟨?_, ?_⟩
    · show (MODBUS_MasterTickRxTimer s.1).pxRxBuff = s.1.pxRxBuff
      unfold MODBUS_MasterTickRxTimer
      split <;> rfl
    · show (MODBUS_MasterTickRxTimer s.1).task ≠ _
      unfold MODBUS_MasterTickRxTimer
      split <;> exact ht
  | setRxComplete =>
    have happ1 : some (MODBUS_SetRxComplete s.1, s.2) = some s1 := happ
    cases happ1
    refine ⟨?_, ?_⟩
    · show (MODBUS_SetRxComplete s.1).pxRxBuff = s.1.pxRxBuff
      unfold MODBUS_SetRxComplete
      split <;> rfl
    · show (MODBUS_SetRxComplete s.1).task ≠ _
      unfold MODBUS_SetRxComplete
      split <;> exact ht
  | saveByte u8Data =>
    have happ1 : some (MODBUS_SaveByte s.1 u8Data, s.2) = some s1 := happ
    cases happ1
    exact ⟨rfl, ht⟩

/-- A sequence of calls on a master engine during which no Elaborate step runs: the FIFO is
the old one with the saved bytes pushed. -/
theorem runOps_keeps_fifo {σ : Type} : ∀ (ops : List MasterOp) (s s1 : sMODBUS σ × World σ),
    runOps ops s = some s1 → s.1.task ≠ ExecuteTask.SlaveTask → NoElaborateBefore ops s →
    s1.1.pxRxBuff = (savedBytes ops).foldl RingAdd s.1.pxRxBuff := by
  intro ops
  induction ops with
  | nil =>
    intro s s1 hrun _ _
    cases hrun
    rfl
  | cons op ops ih =>
    intro s s1 hrun ht hbefore
    have hE : s.1.task ≠ ExecuteTask.MasterTask_ElaborateRx := by
      have h0 := hbefore 0 (by simp)
      intro hc
      apply h0
      show some s.1.task = _
      rw [hc]
    rw [runOps] at hrun
    cases happ : op.apply s with
    | none => rw [happ] at hrun; cases hrun
    | some s2 =>
      rw [happ] at hrun
      obtain ⟨g1, g2⟩ := MasterOp_apply_keeps_fifo op s s2 happ ht hE
      have hb2 : NoElaborateBefore ops s2 := by
        intro k hk
        have hk1 := hbefore (k + 1) (by simp; omega)
        rw [List.take_succ_cons, runOps, happ] at hk1
        exact hk1
      rw [ih s2 s1 hrun g2 hb2, g1]
      exact (savedBytes_cons_fold op ops s.1.pxRxBuff).symm

/-- The frame that `ReadSlaveFrame` decodes: the content of the FIFO, followed by what the
frame variable held before. -/
theorem ReadSlaveFrame_frame {σ : Type} (handle : sMODBUS σ) (sFrame0 : sSlave_Frame)
    (hok : RingOK handle.pxRxBuff) (hs : sFrame0.raw.length = MODBUS_FRAME_MAX_SIZE) :
    (ReadSlaveFrame handle sFrame0).2.2 =
      { u16Length := (RingContent handle.pxRxBuff).length
        raw := RingContent handle.pxRxBuff ++
          sFrame0.raw.drop (RingContent handle.pxRxBuff).length } := by
  have hav : handle.pxRxBuff.u8available ≤ sFrame0.raw.length := by
    have h1 := hok.2.1
    have h2 := hok.2.2.2.2
    have h260 : sFrame0.raw.length = 260 := hs
    omega
  have hd := RingGetAllBytes_eq handle.pxRxBuff sFrame0.raw hok hav
  unfold ReadSlaveFrame
  simp only [hd]
  split
  · rfl
  · split
    · rfl
    · split <;> rfl

theorem timed_out_handle_eq :
    timed_out_handle =
      { late_bytes.foldl MODBUS_SaveByte sent2_handle with
        u16RxTimeout := (late_bytes.foldl MODBUS_SaveByte sent2_handle).u16RxTimeout - 250 } :=
  MasterTickRxTimer_iterate (late_bytes.foldl MODBUS_SaveByte sent2_handle) (by decide)
    (by decide) 250

theorem flooded_handle_eq :
    flooded_handle =
      { long_late_bytes.foldl MODBUS_SaveByte sent2_handle with
        u16RxTimeout :=
          (long_late_bytes.foldl MODBUS_SaveByte sent2_handle).u16RxTimeout - 250 } :=
  MasterTickRxTimer_iterate (long_late_bytes.foldl MODBUS_SaveByte sent2_handle) (by decide)
    (by decide) 250

/-- Claim C37 fails when the FIFO overflows before the next Elaborate step. The master sent a
command, 29 bytes arrived without an end of frame, and the counter reached 0 with
`second_command` still queued. The Await task reports the timeout and leaves the 29 bytes in
the FIFO. Then the task sends `second_command`, the nine bytes of its reply arrive, the end of
the frame is notified and the task goes to Elaborate: the FIFO of 32 bytes holds the last 23 of
the 29 old bytes followed by the reply, so the 29 bytes pushed before the timeout are not the
beginning of what the Elaborate step drains: the first six were overwritten. -/
theorem C37_counterexample :
    flooded_handle.task = ExecuteTask.MasterTask_WaitRx ∧ flooded_handle.u16RxTimeout = 0 ∧
    RingContent flooded_handle.pxRxBuff = long_late_bytes ∧ long_late_bytes.length = 29 ∧
    flooded_handle.pxRxBuff.u16BufferSize = 32 ∧
    RingContent (MODBUS_MasterTask_WaitRx flooded_handle world0).1.pxRxBuff =
      long_late_bytes ∧
    NoElaborateBefore next_route (MODBUS_MasterTask_WaitRx flooded_handle world0) ∧
    (runOps next_route (MODBUS_MasterTask_WaitRx flooded_handle world0)).map
        (fun s => (s.1.task, RingContent s.1.pxRxBuff)) =
      some (ExecuteTask.MasterTask_ElaborateRx, long_late_bytes.drop 6 ++ second_reply) ∧
    (runOps next_route (MODBUS_MasterTask_WaitRx flooded_handle world0)).map
        (fun s => ((ReadSlaveFrame s.1 zeroSlave).2.2.raw.take 29 = long_late_bytes : Bool)) =
      some false := by
  rw [flooded_handle_eq]
  decide

/-- Claim C37, amended. A master timeout does not flush received bytes: when
`MODBUS_MasterTask_WaitRx` runs with the rx-timeout counter at 0, it leaves the state Idle/Send
and the RX FIFO as it was. For every sequence of task executions, timer ticks, end-of-frame
notifications and received bytes after it during which no Elaborate step runs, and in which
the bytes in the FIFO at the timeout and the bytes received afterwards together do not exceed
the capacity of the FIFO: the FIFO then holds the bytes it held at the timeout followed by the
bytes received afterwards, and this is the byte sequence that `ReadSlaveFrame`, the decoder of
the next Elaborate step, drains and decodes. -/
theorem C37_timeout_keeps_fifo {σ : Type} (handle : sMODBUS σ) (w : World σ)
    (ops : List MasterOp) (sFrame0 : sSlave_Frame)
    (h0 : handle.u16RxTimeout = 0) (hok : RingOK handle.pxRxBuff)
    (hend : RingEndOK handle.pxRxBuff) (hs : sFrame0.raw.length = MODBUS_FRAME_MAX_SIZE)
    (hb : IsBytes (savedBytes ops))
    (hcap : (RingContent handle.pxRxBuff).length + (savedBytes ops).length ≤
      handle.pxRxBuff.u16BufferSize)
    (hbefore : NoElaborateBefore ops (MODBUS_MasterTask_WaitRx handle w)) :
    (MODBUS_MasterTask_WaitRx handle w).1.pxRxBuff = handle.pxRxBuff ∧
    (MODBUS_MasterTask_WaitRx handle w).1.task = ExecuteTask.MasterTask_WaitAndSendCommand ∧
    ∀ s1 : sMODBUS σ × World σ,
      runOps ops (MODBUS_MasterTask_WaitRx handle w) = some s1 →
      RingContent s1.1.pxRxBuff = RingContent handle.pxRxBuff ++ savedBytes ops ∧
      (ReadSlaveFrame s1.1 sFrame0).2.2 =
        { u16Length := (RingContent handle.pxRxBuff ++ savedBytes ops).length
          raw := (RingContent handle.pxRxBuff ++ savedBytes ops) ++
            sFrame0.raw.drop (RingContent handle.pxRxBuff ++ savedBytes ops).length } := by
  obtain ⟨k1, k2⟩ := WaitRx_fifo handle w
  refine ⟨k1, k2 h0, ?_⟩
  intro s1 hrun
  have hfifo := runOps_keeps_fifo ops _ s1 hrun (by rw [k2 h0]; simp) hbefore
  rw [k1] at hfifo
  have hpre : RingContent handle.pxRxBuff =
      (RingContent handle.pxRxBuff).drop
        ((RingContent handle.pxRxBuff).length - handle.pxRxBuff.u16BufferSize) := by
    have : (RingContent handle.pxRxBuff).length - handle.pxRxBuff.u16BufferSize = 0 := by
      omega
    rw [this, List.drop_zero]
  obtain ⟨g1, _, g3⟩ := RingAdd_fold handle.pxRxBuff.u16BufferSize (savedBytes ops)
    (RingContent handle.pxRxBuff) handle.pxRxBuff hok rfl hend hpre hb
  have hall : (RingContent handle.pxRxBuff ++ savedBytes ops).length -
      handle.pxRxBuff.u16BufferSize = 0 := by
    rw [List.length_append]; omega
  rw [hall, List.drop_zero, ← hfifo] at g3
  rw [← hfifo] at g1
  refine ⟨g3, ?_⟩
  rw [ReadSlaveFrame_frame s1.1 sFrame0 g1 hs, g3]

/-- The facts about `timed_out_handle` and `next_route` that the instance of claim C37 uses. -/
theorem timed_out_facts :
    timed_out_handle.u16RxTimeout = 0 ∧ RingOK timed_out_handle.pxRxBuff ∧
    RingEndOK timed_out_handle.pxRxBuff ∧ zeroSlave.raw.length = MODBUS_FRAME_MAX_SIZE ∧
    IsBytes (savedBytes next_route) ∧
    (RingContent timed_out_handle.pxRxBuff).length + (savedBytes next_route).length ≤
      timed_out_handle.pxRxBuff.u16BufferSize ∧
    NoElaborateBefore next_route (MODBUS_MasterTask_WaitRx timed_out_handle world0) ∧
    RingContent timed_out_handle.pxRxBuff = [0x11, 0x03, 0x06, 0xAE, 0x41, 0x56, 0x52, 0x00] ∧
    (runOps next_route (MODBUS_MasterTask_WaitRx timed_out_handle world0)).map
        (fun s => (s.1.task, RingContent s.1.pxRxBuff, (ReadSlaveFrame s.1 zeroSlave).1)) =
      some (ExecuteTask.MasterTask_ElaborateRx,
        [0x11, 0x03, 0x06, 0xAE, 0x41, 0x56, 0x52, 0x00,
          0x11, 0x03, 0x04, 0x01, 0x02, 0x03, 0x04, 0x4A, 0xFD],
        Exception_InvalidFrame) := by
  rw [timed_out_handle_eq]
  decide

/-- Instance of claim C37, amended: eight bytes of a late reply are in the FIFO at the timeout;
the next command is sent and answered with nine bytes; the next Elaborate step finds the 17
bytes in the FIFO, the eight old ones first, and its decoder rejects them. -/
theorem C37_timeout_keeps_fifo_witness :
    timed_out_handle.u16RxTimeout = 0 ∧ RingOK timed_out_handle.pxRxBuff ∧
    RingEndOK timed_out_handle.pxRxBuff ∧ zeroSlave.raw.length = MODBUS_FRAME_MAX_SIZE ∧
    IsBytes (savedBytes next_route) ∧
    (RingContent timed_out_handle.pxRxBuff).length + (savedBytes next_route).length ≤
      timed_out_handle.pxRxBuff.u16BufferSize ∧
    NoElaborateBefore next_route (MODBUS_MasterTask_WaitRx timed_out_handle world0) ∧
    RingContent timed_out_handle.pxRxBuff = [0x11, 0x03, 0x06, 0xAE, 0x41, 0x56, 0x52, 0x00] ∧
    (runOps next_route (MODBUS_MasterTask_WaitRx timed_out_handle world0)).map
        (fun s => (s.1.task, RingContent s.1.pxRxBuff, (ReadSlaveFrame s.1 zeroSlave).1)) =
      some (ExecuteTask.MasterTask_ElaborateRx,
        [0x11, 0x03, 0x06, 0xAE, 0x41, 0x56, 0x52, 0x00,
          0x11, 0x03, 0x04, 0x01, 0x02, 0x03, 0x04, 0x4A, 0xFD],
        Exception_InvalidFrame) ∧
    ((MODBUS_MasterTask_WaitRx timed_out_handle world0).1.pxRxBuff =
      timed_out_handle.pxRxBuff ∧
    (MODBUS_MasterTask_WaitRx timed_out_handle world0).1.task =
      ExecuteTask.MasterTask_WaitAndSendCommand ∧
    ∀ s1 : sMODBUS Unit × World Unit,
      runOps next_route (MODBUS_MasterTask_WaitRx timed_out_handle world0) = some s1 →
      RingContent s1.1.pxRxBuff = RingContent timed_out_handle.pxRxBuff ++
        savedBytes next_route ∧
      (ReadSlaveFrame s1.1 zeroSlave).2.2 =
        { u16Length := (RingContent timed_out_handle.pxRxBuff ++ savedBytes next_route).length
          raw := (RingContent timed_out_handle.pxRxBuff ++ savedBytes next_route) ++
            zeroSlave.raw.drop
              (RingContent timed_out_handle.pxRxBuff ++ savedBytes next_route).length }) :=
  ⟨timed_out_facts.1, timed_out_facts.2.1, timed_out_facts.2.2.1, timed_out_facts.2.2.2.1,
    timed_out_facts.2.2.2.2.1, timed_out_facts.2.2.2.2.2.1, timed_out_facts.2.2.2.2.2.2.1,
    timed_out_facts.2.2.2.2.2.2.2.1, timed_out_facts.2.2.2.2.2.2.2.2,
    C37_timeout_keeps_fifo timed_out_handle world0 next_route zeroSlave timed_out_facts.1
      timed_out_facts.2.1 timed_out_facts.2.2.1 timed_out_facts.2.2.2.1
      timed_out_facts.2.2.2.2.1 timed_out_facts.2.2.2.2.2.1 timed_out_facts.2.2.2.2.2.2.1⟩

/-! ## Which strategy the slave writes to -/

theorem ext_refl (t : List Event) : ExtendsWithoutHoldingsWrite t t :=
  ⟨[], by simp, by intro c hc; simp [writeCalls] at hc⟩

theorem ext_trans {t t1 t2 : List Event} (h1 : ExtendsWithoutHoldingsWrite t t1)
    (h2 : ExtendsWithoutHoldingsWrite t1 t2) : ExtendsWithoutHoldingsWrite t t2 := by
  obtain ⟨e1, rfl, n1⟩ := h1
  obtain ⟨e2, rfl, n2⟩ := h2
  refine ⟨e1 ++ e2, by simp, ?_⟩
  intro c hc
  rw [writeCalls_append, List.mem_append] at hc
  rcases hc with hc | hc
  · exact n1 c hc
  · exact n2 c hc

theorem ext_call {σ : Type} (w : World σ) (e : Event) (app : σ) (he : NoHoldingsWrite [e]) :
    ExtendsWithoutHoldingsWrite w.trace (w.call e app).trace :=
  ⟨[e], rfl, he⟩

theorem ext_fire {σ : Type} (handle : sMODBUS σ) (w : World σ) :
    ExtendsWithoutHoldingsWrite w.trace (fireWriteCmplt handle w).trace := by
  unfold fireWriteCmplt
  split
  · exact ext_call _ _ _ (by decide)
  · exact ext_refl _

theorem ext_read {σ : Type} (w : World σ) (k : RegKind) (a : Nat) (app : σ) :
    ExtendsWithoutHoldingsWrite w.trace (w.call (Event.localRead k a) app).trace :=
  ext_call _ _ _ (by intro c hc; simp [writeCalls] at hc)

theorem ext_tx {σ : Type} (w : World σ) (data : List Nat) (app : σ) :
    ExtendsWithoutHoldingsWrite w.trace (w.call (Event.hwDataTx data) app).trace :=
  ext_call _ _ _ (by intro c hc; simp [writeCalls] at hc)

theorem ext_write {σ : Type} (w : World σ) (k : RegKind) (a d : Nat) (app : σ)
    (hk : k ≠ RegKind.holdings) :
    ExtendsWithoutHoldingsWrite w.trace (w.call (Event.localWrite k a d) app).trace :=
  ext_call _ _ _ (by
    intro c hc
    simp only [writeCalls, List.mem_singleton] at hc
    rw [hc]
    exact hk)

/-- The loop of `ReadValues` calls no write handler. -/
theorem ReadValues_loop_ext {σ : Type} (handle : sMODBUS σ) (sel : Option RegKind)
    (mFrame : sMaster_Frame) (excFrame : sSlave_Frame) :
    ∀ (n u16Add reps : Nat) (sFrame : sSlave_Frame) (w : World σ) (s1 : sSlave_Frame)
      (w1 : World σ),
      (ReadValues_loop handle sel mFrame excFrame n u16Add reps sFrame w =
          LoopExit.finished s1 w1 ∨
        ReadValues_loop handle sel mFrame excFrame n u16Add reps sFrame w =
          LoopExit.returned s1 w1) →
      ExtendsWithoutHoldingsWrite w.trace w1.trace := by
  intro n
  induction n with
  | zero =>
    intro u16Add reps sFrame w s1 w1 h
    rw [ReadValues_loop] at h
    rcases h with h | h
    · cases h; exact ext_refl _
    · cases h
  | succ n ih =>
    intro u16Add reps sFrame w s1 w1 h
    cases sel with
    | none =>
      rw [ReadValues_loop] at h
      rcases h with h | h <;> cases h
    | some k =>
      rw [ReadValues_loop] at h
      simp only [] at h
      by_cases herr : ((handle.reg k).reading u16Add w.app).1.error ≠ Exception_NoException
      · rw [if_pos herr] at h
        rcases h with h | h
        · cases h
        · cases h
          exact ext_read _ _ _ _
      · rw [if_neg herr] at h
        exact ext_trans (ext_read w k u16Add ((handle.reg k).reading u16Add w.app).2)
          (ih _ _ _ _ s1 w1 h)

theorem ReadValues_ext {σ : Type} (handle : sMODBUS σ) (mFrame : sMaster_Frame)
    (sFrame0 : sSlave_Frame) (w : World σ) (r : sSlave_Frame × World σ)
    (h : ReadValues handle mFrame sFrame0 w = some r) :
    ExtendsWithoutHoldingsWrite w.trace r.2.trace := by
  unfold ReadValues at h
  simp only [] at h
  split at h
  · cases h
  · rename_i s1 w1 hl
    cases h
    exact ReadValues_loop_ext _ _ _ _ _ _ _ _ _ s1 w1 (Or.inr hl)
  · rename_i s1 w1 hl
    cases h
    exact ReadValues_loop_ext _ _ _ _ _ _ _ _ _ s1 w1 (Or.inl hl)

theorem WriteSingle_write_ext {σ : Type} (handle : sMODBUS σ) (mFrame : sMaster_Frame)
    (sFrame0 : sSlave_Frame) (w : World σ) (k : RegKind) (a d : Nat)
    (hk : k ≠ RegKind.holdings) :
    ExtendsWithoutHoldingsWrite w.trace
      (WriteSingle_write handle mFrame sFrame0 w k a d).2.trace := by
  rw [WriteSingle_write_trace]
  exact ext_write w k a d ((handle.reg k).writing a d w.app).2 hk

theorem WriteSingle_ext {σ : Type} (handle : sMODBUS σ) (mFrame : sMaster_Frame)
    (sFrame0 : sSlave_Frame) (w : World σ) (r : sSlave_Frame × World σ)
    (h : WriteSingle handle mFrame sFrame0 w = some r) :
    ExtendsWithoutHoldingsWrite w.trace r.2.trace := by
  unfold WriteSingle at h
  simp only [] at h
  split at h
  · split at h
    · cases h; exact WriteSingle_write_ext _ _ _ _ _ _ _ (by decide)
    · split at h
      · cases h; exact WriteSingle_write_ext _ _ _ _ _ _ _ (by decide)
      · cases h; exact ext_refl _
  · cases h; exact WriteSingle_write_ext _ _ _ _ _ _ _ (by decide)
  · cases h

theorem WriteMultipleCoils_loop_ext {σ : Type} (handle : sMODBUS σ) (mFrame : sMaster_Frame) :
    ∀ (n u16Add reps readIndex : Nat) (w : World σ),
      ExtendsWithoutHoldingsWrite w.trace
        (WriteMultipleCoils_loop handle mFrame n u16Add reps readIndex w).trace := by
  intro n
  induction n with
  | zero => intro _ _ _ w; exact ext_refl _
  | succ n ih =>
    intro u16Add reps readIndex w
    rw [WriteMultipleCoils_loop]
    exact ext_trans (ext_write w RegKind.coils _ _ _ (by decide)) (ih _ _ _ _)

theorem WriteMultipleRegisters_loop_ext {σ : Type} (handle : sMODBUS σ)
    (mFrame : sMaster_Frame) (excFrame : sSlave_Frame) :
    ∀ (n u16Add readIndex : Nat) (w : World σ),
      ExtendsWithoutHoldingsWrite w.trace
        (WriteMultipleRegisters_loop handle mFrame excFrame n u16Add readIndex w).2.trace := by
  intro n
  induction n with
  | zero => intro _ _ w; exact ext_refl _
  | succ n ih =>
    intro u16Add readIndex w
    rw [WriteMultipleRegisters_loop]
    simp only []
    split
    · exact ext_write w RegKind.inputs _ _ _ (by decide)
    · exact ext_trans (ext_write w RegKind.inputs _ _ _ (by decide)) (ih _ _ _)

/-- The world after `WriteMultipleRegisters` is the world after its loop. -/
theorem WriteMultipleRegisters_world {σ : Type} (handle : sMODBUS σ) (mFrame : sMaster_Frame)
    (sFrame0 : sSlave_Frame) (w : World σ) :
    (WriteMultipleRegisters handle mFrame sFrame0 w).2 =
      (WriteMultipleRegisters_loop handle mFrame sFrame0
        ((((mFrame.u8AddressHigh <<< 8) + mFrame.u8AddressLow) % 65536 +
            ((mFrame.u8Length_High <<< 8) + mFrame.u8Length_Low) % 65536) % 65536 -
          ((mFrame.u8AddressHigh <<< 8) + mFrame.u8AddressLow) % 65536)
        (((mFrame.u8AddressHigh <<< 8) + mFrame.u8AddressLow) % 65536) 7 w).2 := by
  unfold WriteMultipleRegisters
  simp only []
  split <;> rename_i heq <;> rw [heq]

theorem dispatch_ext {σ : Type} (handle : sMODBUS σ) (mFrame : sMaster_Frame)
    (sFrame0 : sSlave_Frame) (w : World σ) (r : sSlave_Frame × World σ)
    (h : MODBUS_SlaveTask_dispatch handle mFrame sFrame0 w = some r) :
    ExtendsWithoutHoldingsWrite w.trace r.2.trace := by
  unfold MODBUS_SlaveTask_dispatch at h
  split at h
  · cases h
    exact ext_trans (WriteMultipleCoils_loop_ext _ _ _ _ _ _ _) (ext_fire _ _)
  · cases h
    refine ext_trans ?_ (ext_fire _ _)
    rw [WriteMultipleRegisters_world]
    exact WriteMultipleRegisters_loop_ext _ _ _ _ _ _ _
  · exact ReadValues_ext _ _ _ _ _ h
  · exact ReadValues_ext _ _ _ _ _ h
  · exact ReadValues_ext _ _ _ _ _ h
  · exact ReadValues_ext _ _ _ _ _ h
  · split at h
    · cases h
    · rename_i r1 hw
      cases h
      exact ext_trans (WriteSingle_ext _ _ _ _ _ hw) (ext_fire _ _)
  · split at h
    · cases h
    · rename_i r1 hw
      cases h
      exact ext_trans (WriteSingle_ext _ _ _ _ _ hw) (ext_fire _ _)
  · cases h
    exact ext_refl _

/-- One run of the slave task, whatever the FIFO holds: the calls it makes contain no call of
the write handler of the holdings strategy. -/
theorem SlaveTask_ext {σ : Type} (handle : sMODBUS σ) (w : World σ) (mFrame0 : sMaster_Frame)
    (sFrame0 : sSlave_Frame) (r : sMODBUS σ × World σ)
    (h : MODBUS_SlaveTask handle w mFrame0 sFrame0 = some r) :
    ExtendsWithoutHoldingsWrite w.trace r.2.trace := by
  unfold MODBUS_SlaveTask at h
  split at h
  · cases h; exact ext_refl _
  · simp only [] at h
    split at h
    · cases h
    · rename_i sFrame w1 hreply
      have hw1 : ExtendsWithoutHoldingsWrite w.trace w1.trace := by
        split at hreply
        · exact dispatch_ext _ _ _ _ _ hreply
        · cases hreply; exact ext_refl _
      split at h
      · cases h
        exact ext_trans hw1 (ext_tx _ _ _)
      · cases h
        exact hw1

theorem dispatch_registers {σ : Type} (handle : sMODBUS σ) (mFrame : sMaster_Frame)
    (sFrame0 : sSlave_Frame) (w : World σ) (h : mFrame.u8FuncCode = 16) :
    MODBUS_SlaveTask_dispatch handle mFrame sFrame0 w =
      some ((WriteMultipleRegisters handle mFrame sFrame0 w).1,
        fireWriteCmplt handle (WriteMultipleRegisters handle mFrame sFrame0 w).2) := by
  unfold MODBUS_SlaveTask_dispatch
  rw [h]

theorem multiWriteFrame_getD (cmd : sMODBUS_Commmand) (payload tlm : List Nat) (i : Nat)
    (hi : i < 9 + payload.length) :
    (multiWriteFrame cmd payload ++ tlm).getD i 0 = (multiWriteFrame cmd payload).getD i 0 :=
  getD_append_lt _ _ _ (by rw [multiWriteFrame_length]; exact hi)

/-! ## Write requests: the calls and the application state -/

theorem World_eq {σ : Type} (w1 w2 : World σ) (happ : w1.app = w2.app)
    (htrace : w1.trace = w2.trace) : w1 = w2 := by
  cases w1
  cases w2
  simp only [World.mk.injEq]
  exact ⟨happ, htrace⟩

theorem fireWriteCmplt_congr {σ : Type} (handle1 handle : sMODBUS σ) (w : World σ)
    (h : handle1.writeCmpltCallback = handle.writeCmpltCallback) :
    fireWriteCmplt handle1 w = fireWriteCmplt handle w := by
  unfold fireWriteCmplt
  rw [h]

/-- One run of the slave task on an accepted write request whose handler left the world `w1`
and returned the reply `sFrame`: the write-complete callback and the transmit callback of the
handle are called, in this order. -/
theorem SlaveTask_write_replied {σ : Type} (handle handle1 : sMODBUS σ) (w w1 : World σ)
    (mFrame0 mFrame : sMaster_Frame) (sFrame0 sFrame : sSlave_Frame)
    (hflag : handle.u8RxComplete = 1)
    (hread : ReadMasterFrame { handle with u8RxComplete := 0 } mFrame0 =
      (Exception_NoException, handle1, mFrame))
    (htx : handle1.hwDataTx = handle.hwDataTx)
    (hcb : handle1.writeCmpltCallback = handle.writeCmpltCallback)
    (hd : MODBUS_SlaveTask_dispatch handle1 mFrame sFrame0 w =
      some (sFrame, fireWriteCmplt handle1 w1)) :
    MODBUS_SlaveTask handle w mFrame0 sFrame0 =
      some (handle1, writeReplied handle w1 (sFrame.raw.take (sFrame.u16Length % 256))) := by
  rw [SlaveTask_accepted handle handle1 w _ mFrame0 mFrame sFrame0 sFrame hflag hread hd]
  unfold writeReplied
  rw [htx, fireWriteCmplt_congr handle1 handle w1 hcb]

theorem writeCalls_writeReplied {σ : Type} (handle : sMODBUS σ) (w : World σ)
    (data : List Nat) : writeCalls (writeReplied handle w data).trace = writeCalls w.trace := by
  unfold writeReplied
  rw [writeCalls_call_tx, writeCalls_fire]

theorem txFrames_writeReplied {σ : Type} (handle : sMODBUS σ) (w : World σ)
    (data : List Nat) :
    txFrames (writeReplied handle w data).trace = txFrames w.trace ++ [data] := by
  unfold writeReplied
  rw [txFrames_call_tx, txFrames_fire]

/-- The world after the tail of `WriteSingle`: one call of the write handler. -/
theorem WriteSingle_write_world {σ : Type} (handle : sMODBUS σ) (mFrame : sMaster_Frame)
    (sFrame0 : sSlave_Frame) (w : World σ) (k : RegKind) (a d : Nat) :
    (WriteSingle_write handle mFrame sFrame0 w k a d).2 =
      w.call (Event.localWrite k a d) ((handle.reg k).writing a d w.app).2 := by
  unfold WriteSingle_write
  simp only []
  split <;> rfl

/-- The exception reply that `setupExceptionFrame` builds for the request `cmd`. -/
theorem setupExceptionFrame_reply (cmd : sMODBUS_Commmand) (raw : List Nat) (n : Nat)
    (e : eMODBUS_Excpt) (sFrame0 : sSlave_Frame) (hs : 5 ≤ sFrame0.raw.length)
    (hfc : cmd.functionCode < 256) (h0 : raw.getD 0 0 = cmd.slaveID)
    (h1 : raw.getD 1 0 = cmd.functionCode) :
    (setupExceptionFrame ⟨n, raw⟩ e sFrame0).raw.take
        ((setupExceptionFrame ⟨n, raw⟩ e sFrame0).u16Length % 256) =
      exceptionReply cmd.slaveID cmd.functionCode e.toNat := by
  have e1 : (⟨n, raw⟩ : sMaster_Frame).u8DevID = cmd.slaveID := h0
  have e2 : (⟨n, raw⟩ : sMaster_Frame).u8FuncCode = cmd.functionCode := h1
  obtain ⟨g1, g2⟩ := setupExceptionFrame_eq ⟨n, raw⟩ e sFrame0 hs (by rw [e2]; exact hfc)
  rw [g1, show (5 : Nat) % 256 = 5 from rfl, g2, e1, e2, Nat.lor_comm]
  rfl

/-- The reply of the tail of `WriteSingle`: the echo of the request when the handler accepted
the write, else the exception reply with the code the handler returned. -/
theorem WriteSingle_write_reply {σ : Type} (handle : sMODBUS σ) (cmd : sMODBUS_Commmand)
    (tlm : List Nat) (sFrame0 : sSlave_Frame) (w : World σ) (k : RegKind) (a d : Nat)
    (hs : 5 ≤ sFrame0.raw.length) (hfc : cmd.functionCode < 256) :
    (WriteSingle_write handle ⟨8, commandFrame cmd ++ tlm⟩ sFrame0 w k a d).1.raw.take
        ((WriteSingle_write handle ⟨8, commandFrame cmd ++ tlm⟩ sFrame0 w k a d).1.u16Length
          % 256) =
      writeReply cmd ((handle.reg k).writing a d w.app).1 := by
  by_cases hok : ((handle.reg k).writing a d w.app).1 = Exception_NoException
  · obtain ⟨tl, htl⟩ := WriteSingle_write_ok handle cmd tlm sFrame0 w k a d hok
    rw [htl]
    unfold writeReply
    rw [if_pos hok]
    show (commandFrame cmd ++ tl).take 8 = _
    rw [List.take_append_of_le_length (by rw [commandFrame_length]),
      List.take_of_length_le (by rw [commandFrame_length])]
  · have hw : (WriteSingle_write handle ⟨8, commandFrame cmd ++ tlm⟩ sFrame0 w k a d).1 =
        setupExceptionFrame ⟨8, commandFrame cmd ++ tlm⟩ ((handle.reg k).writing a d w.app).1
          sFrame0 := by
      unfold WriteSingle_write
      simp only [ne_eq, hok, not_false_eq_true, if_true]
    rw [hw, setupExceptionFrame_reply cmd (commandFrame cmd ++ tlm) 8 _ sFrame0 hs hfc rfl rfl]
    unfold writeReply
    rw [if_neg hok]

/-- Claim C13. Write Single Coil value mapping (scenario S3): for a valid request with function
code 5, address `a` and value field `V`, one run of `MODBUS_SlaveTask` calls the coils
`local_write` with `(a, 1)` when `V = 0xFF00` and with `(a, 0)` when `V = 0x0000`, and no other
write handler: the application is left in the state this one call of the handler returned,
after which the write-complete callback and the transmit callback are called, the latter with
the echo of the request or with the exception reply of the code the handler returned. For every
other `V` the run calls no write handler and transmits the exception reply
`[id, 0x85, 0x03, crc hi, crc lo]`. -/
theorem C13_write_single_coil_mapping {σ : Type} (handle : sMODBUS σ) (w : World σ)
    (mFrame0 : sMaster_Frame) (sFrame0 : sSlave_Frame) (a V : Nat)
    (hok : RingOK handle.pxRxBuff)
    (hB : RingContent handle.pxRxBuff = commandFrame
      { functionCode := 5, slaveID := handle.u8myAddress, regAddress := a, length := V })
    (hm : mFrame0.raw.length = MODBUS_FRAME_MAX_SIZE)
    (hs : sFrame0.raw.length = MODBUS_FRAME_MAX_SIZE)
    (hflag : handle.u8RxComplete = 1) (ha : a < 65536) (hV : V < 65536) :
    ∃ (handle1 : sMODBUS σ) (w1 : World σ),
      MODBUS_SlaveTask handle w mFrame0 sFrame0 = some (handle1, w1) ∧
      (V = 0xFF00 →
        writeCalls w1.trace = writeCalls w.trace ++ [(RegKind.coils, a, 1)] ∧
        w1 = writeReplied handle
          (w.call (Event.localWrite RegKind.coils a 1) (handle.coils.writing a 1 w.app).2)
          (writeReply
            { functionCode := 5, slaveID := handle.u8myAddress, regAddress := a, length := V }
            (handle.coils.writing a 1 w.app).1)) ∧
      (V = 0x0000 →
        writeCalls w1.trace = writeCalls w.trace ++ [(RegKind.coils, a, 0)] ∧
        w1 = writeReplied handle
          (w.call (Event.localWrite RegKind.coils a 0) (handle.coils.writing a 0 w.app).2)
          (writeReply
            { functionCode := 5, slaveID := handle.u8myAddress, regAddress := a, length := V }
            (handle.coils.writing a 0 w.app).1)) ∧
      (V ≠ 0xFF00 → V ≠ 0x0000 →
        writeCalls w1.trace = writeCalls w.trace ∧
        txFrames w1.trace = txFrames w.trace ++
          [[handle.u8myAddress, 0x85, 0x03,
            calcCRC [handle.u8myAddress, 0x85, 0x03] 3 >>> 8,
            calcCRC [handle.u8myAddress, 0x85, 0x03] 3 &&& 0xFF]] ∧
        w1 = writeReplied handle w
          [handle.u8myAddress, 0x85, 0x03,
            calcCRC [handle.u8myAddress, 0x85, 0x03] 3 >>> 8,
            calcCRC [handle.u8myAddress, 0x85, 0x03] 3 &&& 0xFF]) := by
  obtain ⟨h1, _, _, g1, _, _, _, htx, hcb, hread⟩ :=
    ReadMasterFrame_command { handle with u8RxComplete := 0 } mFrame0
      ⟨5, handle.u8myAddress, a, V⟩ hok hB hm rfl (by simp)
  have g1 : h1.coils = handle.coils := g1
  have htx : h1.hwDataTx = handle.hwDataTx := htx
  have hcb : h1.writeCmpltCallback = handle.writeCmpltCallback := hcb
  have hreg : h1.reg RegKind.coils = handle.coils := g1
  have hs5 : 5 ≤ sFrame0.raw.length := by
    have h3 : sFrame0.raw.length = 260 := hs
    omega
  have hws := WriteSingle_five h1 ⟨5, handle.u8myAddress, a, V⟩ (mFrame0.raw.drop 8) sFrame0 w
    rfl ha hV
  have hdisp := dispatch_single h1
    ⟨8, commandFrame ⟨5, handle.u8myAddress, a, V⟩ ++ mFrame0.raw.drop 8⟩ sFrame0 w
    (Or.inl rfl)
  simp only [] at hws
  have hone : ∀ d : Nat,
      MODBUS_SlaveTask_dispatch h1
          ⟨8, commandFrame ⟨5, handle.u8myAddress, a, V⟩ ++ mFrame0.raw.drop 8⟩ sFrame0 w =
        some ((WriteSingle_write h1
            ⟨8, commandFrame ⟨5, handle.u8myAddress, a, V⟩ ++ mFrame0.raw.drop 8⟩ sFrame0 w
            RegKind.coils a d).1,
          fireWriteCmplt h1 (WriteSingle_write h1
            ⟨8, commandFrame ⟨5, handle.u8myAddress, a, V⟩ ++ mFrame0.raw.drop 8⟩ sFrame0 w
            RegKind.coils a d).2) →
      MODBUS_SlaveTask handle w mFrame0 sFrame0 =
        some (h1, writeReplied handle
          (w.call (Event.localWrite RegKind.coils a d) (handle.coils.writing a d w.app).2)
          (writeReply ⟨5, handle.u8myAddress, a, V⟩ (handle.coils.writing a d w.app).1)) := by
    intro d hd
    rw [SlaveTask_write_replied handle h1 w _ mFrame0 _ sFrame0 _ hflag hread htx hcb hd,
      WriteSingle_write_reply h1 ⟨5, handle.u8myAddress, a, V⟩ _ sFrame0 w RegKind.coils a d
        hs5 (by show (5 : Nat) < 256; omega),
      WriteSingle_write_world, hreg]
  by_cases h1V : V = 0xFF00
  · rw [hws, if_pos h1V] at hdisp
    have hV0 : V ≠ 0 := by omega
    refine ⟨h1, _, hone 1 hdisp, fun _ => ⟨?_, rfl⟩, fun h => absurd h hV0,
      fun h => absurd h1V h⟩
    rw [writeCalls_writeReplied]
    show writeCalls (w.trace ++ [_]) = _
    rw [writeCalls_append]
    rfl
  · by_cases h2V : V = 0
    · rw [hws, if_neg h1V, if_pos h2V] at hdisp
      refine ⟨h1, _, hone 0 hdisp, fun h => absurd h h1V, fun _ => ⟨?_, rfl⟩,
        fun _ h => absurd h2V h⟩
      rw [writeCalls_writeReplied]
      show writeCalls (w.trace ++ [_]) = _
      rw [writeCalls_append]
      rfl
    · rw [hws, if_neg h1V, if_neg h2V] at hdisp
      have hexc := setupExceptionFrame_reply ⟨5, handle.u8myAddress, a, V⟩
        (commandFrame ⟨5, handle.u8myAddress, a, V⟩ ++ mFrame0.raw.drop 8) 8
        Exception_InvalidDataValue sFrame0 hs5 (by show (5 : Nat) < 256; omega) rfl rfl
      have hrun := SlaveTask_write_replied handle h1 w w mFrame0 _ sFrame0 _ hflag hread htx
        hcb hdisp
      rw [hexc] at hrun
      have hbytes : exceptionReply handle.u8myAddress 5 Exception_InvalidDataValue.toNat =
          [handle.u8myAddress, 0x85, 0x03,
            calcCRC [handle.u8myAddress, 0x85, 0x03] 3 >>> 8,
            calcCRC [handle.u8myAddress, 0x85, 0x03] 3 &&& 0xFF] := rfl
      rw [hbytes] at hrun
      refine ⟨h1, _, hrun, fun h => absurd h h1V, fun h => absurd h h2V,
        fun _ _ => ⟨?_, ?_, rfl⟩⟩
      · rw [writeCalls_writeReplied]
      · rw [txFrames_writeReplied]

/-- Instance of claim C13. Scenario S3: the request `11 05 00 AC 12 34 02 0C` at address
`0x11` is answered with `11 85 03 03 54`. Scenario S2 with a handler that keeps the writes it
gets: the request `11 05 00 AC FF 00 4E 8B` leaves the application with the one write
`(0xAC, 1)`. -/
theorem C13_write_single_coil_mapping_witness :
    RingOK S3_handle.pxRxBuff ∧
    RingContent S3_handle.pxRxBuff = commandFrame
      { functionCode := 5, slaveID := S3_handle.u8myAddress, regAddress := 0xAC,
        length := 0x1234 } ∧
    zeroMaster.raw.length = MODBUS_FRAME_MAX_SIZE ∧ zeroSlave.raw.length = MODBUS_FRAME_MAX_SIZE ∧
    S3_handle.u8RxComplete = 1 ∧ 0xAC < 65536 ∧ 0x1234 < 65536 ∧
    [S3_handle.u8myAddress, 0x85, 0x03, calcCRC [S3_handle.u8myAddress, 0x85, 0x03] 3 >>> 8,
      calcCRC [S3_handle.u8myAddress, 0x85, 0x03] 3 &&& 0xFF] = [0x11, 0x85, 0x03, 0x03, 0x54] ∧
    (∃ (handle1 : sMODBUS Unit) (w1 : World Unit),
      MODBUS_SlaveTask S3_handle world0 zeroMaster zeroSlave = some (handle1, w1) ∧
      (0x1234 = 0xFF00 →
        writeCalls w1.trace = writeCalls world0.trace ++ [(RegKind.coils, 0xAC, 1)] ∧
        w1 = writeReplied S3_handle
          (world0.call (Event.localWrite RegKind.coils 0xAC 1)
            (S3_handle.coils.writing 0xAC 1 world0.app).2)
          (writeReply
            { functionCode := 5, slaveID := S3_handle.u8myAddress, regAddress := 0xAC,
              length := 0x1234 }
            (S3_handle.coils.writing 0xAC 1 world0.app).1)) ∧
      (0x1234 = 0x0000 →
        writeCalls w1.trace = writeCalls world0.trace ++ [(RegKind.coils, 0xAC, 0)] ∧
        w1 = writeReplied S3_handle
          (world0.call (Event.localWrite RegKind.coils 0xAC 0)
            (S3_handle.coils.writing 0xAC 0 world0.app).2)
          (writeReply
            { functionCode := 5, slaveID := S3_handle.u8myAddress, regAddress := 0xAC,
              length := 0x1234 }
            (S3_handle.coils.writing 0xAC 0 world0.app).1)) ∧
      (0x1234 ≠ 0xFF00 → 0x1234 ≠ 0x0000 →
        writeCalls w1.trace = writeCalls world0.trace ∧
        txFrames w1.trace = txFrames world0.trace ++
          [[S3_handle.u8myAddress, 0x85, 0x03,
            calcCRC [S3_handle.u8myAddress, 0x85, 0x03] 3 >>> 8,
            calcCRC [S3_handle.u8myAddress, 0x85, 0x03] 3 &&& 0xFF]] ∧
        w1 = writeReplied S3_handle world0
          [S3_handle.u8myAddress, 0x85, 0x03,
            calcCRC [S3_handle.u8myAddress, 0x85, 0x03] 3 >>> 8,
            calcCRC [S3_handle.u8myAddress, 0x85, 0x03] 3 &&& 0xFF])) ∧
    RingOK record5_handle.pxRxBuff ∧
    RingContent record5_handle.pxRxBuff = commandFrame
      { functionCode := 5, slaveID := record5_handle.u8myAddress, regAddress := 0xAC,
        length := 0xFF00 } ∧
    record5_handle.u8RxComplete = 1 ∧
    (MODBUS_SlaveTask record5_handle recordWorld zeroMaster zeroSlave).map
        (fun r => (r.2.app, r.2.trace)) =
      some ([(0xAC, 1)],
        [Event.localWrite RegKind.coils 0xAC 1,
          Event.hwDataTx [0x11, 0x05, 0x00, 0xAC, 0xFF, 0x00, 0x4E, 0x8B]]) :=
  ⟨by decide, by decide, by decide, by decide, by decide, by decide, by decide, by decide,
    C13_write_single_coil_mapping S3_handle world0 zeroMaster zeroSlave 0xAC 0x1234 (by decide)
      (by decide) (by decide) (by decide) (by decide) (by decide) (by decide),
    by decide, by decide, by decide,
    match C13_write_single_coil_mapping record5_handle recordWorld zeroMaster zeroSlave 0xAC
      0xFF00 (by decide) (by decide) (by decide) (by decide) (by decide) (by decide)
      (by decide) with
    | ⟨_, _, hrun, h1, _, _⟩ => by rw [hrun, (h1 rfl).2]; simp only [Option.map_some']; decide⟩

theorem range_succ_map2 {α : Type} (F : Nat → Nat → α) (n a r : Nat) :
    (List.range (n + 1)).map (fun i => F (a + i) (r + i)) =
      F a r :: (List.range n).map (fun i => F (a + 1 + i) (r + 1 + i)) := by
  rw [List.range_succ_eq_map, List.map_cons, List.map_map]
  simp only [Nat.add_zero, List.cons.injEq, true_and]
  apply List.map_congr_left
  intro i _
  simp only [Function.comp_apply, Nat.succ_eq_add_one]
  rw [show a + 1 + i = a + (i + 1) by omega, show r + 1 + i = r + (i + 1) by omega]

/-- The loop of `WriteMultipleCoils`: the application is left in the state the calls of the
coils write handler returned, one after the other and whatever code each returned. -/
theorem WriteMultipleCoils_loop_world {σ : Type} (handle : sMODBUS σ)
    (mFrame : sMaster_Frame) :
    ∀ (n u16Add reps readIndex : Nat) (w : World σ), reps + n ≤ 65535 →
      readIndex = 6 + (reps + 7) / 8 →
      WriteMultipleCoils_loop handle mFrame n u16Add reps readIndex w =
        { app := writeRun handle.coils.writing
            ((List.range n).map (fun i => (u16Add + i,
              (mFrame.raw.getD (7 + (reps + i) / 8) 0 >>> ((reps + i) % 8)) &&& 0x01))) w.app
          trace := w.trace ++ (List.range n).map (fun i =>
            Event.localWrite RegKind.coils (u16Add + i)
              ((mFrame.raw.getD (7 + (reps + i) / 8) 0 >>> ((reps + i) % 8)) &&& 0x01)) } := by
  intro n
  induction n with
  | zero => intro u16Add reps readIndex w _ _; simp [WriteMultipleCoils_loop, writeRun]
  | succ n ih =>
    intro u16Add reps readIndex w hb hri
    have hidx : (if reps % 8 = 0 then (readIndex + 1) % 65536 else readIndex) = 7 + reps / 8 := by
      split <;> omega
    rw [WriteMultipleCoils_loop]
    simp only [hidx]
    rw [ih (u16Add + 1) ((reps + 1) % 65536) (7 + reps / 8) _ (by omega) (by omega)]
    have e1 : (reps + 1) % 65536 = reps + 1 := Nat.mod_eq_of_lt (by omega)
    rw [e1]
    apply World_eq
    · show writeRun _ _ (handle.coils.writing u16Add _ w.app).2 = _
      rw [range_succ_map2
        (fun x r => (x, (mFrame.raw.getD (7 + r / 8) 0 >>> (r % 8)) &&& 0x01)) n u16Add reps,
        writeRun]
    · show (w.trace ++ [_]) ++ _ = _
      rw [range_succ_map2 (fun x r => Event.localWrite RegKind.coils x
        ((mFrame.raw.getD (7 + r / 8) 0 >>> (r % 8)) &&& 0x01)) n u16Add reps,
        List.append_assoc]
      rfl

/-- Claim C15. Write Multiple Coils: for a valid request with function code 15, start address
`a` and count `N`, `a + N ≤ 0xFFFF`, whose payload holds the `N` bits, one run of
`MODBUS_SlaveTask` calls the coils `local_write` exactly `N` times, the `i`-th call with address
`a + i` and the bit `i mod 8` of request byte `7 + i div 8`, whatever the handler returns: the
application is left in the state these `N` calls of the handler returned, one after the other.
Then the write-complete callback is called, and the transmit callback with the first 6 bytes of
the request followed by their CRC, 8 bytes in total. -/
theorem C15_write_multiple_coils {σ : Type} (handle : sMODBUS σ) (w : World σ)
    (mFrame0 : sMaster_Frame) (sFrame0 : sSlave_Frame) (a N : Nat) (payload : List Nat)
    (hok : RingOK handle.pxRxBuff)
    (hB : RingContent handle.pxRxBuff = multiWriteFrame
      { functionCode := 15, slaveID := handle.u8myAddress, regAddress := a, length := N }
      payload)
    (hm : mFrame0.raw.length = MODBUS_FRAME_MAX_SIZE)
    (hflag : handle.u8RxComplete = 1) (haN : a + N ≤ 0xFFFF) (hNp : N ≤ 8 * payload.length) :
    ∃ (handle1 : sMODBUS σ) (w1 : World σ),
      MODBUS_SlaveTask handle w mFrame0 sFrame0 = some (handle1, w1) ∧
      writeCalls w1.trace = writeCalls w.trace ++
        (List.range N).map (fun i => (RegKind.coils, a + i,
          ((RingContent handle.pxRxBuff).getD (7 + i / 8) 0 >>> (i % 8)) &&& 0x01)) ∧
      txFrames w1.trace = txFrames w.trace ++
        [(RingContent handle.pxRxBuff).take 6 ++
          [calcCRC ((RingContent handle.pxRxBuff).take 6) 6 >>> 8,
            calcCRC ((RingContent handle.pxRxBuff).take 6) 6 &&& 0xFF]] ∧
      ((RingContent handle.pxRxBuff).take 6 ++
        [calcCRC ((RingContent handle.pxRxBuff).take 6) 6 >>> 8,
          calcCRC ((RingContent handle.pxRxBuff).take 6) 6 &&& 0xFF]).length = 8 ∧
      w1 = writeReplied handle
        { app := writeRun handle.coils.writing
            ((List.range N).map (fun i => (a + i,
              ((RingContent handle.pxRxBuff).getD (7 + i / 8) 0 >>> (i % 8)) &&& 0x01)))
            w.app
          trace := w.trace ++ (List.range N).map (fun i =>
            Event.localWrite RegKind.coils (a + i)
              (((RingContent handle.pxRxBuff).getD (7 + i / 8) 0 >>> (i % 8)) &&& 0x01)) }
        ((RingContent handle.pxRxBuff).take 6 ++
          [calcCRC ((RingContent handle.pxRxBuff).take 6) 6 >>> 8,
            calcCRC ((RingContent handle.pxRxBuff).take 6) 6 &&& 0xFF]) := by
  obtain ⟨h1, _, _, g1, _, _, _, htx, hcb, hread⟩ :=
    ReadMasterFrame_multi { handle with u8RxComplete := 0 } mFrame0
      ⟨15, handle.u8myAddress, a, N⟩ payload hok hB hm rfl (Or.inl rfl)
  have g1 : h1.coils = handle.coils := g1
  have htx : h1.hwDataTx = handle.hwDataTx := htx
  have hcb : h1.writeCmpltCallback = handle.writeCmpltCallback := hcb
  obtain ⟨f3, f4, f5, f6, f1, _⟩ := multi_fields ⟨15, handle.u8myAddress, a, N⟩ payload
    (mFrame0.raw.drop (9 + payload.length)) (9 + payload.length)
  have hdisp := dispatch_coils h1
    ⟨9 + payload.length, multiWriteFrame ⟨15, handle.u8myAddress, a, N⟩ payload ++
      mFrame0.raw.drop (9 + payload.length)⟩ sFrame0 w f1
  have hlen : ((N >>> 8) <<< 8 + (N &&& 0xFF)) % 65536 = N := by
    rw [hi_lo_add]; omega
  have haddr : ((a >>> 8) <<< 8 + (a &&& 0xFF)) % 65536 = a := by
    rw [hi_lo_add]; omega
  have hcount : (a + N) % 65536 - a = N := by omega
  obtain ⟨tl, hecho⟩ := multi_echo ⟨15, handle.u8myAddress, a, N⟩ payload
    (mFrame0.raw.drop (9 + payload.length)) sFrame0
  have htake : (RingContent handle.pxRxBuff).take 6 =
      commandHeader ⟨15, handle.u8myAddress, a, N⟩ := by
    rw [hB]
    unfold multiWriteFrame
    rw [List.append_assoc, List.take_append_of_le_length (by simp [commandHeader]),
      List.take_of_length_le (by simp [commandHeader])]
  have hreply : (RingContent handle.pxRxBuff).take 6 ++
      [calcCRC ((RingContent handle.pxRxBuff).take 6) 6 >>> 8,
        calcCRC ((RingContent handle.pxRxBuff).take 6) 6 &&& 0xFF] =
      commandFrame ⟨15, handle.u8myAddress, a, N⟩ := by
    rw [htake]; rfl
  have hw1 : (WriteMultipleCoils h1
      ⟨9 + payload.length, multiWriteFrame ⟨15, handle.u8myAddress, a, N⟩ payload ++
        mFrame0.raw.drop (9 + payload.length)⟩ sFrame0 w).1 =
      { u16Length := 8, raw := commandFrame ⟨15, handle.u8myAddress, a, N⟩ ++ tl } := by
    unfold WriteMultipleCoils
    exact hecho
  have hbit : ∀ i ∈ List.range N,
      ((multiWriteFrame ⟨15, handle.u8myAddress, a, N⟩ payload ++
          mFrame0.raw.drop (9 + payload.length)).getD (7 + (0 + i) / 8) 0 >>> ((0 + i) % 8))
        &&& 0x01 =
      ((RingContent handle.pxRxBuff).getD (7 + i / 8) 0 >>> (i % 8)) &&& 0x01 := by
    intro i hi
    have hiN : i < N := List.mem_range.mp hi
    simp only [Nat.zero_add]
    rw [hB, getD_append_lt _ _ _ (by rw [multiWriteFrame_length]; omega)]
  have hw2 : (WriteMultipleCoils h1
      ⟨9 + payload.length, multiWriteFrame ⟨15, handle.u8myAddress, a, N⟩ payload ++
        mFrame0.raw.drop (9 + payload.length)⟩ sFrame0 w).2 =
      { app := writeRun handle.coils.writing
          ((List.range N).map (fun i => (a + i,
            ((RingContent handle.pxRxBuff).getD (7 + i / 8) 0 >>> (i % 8)) &&& 0x01)))
          w.app
        trace := w.trace ++ (List.range N).map (fun i =>
          Event.localWrite RegKind.coils (a + i)
            (((RingContent handle.pxRxBuff).getD (7 + i / 8) 0 >>> (i % 8)) &&& 0x01)) } := by
    unfold WriteMultipleCoils
    simp only [f3, f4, f5, f6, hlen, haddr, hcount]
    rw [WriteMultipleCoils_loop_world h1 _ N a 0 6 w (by omega) (by omega), g1]
    apply World_eq
    · show writeRun _ _ _ = writeRun _ _ _
      congr 1
      apply List.map_congr_left
      intro i hi
      rw [hbit i hi]
    · show _ ++ _ = _ ++ _
      congr 1
      apply List.map_congr_left
      intro i hi
      rw [hbit i hi]
  have hlen8 : (commandFrame ⟨15, handle.u8myAddress, a, N⟩).length = 8 :=
    commandFrame_length _
  have hrun := SlaveTask_write_replied handle h1 w _ mFrame0 _ sFrame0 _ hflag hread htx hcb
    hdisp
  rw [hw1, hw2] at hrun
  have hdata : (commandFrame ⟨15, handle.u8myAddress, a, N⟩ ++ tl).take (8 % 256) =
      (RingContent handle.pxRxBuff).take 6 ++
        [calcCRC ((RingContent handle.pxRxBuff).take 6) 6 >>> 8,
          calcCRC ((RingContent handle.pxRxBuff).take 6) 6 &&& 0xFF] := by
    rw [hreply]
    show List.take 8 _ = _
    rw [List.take_append_of_le_length (by rw [hlen8]), List.take_of_length_le (by rw [hlen8])]
  rw [hdata] at hrun
  refine ⟨h1, _, hrun, ?_, ?_, ?_, rfl⟩
  · rw [writeCalls_writeReplied, writeCalls_append, writeCalls_map_localWrite]
  · rw [txFrames_writeReplied, txFrames_append, txFrames_map_localWrite, List.append_nil]
  · rw [hreply]; exact hlen8

/-- Instance of claim C15: the request `11 0F 00 13 00 0A 02 CD 01 BF 0B`, ten coils from
address `0x13`, sent to a slave whose handler keeps the writes it gets, leaves the application
with the ten writes of the bits of `CD 01`, lowest bit first, and is answered with
`11 0F 00 13 00 0A 26 99`. -/
theorem C15_write_multiple_coils_witness :
    RingOK record15_handle.pxRxBuff ∧
    RingContent record15_handle.pxRxBuff = multiWriteFrame
      { functionCode := 15, slaveID := record15_handle.u8myAddress, regAddress := 0x13,
        length := 10 } [0xCD, 0x01] ∧
    zeroMaster.raw.length = MODBUS_FRAME_MAX_SIZE ∧ record15_handle.u8RxComplete = 1 ∧
    0x13 + 10 ≤ 0xFFFF ∧ 10 ≤ 8 * [0xCD, 0x01].length ∧
    (RingContent record15_handle.pxRxBuff).take 6 ++
        [calcCRC ((RingContent record15_handle.pxRxBuff).take 6) 6 >>> 8,
          calcCRC ((RingContent record15_handle.pxRxBuff).take 6) 6 &&& 0xFF]
      = [0x11, 0x0F, 0x00, 0x13, 0x00, 0x0A, 0x26, 0x99] ∧
    (MODBUS_SlaveTask record15_handle recordWorld zeroMaster zeroSlave).map
        (fun r => r.2.app) =
      some [(0x13, 1), (0x14, 0), (0x15, 1), (0x16, 1), (0x17, 0), (0x18, 0), (0x19, 1),
        (0x1A, 1), (0x1B, 1), (0x1C, 0)] ∧
    ∃ (handle1 : sMODBUS (List (Nat × Nat))) (w1 : World (List (Nat × Nat))),
      MODBUS_SlaveTask record15_handle recordWorld zeroMaster zeroSlave = some (handle1, w1) ∧
      writeCalls w1.trace = writeCalls recordWorld.trace ++
        (List.range 10).map (fun i => (RegKind.coils, 0x13 + i,
          ((RingContent record15_handle.pxRxBuff).getD (7 + i / 8) 0 >>> (i % 8)) &&& 0x01)) ∧
      txFrames w1.trace = txFrames recordWorld.trace ++
        [(RingContent record15_handle.pxRxBuff).take 6 ++
          [calcCRC ((RingContent record15_handle.pxRxBuff).take 6) 6 >>> 8,
            calcCRC ((RingContent record15_handle.pxRxBuff).take 6) 6 &&& 0xFF]] ∧
      ((RingContent record15_handle.pxRxBuff).take 6 ++
        [calcCRC ((RingContent record15_handle.pxRxBuff).take 6) 6 >>> 8,
          calcCRC ((RingContent record15_handle.pxRxBuff).take 6) 6 &&& 0xFF]).length = 8 ∧
      w1 = writeReplied record15_handle
        { app := writeRun record15_handle.coils.writing
            ((List.range 10).map (fun i => (0x13 + i,
              ((RingContent record15_handle.pxRxBuff).getD (7 + i / 8) 0 >>> (i % 8))
                &&& 0x01)))
            recordWorld.app
          trace := recordWorld.trace ++ (List.range 10).map (fun i =>
            Event.localWrite RegKind.coils (0x13 + i)
              (((RingContent record15_handle.pxRxBuff).getD (7 + i / 8) 0 >>> (i % 8))
                &&& 0x01)) }
        ((RingContent record15_handle.pxRxBuff).take 6 ++
          [calcCRC ((RingContent record15_handle.pxRxBuff).take 6) 6 >>> 8,
            calcCRC ((RingContent record15_handle.pxRxBuff).take 6) 6 &&& 0xFF]) :=
  ⟨by decide, by decide, by decide, by decide, by decide, by decide, by decide, by decide,
    C15_write_multiple_coils record15_handle recordWorld zeroMaster zeroSlave 0x13 10
      [0xCD, 0x01] (by decide) (by decide) (by decide) (by decide) (by decide) (by decide)⟩

/-! ## Master task: the calls of the Elaborate step and the application state -/

/-- The loop of the Elaborate step with an assigned `remote` callback runs to its end; the
application is left in the state the calls of the callback returned, one after the other. -/
theorem ElaborateRx_loop_world {σ : Type} (handle : sMODBUS σ) (k : RegKind)
    (sFrame : sSlave_Frame) (remote : Nat → Nat → Nat → σ → σ)
    (hr : (handle.reg k).remote = some remote) :
    ∀ (n addr : Nat) (w : World σ),
      MODBUS_MasterTask_ElaborateRx_loop handle (some k) sFrame n addr w =
        some
          { app := remoteRun remote
              ((List.range n).map (fun i => (handle.lastCmd.slaveID % 256,
                (handle.lastCmd.regAddress + (addr + i)) % 65536,
                (handle.reg k).readPayload sFrame (addr + i) % 65536))) w.app
            trace := w.trace ++ (List.range n).map (fun i =>
              Event.remoteData k (handle.lastCmd.slaveID % 256)
                ((handle.lastCmd.regAddress + (addr + i)) % 65536)
                ((handle.reg k).readPayload sFrame (addr + i) % 65536)) } := by
  intro n
  induction n with
  | zero => intro addr w; simp [ MODBUS_MasterTask_ElaborateRx_loop, remoteRun]
  | succ n ih =>
    intro addr w
    rw [ MODBUS_MasterTask_ElaborateRx_loop]
    simp only [hr]
    rw [ih (addr + 1)]
    congr 1
    apply World_eq
    · show remoteRun remote _ (remote _ _ _ w.app) = _
      rw [range_succ_map_add (fun j => (handle.lastCmd.slaveID % 256,
        (handle.lastCmd.regAddress + j) % 65536,
        (handle.reg k).readPayload sFrame j % 65536)) n addr, remoteRun]
    · show (w.trace ++ [_]) ++ _ = _
      rw [range_succ_map_add (fun j => Event.remoteData k (handle.lastCmd.slaveID % 256)
        ((handle.lastCmd.regAddress + j) % 65536)
        ((handle.reg k).readPayload sFrame j % 65536)) n addr, List.append_assoc]
      rfl

/-- Claim C25. Master Elaborate step, for a handle whose last command has fields that fit their
C types. When `ReadSlaveFrame` accepts a response with function code 1 to 4, the step calls the
assigned `remote` callback of the strategy selected by that function code exactly
`lastCmd.length` times, the call number `i` with `lastCmd.slaveID`,
`(lastCmd.regAddress + i) mod 65536` and the 16-bit value of `readPayload(frame, i)`, then fires
the assigned remote-complete event once: the application is left in the state that these calls
of the callback, one after the other, and then the event callback returned. When decoding fails
with the error `e` it calls no `remote` and fires the assigned remote-error event once with
`e`. In both cases the step returns and the state afterwards is Idle. -/
theorem C25_elaborate_step {σ : Type} (handle : sMODBUS σ) (w : World σ)
    (sFrame0 : sSlave_Frame) (hcmd : CommandOK handle.lastCmd) :
    (MODBUS_MasterTask_ElaborateRx_select 1 = some RegKind.coils ∧
      MODBUS_MasterTask_ElaborateRx_select 2 = some RegKind.discretes ∧
      MODBUS_MasterTask_ElaborateRx_select 3 = some RegKind.holdings ∧
      MODBUS_MasterTask_ElaborateRx_select 4 = some RegKind.inputs) ∧
    (∀ (k : RegKind) (remote : Nat → Nat → Nat → σ → σ) (remoteRxOK : σ → σ),
      (ReadSlaveFrame handle sFrame0).1 = Exception_NoException →
      MODBUS_MasterTask_ElaborateRx_select (ReadSlaveFrame handle sFrame0).2.2.u8FuncCode =
        some k →
      (handle.reg k).remote = some remote →
      handle.remoteRxOKCallback = some remoteRxOK →
      MODBUS_MasterTask_ElaborateRx handle w sFrame0 =
        some ({ (ReadSlaveFrame handle sFrame0).2.1 with
            task := ExecuteTask.MasterTask_WaitAndSendCommand },
          World.call
            { app := remoteRun remote
                ((List.range handle.lastCmd.length).map (fun i =>
                  (handle.lastCmd.slaveID, (handle.lastCmd.regAddress + i) % 65536,
                    (handle.reg k).readPayload (ReadSlaveFrame handle sFrame0).2.2 i % 65536)))
                w.app
              trace := w.trace ++ (List.range handle.lastCmd.length).map (fun i =>
                Event.remoteData k handle.lastCmd.slaveID
                  ((handle.lastCmd.regAddress + i) % 65536)
                  ((handle.reg k).readPayload (ReadSlaveFrame handle sFrame0).2.2 i % 65536)) }
            Event.remoteRxOK
            (remoteRxOK (remoteRun remote
              ((List.range handle.lastCmd.length).map (fun i =>
                (handle.lastCmd.slaveID, (handle.lastCmd.regAddress + i) % 65536,
                  (handle.reg k).readPayload (ReadSlaveFrame handle sFrame0).2.2 i % 65536)))
              w.app)))) ∧
    (∀ (e : eMODBUS_Excpt) (remoteRxError : eMODBUS_Excpt → σ → σ),
      (ReadSlaveFrame handle sFrame0).1 = e → e ≠ Exception_NoException →
      handle.remoteRxErrorCallback = some remoteRxError →
      MODBUS_MasterTask_ElaborateRx handle w sFrame0 =
        some ({ (ReadSlaveFrame handle sFrame0).2.1 with
            task := ExecuteTask.MasterTask_WaitAndSendCommand },
          w.call (Event.remoteRxError e) (remoteRxError e w.app))) := by
  obtain ⟨hid, _, _, hlen⟩ := hcmd
  have hh := ReadSlaveFrame_handle handle sFrame0
  refine ⟨⟨rfl, rfl, rfl, rfl⟩, ?_, ?_⟩
  · intro k remote remoteRxOK hacc hsel hrem hok
    have hrem1 : ((ReadSlaveFrame handle sFrame0).2.1.reg k).remote = some remote := by
      rw [hh]; cases k <;> exact hrem
    have hread : ((ReadSlaveFrame handle sFrame0).2.1.reg k).readPayload =
        (handle.reg k).readPayload := by
      rw [hh]; cases k <;> rfl
    have hlast : (ReadSlaveFrame handle sFrame0).2.1.lastCmd = handle.lastCmd := by
      rw [hh]
    have hok1 : (ReadSlaveFrame handle sFrame0).2.1.remoteRxOKCallback = some remoteRxOK := by
      rw [hh]; exact hok
    have h1 := ElaborateRx_loop_world (ReadSlaveFrame handle sFrame0).2.1 k
      (ReadSlaveFrame handle sFrame0).2.2 remote hrem1 (handle.lastCmd.length % 65536) 0 w
    rw [hlast, hread, Nat.mod_eq_of_lt hlen, Nat.mod_eq_of_lt hid] at h1
    simp only [Nat.zero_add] at h1
    unfold MODBUS_MasterTask_ElaborateRx
    simp only [hacc, hsel, hlast, hok1, if_true, Nat.mod_eq_of_lt hlen, h1]
  · intro e remoteRxError he hne hcb
    have hcb1 : (ReadSlaveFrame handle sFrame0).2.1.remoteRxErrorCallback =
        some remoteRxError := by
      rw [hh]; exact hcb
    unfold MODBUS_MasterTask_ElaborateRx
    simp only [he, if_neg hne, hcb1]

/-- Instance of claim C25: the reply `11 03 06 AE 41 56 52 00 4B 39 5A` to the command of
scenario S1, received by a master whose callback keeps the values it gets, gives three calls of
the holdings callback, which leave the application with `AE41`, `5652`, `004B` for the
addresses `6B`, `6C`, `6D`, and the remote-complete event; the same reply with its last byte
changed gives the remote-error event only. -/
theorem C25_elaborate_step_witness :
    CommandOK record_replied_handle.lastCmd ∧
    (ReadSlaveFrame record_replied_handle zeroSlave).1 = Exception_NoException ∧
    (MODBUS_MasterTask_ElaborateRx record_replied_handle recordWorld zeroSlave).map
        (fun r => (r.1.task, r.2.app, r.2.trace)) =
      some (ExecuteTask.MasterTask_WaitAndSendCommand,
        [(0x6B, 0xAE41), (0x6C, 0x5652), (0x6D, 0x004B)],
        [Event.remoteData RegKind.holdings 0x11 0x6B 0xAE41,
          Event.remoteData RegKind.holdings 0x11 0x6C 0x5652,
          Event.remoteData RegKind.holdings 0x11 0x6D 0x004B, Event.remoteRxOK]) ∧
    (ReadSlaveFrame garbled_handle zeroSlave).1 = Exception_InvalidFrame ∧
    (MODBUS_MasterTask_ElaborateRx garbled_handle world0 zeroSlave).map
        (fun r => (r.1.task, r.2.trace)) =
      some (ExecuteTask.MasterTask_WaitAndSendCommand,
        [Event.remoteRxError Exception_InvalidFrame]) := by
  have hc : CommandOK record_replied_handle.lastCmd := by decide
  have hg : CommandOK garbled_handle.lastCmd := by decide
  have hacc : (ReadSlaveFrame record_replied_handle zeroSlave).1 = Exception_NoException := by
    decide
  have herr : (ReadSlaveFrame garbled_handle zeroSlave).1 = Exception_InvalidFrame := by decide
  have h1 := (C25_elaborate_step record_replied_handle recordWorld zeroSlave hc).2.1
    RegKind.holdings recordRemote id hacc (by decide) rfl rfl
  have h3 := (C25_elaborate_step garbled_handle world0 zeroSlave hg).2.2
    Exception_InvalidFrame (fun _ app => app) herr (by decide) rfl
  refine ⟨hc, hacc, ?_, herr, ?_⟩
  · rw [h1]; decide
  · rw [h3]; rfl

/-- The loop of `ReadValues` when the first `n` reads succeed: it runs to its end and the
response is the one its append function built from the values read, in order. -/
theorem ReadValues_loop_appended {σ : Type} (handle : sMODBUS σ) (k : RegKind)
    (mFrame : sMaster_Frame) (excFrame : sSlave_Frame) :
    ∀ (n u16Add reps : Nat) (sFrame : sSlave_Frame) (w : World σ), reps + n ≤ 65535 →
      (∀ r ∈ (readRun (handle.reg k).reading n u16Add w.app).1,
        r.error = Exception_NoException) →
      ReadValues_loop handle (some k) mFrame excFrame n u16Add reps sFrame w =
        LoopExit.finished
          (appendValues (handle.reg k).appendData reps
            ((readRun (handle.reg k).reading n u16Add w.app).1.map (fun r => r.data % 65536))
            sFrame)
          { app := (readRun (handle.reg k).reading n u16Add w.app).2
            trace := w.trace ++ (List.range n).map (fun i => Event.localRead k (u16Add + i)) } := by
  intro n
  induction n with
  | zero =>
    intro u16Add reps sFrame w _ _
    simp [ReadValues_loop, readRun, appendValues]
  | succ n ih =>
    intro u16Add reps sFrame w hb hsucc
    have h0 : ((handle.reg k).reading u16Add w.app).1.error = Exception_NoException :=
      hsucc _ (by simp [readRun])
    have hrest : ∀ r ∈ (readRun (handle.reg k).reading n (u16Add + 1)
        ((handle.reg k).reading u16Add w.app).2).1, r.error = Exception_NoException :=
      fun r hr => hsucc r (by simp [readRun, hr])
    have e1 : (reps + 1) % 65536 = reps + 1 := Nat.mod_eq_of_lt (by omega)
    rw [ReadValues_loop]
    simp only [h0, ne_eq, not_true_eq_false, if_false]
    rw [ih (u16Add + 1) ((reps + 1) % 65536) _
      (w.call (Event.localRead k u16Add) ((handle.reg k).reading u16Add w.app).2)
      (by omega) hrest, e1,
      range_succ_map_add (fun i => Event.localRead k i) n u16Add]
    simp only [World.call, readRun, List.map_cons, appendValues, List.append_assoc,
      List.singleton_append]

/-- The length field and the buffer of a response after `FrameSlave_AppendRegister` appended
the values `vs`. -/
theorem appendValues_register_length : ∀ (vs : List Nat) (i : Nat) (sFrame : sSlave_Frame),
    sFrame.u16Length + 2 * vs.length < 65536 →
    (appendValues FrameSlave_AppendRegister i vs sFrame).u16Length =
      sFrame.u16Length + 2 * vs.length ∧
    (appendValues FrameSlave_AppendRegister i vs sFrame).raw.length = sFrame.raw.length := by
  intro vs
  induction vs with
  | nil => intro i sFrame _; exact ⟨rfl, rfl⟩
  | cons v vs ih =>
    intro i sFrame hb
    simp only [List.length_cons] at hb
    have h1 : (FrameSlave_AppendRegister sFrame { u16_0 := v, u16_1 := i }).u16Length =
        sFrame.u16Length + 2 := by
      show (sFrame.u16Length + 2) % 65536 = _
      exact Nat.mod_eq_of_lt (by omega)
    have h2 : (FrameSlave_AppendRegister sFrame { u16_0 := v, u16_1 := i }).raw.length =
        sFrame.raw.length := by
      unfold FrameSlave_AppendRegister
      simp only [List.length_set]
    obtain ⟨g1, g2⟩ := ih (i + 1) (FrameSlave_AppendRegister sFrame { u16_0 := v, u16_1 := i })
      (by rw [h1]; omega)
    rw [appendValues, g1, g2, h1, h2, List.length_cons]
    exact ⟨by omega, rfl⟩

theorem overrun_reads (n : Nat) (hn : n ≤ 129) :
    ∀ r ∈ (readRun (overrun_handle.reg RegKind.holdings).reading n 0 world0.app).1,
      r.error = Exception_NoException := by
  have key : ∀ (m a : Nat) (app : Unit), a + m ≤ 129 →
      ∀ r ∈ (readRun overrun_read m a app).1, r.error = Exception_NoException := by
    intro m
    induction m with
    | zero => intro a app _ r hr; simp [readRun] at hr
    | succ m ih =>
      intro a app ha r hr
      simp only [readRun, List.mem_cons] at hr
      rcases hr with rfl | hr
      · unfold overrun_read
        rw [if_pos (by omega)]
      · exact ih (a + 1) _ (by omega) r hr
  exact key n 0 world0.app (by omega)

theorem runOps_none_append {σ : Type} (a rest : List MasterOp) (op : MasterOp)
    (s : sMODBUS σ × World σ) (h : (runOps (a ++ [op]) s).isNone = true) :
    runOps (a ++ op :: rest) s = none := by
  have e : a ++ op :: rest = (a ++ [op]) ++ rest := by simp
  rw [e, runOps_append, Option.isNone_iff_eq_none.mp h]
  rfl

/-- The frames transmitted on the timeout route by the master with `write_command` and
`second_command` queued. -/
theorem timeout_route_write_frames :
    (runOps timeout_route
        (MODBUS_QueueCommand (MODBUS_QueueCommand master_handle write_command) second_command,
          world0)).map (fun s => txFrames s.2.trace) =
      some [[0x11, 0x06, 0x00, 0x01, 0x00, 0x03, 0x9A, 0x9B],
        [0x11, 0x03, 0x00, 0x10, 0x00, 0x02, 0xC7, 0x5E]] := by
  have h1 : runOps [MasterOp.executeTask zeroMaster zeroSlave]
      (MODBUS_QueueCommand (MODBUS_QueueCommand master_handle write_command) second_command,
        world0) =
      some (MODBUS_MasterTask_WaitAndSendCommand
        (MODBUS_QueueCommand (MODBUS_QueueCommand master_handle write_command) second_command)
        world0 zeroMaster) := by
    rw [runOps]
    simp only [MasterOp.apply]
    rw [ExecuteTask_WaitAndSendCommand _ _ _ _ (by decide)]
    rfl
  unfold timeout_route
  rw [runOps_append, runOps_append, h1]
  simp only [Option.bind]
  rw [runOps_ticks]
  simp only [Option.bind]
  rw [MasterTickRxTimer_iterate _ (by decide) (by decide)]
  decide

/-- Claim C26, at the input where the code leaves it. A master engine in Idle with an empty
queue gets `MODBUS_QueueCommand(write_command)` and `MODBUS_QueueCommand(second_command)`; the
queue holds the two commands in this order. The task sends `11 06 00 01 00 03 9A 9B`, the
slave acknowledges with the same eight bytes, the end of the frame is notified and the task
runs in the state Await: the engine is in the state Elaborate, one frame was transmitted and
`second_command` waits in the queue. The next task execution is the Elaborate step on a
response with function code 6, which has no defined result (claim C34), so that no sequence of
calls that goes on from there has a result: the engine does not come back to Idle through the
response and the frame of `second_command` is not transmitted. On the timeout route the same
two commands are transmitted in the order of the queue. -/
theorem C26_acknowledged_write_stops_queue :
    master_handle.task = ExecuteTask.MasterTask_WaitAndSendCommand ∧
    master_handle.commands = [] ∧ CommandOK write_command ∧ CommandOK second_command ∧
    (∀ op ∈ acknowledged_route ++ [MasterOp.executeTask zeroMaster zeroSlave], op.OK) ∧
    (MODBUS_QueueCommand (MODBUS_QueueCommand master_handle write_command)
      second_command).commands = [write_command, second_command] ∧
    [commandFrame write_command, commandFrame second_command] =
      [[0x11, 0x06, 0x00, 0x01, 0x00, 0x03, 0x9A, 0x9B],
        [0x11, 0x03, 0x00, 0x10, 0x00, 0x02, 0xC7, 0x5E]] ∧
    (runOps acknowledged_route
        (MODBUS_QueueCommand (MODBUS_QueueCommand master_handle write_command) second_command,
          world0)).map
        (fun s => (s.1.task, s.1.commands, RingContent s.1.pxRxBuff, txFrames s.2.trace)) =
      some (ExecuteTask.MasterTask_ElaborateRx, [second_command],
        [0x11, 0x06, 0x00, 0x01, 0x00, 0x03, 0x9A, 0x9B],
        [[0x11, 0x06, 0x00, 0x01, 0x00, 0x03, 0x9A, 0x9B]]) ∧
    (∀ rest : List MasterOp,
      runOps (acknowledged_route ++ MasterOp.executeTask zeroMaster zeroSlave :: rest)
        (MODBUS_QueueCommand (MODBUS_QueueCommand master_handle write_command) second_command,
          world0) = none) ∧
    (runOps timeout_route
        (MODBUS_QueueCommand (MODBUS_QueueCommand master_handle write_command) second_command,
          world0)).map (fun s => txFrames s.2.trace) =
      some [[0x11, 0x06, 0x00, 0x01, 0x00, 0x03, 0x9A, 0x9B],
        [0x11, 0x03, 0x00, 0x10, 0x00, 0x02, 0xC7, 0x5E]] :=
  ⟨by decide, by decide, by decide, by decide, by decide, by decide, by decide, by decide,
    fun rest => runOps_none_append acknowledged_route rest _ _ (by decide),
    timeout_route_write_frames⟩

/-! ## The write handler of the holdings strategy -/

theorem withHoldingsWriting_reading {σ : Type} (handle : sMODBUS σ)
    (f : Nat → Nat → σ → eMODBUS_Excpt × σ) (k : RegKind) :
    ((withHoldingsWriting handle f).reg k).reading = (handle.reg k).reading ∧
    ((withHoldingsWriting handle f).reg k).appendData = (handle.reg k).appendData := by
  cases k <;> exact ⟨rfl, rfl⟩

/-- The decoder does not look at the register strategies. -/
theorem ReadMasterFrame_withHoldingsWriting {σ : Type} (handle : sMODBUS σ)
    (f : Nat → Nat → σ → eMODBUS_Excpt × σ) (mFrame0 : sMaster_Frame) :
    ReadMasterFrame (withHoldingsWriting handle f) mFrame0 =
      ((ReadMasterFrame handle mFrame0).1,
        withHoldingsWriting (ReadMasterFrame handle mFrame0).2.1 f,
        (ReadMasterFrame handle mFrame0).2.2) := by
  unfold ReadMasterFrame withHoldingsWriting
  simp only []
  split
  · rfl
  · split
    · rfl
    · split <;> rfl

theorem ReadValues_loop_withHoldingsWriting {σ : Type} (handle : sMODBUS σ)
    (f : Nat → Nat → σ → eMODBUS_Excpt × σ) (sel : Option RegKind) (mFrame : sMaster_Frame)
    (excFrame : sSlave_Frame) :
    ∀ (n u16Add reps : Nat) (sFrame : sSlave_Frame) (w : World σ),
      ReadValues_loop (withHoldingsWriting handle f) sel mFrame excFrame n u16Add reps sFrame w =
        ReadValues_loop handle sel mFrame excFrame n u16Add reps sFrame w := by
  intro n
  induction n with
  | zero =>
    intro u16Add reps sFrame w
    rw [ReadValues_loop, ReadValues_loop]
  | succ n ih =>
    intro u16Add reps sFrame w
    cases sel with
    | none => rw [ReadValues_loop, ReadValues_loop]
    | some k =>
      rw [ReadValues_loop, ReadValues_loop]
      simp only [(withHoldingsWriting_reading handle f k).1,
        (withHoldingsWriting_reading handle f k).2, ih]

theorem ReadValues_withHoldingsWriting {σ : Type} (handle : sMODBUS σ)
    (f : Nat → Nat → σ → eMODBUS_Excpt × σ) (mFrame : sMaster_Frame) (sFrame0 : sSlave_Frame)
    (w : World σ) :
    ReadValues (withHoldingsWriting handle f) mFrame sFrame0 w =
      ReadValues handle mFrame sFrame0 w := by
  unfold ReadValues
  simp only [ReadValues_loop_withHoldingsWriting]

theorem WriteSingle_withHoldingsWriting {σ : Type} (handle : sMODBUS σ)
    (f : Nat → Nat → σ → eMODBUS_Excpt × σ) (mFrame : sMaster_Frame) (sFrame0 : sSlave_Frame)
    (w : World σ) :
    WriteSingle (withHoldingsWriting handle f) mFrame sFrame0 w =
      WriteSingle handle mFrame sFrame0 w := by
  unfold WriteSingle
  simp only []
  split
  · split
    · rfl
    · split <;> rfl
  · rfl
  · rfl

theorem WriteMultipleCoils_loop_withHoldingsWriting {σ : Type} (handle : sMODBUS σ)
    (f : Nat → Nat → σ → eMODBUS_Excpt × σ) (mFrame : sMaster_Frame) :
    ∀ (n u16Add reps readIndex : Nat) (w : World σ),
      WriteMultipleCoils_loop (withHoldingsWriting handle f) mFrame n u16Add reps readIndex w =
        WriteMultipleCoils_loop handle mFrame n u16Add reps readIndex w := by
  intro n
  induction n with
  | zero => intro _ _ _ w; rw [WriteMultipleCoils_loop, WriteMultipleCoils_loop]
  | succ n ih =>
    intro u16Add reps readIndex w
    rw [WriteMultipleCoils_loop, WriteMultipleCoils_loop]
    simp only [ih]
    rfl

theorem WriteMultipleRegisters_loop_withHoldingsWriting {σ : Type} (handle : sMODBUS σ)
    (f : Nat → Nat → σ → eMODBUS_Excpt × σ) (mFrame : sMaster_Frame)
    (excFrame : sSlave_Frame) :
    ∀ (n u16Add readIndex : Nat) (w : World σ),
      WriteMultipleRegisters_loop (withHoldingsWriting handle f) mFrame excFrame n u16Add
          readIndex w =
        WriteMultipleRegisters_loop handle mFrame excFrame n u16Add readIndex w := by
  intro n
  induction n with
  | zero => intro _ _ w; rw [WriteMultipleRegisters_loop, WriteMultipleRegisters_loop]
  | succ n ih =>
    intro u16Add readIndex w
    rw [WriteMultipleRegisters_loop, WriteMultipleRegisters_loop]
    simp only [ih]
    rfl

/-- The handlers of the requests do not call the write handler of the holdings strategy: their
result is the same whatever this handler is. -/
theorem dispatch_withHoldingsWriting {σ : Type} (handle : sMODBUS σ)
    (f : Nat → Nat → σ → eMODBUS_Excpt × σ) (mFrame : sMaster_Frame) (sFrame0 : sSlave_Frame)
    (w : World σ) :
    MODBUS_SlaveTask_dispatch (withHoldingsWriting handle f) mFrame sFrame0 w =
      MODBUS_SlaveTask_dispatch handle mFrame sFrame0 w := by
  unfold MODBUS_SlaveTask_dispatch WriteMultipleCoils WriteMultipleRegisters
  simp only [ReadValues_withHoldingsWriting, WriteSingle_withHoldingsWriting,
    WriteMultipleCoils_loop_withHoldingsWriting,
    WriteMultipleRegisters_loop_withHoldingsWriting]
  rfl

/-- One run of the slave task does not call the write handler of the holdings strategy: the
world it leaves is the same whatever this handler is. -/
theorem SlaveTask_withHoldingsWriting {σ : Type} (handle : sMODBUS σ)
    (f : Nat → Nat → σ → eMODBUS_Excpt × σ) (w : World σ) (mFrame0 : sMaster_Frame)
    (sFrame0 : sSlave_Frame) :
    MODBUS_SlaveTask (withHoldingsWriting handle f) w mFrame0 sFrame0 =
      (MODBUS_SlaveTask handle w mFrame0 sFrame0).map
        (fun r => (withHoldingsWriting r.1 f, r.2)) := by
  have hR := ReadMasterFrame_withHoldingsWriting { handle with u8RxComplete := 0 } f mFrame0
  have e0 : ({ withHoldingsWriting handle f with u8RxComplete := 0 } : sMODBUS σ) =
      withHoldingsWriting { handle with u8RxComplete := 0 } f := rfl
  have e1 : (withHoldingsWriting handle f).u8RxComplete = handle.u8RxComplete := rfl
  unfold MODBUS_SlaveTask
  rw [e1]
  by_cases hflag : handle.u8RxComplete = 1
  · simp only [hflag, ne_eq, not_true_eq_false, if_false]
    rw [e0, hR]
    simp only [dispatch_withHoldingsWriting]
    generalize (if (ReadMasterFrame { handle with u8RxComplete := 0 } mFrame0).1 =
        Exception_NoException then
      MODBUS_SlaveTask_dispatch (ReadMasterFrame { handle with u8RxComplete := 0 } mFrame0).2.1
        (ReadMasterFrame { handle with u8RxComplete := 0 } mFrame0).2.2 sFrame0 w
      else
        some (setupExceptionFrame
          (ReadMasterFrame { handle with u8RxComplete := 0 } mFrame0).2.2
          (ReadMasterFrame { handle with u8RxComplete := 0 } mFrame0).1 sFrame0, w)) = reply
    cases reply with
    | none => rfl
    | some p =>
      obtain ⟨sFrame, w1⟩ := p
      simp only []
      split <;> rfl
  · simp only [ne_eq, hflag, not_false_eq_true, if_true]
    rfl

/-- One run of the slave task returns, whatever the FIFO holds. -/
theorem SlaveTask_total {σ : Type} (handle : sMODBUS σ) (w : World σ) (mFrame0 : sMaster_Frame)
    (sFrame0 : sSlave_Frame) :
    ∃ r : sMODBUS σ × World σ, MODBUS_SlaveTask handle w mFrame0 sFrame0 = some r := by
  unfold MODBUS_SlaveTask
  by_cases hflag : handle.u8RxComplete = 1
  · simp only [hflag, ne_eq, not_true_eq_false, if_false]
    by_cases hacc : (ReadMasterFrame { handle with u8RxComplete := 0 } mFrame0).1 =
        Exception_NoException
    · obtain ⟨s, w1, hd, _, _⟩ := dispatch_total
        (ReadMasterFrame { handle with u8RxComplete := 0 } mFrame0).2.1
        (ReadMasterFrame { handle with u8RxComplete := 0 } mFrame0).2.2 sFrame0 w
        (ReadMasterFrame_accepted_supported _ mFrame0 hacc)
      simp only [hacc, if_true, hd, reduceCtorEq, not_false_eq_true]
      exact ⟨_, rfl⟩
    · simp only [hacc, if_false]
      split <;> exact ⟨_, rfl⟩
  · simp only [ne_eq, hflag, not_false_eq_true, if_true]
    exact ⟨_, rfl⟩

/-! ## Register writes -/

/-- The pairs that `writeUntilError` reports are the first pairs of the list. -/
theorem writeUntilError_prefix {σ : Type} (writing : Nat → Nat → σ → eMODBUS_Excpt × σ) :
    ∀ (l : List (Nat × Nat)) (app : σ), (writeUntilError writing l app).1 <+: l := by
  intro l
  induction l with
  | nil => intro app; exact List.prefix_refl _
  | cons c rest ih =>
    intro app
    rw [writeUntilError]
    split
    · exact ⟨rest, rfl⟩
    · exact List.prefix_cons_inj c |>.mpr (ih _)

/-- When no call failed, `writeUntilError` reports every pair of the list. -/
theorem writeUntilError_all {σ : Type} (writing : Nat → Nat → σ → eMODBUS_Excpt × σ) :
    ∀ (l : List (Nat × Nat)) (app : σ),
      (writeUntilError writing l app).2.1 = Exception_NoException →
      (writeUntilError writing l app).1 = l := by
  intro l
  induction l with
  | nil => intro app _; rfl
  | cons c rest ih =>
    intro app h
    rw [writeUntilError] at h ⊢
    split
    · rename_i herr
      rw [if_pos herr] at h
      exact absurd h herr
    · rename_i herr
      rw [if_neg herr] at h
      rw [ih _ h]

theorem range_succ_map {α : Type} (g : Nat → α) (n : Nat) :
    (List.range (n + 1)).map g = g 0 :: (List.range n).map (fun i => g (i + 1)) := by
  rw [List.range_succ_eq_map, List.map_cons, List.map_map]
  rfl

/-- The loop of `WriteMultipleRegisters`: the words of the frame are written in ascending
order through the write handler of the inputs strategy, up to and including the first call
that returns an error; the loop is left with the exception frame of that error, or runs to its
end. -/
theorem WriteMultipleRegisters_loop_world {σ : Type} (handle : sMODBUS σ)
    (mFrame : sMaster_Frame) (excFrame : sSlave_Frame) :
    ∀ (n u16Add readIndex : Nat) (w : World σ), readIndex + 2 * n ≤ 65535 →
      WriteMultipleRegisters_loop handle mFrame excFrame n u16Add readIndex w =
        (if (writeUntilError handle.inputs.writing
              ((List.range n).map (fun i => (u16Add + i,
                mFrame.raw.getD (readIndex + 2 * i + 1) 0 % 256 +
                  256 * (mFrame.raw.getD (readIndex + 2 * i) 0 % 256)))) w.app).2.1 =
            Exception_NoException then none
          else some (setupExceptionFrame mFrame
            (writeUntilError handle.inputs.writing
              ((List.range n).map (fun i => (u16Add + i,
                mFrame.raw.getD (readIndex + 2 * i + 1) 0 % 256 +
                  256 * (mFrame.raw.getD (readIndex + 2 * i) 0 % 256)))) w.app).2.1 excFrame),
          { app := (writeUntilError handle.inputs.writing
              ((List.range n).map (fun i => (u16Add + i,
                mFrame.raw.getD (readIndex + 2 * i + 1) 0 % 256 +
                  256 * (mFrame.raw.getD (readIndex + 2 * i) 0 % 256)))) w.app).2.2
            trace := w.trace ++ (writeUntilError handle.inputs.writing
              ((List.range n).map (fun i => (u16Add + i,
                mFrame.raw.getD (readIndex + 2 * i + 1) 0 % 256 +
                  256 * (mFrame.raw.getD (readIndex + 2 * i) 0 % 256)))) w.app).1.map
              (fun c => Event.localWrite RegKind.inputs c.1 c.2) }) := by
  intro n
  induction n with
  | zero =>
    intro u16Add readIndex w _
    simp [WriteMultipleRegisters_loop, writeUntilError]
  | succ n ih =>
    intro u16Add readIndex w hb
    have hidx : (readIndex + 2) % 65536 = readIndex + 2 := Nat.mod_eq_of_lt (by omega)
    have hl : (List.range (n + 1)).map (fun i => (u16Add + i,
          mFrame.raw.getD (readIndex + 2 * i + 1) 0 % 256 +
            256 * (mFrame.raw.getD (readIndex + 2 * i) 0 % 256))) =
        (u16Add, mFrame.raw.getD (readIndex + 1) 0 % 256 +
            256 * (mFrame.raw.getD (readIndex + 0) 0 % 256)) ::
          (List.range n).map (fun i => (u16Add + 1 + i,
            mFrame.raw.getD (readIndex + 2 + 2 * i + 1) 0 % 256 +
              256 * (mFrame.raw.getD (readIndex + 2 + 2 * i) 0 % 256))) := by
      rw [range_succ_map]
      simp only [Nat.mul_zero, Nat.add_zero, List.cons.injEq, true_and]
      apply List.map_congr_left
      intro i _
      rw [show u16Add + (i + 1) = u16Add + 1 + i by omega,
        show readIndex + 2 * (i + 1) = readIndex + 2 + 2 * i by omega]
    rw [hl, WriteMultipleRegisters_loop, writeUntilError]
    simp only []
    by_cases herr : (handle.inputs.writing u16Add
        (mFrame.raw.getD (readIndex + 1) 0 % 256 +
          256 * (mFrame.raw.getD (readIndex + 0) 0 % 256)) w.app).1 ≠ Exception_NoException
    · rw [if_pos herr, if_pos herr]
      simp only [if_neg herr, List.map_cons, List.map_nil]
      rfl
    · rw [if_neg herr, if_neg herr, hidx, ih (u16Add + 1) (readIndex + 2) _ (by omega)]
      simp only [World.call, List.map_cons, List.append_assoc, List.singleton_append]

/-- One run of the slave task on a valid Write Single Register request. -/
theorem SlaveTask_write_single_world {σ : Type} (handle : sMODBUS σ) (w : World σ)
    (mFrame0 : sMaster_Frame) (sFrame0 : sSlave_Frame) (a V : Nat)
    (hok : RingOK handle.pxRxBuff) (hm : mFrame0.raw.length = MODBUS_FRAME_MAX_SIZE)
    (hs : sFrame0.raw.length = MODBUS_FRAME_MAX_SIZE)
    (hflag : handle.u8RxComplete = 1) (ha : a < 65536) (hV : V < 65536)
    (hB : RingContent handle.pxRxBuff = commandFrame
      { functionCode := 6, slaveID := handle.u8myAddress, regAddress := a, length := V }) :
    ∃ handle1 : sMODBUS σ,
      MODBUS_SlaveTask handle w mFrame0 sFrame0 =
        some (handle1, writeReplied handle
          (w.call (Event.localWrite RegKind.inputs a V) (handle.inputs.writing a V w.app).2)
          (writeReply
            { functionCode := 6, slaveID := handle.u8myAddress, regAddress := a, length := V }
            (handle.inputs.writing a V w.app).1)) := by
  obtain ⟨h1, _, _, _, _, _, g4, htx, hcb, hread⟩ :=
    ReadMasterFrame_command { handle with u8RxComplete := 0 } mFrame0
      ⟨6, handle.u8myAddress, a, V⟩ hok hB hm rfl (by simp)
  have hreg : h1.reg RegKind.inputs = handle.inputs := g4
  have htx : h1.hwDataTx = handle.hwDataTx := htx
  have hcb : h1.writeCmpltCallback = handle.writeCmpltCallback := hcb
  have hs5 : 5 ≤ sFrame0.raw.length := by
    have h3 : sFrame0.raw.length = 260 := hs
    omega
  have hws := WriteSingle_six h1 ⟨6, handle.u8myAddress, a, V⟩ (mFrame0.raw.drop 8) sFrame0 w
    rfl ha hV
  have hdisp := dispatch_single h1
    ⟨8, commandFrame ⟨6, handle.u8myAddress, a, V⟩ ++ mFrame0.raw.drop 8⟩ sFrame0 w
    (Or.inr rfl)
  simp only [] at hws
  rw [hws] at hdisp
  refine ⟨h1, ?_⟩
  rw [SlaveTask_write_replied handle h1 w _ mFrame0 _ sFrame0 _ hflag hread htx hcb hdisp,
    WriteSingle_write_reply h1 ⟨6, handle.u8myAddress, a, V⟩ _ sFrame0 w RegKind.inputs a V
      hs5 (by show (6 : Nat) < 256; omega),
    WriteSingle_write_world, hreg]

/-- One run of the slave task on a valid Write Multiple Registers request whose range does not
pass the last address. -/
theorem SlaveTask_write_multiple_world {σ : Type} (handle : sMODBUS σ) (w : World σ)
    (mFrame0 : sMaster_Frame) (sFrame0 : sSlave_Frame) (a N : Nat) (payload : List Nat)
    (hok : RingOK handle.pxRxBuff) (hm : mFrame0.raw.length = MODBUS_FRAME_MAX_SIZE)
    (hs : sFrame0.raw.length = MODBUS_FRAME_MAX_SIZE)
    (hflag : handle.u8RxComplete = 1) (haN : a + N ≤ 0xFFFF)
    (hp : payload.length = 2 * N)
    (hB : RingContent handle.pxRxBuff = multiWriteFrame
      { functionCode := 16, slaveID := handle.u8myAddress, regAddress := a, length := N }
      payload) :
    ∃ handle1 : sMODBUS σ,
      MODBUS_SlaveTask handle w mFrame0 sFrame0 =
        some (handle1, writeReplied handle
          { app := (writeUntilError handle.inputs.writing
              ((List.range N).map (fun i => (a + i,
                (RingContent handle.pxRxBuff).getD (8 + 2 * i) 0 % 256 +
                  256 * ((RingContent handle.pxRxBuff).getD (7 + 2 * i) 0 % 256))))
              w.app).2.2
            trace := w.trace ++ (writeUntilError handle.inputs.writing
              ((List.range N).map (fun i => (a + i,
                (RingContent handle.pxRxBuff).getD (8 + 2 * i) 0 % 256 +
                  256 * ((RingContent handle.pxRxBuff).getD (7 + 2 * i) 0 % 256))))
              w.app).1.map (fun c => Event.localWrite RegKind.inputs c.1 c.2) }
          (writeReply
            { functionCode := 16, slaveID := handle.u8myAddress, regAddress := a, length := N }
            (writeUntilError handle.inputs.writing
              ((List.range N).map (fun i => (a + i,
                (RingContent handle.pxRxBuff).getD (8 + 2 * i) 0 % 256 +
                  256 * ((RingContent handle.pxRxBuff).getD (7 + 2 * i) 0 % 256))))
              w.app).2.1)) := by
  obtain ⟨h1, _, _, _, _, _, hin, htx, hcb, hread⟩ :=
    ReadMasterFrame_multi { handle with u8RxComplete := 0 } mFrame0
      ⟨16, handle.u8myAddress, a, N⟩ payload hok hB hm rfl (Or.inr rfl)
  have hin : h1.inputs = handle.inputs := hin
  have htx : h1.hwDataTx = handle.hwDataTx := htx
  have hcb : h1.writeCmpltCallback = handle.writeCmpltCallback := hcb
  have hs5 : 5 ≤ sFrame0.raw.length := by
    have h3 : sFrame0.raw.length = 260 := hs
    omega
  obtain ⟨f3, f4, f5, f6, f1, f0⟩ := multi_fields ⟨16, handle.u8myAddress, a, N⟩ payload
    (mFrame0.raw.drop (9 + payload.length)) (9 + payload.length)
  have hdisp := dispatch_registers h1
    ⟨9 + payload.length, multiWriteFrame ⟨16, handle.u8myAddress, a, N⟩ payload ++
      mFrame0.raw.drop (9 + payload.length)⟩ sFrame0 w f1
  have hlen : ((N >>> 8) <<< 8 + (N &&& 0xFF)) % 65536 = N := by
    rw [hi_lo_add]; omega
  have haddr : ((a >>> 8) <<< 8 + (a &&& 0xFF)) % 65536 = a := by
    rw [hi_lo_add]; omega
  have hcount : (a + N) % 65536 - a = N := by omega
  have hB255 : 9 + payload.length ≤ 255 := by
    have e : (multiWriteFrame ⟨16, handle.u8myAddress, a, N⟩ payload).length =
        handle.pxRxBuff.u8available := by
      rw [← hB]; simp [RingContent]
    rw [multiWriteFrame_length] at e
    have h1 := hok.2.1
    have h2 := hok.2.2.2.2
    omega
  have hwords : (List.range N).map (fun i => (a + i,
        (multiWriteFrame ⟨16, handle.u8myAddress, a, N⟩ payload ++
            mFrame0.raw.drop (9 + payload.length)).getD (7 + 2 * i + 1) 0 % 256 +
          256 * ((multiWriteFrame ⟨16, handle.u8myAddress, a, N⟩ payload ++
            mFrame0.raw.drop (9 + payload.length)).getD (7 + 2 * i) 0 % 256))) =
      (List.range N).map (fun i => (a + i,
        (RingContent handle.pxRxBuff).getD (8 + 2 * i) 0 % 256 +
          256 * ((RingContent handle.pxRxBuff).getD (7 + 2 * i) 0 % 256))) := by
    apply List.map_congr_left
    intro i hi
    have hiN : i < N := List.mem_range.mp hi
    rw [hB, multiWriteFrame_getD _ _ _ _ (by omega), multiWriteFrame_getD _ _ _ _ (by omega),
      show 7 + 2 * i + 1 = 8 + 2 * i by omega]
  have hloop := WriteMultipleRegisters_loop_world h1
    ⟨9 + payload.length, multiWriteFrame ⟨16, handle.u8myAddress, a, N⟩ payload ++
      mFrame0.raw.drop (9 + payload.length)⟩ sFrame0 N a 7 w (by omega)
  simp only [] at hloop
  rw [hwords, hin] at hloop
  obtain ⟨tl, hecho⟩ := multi_echo ⟨16, handle.u8myAddress, a, N⟩ payload
    (mFrame0.raw.drop (9 + payload.length)) sFrame0
  obtain ⟨r, hr⟩ : ∃ r, r = writeUntilError handle.inputs.writing
      ((List.range N).map (fun i => (a + i,
        (RingContent handle.pxRxBuff).getD (8 + 2 * i) 0 % 256 +
          256 * ((RingContent handle.pxRxBuff).getD (7 + 2 * i) 0 % 256)))) w.app := ⟨_, rfl⟩
  rw [← hr] at hloop ⊢
  have hfun : WriteMultipleRegisters h1
      ⟨9 + payload.length, multiWriteFrame ⟨16, handle.u8myAddress, a, N⟩ payload ++
        mFrame0.raw.drop (9 + payload.length)⟩ sFrame0 w =
      (if r.2.1 = Exception_NoException then
          { u16Length := 8, raw := commandFrame ⟨16, handle.u8myAddress, a, N⟩ ++ tl }
        else setupExceptionFrame
          ⟨9 + payload.length, multiWriteFrame ⟨16, handle.u8myAddress, a, N⟩ payload ++
            mFrame0.raw.drop (9 + payload.length)⟩ r.2.1 sFrame0,
        { app := r.2.2
          trace := w.trace ++ r.1.map (fun c => Event.localWrite RegKind.inputs c.1 c.2) }) := by
    unfold WriteMultipleRegisters
    simp only [f3, f4, f5, f6, hlen, haddr, hcount, hloop]
    by_cases hc : r.2.1 = Exception_NoException
    · simp only [hc, if_true]
      rw [hecho]
    · simp only [hc, if_false]
  rw [hfun] at hdisp
  have hdata : (if r.2.1 = Exception_NoException then
        ({ u16Length := 8, raw := commandFrame ⟨16, handle.u8myAddress, a, N⟩ ++ tl } :
          sSlave_Frame)
      else setupExceptionFrame
        ⟨9 + payload.length, multiWriteFrame ⟨16, handle.u8myAddress, a, N⟩ payload ++
          mFrame0.raw.drop (9 + payload.length)⟩ r.2.1 sFrame0).raw.take
      ((if r.2.1 = Exception_NoException then
        ({ u16Length := 8, raw := commandFrame ⟨16, handle.u8myAddress, a, N⟩ ++ tl } :
          sSlave_Frame)
      else setupExceptionFrame
        ⟨9 + payload.length, multiWriteFrame ⟨16, handle.u8myAddress, a, N⟩ payload ++
          mFrame0.raw.drop (9 + payload.length)⟩ r.2.1 sFrame0).u16Length % 256) =
      writeReply ⟨16, handle.u8myAddress, a, N⟩ r.2.1 := by
    unfold writeReply
    by_cases hc : r.2.1 = Exception_NoException
    · simp only [hc, if_true]
      show (commandFrame _ ++ tl).take 8 = _
      rw [List.take_append_of_le_length (by rw [commandFrame_length]),
        List.take_of_length_le (by rw [commandFrame_length])]
    · simp only [hc, if_false]
      exact setupExceptionFrame_reply ⟨16, handle.u8myAddress, a, N⟩ _ _ r.2.1 sFrame0 hs5
        (by show (16 : Nat) < 256; omega) f0 f1
  refine ⟨h1, ?_⟩
  rw [SlaveTask_write_replied handle h1 w _ mFrame0 _ sFrame0 _ hflag hread htx hcb hdisp,
    hdata]

end MODBUS
